import Mathlib

/-!
# Polymarket-golang: order amounts, price bounds, request signing, client mode

A shallow embedding of the order-amount calculator
(`polymarket/order_builder/order_builder.go`), the price validator
(`polymarket/utilities.go`), the HMAC request signer
(`polymarket/signing_internal.go`), the order submission path
(`polymarket/client_orders.go`) and the client authentication mode
(`polymarket/client.go`).

The Go code computes on `float64`.  The functions below are written over an
arbitrary carrier `F` and a record `Arith F` holding the float64 primitives
the code uses together with the rounding helpers of the `order_builder`
package, whose source file is not part of the sources at hand.  `Float64`
is the carrier of the code, IEEE 754 binary64 with rounding to nearest, ties
to even; `float64ArithWith` instantiates the primitives with it.  `Dec` is an
exact decimal carrier; `decimalArith` instantiates the record with the
rounding engine as section 4.1 of the specification describes it, and is
used for concrete runs on inputs where both carriers agree.
-/

set_option maxRecDepth 20000

namespace Polymarket

deriving instance DecidableEq for Except

/-! ## Machine integers -/

/-- Go `int` is a 64 bit two's complement integer: arithmetic wraps. -/
def wrapInt (x : Int) : Int := (x + 2 ^ 63) % 2 ^ 64 - 2 ^ 63

/-! ## Data model -/

/-- Type `RoundConfig` of `types.go`: decimal places of price, size and amount. -/
structure RoundConfig where
  Price : Int
  Size : Int
  Amount : Int
deriving DecidableEq, Repr

/-- The float64 primitives used by the code (`*`, `/`, `-`, `>=`, `<=`,
the literal `1.0`, `strconv.ParseFloat` with its error discarded) and the
helpers `RoundNormal`, `RoundDown`, `RoundUp`, `DecimalPlaces`,
`ToTokenDecimals` of package `order_builder`. -/
structure Arith (F : Type) where
  mul : F → F → F
  div : F → F → F
  sub : F → F → F
  ge : F → F → Bool
  le : F → F → Bool
  one : F
  ParseFloat : String → F
  RoundNormal : F → Int → F
  RoundDown : F → Int → F
  RoundUp : F → Int → F
  DecimalPlaces : F → Int
  ToTokenDecimals : F → Int

/-- Constant `model.BUY` of go-order-utils. -/
def BUY : Int := 0

/-- Constant `model.SELL` of go-order-utils. -/
def SELL : Int := 1

/-- The values `GetOrderAmounts` and `GetMarketOrderAmounts` return beside
the error: the side, the maker amount and the taker amount. -/
structure Amounts where
  side : Int
  makerAmount : Int
  takerAmount : Int
deriving DecidableEq, Repr

/-- The error text of both amount calculators. -/
def sideError : String := "order_args.side must be \x27BUY\x27 or \x27SELL\x27"

/-! ## Order amount calculator (`order_builder.go`) -/

/-- Function `OrderBuilder.GetOrderAmounts` (limit orders), lines 45-81. -/
def GetOrderAmounts {F : Type} (A : Arith F) (side : String) (size price : F)
    (roundConfig : RoundConfig) : Except String Amounts :=
  let rawPrice := A.RoundNormal price roundConfig.Price
  if side = "BUY" then
    let rawTakerAmt := A.RoundDown size roundConfig.Size
    let rawMakerAmt := A.mul rawTakerAmt rawPrice
    let rawMakerAmt :=
      if A.DecimalPlaces rawMakerAmt > roundConfig.Amount then
        let rawMakerAmt := A.RoundUp rawMakerAmt (wrapInt (roundConfig.Amount + 4))
        if A.DecimalPlaces rawMakerAmt > roundConfig.Amount then
          A.RoundDown rawMakerAmt roundConfig.Amount
        else rawMakerAmt
      else rawMakerAmt
    .ok ⟨BUY, A.ToTokenDecimals rawMakerAmt, A.ToTokenDecimals rawTakerAmt⟩
  else if side = "SELL" then
    let rawMakerAmt := A.RoundDown size roundConfig.Size
    let rawTakerAmt := A.mul rawMakerAmt rawPrice
    let rawTakerAmt :=
      if A.DecimalPlaces rawTakerAmt > roundConfig.Amount then
        let rawTakerAmt := A.RoundUp rawTakerAmt (wrapInt (roundConfig.Amount + 4))
        if A.DecimalPlaces rawTakerAmt > roundConfig.Amount then
          A.RoundDown rawTakerAmt roundConfig.Amount
        else rawTakerAmt
      else rawTakerAmt
    .ok ⟨SELL, A.ToTokenDecimals rawMakerAmt, A.ToTokenDecimals rawTakerAmt⟩
  else
    .error sideError

/-- Function `OrderBuilder.GetMarketOrderAmounts` (market orders), lines 87-136. -/
def GetMarketOrderAmounts {F : Type} (A : Arith F) (side : String) (amount price : F)
    (roundConfig : RoundConfig) : Except String Amounts :=
  let rawPrice := A.RoundNormal price roundConfig.Price
  if side = "BUY" then
    let rawMakerAmt := A.RoundDown amount roundConfig.Size
    let rawTakerAmt := A.div rawMakerAmt rawPrice
    let rawTakerAmt :=
      if A.DecimalPlaces rawTakerAmt > roundConfig.Size then
        A.RoundDown rawTakerAmt roundConfig.Size
      else rawTakerAmt
    let rawMakerAmt := A.mul rawTakerAmt rawPrice
    let rawMakerAmt :=
      if A.DecimalPlaces rawMakerAmt > roundConfig.Amount then
        let rawMakerAmt := A.RoundUp rawMakerAmt (wrapInt (roundConfig.Amount + 4))
        if A.DecimalPlaces rawMakerAmt > roundConfig.Amount then
          A.RoundDown rawMakerAmt roundConfig.Amount
        else rawMakerAmt
      else rawMakerAmt
    .ok ⟨BUY, A.ToTokenDecimals rawMakerAmt, A.ToTokenDecimals rawTakerAmt⟩
  else if side = "SELL" then
    let rawMakerAmt := A.RoundDown amount roundConfig.Size
    let rawTakerAmt := A.mul rawMakerAmt rawPrice
    let rawTakerAmt :=
      if A.DecimalPlaces rawTakerAmt > roundConfig.Amount then
        A.RoundDown rawTakerAmt roundConfig.Amount
      else rawTakerAmt
    .ok ⟨SELL, A.ToTokenDecimals rawMakerAmt, A.ToTokenDecimals rawTakerAmt⟩
  else
    .error sideError

/-! ## Price validation (`utilities.go`) -/

/-- Function `PriceValid`, lines 149-153; `TickSize` is a string type. -/
def PriceValid {F : Type} (A : Arith F) (price : F) (tickSize : String) : Bool :=
  let tickSizeFloat := A.ParseFloat tickSize
  A.ge price tickSizeFloat && A.le price (A.sub A.one tickSizeFloat)

/-! ## Exact decimal arithmetic -/

/-- An exact fraction `num / den` with a positive denominator. -/
structure Dec where
  num : Int
  den : Nat
  den_pos : 0 < den

namespace Dec

/-- The rational number a `Dec` stands for. -/
def toRat (x : Dec) : ℚ := (x.num : ℚ) / (x.den : ℚ)

/-- The integer `n`. -/
def ofInt (n : Int) : Dec := ⟨n, 1, Nat.one_pos⟩

/-- The decimal `m * 10^(-e)`: `decimal 55 2` is 0.55. -/
def decimal (m : Int) (e : Nat) : Dec := ⟨m, 10 ^ e, Nat.pos_pow_of_pos e (by decide)⟩

/-- Exact product. -/
def mul (x y : Dec) : Dec := ⟨x.num * y.num, x.den * y.den, Nat.mul_pos x.den_pos y.den_pos⟩

/-- Exact quotient.  float64 division by zero yields an infinity or NaN,
which this carrier does not have: `x / 0` is `0` here. -/
def div (x y : Dec) : Dec :=
  if h : 0 < y.num then
    ⟨x.num * y.den, x.den * y.num.toNat,
      Nat.mul_pos x.den_pos (by omega)⟩
  else if h2 : y.num < 0 then
    ⟨-(x.num * y.den), x.den * (-y.num).toNat,
      Nat.mul_pos x.den_pos (by omega)⟩
  else ofInt 0

/-- Exact difference. -/
def sub (x y : Dec) : Dec :=
  ⟨x.num * y.den - y.num * x.den, x.den * y.den, Nat.mul_pos x.den_pos y.den_pos⟩

/-- Comparison `x <= y`. -/
def le (x y : Dec) : Bool := decide (x.num * y.den ≤ y.num * x.den)

/-- Comparison `x >= y`. -/
def ge (x y : Dec) : Bool := le y x

/-- The value `x * 10^p`, for a positive or negative number of places. -/
def shift (x : Dec) (p : Int) : Dec :=
  if 0 ≤ p then ⟨x.num * 10 ^ p.toNat, x.den, x.den_pos⟩
  else ⟨x.num, x.den * 10 ^ (-p).toNat,
    Nat.mul_pos x.den_pos (Nat.pos_pow_of_pos _ (by decide))⟩

/-- The integer `n` read at `p` decimal places: `n * 10^(-p)`. -/
def unshift (n : Int) (p : Int) : Dec :=
  if 0 ≤ p then decimal n p.toNat else ofInt (n * 10 ^ (-p).toNat)

/-- Greatest integer below or equal to `x`. -/
def floor (x : Dec) : Int := x.num / x.den

/-- Least integer above or equal to `x`. -/
def ceil (x : Dec) : Int := -((-x.num) / x.den)

/-- Modelled from the spec: `roundDown(value, places)` of the fixed-point
rounding engine (section 4.1), whose source file is missing: the largest
multiple of `10^(-places)` not above the value. -/
def RoundDown (x : Dec) (places : Int) : Dec := unshift (floor (shift x places)) places

/-- Modelled from the spec: `roundUp(value, places)` of the fixed-point
rounding engine (section 4.1), whose source file is missing: the least
multiple of `10^(-places)` not below the value. -/
def RoundUp (x : Dec) (places : Int) : Dec := unshift (ceil (shift x places)) places

/-- Modelled from the spec: `roundNormal(value, places)` (round-half-up) of
the fixed-point rounding engine (section 4.1), whose source file is
missing. -/
def RoundNormal (x : Dec) (places : Int) : Dec :=
  let s := shift x places
  unshift (floor ⟨2 * s.num + s.den, 2 * s.den, Nat.mul_pos (by decide) s.den_pos⟩) places

/-- Search for the least `n`, from `n` on, with `x * 10^n` an integer. -/
def placesFrom (x : Dec) : Nat → Nat → Option Nat
  | 0, _ => none
  | fuel + 1, n =>
    if (x.num * 10 ^ n) % (x.den : Int) = 0 then some n else placesFrom x fuel (n + 1)

/-- Modelled from the spec: `decimalPlaces(value)` of the fixed-point
rounding engine (section 4.1), whose source file is missing: the count of
fractional digits once trailing zeros are removed.  A value whose expansion
does not terminate has more places than any precision an `int` can name. -/
def DecimalPlaces (x : Dec) : Int :=
  match placesFrom x (x.den + 1) 0 with
  | some n => n
  | none => 2 ^ 63 - 1

/-- Modelled from the spec: the conversion to 6-decimal token units of
section 4.2 (`ToTokenDecimals`, whose source file is missing): the value
times `10^6`, truncated to an integer. -/
def ToTokenDecimals (x : Dec) : Int := Int.tdiv (x.num * 10 ^ 6) x.den

/-- Digits of a decimal numeral, most significant first. -/
def digitsValue (cs : List Char) : Option Nat :=
  cs.foldl (fun acc c => acc.bind fun v =>
    if c.isDigit then some (10 * v + (c.toNat - 48)) else none) (some 0)

/-- An unsigned decimal numeral `ddd` or `ddd.ddd`. -/
def parseUnsigned (cs : List Char) : Option Dec :=
  let ip := cs.takeWhile (fun c => c != '.')
  let rest := cs.dropWhile (fun c => c != '.')
  match rest with
  | [] => if ip.isEmpty then none else (digitsValue ip).map fun v => ofInt v
  | _ :: fp =>
    if ip.isEmpty && fp.isEmpty then none
    else
      match digitsValue ip, digitsValue fp with
      | some i, some f => some (decimal ((i * 10 ^ fp.length + f : Nat) : Int) fp.length)
      | _, _ => none

/-- The value `strconv.ParseFloat(s, 64)` returns when its error is discarded,
for plain decimal numerals with an optional sign; any other string reads as
`0`, the value Go returns beside a syntax error.  Exponents, hexadecimal
numerals, infinities and NaN are outside this carrier. -/
def ParseFloat (s : String) : Dec :=
  match s.toList with
  | '-' :: cs =>
    match parseUnsigned cs with
    | some v => ⟨-v.num, v.den, v.den_pos⟩
    | none => ofInt 0
  | '+' :: cs => (parseUnsigned cs).getD (ofInt 0)
  | cs => (parseUnsigned cs).getD (ofInt 0)

end Dec

/-- Exact decimal arithmetic with the rounding engine of section 4.1, over
a given reading of numerals. -/
def decimalArithWith (parse : String → Dec) : Arith Dec where
  mul := Dec.mul
  div := Dec.div
  sub := Dec.sub
  ge := Dec.ge
  le := Dec.le
  one := Dec.ofInt 1
  ParseFloat := parse
  RoundNormal := Dec.RoundNormal
  RoundDown := Dec.RoundDown
  RoundUp := Dec.RoundUp
  DecimalPlaces := Dec.DecimalPlaces
  ToTokenDecimals := Dec.ToTokenDecimals

/-- Exact decimal arithmetic with the rounding engine of section 4.1. -/
def decimalArith : Arith Dec := decimalArithWith Dec.ParseFloat

/-- A rounding config: price to 1 place, size to 2 places, amounts to 3
places. -/
def cfgTenth : RoundConfig := ⟨1, 2, 3⟩

/-- The rounding config of tick size "0.01" (section 8 of the
specification): price to 2 places, size to 2 places, amounts to 4 places. -/
def cfgCent : RoundConfig := ⟨2, 2, 4⟩

/-! ## Constants and external collaborators -/

/-- The package constants the code refers to whose declarations are in a
file that is not among the sources: the three authentication levels, the
auth error texts, the header names and the order types. -/
structure Consts where
  L0 : Int
  L1 : Int
  L2 : Int
  L1AuthUnavailable : String
  L2AuthUnavailable : String
  PolyAddress : String
  PolySignature : String
  PolyTimestamp : String
  PolyNonce : String
  PolyAPIKey : String
  PolyPassphrase : String
  OrderTypeGTC : String
  OrderTypeGTD : String

/-- Constant `PostOrder` of `endpoints.go`. -/
def PostOrderPath : String := "/order"

/-- Constant `PostOrders` of `endpoints.go`. -/
def PostOrdersPath : String := "/orders"

/-- How a run-time panic of the Go program (a nil pointer dereference) is
reported: as an error with this text. -/
def nilDereference : String := "panic: invalid memory address or nil pointer dereference"

/-- Go `strconv.Itoa`: the decimal rendering of an integer. -/
def Itoa (i : Int) : String := toString i

/-- Go `[]byte(s)`: the UTF-8 bytes of a string. -/
def utf8 (s : String) : List UInt8 := s.toUTF8.data.toList

/-- The standard-library primitives of the request signer:
`base64.URLEncoding.DecodeString`, `base64.URLEncoding.EncodeToString`,
HMAC-SHA256 (key first, then message) and `json.Marshal` followed by the
conversion of its bytes to a string. -/
structure Primitives (V : Type) where
  DecodeString : String → Except String (List UInt8)
  EncodeToString : List UInt8 → String
  hmacSha256 : List UInt8 → List UInt8 → List UInt8
  Marshal : V → Except String String

/-- What a `body interface{}` argument holds: the untyped nil, a pointer
to a string (pointers are non-nil references here), a string, or any other
value. -/
inductive Body (V : Type) where
  | nil : Body V
  | strPtr : String → Body V
  | str : String → Body V
  | other : V → Body V
deriving DecidableEq

/-! ## Request signing (`signing_internal.go`) -/

/-- Function `BuildHMACSignature`, lines 106-147. -/
def BuildHMACSignature {V : Type} (P : Primitives V) (secret : String) (timestamp : Int)
    (method requestPath : String) (body : Body V) : Except String String :=
  match P.DecodeString secret with
  | .error err => .error ("failed to decode secret: " ++ err)
  | .ok base64Secret =>
    let message := Itoa timestamp ++ method ++ requestPath
    let appended : Except String String :=
      match body with
      | .nil => .ok message
      | .strPtr bodyStr => .ok (message ++ bodyStr)
      | .str bodyStr => .ok (message ++ bodyStr)
      | .other v =>
        match P.Marshal v with
        | .error err => .error ("failed to marshal body for HMAC signing: " ++ err)
        | .ok bodyStr => .ok (message ++ bodyStr)
    match appended with
    | .error err => .error err
    | .ok message => .ok (P.EncodeToString (P.hmacSha256 base64Secret (utf8 message)))

/-- Type `ApiCreds` of `types.go`. -/
structure ApiCreds where
  APIKey : String
  APISecret : String
  APIPassphrase : String
deriving DecidableEq, Repr

/-- Type `RequestArgs` of `types.go`; `SerializedBody` is a `*string`. -/
structure RequestArgs (V : Type) where
  Method : String
  RequestPath : String
  Body : Body V
  SerializedBody : Option String

/-- What the code reads of a `Signer`, whose declaration is not among the
sources: its address. -/
structure Signer where
  address : String
deriving DecidableEq, Repr

/-- Function `CreateLevel2Headers`, lines 186-215, with the clock reading
`time.Now().Unix()` as the argument `now`; the header map is a list of
name and value pairs. -/
def CreateLevel2Headers {V : Type} (K : Consts) (P : Primitives V) (now : Int)
    (signer : Option Signer) (creds : Option ApiCreds) (requestArgs : RequestArgs V) :
    Except String (List (String × String)) :=
  let timestamp := now
  let bodyForSig : Body V :=
    match requestArgs.SerializedBody with
    | some s => .str s
    | none => requestArgs.Body
  match creds with
  | none => .error nilDereference
  | some creds =>
    match BuildHMACSignature P creds.APISecret timestamp requestArgs.Method
        requestArgs.RequestPath bodyForSig with
    | .error err => .error err
    | .ok hmacSig =>
      match signer with
      | none => .error nilDereference
      | some signer =>
        .ok [(K.PolyAddress, signer.address), (K.PolySignature, hmacSig),
          (K.PolyTimestamp, Itoa timestamp), (K.PolyAPIKey, creds.APIKey),
          (K.PolyPassphrase, creds.APIPassphrase)]

/-! ## The client (`client.go`) -/

/-- Type `OrderBuilder` of `order_builder.go`. -/
structure OrderBuilder where
  signer : Signer
  sigType : Int
  funder : String
deriving DecidableEq, Repr

/-- Function `NewOrderBuilder`, lines 28-42. -/
def NewOrderBuilder (signer : Option Signer) (sigType : Int) (funder : String) :
    Except String OrderBuilder :=
  match signer with
  | none => .error "signer is required"
  | some signer =>
    let funder := if funder = "" then signer.address else funder
    .ok ⟨signer, sigType, funder⟩

/-- Type `ClobClient`: the fields the embedded functions read or write. -/
structure ClobClient where
  host : String
  chainID : Int
  signer : Option Signer
  creds : Option ApiCreds
  mode : Int
  builder : Option OrderBuilder
deriving DecidableEq, Repr

/-- Go `strings.HasSuffix`. -/
def HasSuffix (s suffix : String) : Bool := suffix.data.isSuffixOf s.data

/-- The slice `s[:len(s)-1]` of a string whose last byte is a one-byte
character. -/
def dropLastByte (s : String) : String := ⟨s.data.dropLast⟩

/-- Function `ClobClient.getClientMode`, lines 97-106. -/
def getClientMode (K : Consts) (c : ClobClient) : Int :=
  if c.signer = none then K.L0
  else if c.creds = none then K.L1
  else K.L2

/-- Function `NewClobClient`, lines 46-95; `NewSigner` is the constructor of the
signer, whose source is not at hand. -/
def NewClobClient (K : Consts) (NewSigner : String → Int → Except String Signer)
    (host : String) (chainID : Int) (privateKey : String) (creds : Option ApiCreds)
    (signatureType : Option Int) (funder : String) : Except String ClobClient :=
  let host := if HasSuffix host "/" then dropLastByte host else host
  let client : ClobClient := ⟨host, chainID, none, creds, 0, none⟩
  if privateKey ≠ "" then
    match NewSigner privateKey chainID with
    | .error err => .error ("failed to create signer: " ++ err)
    | .ok signer =>
      let client : ClobClient :=
        ⟨client.host, client.chainID, some signer, client.creds, client.mode, client.builder⟩
      let sigType := match signatureType with
        | some s => s
        | none => 0
      let funderAddr := if funder ≠ "" then funder else signer.address
      match NewOrderBuilder (some signer) sigType funderAddr with
      | .error err => .error ("failed to create order builder: " ++ err)
      | .ok builder =>
        let client : ClobClient :=
          ⟨client.host, client.chainID, client.signer, client.creds, client.mode,
            some builder⟩
        .ok ⟨client.host, client.chainID, client.signer, client.creds,
          getClientMode K client, client.builder⟩
  else
    .ok ⟨client.host, client.chainID, client.signer, client.creds,
      getClientMode K client, client.builder⟩

/-- Function `ClobClient.SetAPICreds`, lines 143-147. -/
def SetAPICreds (K : Consts) (c : ClobClient) (creds : Option ApiCreds) : ClobClient :=
  let c : ClobClient := ⟨c.host, c.chainID, c.signer, creds, c.mode, c.builder⟩
  ⟨c.host, c.chainID, c.signer, c.creds, getClientMode K c, c.builder⟩

/-- Function `ClobClient.assertLevel2Auth`, lines 157-163. -/
def assertLevel2Auth (K : Consts) (c : ClobClient) : Except String Unit :=
  if c.mode < K.L2 then .error K.L2AuthUnavailable else .ok ()

/-! ## Order submission (`client_orders.go`) -/

/-- A request handed to `httpClient.Post`: path, headers and body. -/
structure HttpRequest where
  path : String
  headers : List (String × String)
  body : String
deriving DecidableEq, Repr

/-- The values marshalled by the submission path: one order object, or a
slice of them. -/
inductive Payload (O : Type) where
  | one : O → Payload O
  | many : List O → Payload O
deriving DecidableEq

/-- The collaborators of the submission path: the clock, the conversion
`OrderToJSONWithPostOnly` of a signed order (of type `S`) into an order
object (of type `O`), and the HTTP client, which answers a request with a
response (of type `R`) or an error. -/
structure Env (S O R : Type) where
  now : Int
  OrderToJSONWithPostOnly : S → String → String → Bool → O
  Post : HttpRequest → Except String R

/-- Type `PostOrdersArgs` of `types.go`. -/
structure PostOrdersArgs (S : Type) where
  Order : S
  OrderType : String
  PostOnly : Bool

/-- The error text of the post-only validation. -/
def postOnlyError : String := "post_only orders can only be of type GTC or GTD"

/-- Function `ClobClient.PostOrderWithOptions`, lines 19-56.  The result is the
payload and the response, or an error, together with the requests handed to
the HTTP client. -/
def PostOrderWithOptions {S O R : Type} (K : Consts) (P : Primitives (Payload O))
    (E : Env S O R) (c : ClobClient) (order : S) (orderType : String) (postOnly : Bool) :
    Except String (Payload O × R) × List HttpRequest :=
  if postOnly && orderType != K.OrderTypeGTC && orderType != K.OrderTypeGTD then
    (.error postOnlyError, [])
  else
    match assertLevel2Auth K c with
    | .error err => (.error err, [])
    | .ok _ =>
      match c.creds with
      | none => (.error nilDereference, [])
      | some creds =>
        let body : Payload O :=
          .one (E.OrderToJSONWithPostOnly order creds.APIKey orderType postOnly)
        match P.Marshal body with
        | .error err => (.error ("failed to marshal order: " ++ err), [])
        | .ok bodyStr =>
          let requestArgs : RequestArgs (Payload O) :=
            ⟨"POST", PostOrderPath, .other body, some bodyStr⟩
          match CreateLevel2Headers K P E.now c.signer c.creds requestArgs with
          | .error err => (.error err, [])
          | .ok headers =>
            match E.Post ⟨PostOrderPath, headers, bodyStr⟩ with
            | .error err => (.error err, [⟨PostOrderPath, headers, bodyStr⟩])
            | .ok resp => (.ok (body, resp), [⟨PostOrderPath, headers, bodyStr⟩])

/-- The order objects `PostOrders` builds in its second loop; reading
`c.creds.APIKey` on a client without credentials is a nil dereference, which
happens at the first element. -/
def postOrdersBody {S O R : Type} (E : Env S O R) (c : ClobClient)
    (args : List (PostOrdersArgs S)) : Except String (List O) :=
  match args, c.creds with
  | [], _ => .ok []
  | _ :: _, none => .error nilDereference
  | _ :: _, some creds =>
    .ok (args.map fun arg =>
      E.OrderToJSONWithPostOnly arg.Order creds.APIKey arg.OrderType arg.PostOnly)

/-- Function `ClobClient.PostOrders`, lines 61-105.  The result is the payload and
the response, or an error, together with the requests handed to the HTTP
client. -/
def PostOrders {S O R : Type} (K : Consts) (P : Primitives (Payload O))
    (E : Env S O R) (c : ClobClient) (args : List (PostOrdersArgs S)) :
    Except String (Payload O × R) × List HttpRequest :=
  match assertLevel2Auth K c with
  | .error err => (.error err, [])
  | .ok _ =>
    if args.any (fun arg =>
        arg.PostOnly && arg.OrderType != K.OrderTypeGTC && arg.OrderType != K.OrderTypeGTD) then
      (.error postOnlyError, [])
    else
      match postOrdersBody E c args with
      | .error err => (.error err, [])
      | .ok orders =>
        let body : Payload O := .many orders
        match P.Marshal body with
        | .error err => (.error ("failed to marshal orders: " ++ err), [])
        | .ok bodyStr =>
          let requestArgs : RequestArgs (Payload O) :=
            ⟨"POST", PostOrdersPath, .other body, some bodyStr⟩
          match CreateLevel2Headers K P E.now c.signer c.creds requestArgs with
          | .error err => (.error err, [])
          | .ok headers =>
            match E.Post ⟨PostOrdersPath, headers, bodyStr⟩ with
            | .error err => (.error err, [⟨PostOrdersPath, headers, bodyStr⟩])
            | .ok resp => (.ok (body, resp), [⟨PostOrdersPath, headers, bodyStr⟩])

/-! ## Sample collaborators for concrete runs -/

/-- Constant values for concrete runs: levels 0, 1, 2 and the header names
of the CLOB API. -/
def sampleConsts : Consts where
  L0 := 0
  L1 := 1
  L2 := 2
  L1AuthUnavailable := "A private key is needed to interact with this endpoint!"
  L2AuthUnavailable := "API Credentials are needed to interact with this endpoint!"
  PolyAddress := "POLY_ADDRESS"
  PolySignature := "POLY_SIGNATURE"
  PolyTimestamp := "POLY_TIMESTAMP"
  PolyNonce := "POLY_NONCE"
  PolyAPIKey := "POLY_API_KEY"
  PolyPassphrase := "POLY_PASSPHRASE"
  OrderTypeGTC := "GTC"
  OrderTypeGTD := "GTD"

/-- Stand-ins for the cryptographic and JSON primitives in concrete runs:
the secret decodes to its bytes unless it is "!", the digest is the key
followed by the message, the encoding renders the byte count, and an order
object (a string here) marshals to itself, a list to its elements joined by
commas between brackets. -/
def samplePrimitives : Primitives (Payload String) where
  DecodeString := fun s => if s = "!" then .error "illegal base64 data" else .ok (utf8 s)
  EncodeToString := fun bs => toString bs.length
  hmacSha256 := fun key msg => key ++ msg
  Marshal := fun v =>
    match v with
    | .one o => .ok o
    | .many os => .ok ("[" ++ ",".intercalate os ++ "]")

/-- Collaborators for concrete runs: the clock reads 1700000000, a signed
order is the text of its order object, the HTTP client answers "ok". -/
def sampleEnv : Env String String String where
  now := 1700000000
  OrderToJSONWithPostOnly := fun order _ _ _ => order
  Post := fun _ => .ok "ok"

/-- A signer constructor for concrete runs: the key "bad" is rejected, any
other key yields the signer whose address is the key. -/
def sampleNewSigner (privateKey : String) (_chainID : Int) : Except String Signer :=
  if privateKey = "bad" then .error "invalid private key" else .ok ⟨privateKey⟩

/-- Credentials for concrete runs. -/
def sampleCreds : ApiCreds := ⟨"key", "secret", "pass"⟩

/-- An L2 client for concrete runs. -/
def sampleClient : ClobClient :=
  ⟨"https://clob.example", 137, some ⟨"0xabc"⟩, some sampleCreds, 2, none⟩

/-- Go values for concrete runs of the signer: a text, which marshals to
its quoted form, or a channel, which `json.Marshal` rejects. -/
inductive SampleValue where
  | text : String → SampleValue
  | channel : SampleValue
deriving DecidableEq

/-- Stand-ins for the primitives of the signer over `SampleValue`, as
`samplePrimitives` but for the marshalling. -/
def signerPrimitives : Primitives SampleValue where
  DecodeString := fun s => if s = "!" then .error "illegal base64 data" else .ok (utf8 s)
  EncodeToString := fun bs => toString bs.length
  hmacSha256 := fun key msg => key ++ msg
  Marshal := fun v =>
    match v with
    | .text t => .ok ("\"" ++ t ++ "\"")
    | .channel => .error "json: unsupported type: chan int"

/-! ## Derived authentication mode, in the words of the specification -/

/-- The mode of section 3: L0 without a signer, L1 with a signer and no API
credentials, L2 with a signer and API credentials. -/
def derivedMode (K : Consts) (hasSigner hasCreds : Bool) : Int :=
  match hasSigner, hasCreds with
  | false, _ => K.L0
  | true, false => K.L1
  | true, true => K.L2

/-- The text the signature message carries after the path: nothing for an
absent body, the string itself for a string, the compact JSON serialisation
for any other value that has one. -/
def bodyText {V : Type} (P : Primitives V) : Body V → Option String
  | .nil => some ""
  | .strPtr s => some s
  | .str s => some s
  | .other v =>
    match P.Marshal v with
    | .ok j => some j
    | .error _ => none

/-! ## The calculator in the words of the specification -/

/-- The two-stage precision correction of section 4.2: a value with more
than `places` decimal places is rounded up to `places + 4` places and, only
if it still has more than `places` places, rounded down to `places`. -/
def twoStageCorrection {F : Type} (A : Arith F) (x : F) (places : Int) : F :=
  if A.DecimalPlaces x > places then
    if A.DecimalPlaces (A.RoundUp x (wrapInt (places + 4))) > places then
      A.RoundDown (A.RoundUp x (wrapInt (places + 4))) places
    else A.RoundUp x (wrapInt (places + 4))
  else x

/-- Rounding down to `places` places, applied to a value that has more. -/
def roundDownIfFiner {F : Type} (A : Arith F) (x : F) (places : Int) : F :=
  if A.DecimalPlaces x > places then A.RoundDown x places else x

/-- Limit BUY amounts as C1 states them, with the input price itself as the
factor. -/
def limitBuyAtInputPrice {F : Type} (A : Arith F) (size price : F) (cfg : RoundConfig) :
    Amounts :=
  let t := A.RoundDown size cfg.Size
  let m := twoStageCorrection A (A.mul t price) cfg.Amount
  ⟨BUY, A.ToTokenDecimals m, A.ToTokenDecimals t⟩

/-- Limit SELL amounts as C4 states them, with the input price itself as
the factor. -/
def limitSellAtInputPrice {F : Type} (A : Arith F) (size price : F) (cfg : RoundConfig) :
    Amounts :=
  let m := A.RoundDown size cfg.Size
  let t := twoStageCorrection A (A.mul m price) cfg.Amount
  ⟨SELL, A.ToTokenDecimals m, A.ToTokenDecimals t⟩

/-- Market BUY amounts as C2 states them, with the input price itself as
divisor and factor. -/
def marketBuyAtInputPrice {F : Type} (A : Arith F) (amount price : F) (cfg : RoundConfig) :
    Amounts :=
  let t := A.RoundDown (A.div (A.RoundDown amount cfg.Size) price) cfg.Size
  let m := twoStageCorrection A (A.mul t price) cfg.Amount
  ⟨BUY, A.ToTokenDecimals m, A.ToTokenDecimals t⟩

/-- Market SELL amounts as C5 states them, with the input price itself as
the factor. -/
def marketSellAtInputPrice {F : Type} (A : Arith F) (amount price : F) (cfg : RoundConfig) :
    Amounts :=
  let m := A.RoundDown amount cfg.Size
  let t := A.RoundDown (A.mul m price) cfg.Amount
  ⟨SELL, A.ToTokenDecimals m, A.ToTokenDecimals t⟩

/-! ## Truncation -/

/-- Truncation of a rational toward zero. -/
def truncate (q : ℚ) : Int := if 0 ≤ q then ⌊q⌋ else ⌈q⌉

/-! ## Decimal places of exact decimals -/

/-- The value `x` is a multiple of `10^(-k)` and its denominator carries `10^k`. -/
def Dec.HasPlaces (x : Dec) (k : Nat) : Prop :=
  (x.den : Int) ∣ x.num * 10 ^ k ∧ 10 ^ k ∣ x.den

/-! ## Post-only validation (`client_orders.go`) -/

/-- The condition under which `PostOrderWithOptions` (line 20) and the first
loop of `PostOrders` (line 68) reject: the order is post-only and its type
is neither GTC nor GTD. -/
def postOnlyRejected (K : Consts) (orderType : String) (postOnly : Bool) : Bool :=
  postOnly && orderType != K.OrderTypeGTC && orderType != K.OrderTypeGTD

/-- Lines 24-55 of `ClobClient.PostOrderWithOptions`: what the function
does once the post-only validation has passed. -/
def submitOrder {S O R : Type} (K : Consts) (P : Primitives (Payload O))
    (E : Env S O R) (c : ClobClient) (order : S) (orderType : String) (postOnly : Bool) :
    Except String (Payload O × R) × List HttpRequest :=
  match assertLevel2Auth K c with
  | .error err => (.error err, [])
  | .ok _ =>
    match c.creds with
    | none => (.error nilDereference, [])
    | some creds =>
      let body : Payload O :=
        .one (E.OrderToJSONWithPostOnly order creds.APIKey orderType postOnly)
      match P.Marshal body with
      | .error err => (.error ("failed to marshal order: " ++ err), [])
      | .ok bodyStr =>
        let requestArgs : RequestArgs (Payload O) :=
          ⟨"POST", PostOrderPath, .other body, some bodyStr⟩
        match CreateLevel2Headers K P E.now c.signer c.creds requestArgs with
        | .error err => (.error err, [])
        | .ok headers =>
          match E.Post ⟨PostOrderPath, headers, bodyStr⟩ with
          | .error err => (.error err, [⟨PostOrderPath, headers, bodyStr⟩])
          | .ok resp => (.ok (body, resp), [⟨PostOrderPath, headers, bodyStr⟩])

/-- Lines 73-104 of `ClobClient.PostOrders`: what the function does once
the level-2 assertion and the post-only validation have passed. -/
def submitOrders {S O R : Type} (K : Consts) (P : Primitives (Payload O))
    (E : Env S O R) (c : ClobClient) (args : List (PostOrdersArgs S)) :
    Except String (Payload O × R) × List HttpRequest :=
  match postOrdersBody E c args with
  | .error err => (.error err, [])
  | .ok orders =>
    let body : Payload O := .many orders
    match P.Marshal body with
    | .error err => (.error ("failed to marshal orders: " ++ err), [])
    | .ok bodyStr =>
      let requestArgs : RequestArgs (Payload O) :=
        ⟨"POST", PostOrdersPath, .other body, some bodyStr⟩
      match CreateLevel2Headers K P E.now c.signer c.creds requestArgs with
      | .error err => (.error err, [])
      | .ok headers =>
        match E.Post ⟨PostOrdersPath, headers, bodyStr⟩ with
        | .error err => (.error err, [⟨PostOrdersPath, headers, bodyStr⟩])
        | .ok resp => (.ok (body, resp), [⟨PostOrdersPath, headers, bodyStr⟩])

/-! ## Market price from the book (`order_builder.go`) -/

/-- Further float64 primitives: the literal `0`, `+`, `<` and the rendering
`%.6f` of `fmt`. -/
structure FloatOps (F : Type) where
  zero : F
  add : F → F → F
  lt : F → F → Bool
  Sprintf6 : F → String

/-- Type `OrderSummary` of `types.go`: a price level of the book, price and
size as decimal strings. -/
structure OrderSummary where
  Price : String
  Size : String
deriving DecidableEq, Repr

/-- The loop of `CalculateBuyMarketPrice`, lines 164-178: `n` is the number
of iterations left, the next index is `n - 1`, and `sum` the running total.
An element of `positions` that is not an `OrderSummary` (`none`) is skipped.
The result is the returned price, or `none` when the loop ends without
returning. -/
def buyLoop {F : Type} (A : Arith F) (X : FloatOps F) (positions : List (Option OrderSummary))
    (amountToMatch : F) : Nat → F → Option F
  | 0, _ => none
  | i + 1, sum =>
    match positions.get? i with
    | some (some pos) =>
      let price := A.ParseFloat pos.Price
      let size := A.ParseFloat pos.Size
      let sum := X.add sum (A.mul size price)
      if A.ge sum amountToMatch then some price
      else buyLoop A X positions amountToMatch i sum
    | _ => buyLoop A X positions amountToMatch i sum

/-- Function `OrderBuilder.CalculateBuyMarketPrice`, lines 159-191. -/
def CalculateBuyMarketPrice {F : Type} (A : Arith F) (X : FloatOps F)
    (positions : List (Option OrderSummary)) (amountToMatch : F) (orderType : String) :
    Except String F :=
  if positions.length = 0 then .error "no match"
  else
    match buyLoop A X positions amountToMatch positions.length X.zero with
    | some price => .ok price
    | none =>
      if orderType = "FOK" then .error "no match"
      else
        match positions.get? 0 with
        | some (some pos) => .ok (A.ParseFloat pos.Price)
        | _ => .error "invalid position format"

/-- The loop of `CalculateSellMarketPrice`, lines 199-213, as `buyLoop`. -/
def sellLoop {F : Type} (A : Arith F) (X : FloatOps F) (positions : List (Option OrderSummary))
    (amountToMatch : F) : Nat → F → Option F
  | 0, _ => none
  | i + 1, sum =>
    match positions.get? i with
    | some (some pos) =>
      let size := A.ParseFloat pos.Size
      let sum := X.add sum size
      if A.ge sum amountToMatch then some (A.ParseFloat pos.Price)
      else sellLoop A X positions amountToMatch i sum
    | _ => sellLoop A X positions amountToMatch i sum

/-- Function `OrderBuilder.CalculateSellMarketPrice`, lines 194-226. -/
def CalculateSellMarketPrice {F : Type} (A : Arith F) (X : FloatOps F)
    (positions : List (Option OrderSummary)) (amountToMatch : F) (orderType : String) :
    Except String F :=
  if positions.length = 0 then .error "no match"
  else
    match sellLoop A X positions amountToMatch positions.length X.zero with
    | some price => .ok price
    | none =>
      if orderType = "FOK" then .error "no match"
      else
        match positions.get? 0 with
        | some (some pos) => .ok (A.ParseFloat pos.Price)
        | _ => .error "invalid position format"

/-- Function `ConvertOrderSummaries`, lines 295-301 of
`client_order_creation.go`: every level is wrapped into a value that is an
`OrderSummary` of package `order_builder`. -/
def ConvertOrderSummaries (summaries : List OrderSummary) : List (Option OrderSummary) :=
  summaries.map some

namespace Dec

/-- Exact sum. -/
def add (x y : Dec) : Dec :=
  ⟨x.num * y.den + y.num * x.den, x.den * y.den, Nat.mul_pos x.den_pos y.den_pos⟩

/-- Comparison `x < y`. -/
def lt (x y : Dec) : Bool := decide (x.num * y.den < y.num * x.den)

/-- Six digits with leading zeros. -/
def sixDigits (n : Nat) : String := ⟨(toString (10 ^ 6 + n % 10 ^ 6)).data.drop 1⟩

/-- The rendering `%.6f`: the value rounded to six places, in exact
decimals. -/
def Sprintf6 (x : Dec) : String :=
  let r := (RoundNormal x 6).num
  (if r < 0 then "-" else "") ++ toString (r.natAbs / 10 ^ 6) ++ "." ++ sixDigits r.natAbs

end Dec

/-- The further primitives in exact decimal arithmetic. -/
def decimalOps : FloatOps Dec where
  zero := Dec.ofInt 0
  add := Dec.add
  lt := Dec.lt
  Sprintf6 := Dec.Sprintf6

/-- The walk in the words of the specification: over the levels in walking
order, with the running total of size times price so far, the price of the
first level at which the total reaches the amount. -/
def firstLevelReaching {F : Type} (A : Arith F) (X : FloatOps F) (amount : F) :
    List OrderSummary → F → Option F
  | [], _ => none
  | level :: rest, total =>
    if A.ge (X.add total (A.mul (A.ParseFloat level.Size) (A.ParseFloat level.Price))) amount
    then some (A.ParseFloat level.Price)
    else firstLevelReaching A X amount rest
      (X.add total (A.mul (A.ParseFloat level.Size) (A.ParseFloat level.Price)))

/-- The depth of a book side for a buy, in exact decimals: the sum of size
times price over its levels. -/
def buyDepth (levels : List OrderSummary) : ℚ :=
  (levels.map fun l => (Dec.ParseFloat l.Size).toRat * (Dec.ParseFloat l.Price).toRat).sum

/-- The depth of a book side for a sell, in exact decimals: the sum of the
sizes of its levels. -/
def sellDepth (levels : List OrderSummary) : ℚ :=
  (levels.map fun l => (Dec.ParseFloat l.Size).toRat).sum

/-- A book side whose levels parse to non-negative prices and sizes. -/
def NonNegativeLevels (levels : List OrderSummary) : Prop :=
  ∀ l ∈ levels, 0 ≤ (Dec.ParseFloat l.Size).toRat ∧ 0 ≤ (Dec.ParseFloat l.Price).toRat

/-- Two asks, best price first: 100 at 0.5, then 100 at 0.6. -/
def sampleAsks : List OrderSummary := [⟨"0.5", "100"⟩, ⟨"0.6", "100"⟩]

deriving instance DecidableEq for Dec

/-- Both loops at once: the walk from index `n - 1` down to 0 in which a
level weighs `weight level`. -/
def walkLoop {F : Type} (A : Arith F) (X : FloatOps F) (weight : OrderSummary → F)
    (positions : List (Option OrderSummary)) (amountToMatch : F) : Nat → F → Option F
  | 0, _ => none
  | i + 1, sum =>
    match positions.get? i with
    | some (some pos) =>
      if A.ge (X.add sum (weight pos)) amountToMatch then some (A.ParseFloat pos.Price)
      else walkLoop A X weight positions amountToMatch i (X.add sum (weight pos))
    | _ => walkLoop A X weight positions amountToMatch i sum

/-- The walk over the levels in walking order in which a level weighs
`weight level`: the price of the first level at which the running total
reaches the amount. -/
def firstReaching {F : Type} (A : Arith F) (X : FloatOps F) (weight : OrderSummary → F)
    (amount : F) : List OrderSummary → F → Option F
  | [], _ => none
  | level :: rest, total =>
    if A.ge (X.add total (weight level)) amount then some (A.ParseFloat level.Price)
    else firstReaching A X weight amount rest (X.add total (weight level))

/-! ## Proxy-wallet struct (`web3/helpers.go`) -/

/-- Type `common.Address` of go-ethereum: an array of 20 bytes. -/
structure Address where
  bytes : List UInt8
  length_eq : bytes.length = 20

/-- The conversions of go-ethereum `common` the code calls:
`common.HexToAddress` and `common.FromHex`. -/
structure EthCommon where
  HexToAddress : String → Address
  FromHex : String → List UInt8

/-- Go `new(big.Int).SetString(s, 10)`: an optional sign followed by one or
more decimal digits is read as that integer; any other string fails, which
leaves a nil `*big.Int`. -/
def SetString10 (s : String) : Option Int :=
  match s.toList with
  | '-' :: cs => if cs.isEmpty then none else (Dec.digitsValue cs).map fun v => -(v : Int)
  | '+' :: cs => if cs.isEmpty then none else (Dec.digitsValue cs).map fun v => (v : Int)
  | cs => if cs.isEmpty then none else (Dec.digitsValue cs).map fun v => (v : Int)

/-- The base-256 digits of `n`, most significant first, without leading
zeros; `fuel` bounds the number of digits. -/
def beDigits : Nat → Nat → List UInt8
  | 0, _ => []
  | fuel + 1, n =>
    if n = 0 then [] else beDigits fuel (n / 256) ++ [UInt8.ofNat (n % 256)]

/-- Go `(*big.Int).Bytes`: the absolute value as a big-endian byte slice
without leading zeros. -/
def bigIntBytes (x : Int) : List UInt8 := beDigits x.natAbs x.natAbs

/-- Go `common.LeftPadBytes(slice, l)`: the slice itself when it has `l`
bytes or more, else the slice behind as many zero bytes as make `l`. -/
def LeftPadBytes (slice : List UInt8) (l : Nat) : List UInt8 :=
  if l ≤ slice.length then slice
  else List.replicate (l - slice.length) 0 ++ slice

/-- Function `CreateProxyStruct`, lines 86-125.  A numeral `SetString`
rejects leaves a nil `*big.Int`, whose `Bytes` panics. -/
def CreateProxyStruct (C : EthCommon) (fromAddress to_ data txFee gasPrice gasLimit nonce
    relayHubAddress relayAddress : String) : Except String (List UInt8) :=
  let prefix_ := utf8 "rlx:"
  let fromAddr := C.HexToAddress fromAddress
  let toAddr := C.HexToAddress to_
  let dataBytes := C.FromHex data
  let relayHubAddr := C.HexToAddress relayHubAddress
  let relayAddr := C.HexToAddress relayAddress
  match SetString10 txFee, SetString10 gasPrice, SetString10 gasLimit, SetString10 nonce with
  | some txFeeInt, some gasPriceInt, some gasLimitInt, some nonceInt =>
    .ok (prefix_ ++ fromAddr.bytes ++ toAddr.bytes ++ dataBytes
      ++ LeftPadBytes (bigIntBytes txFeeInt) 32
      ++ LeftPadBytes (bigIntBytes gasPriceInt) 32
      ++ LeftPadBytes (bigIntBytes gasLimitInt) 32
      ++ LeftPadBytes (bigIntBytes nonceInt) 32
      ++ relayHubAddr.bytes ++ relayAddr.bytes)
  | _, _, _, _ => .error nilDereference

/-- The big-endian word of `k` bytes of `n`: the word of `k - 1` bytes of
`n / 256` followed by the byte `n % 256`. -/
def beWord : Nat → Nat → List UInt8
  | 0, _ => []
  | k + 1, n => beWord k (n / 256) ++ [UInt8.ofNat (n % 256)]

/-- The number a big-endian byte string stands for. -/
def beValue (bs : List UInt8) : Nat := bs.foldl (fun v b => v * 256 + b.toNat) 0

/-- Conversions for concrete runs: an address is its text cut or padded
with zeros to 20 bytes, hex data its text. -/
def sampleEthCommon : EthCommon where
  HexToAddress := fun s =>
    ⟨(utf8 s ++ List.replicate 20 0).take 20, by simp⟩
  FromHex := fun s => utf8 s

/-- The string `s` is a decimal numeral of the integer `n`, and `n` lies in
`[0, 2^256)`. -/
def IsWordNumeral (s : String) (n : Int) : Prop :=
  SetString10 s = some n ∧ 0 ≤ n ∧ n < 2 ^ 256

/-! ## Order creation (`client_order_creation.go`): data -/

/-- Type `OrderArgs` of `types.go`. -/
structure OrderArgs (F : Type) where
  TokenID : String
  Price : F
  Size : F
  Side : String
  FeeRateBps : Int
  Nonce : Int
  Expiration : Int
  Taker : String
deriving DecidableEq, Repr

/-- Type `MarketOrderArgs` of `types.go`. -/
structure MarketOrderArgs (F : Type) where
  TokenID : String
  Amount : F
  Side : String
  Price : F
  FeeRateBps : Int
  Nonce : Int
  Taker : String
  OrderType : String
deriving DecidableEq, Repr

/-- Type `PartialCreateOrderOptions` of `types.go`; a nil pointer field is
`none`. -/
structure PartialCreateOrderOptions where
  TickSize : Option String
  NegRisk : Option Bool
  RawOrder : Bool
  OrderType : Option String
deriving DecidableEq, Repr

/-- Type `model.OrderData` of go-order-utils, as the code fills it. -/
structure OrderData where
  Maker : String
  Taker : String
  TokenId : String
  MakerAmount : String
  TakerAmount : String
  Side : Int
  FeeRateBps : String
  Nonce : String
  Signer : String
  Expiration : String
  SignatureType : Int
deriving DecidableEq, Repr

/-- Type `ContractConfig` of `types.go`. -/
structure ContractConfig where
  Exchange : String
  Collateral : String
  ConditionalTokens : String
deriving DecidableEq, Repr

/-- Type `OrderBookSummary` of `types.go`: the two fields the code reads. -/
structure OrderBookSummary where
  Bids : List OrderSummary
  Asks : List OrderSummary
deriving DecidableEq, Repr

/-- The cache fields `tickSizes`, `negRisk` and `feeRates` of `ClobClient`,
maps from token id. -/
structure MarketCaches where
  tickSizes : List (String × String)
  negRisk : List (String × Bool)
  feeRates : List (String × Int)
deriving DecidableEq, Repr

/-- What order creation does outside the process: a request to the market
metadata service for a token, or a call of the signing library on an order.
-/
inductive Event where
  | tickSizeLookup : String → Event
  | negRiskLookup : String → Event
  | feeRateLookup : String → Event
  | orderBookLookup : String → Event
  | signing : OrderData → Event
deriving DecidableEq, Repr

/-- The market metadata service (section 6 of the specification): tick
size, neg-risk flag, fee rate and order book of a token, or an error. -/
structure MarketService where
  fetchTickSize : String → Except String String
  fetchNegRisk : String → Except String Bool
  fetchFeeRate : String → Except String Int
  fetchOrderBook : String → Except String OrderBookSummary

/-- What order creation uses beside the market service: the table
`obuilder.RoundingConfig`, `getContractConfig`, the constants `ZeroAddress`
and `BUY` (their declarations are in files not among the sources) and
`OrderBuilder.BuildSignedOrder`, which hands the order to the signing
library. -/
structure OrderEnv (S : Type) where
  RoundingConfig : String → Option RoundConfig
  getContractConfig : Int → Bool → Option ContractConfig
  BuildSignedOrder : OrderData → String → Int → Bool → Except String S
  ZeroAddress : String
  BUY : String

/-- The result of a lookup, the caches after it and the events it caused. -/
structure Step (α : Type) where
  result : Except String α
  caches : MarketCaches
  trace : List Event
deriving DecidableEq

/-- The result of an order creation, the order arguments as the call leaves
them, the caches after it and the events it caused, in order. -/
structure Outcome (α β : Type) where
  result : Except String α
  args : β
  caches : MarketCaches
  trace : List Event
deriving DecidableEq

/-! ## Order creation: lookups -/

/-- Modelled from the spec: `ClobClient.GetTickSize`, whose source file is
missing: the tick size of a token is fetched per token and cached (sections
3 and 5): the cached value when there is one, else one request to the market
service, whose answer is cached. -/
def GetTickSize (M : MarketService) (caches : MarketCaches) (tokenID : String) :
    Step String :=
  match caches.tickSizes.lookup tokenID with
  | some tickSize => ⟨.ok tickSize, caches, []⟩
  | none =>
    match M.fetchTickSize tokenID with
    | .error err => ⟨.error err, caches, [.tickSizeLookup tokenID]⟩
    | .ok tickSize =>
      ⟨.ok tickSize, ⟨(tokenID, tickSize) :: caches.tickSizes, caches.negRisk, caches.feeRates⟩,
        [.tickSizeLookup tokenID]⟩

/-- Modelled from the spec: `ClobClient.GetNegRisk`, whose source file is
missing: the neg-risk flag of a token, cached per token id after the first
remote fetch (section 5). -/
def GetNegRisk (M : MarketService) (caches : MarketCaches) (tokenID : String) : Step Bool :=
  match caches.negRisk.lookup tokenID with
  | some negRisk => ⟨.ok negRisk, caches, []⟩
  | none =>
    match M.fetchNegRisk tokenID with
    | .error err => ⟨.error err, caches, [.negRiskLookup tokenID]⟩
    | .ok negRisk =>
      ⟨.ok negRisk, ⟨caches.tickSizes, (tokenID, negRisk) :: caches.negRisk, caches.feeRates⟩,
        [.negRiskLookup tokenID]⟩

/-- Modelled from the spec: `ClobClient.GetFeeRateBps`, whose source file is
missing: the fee rate of a token, cached per token id after the first remote
fetch (section 5). -/
def GetFeeRateBps (M : MarketService) (caches : MarketCaches) (tokenID : String) : Step Int :=
  match caches.feeRates.lookup tokenID with
  | some feeRate => ⟨.ok feeRate, caches, []⟩
  | none =>
    match M.fetchFeeRate tokenID with
    | .error err => ⟨.error err, caches, [.feeRateLookup tokenID]⟩
    | .ok feeRate =>
      ⟨.ok feeRate, ⟨caches.tickSizes, caches.negRisk, (tokenID, feeRate) :: caches.feeRates⟩,
        [.feeRateLookup tokenID]⟩

/-- Modelled from the spec: `ClobClient.GetOrderBook`, whose source file is
missing: the book of a token, one request to the market service (section 6).
-/
def GetOrderBook (M : MarketService) (caches : MarketCaches) (tokenID : String) :
    Step OrderBookSummary :=
  ⟨M.fetchOrderBook tokenID, caches, [.orderBookLookup tokenID]⟩

/-- Function `ClobClient.assertLevel1Auth`, lines 149-155 of `client.go`. -/
def assertLevel1Auth (K : Consts) (c : ClobClient) : Except String Unit :=
  if c.mode < K.L1 then .error K.L1AuthUnavailable else .ok ()

/-- Function `IsTickSizeSmaller`, lines 143-147 of `utilities.go`. -/
def IsTickSizeSmaller {F : Type} (A : Arith F) (X : FloatOps F) (a b : String) : Bool :=
  X.lt (A.ParseFloat a) (A.ParseFloat b)

/-- Function `ClobClient.resolveTickSize`, lines 13-27. -/
def resolveTickSize {F : Type} (A : Arith F) (X : FloatOps F) (M : MarketService)
    (caches : MarketCaches) (tokenID : String) (tickSize : Option String) : Step String :=
  let r := GetTickSize M caches tokenID
  match r.result with
  | .error err => ⟨.error err, r.caches, r.trace⟩
  | .ok minTickSize =>
    match tickSize with
    | some tickSize =>
      if IsTickSizeSmaller A X tickSize minTickSize then
        ⟨.error ("invalid tick size (" ++ tickSize ++ "), minimum for the market is "
          ++ minTickSize), r.caches, r.trace⟩
      else ⟨.ok tickSize, r.caches, r.trace⟩
    | none => ⟨.ok minTickSize, r.caches, r.trace⟩

/-- The error text of the fee-rate mismatch. -/
def feeRateMismatch (userFeeRate marketFeeRateBps : Int) : String :=
  "invalid user provided fee rate: (" ++ Itoa userFeeRate
    ++ "), fee rate for the market must be " ++ Itoa marketFeeRateBps

/-- Function `ClobClient.resolveFeeRate`, lines 30-42. -/
def resolveFeeRate (M : MarketService) (caches : MarketCaches) (tokenID : String)
    (userFeeRate : Int) : Step Int :=
  let r := GetFeeRateBps M caches tokenID
  match r.result with
  | .error err => ⟨.error err, r.caches, r.trace⟩
  | .ok marketFeeRateBps =>
    if marketFeeRateBps > 0 && userFeeRate > 0 && userFeeRate != marketFeeRateBps then
      ⟨.error (feeRateMismatch userFeeRate marketFeeRateBps), r.caches, r.trace⟩
    else ⟨.ok marketFeeRateBps, r.caches, r.trace⟩

/-- Function `ClobClient.CalculateMarketPrice`, lines 275-292. -/
def CalculateMarketPrice {F S : Type} (A : Arith F) (X : FloatOps F) (M : MarketService)
    (B : OrderEnv S) (caches : MarketCaches) (tokenID side : String) (amount : F)
    (orderType : String) : Step F :=
  let r := GetOrderBook M caches tokenID
  match r.result with
  | .error err => ⟨.error ("no orderbook: " ++ err), r.caches, r.trace⟩
  | .ok book =>
    if side = B.BUY then
      if book.Asks.length = 0 then ⟨.error "no match", r.caches, r.trace⟩
      else
        ⟨CalculateBuyMarketPrice A X (ConvertOrderSummaries book.Asks) amount orderType,
          r.caches, r.trace⟩
    else
      if book.Bids.length = 0 then ⟨.error "no match", r.caches, r.trace⟩
      else
        ⟨CalculateSellMarketPrice A X (ConvertOrderSummaries book.Bids) amount orderType,
          r.caches, r.trace⟩

/-! ## Order creation: the two entry points -/

/-- The error text of the price range check, lines 104-105 and 185-186. -/
def priceRangeError {F : Type} (A : Arith F) (X : FloatOps F) (price : F)
    (tickSize : String) : String :=
  "price (" ++ X.Sprintf6 price ++ "), min: " ++ tickSize ++ " - max: "
    ++ X.Sprintf6 (A.sub A.one (A.ParseFloat tickSize))

/-- The order data of lines 125-143 and 224-242, signed at lines 145-154 and
244-253: `c.builder` and `c.signer` are dereferenced, the contract config is
looked up and dereferenced, and the signing library is called. -/
def signOrderData {S β : Type} (B : OrderEnv S) (c : ClobClient) (caches : MarketCaches)
    (trace : List Event) (args : β) (negRisk : Bool)
    (orderData : OrderBuilder → Signer → OrderData) : Outcome S β :=
  match c.builder, c.signer with
  | some builder, some signer =>
    match B.getContractConfig c.chainID negRisk with
    | none => ⟨.error nilDereference, args, caches, trace⟩
    | some contractConfig =>
      match B.BuildSignedOrder (orderData builder signer) contractConfig.Exchange c.chainID
          negRisk with
      | .error err => ⟨.error err, args, caches, trace ++ [.signing (orderData builder signer)]⟩
      | .ok signedOrder =>
        ⟨.ok signedOrder, args, caches, trace ++ [.signing (orderData builder signer)]⟩
  | _, _ => ⟨.error nilDereference, args, caches, trace⟩

/-- Lines 108-154 of `ClobClient.CreateOrder`: rounding table, amounts,
order data and signing; `trace` holds the events so far. -/
def roundAndSign {F S : Type} (A : Arith F) (B : OrderEnv S) (c : ClobClient)
    (caches : MarketCaches) (trace : List Event) (orderArgs : OrderArgs F)
    (tickSize : String) (negRisk : Bool) : Outcome S (OrderArgs F) :=
  match B.RoundingConfig tickSize with
  | none => ⟨.error ("unsupported tick size: " ++ tickSize), orderArgs, caches, trace⟩
  | some roundConfig =>
    match GetOrderAmounts A orderArgs.Side orderArgs.Size orderArgs.Price roundConfig with
    | .error err => ⟨.error err, orderArgs, caches, trace⟩
    | .ok amounts =>
      let taker := if orderArgs.Taker = "" then B.ZeroAddress else orderArgs.Taker
      signOrderData B c caches trace orderArgs negRisk fun builder signer =>
        ⟨builder.funder, taker, orderArgs.TokenID, Itoa amounts.makerAmount,
          Itoa amounts.takerAmount, amounts.side, Itoa orderArgs.FeeRateBps,
          Itoa orderArgs.Nonce, signer.address, Itoa orderArgs.Expiration, builder.sigType⟩

/-- Lines 102-154 of `ClobClient.CreateOrder`: the price validation, then
`roundAndSign`, once tick size and neg-risk flag are known. -/
def finishOrder {F S : Type} (A : Arith F) (X : FloatOps F) (B : OrderEnv S) (c : ClobClient)
    (caches : MarketCaches) (trace : List Event) (orderArgs : OrderArgs F)
    (tickSize : String) (negRisk : Bool) : Outcome S (OrderArgs F) :=
  if !PriceValid A orderArgs.Price tickSize then
    ⟨.error (priceRangeError A X orderArgs.Price tickSize), orderArgs, caches, trace⟩
  else roundAndSign A B c caches trace orderArgs tickSize negRisk

/-- Lines 84-92 of `ClobClient.CreateOrder` and 189-198 of
`ClobClient.CreateMarketOrder`: the neg-risk flag of the options when there
is one, else the one of `GetNegRisk`. -/
def resolveNegRisk (M : MarketService) (caches : MarketCaches) (tokenID : String)
    (options : Option PartialCreateOrderOptions) : Step Bool :=
  match options.bind fun o => o.NegRisk with
  | some negRisk => ⟨.ok negRisk, caches, []⟩
  | none => GetNegRisk M caches tokenID

/-- Lines 74-99 of `ClobClient.CreateOrder`, the standard mode: tick size,
neg-risk flag and fee rate are resolved, and the fee rate is written into the
order arguments. -/
def standardResolution {F : Type} (A : Arith F) (X : FloatOps F) (M : MarketService)
    (caches : MarketCaches) (orderArgs : OrderArgs F)
    (options : Option PartialCreateOrderOptions) :
    Outcome (String × Bool) (OrderArgs F) :=
  let tickSizePtr := options.bind fun o => o.TickSize
  let t := resolveTickSize A X M caches orderArgs.TokenID tickSizePtr
  match t.result with
  | .error err => ⟨.error err, orderArgs, t.caches, t.trace⟩
  | .ok tickSize =>
    let n := resolveNegRisk M t.caches orderArgs.TokenID options
    match n.result with
    | .error err => ⟨.error err, orderArgs, n.caches, t.trace ++ n.trace⟩
    | .ok negRisk =>
      let f := resolveFeeRate M n.caches orderArgs.TokenID orderArgs.FeeRateBps
      match f.result with
      | .error err => ⟨.error err, orderArgs, f.caches, t.trace ++ n.trace ++ f.trace⟩
      | .ok feeRateBps =>
        ⟨.ok (tickSize, negRisk),
          ⟨orderArgs.TokenID, orderArgs.Price, orderArgs.Size, orderArgs.Side, feeRateBps,
            orderArgs.Nonce, orderArgs.Expiration, orderArgs.Taker⟩,
          f.caches, t.trace ++ n.trace ++ f.trace⟩

/-- The error text of raw mode without a tick size. -/
def rawTickSizeError : String := "RawOrder mode requires TickSize to be provided in options"

/-- The error text of raw mode without a neg-risk flag. -/
def rawNegRiskError : String := "RawOrder mode requires NegRisk to be provided in options"

/-- Function `ClobClient.CreateOrder`, lines 47-155; `options` is a pointer,
nil being `none`. -/
def CreateOrder {F S : Type} (K : Consts) (A : Arith F) (X : FloatOps F) (M : MarketService)
    (B : OrderEnv S) (c : ClobClient) (caches : MarketCaches) (orderArgs : OrderArgs F)
    (options : Option PartialCreateOrderOptions) : Outcome S (OrderArgs F) :=
  match assertLevel1Auth K c with
  | .error err => ⟨.error err, orderArgs, caches, []⟩
  | .ok _ =>
    let rawOrder :=
      match options with
      | some o => o.RawOrder
      | none => false
    if rawOrder then
      match options.bind fun o => o.TickSize with
      | none => ⟨.error rawTickSizeError, orderArgs, caches, []⟩
      | some tickSize =>
        match options.bind fun o => o.NegRisk with
        | none => ⟨.error rawNegRiskError, orderArgs, caches, []⟩
        | some negRisk => finishOrder A X B c caches [] orderArgs tickSize negRisk
    else
      let r := standardResolution A X M caches orderArgs options
      match r.result with
      | .error err => ⟨.error err, r.args, r.caches, r.trace⟩
      | .ok (tickSize, negRisk) => finishOrder A X B c r.caches r.trace r.args tickSize negRisk

/-- Lines 164-181 of `ClobClient.CreateMarketOrder`: the tick size is
resolved and, when the price is not positive, the market price is computed
and written into the order arguments. -/
def marketResolution {F S : Type} (A : Arith F) (X : FloatOps F) (M : MarketService)
    (B : OrderEnv S) (caches : MarketCaches) (orderArgs : MarketOrderArgs F)
    (options : Option PartialCreateOrderOptions) : Outcome String (MarketOrderArgs F) :=
  let tickSizePtr := options.bind fun o => o.TickSize
  let t := resolveTickSize A X M caches orderArgs.TokenID tickSizePtr
  match t.result with
  | .error err => ⟨.error err, orderArgs, t.caches, t.trace⟩
  | .ok tickSize =>
    if A.le orderArgs.Price X.zero then
      let p := CalculateMarketPrice A X M B t.caches orderArgs.TokenID orderArgs.Side
        orderArgs.Amount orderArgs.OrderType
      match p.result with
      | .error err => ⟨.error err, orderArgs, p.caches, t.trace ++ p.trace⟩
      | .ok price =>
        ⟨.ok tickSize,
          ⟨orderArgs.TokenID, orderArgs.Amount, orderArgs.Side, price, orderArgs.FeeRateBps,
            orderArgs.Nonce, orderArgs.Taker, orderArgs.OrderType⟩,
          p.caches, t.trace ++ p.trace⟩
    else ⟨.ok tickSize, orderArgs, t.caches, t.trace⟩

/-- Lines 189-253 of `ClobClient.CreateMarketOrder`: neg-risk flag, fee
rate, rounding table, amounts, order data and signing. -/
def feesRoundAndSign {F S : Type} (A : Arith F) (M : MarketService)
    (B : OrderEnv S) (c : ClobClient) (caches : MarketCaches) (trace : List Event)
    (orderArgs : MarketOrderArgs F) (options : Option PartialCreateOrderOptions)
    (tickSize : String) : Outcome S (MarketOrderArgs F) :=
  let n := resolveNegRisk M caches orderArgs.TokenID options
  match n.result with
  | .error err => ⟨.error err, orderArgs, n.caches, trace ++ n.trace⟩
  | .ok negRisk =>
    let f := resolveFeeRate M n.caches orderArgs.TokenID orderArgs.FeeRateBps
    match f.result with
    | .error err => ⟨.error err, orderArgs, f.caches, trace ++ n.trace ++ f.trace⟩
    | .ok feeRateBps =>
      let orderArgs : MarketOrderArgs F :=
        ⟨orderArgs.TokenID, orderArgs.Amount, orderArgs.Side, orderArgs.Price, feeRateBps,
          orderArgs.Nonce, orderArgs.Taker, orderArgs.OrderType⟩
      match B.RoundingConfig tickSize with
      | none =>
        ⟨.error ("unsupported tick size: " ++ tickSize), orderArgs, f.caches,
          trace ++ n.trace ++ f.trace⟩
      | some roundConfig =>
        match GetMarketOrderAmounts A orderArgs.Side orderArgs.Amount orderArgs.Price
            roundConfig with
        | .error err => ⟨.error err, orderArgs, f.caches, trace ++ n.trace ++ f.trace⟩
        | .ok amounts =>
          let taker := if orderArgs.Taker = "" then B.ZeroAddress else orderArgs.Taker
          signOrderData B c f.caches (trace ++ n.trace ++ f.trace) orderArgs negRisk
            fun builder signer =>
              ⟨builder.funder, taker, orderArgs.TokenID, Itoa amounts.makerAmount,
                Itoa amounts.takerAmount, amounts.side, Itoa orderArgs.FeeRateBps,
                Itoa orderArgs.Nonce, signer.address, "0", builder.sigType⟩

/-- Lines 183-253 of `ClobClient.CreateMarketOrder`: the price validation,
then `feesRoundAndSign`, once the tick size and the final price are known.
-/
def finishMarketOrder {F S : Type} (A : Arith F) (X : FloatOps F) (M : MarketService)
    (B : OrderEnv S) (c : ClobClient) (caches : MarketCaches) (trace : List Event)
    (orderArgs : MarketOrderArgs F) (options : Option PartialCreateOrderOptions)
    (tickSize : String) : Outcome S (MarketOrderArgs F) :=
  if !PriceValid A orderArgs.Price tickSize then
    ⟨.error (priceRangeError A X orderArgs.Price tickSize), orderArgs, caches, trace⟩
  else feesRoundAndSign A M B c caches trace orderArgs options tickSize

/-- Function `ClobClient.CreateMarketOrder`, lines 159-254. -/
def CreateMarketOrder {F S : Type} (K : Consts) (A : Arith F) (X : FloatOps F)
    (M : MarketService) (B : OrderEnv S) (c : ClobClient) (caches : MarketCaches)
    (orderArgs : MarketOrderArgs F) (options : Option PartialCreateOrderOptions) :
    Outcome S (MarketOrderArgs F) :=
  match assertLevel1Auth K c with
  | .error err => ⟨.error err, orderArgs, caches, []⟩
  | .ok _ =>
    let r := marketResolution A X M B caches orderArgs options
    match r.result with
    | .error err => ⟨.error err, r.args, r.caches, r.trace⟩
    | .ok tickSize => finishMarketOrder A X M B c r.caches r.trace r.args options tickSize

/-! ## Order creation: sample collaborators for concrete runs -/

/-- A market service for concrete runs: every token has tick size "0.01",
no neg-risk, market fee rate 10, and the book of `sampleAsks`. -/
def sampleMarket : MarketService where
  fetchTickSize := fun _ => .ok "0.01"
  fetchNegRisk := fun _ => .ok false
  fetchFeeRate := fun _ => .ok 10
  fetchOrderBook := fun _ => .ok ⟨[], sampleAsks⟩

/-- The remaining collaborators for concrete runs: the rounding table holds
(2,2,4) for "0.01" and (1,2,3) for "0.1", every chain has a contract config,
and signing an order yields the text of its two amounts. -/
def sampleOrderEnv : OrderEnv String where
  RoundingConfig := fun t =>
    if t = "0.01" then some cfgCent else if t = "0.1" then some cfgTenth else none
  getContractConfig := fun _ _ => some ⟨"0xexchange", "0xcollateral", "0xconditional"⟩
  BuildSignedOrder := fun d _ _ _ => .ok (d.MakerAmount ++ "/" ++ d.TakerAmount)
  ZeroAddress := "0x0000000000000000000000000000000000000000"
  BUY := "BUY"

/-- An L1 client for concrete runs. -/
def sampleL1Client : ClobClient :=
  ⟨"https://clob.example", 137, some ⟨"0xabc"⟩, none, 1, some ⟨⟨"0xabc"⟩, 0, "0xabc"⟩⟩

/-- An L0 client for concrete runs. -/
def sampleL0Client : ClobClient := ⟨"https://clob.example", 137, none, none, 0, none⟩

/-- Empty caches. -/
def noCaches : MarketCaches := ⟨[], [], []⟩

/-- A limit order for concrete runs: token "tok", the given side and price,
size 10, fee rate 10. -/
def sampleOrder (side : String) (price : Dec) : OrderArgs Dec :=
  ⟨"tok", price, Dec.ofInt 10, side, 10, 0, 0, ""⟩

/-- A market service whose tick size is "0.1", otherwise as `sampleMarket`.
-/
def coarseMarket : MarketService where
  fetchTickSize := fun _ => .ok "0.1"
  fetchNegRisk := fun _ => .ok false
  fetchFeeRate := fun _ => .ok 10
  fetchOrderBook := fun _ => .ok ⟨[], sampleAsks⟩

/-- An event is a request to the market service. -/
def Event.isLookup : Event → Bool
  | .signing _ => false
  | _ => true

/-- The options are absent or do not ask for raw mode. -/
def StandardMode (options : Option PartialCreateOrderOptions) : Prop :=
  ∀ o, options = some o → o.RawOrder = false

/-! ## Hex text and byte arrays (Go `encoding/hex`, fixed-size arrays) -/

/-- Go `[32]byte`, also `common.Hash` of go-ethereum: an array of 32 bytes.
-/
structure Bytes32 where
  bytes : List UInt8
  length_eq : bytes.length = 32

/-- The table "0123456789abcdef" of Go `encoding/hex`, as bytes. -/
def hex.hextable : List UInt8 :=
  [48, 49, 50, 51, 52, 53, 54, 55, 56, 57, 97, 98, 99, 100, 101, 102]

/-- Go `hex.Encode`: for every byte the table entries of its high and its
low half. -/
def hex.Encode (src : List UInt8) : List UInt8 :=
  src.flatMap fun b => [hex.hextable.getD (b.toNat / 16) 0, hex.hextable.getD (b.toNat % 16) 0]

/-- Go `hex.EncodeToString`, which `common.Bytes2Hex` of go-ethereum calls:
the bytes of `hex.Encode` as a string. -/
def hex.EncodeToString (src : List UInt8) : String :=
  ⟨(hex.Encode src).map fun b => Char.ofNat b.toNat⟩

/-- The table `reverseHexTable` of Go `encoding/hex`: the value of a hex
digit of either case, nothing for every other byte. -/
def hex.fromHexChar (c : UInt8) : Option Nat :=
  if 48 ≤ c.toNat ∧ c.toNat ≤ 57 then some (c.toNat - 48)
  else if 97 ≤ c.toNat ∧ c.toNat ≤ 102 then some (c.toNat - 87)
  else if 65 ≤ c.toNat ∧ c.toNat ≤ 70 then some (c.toNat - 55)
  else none

/-- The errors of Go `encoding/hex`: `InvalidByteError` of a byte and
`ErrLength`. -/
inductive hex.Error where
  | InvalidByteError : UInt8 → hex.Error
  | ErrLength : hex.Error
deriving DecidableEq, Repr

/-- Go `hex.Decode` on the bytes of the text: the bytes decoded and the
error, if any; pairs of digits are read from the left, the first byte that
is no digit stops the decoding with the bytes decoded so far (`DecodeString`
returns `src[:n]` with the error), and a single digit left over is
`ErrLength`. -/
def hex.Decode : List UInt8 → List UInt8 × Option hex.Error
  | [] => ([], none)
  | [p] =>
    match hex.fromHexChar p with
    | none => ([], some (.InvalidByteError p))
    | some _ => ([], some .ErrLength)
  | p :: q :: rest =>
    match hex.fromHexChar p, hex.fromHexChar q with
    | none, _ => ([], some (.InvalidByteError p))
    | some _, none => ([], some (.InvalidByteError q))
    | some a, some b =>
      ((UInt8.ofNat (a * 16 + b)) :: (hex.Decode rest).1, (hex.Decode rest).2)

/-- Go `hex.DecodeString`. -/
def hex.DecodeString (s : String) : List UInt8 × Option hex.Error :=
  hex.Decode (utf8 s)

/-- Go `strings.TrimPrefix(s, "0x")`, on the bytes of the string. -/
def trimHexPrefix (s : List UInt8) : List UInt8 :=
  match s with
  | 48 :: 120 :: rest => rest
  | _ => s

/-- Go `copy(dst[lo:hi], src)` for `lo <= hi <= len(dst)`: as many bytes
of `src` as fit between `lo` and `hi` overwrite `dst` from `lo` on. -/
def copyInto (dst : List UInt8) (lo hi : Nat) (src : List UInt8) : List UInt8 :=
  dst.take lo ++ src.take (min (hi - lo) src.length)
    ++ dst.drop (lo + min (hi - lo) src.length)

/-! ## Signature helpers (`web3/helpers.go`, `gasless_client.go`, `web3_client.go`) -/

/-- The errors of `SplitSignature`: the `fmt.Errorf` of line 45 with the
hex error it wraps, of line 49 with the length, and of line 61 with the
recovery byte. -/
inductive SplitSignatureError where
  | invalidSignatureHex : hex.Error → SplitSignatureError
  | invalidSignatureLength : Nat → SplitSignatureError
  | invalidSignatureV : Nat → SplitSignatureError
deriving DecidableEq, Repr

/-- Lines 56-63 of `SplitSignature` on the `uint8` recovery byte. -/
def splitV (v : Nat) : Except SplitSignatureError Nat :=
  if v < 27 then
    if v = 0 ∨ v = 1 then .ok ((v + 27) % 256)
    else .error (.invalidSignatureV v)
  else .ok v

/-- Function `SplitSignature`, lines 41-66: `r`, `s` and the recovery byte.
-/
def SplitSignature (signatureHex : String) :
    Except SplitSignatureError (List UInt8 × List UInt8 × Nat) :=
  let signatureHex := trimHexPrefix (utf8 signatureHex)
  match hex.Decode signatureHex with
  | (_, some err) => .error (.invalidSignatureHex err)
  | (sigBytes, none) =>
    if sigBytes.length ≠ 65 then .error (.invalidSignatureLength sigBytes.length)
    else
      let r := copyInto (List.replicate 32 0) 0 32 (sigBytes.take 32)
      let s := copyInto (List.replicate 32 0) 0 32 ((sigBytes.drop 32).take 32)
      match splitV (sigBytes.getD 64 0).toNat with
      | .error err => .error err
      | .ok v => .ok (r, s, v)

/-- The switch of lines 71-76 of `GetPackedSignature` on the `uint8`
recovery byte. -/
def packedV (v : Nat) : Nat :=
  if v = 0 ∨ v = 1 then (v + 31) % 256
  else if v = 27 ∨ v = 28 then (v + 4) % 256
  else v

/-- Function `GetPackedSignature`, lines 69-83. -/
def GetPackedSignature (r s : Bytes32) (v : UInt8) : List UInt8 :=
  let v := UInt8.ofNat (packedV v.toNat)
  let packed := List.replicate 65 (0 : UInt8)
  let packed := copyInto packed 0 32 r.bytes
  let packed := copyInto packed 32 64 s.bytes
  packed.set 64 v

/-- The switch of lines 289-295 of `buildSafeRelayTransaction` on the
recovery byte `sig[64]`. -/
def safeRelayV (v : Nat) : Nat :=
  if v = 0 ∨ v = 27 then 31
  else if v = 1 ∨ v = 28 then 32
  else v

/-- The adjustment of lines 190-196 of `buildSafeTransaction`
(`web3_client.go`) on the recovery byte `sig[64]`. -/
def safeTransactionV (v : Nat) : Nat :=
  if v = 0 ∨ v = 1 then (v + 31) % 256
  else if v = 27 ∨ v = 28 then (v + 4) % 256
  else v

/-- The adjustment of lines 239-242 of `buildProxyRelayTransaction` and
692-695 of `buildBatchProxyRelayTransaction` on the recovery byte `sig[64]`.
-/
def proxyRelayV (v : Nat) : Nat :=
  if v < 27 then (v + 27) % 256 else v

/-- The statement `sig[64] = f(sig[64])` on a signature: the signature
with its byte 64 replaced; a signature of fewer than 65 bytes is the index
panic. -/
def adjustRecoveryByte (f : Nat → Nat) (sig : List UInt8) : Except String (List UInt8) :=
  match sig.get? 64 with
  | none =>
    .error ("panic: runtime error: index out of range [64] with length " ++ toString sig.length)
  | some v => .ok (sig.set 64 (UInt8.ofNat (f v.toNat)))

/-! ## Index sets (`web3/helpers.go`) -/

/-- Function `GetMarketIndex`, lines 14-24. -/
def GetMarketIndex (questionID : String) : Int :=
  let questionID := utf8 questionID
  if questionID.length < 2 then 0
  else
    let hexStr := questionID.drop (questionID.length - 2)
    match (hex.Decode hexStr).1 with
    | b :: _ => (b.toNat : Int)
    | [] => 0

/-- Go `x << n` on `int` for a count `n >= 0`: the low 64 bits of the
shifted value, read as a two's complement number. -/
def shlInt (x : Int) (n : Nat) : Int := wrapInt (x * 2 ^ n)

/-- Go `x | y` on `int`: the bitwise or of the two 64-bit two's complement
patterns, read as a two's complement number. -/
def orInt (x y : Int) : Int := wrapInt (((x % 2 ^ 64).toNat ||| (y % 2 ^ 64).toNat : Nat))

/-- The loop body of `GetIndexSet`, lines 31-35: the index set and the
`seen` map (the list of its keys) after one question id. -/
def indexSetStep (state : Int × List Int) (qid : String) : Int × List Int :=
  let idx := GetMarketIndex qid
  if state.2.contains idx then state
  else (orInt state.1 (shlInt 1 idx.toNat), idx :: state.2)

/-- Function `GetIndexSet`, lines 27-38. -/
def GetIndexSet (questionIDs : List String) : Int :=
  (questionIDs.foldl indexSetStep (0, [])).1

/-! ## Position conversion (`gasless_client.go`, `web3_client.go`) -/

/-- What `ConvertPositions` uses of go-ethereum, of the ABI and of
`helpers.go`: `ToWei` (arithmetic on `big.Float`), `common.HexToHash` on the
bytes of a Go string, the constant `NegRiskAdapterAddress`, and
`NegRiskAdapterABI.Pack("convertPositions", ...)`. -/
structure ConvertEnv (F : Type) where
  ToWei : F → Int → Int
  HexToHash : List UInt8 → Bytes32
  NegRiskAdapterAddress : Address
  PackConvertPositions : Bytes32 → Int → Int → Except String (List UInt8)

/-- The panic of the index expression `questionIDs[0]` on an empty slice.
-/
def indexOutOfRange : String := "panic: runtime error: index out of range [0] with length 0"

/-- The panic of the slice expression `s[:len(s)-2]` on a string of fewer
than two bytes. -/
def sliceBoundsOutOfRange (len : Nat) : String :=
  "panic: runtime error: slice bounds out of range [:" ++ Itoa ((len : Int) - 2) ++ "]"

/-- Lines 529-537 of `PolymarketGaslessWeb3Client.ConvertPositions`, the
same as lines 379-387 of `PolymarketWeb3Client.ConvertPositions`: the
target contract and the call data handed to `c.Execute`. -/
def convertCall {F : Type} (V : ConvertEnv F) (questionIDs : List String) (amount : F) :
    Except String (Address × List UInt8) :=
  let amountInt := V.ToWei amount 6
  match questionIDs with
  | [] => .error indexOutOfRange
  | first :: _ =>
    if (utf8 first).length < 2 then .error (sliceBoundsOutOfRange (utf8 first).length)
    else
      let negRiskMarketID :=
        V.HexToHash ((utf8 first).take ((utf8 first).length - 2) ++ utf8 "00")
      let indexSet := GetIndexSet questionIDs
      let to_ := V.NegRiskAdapterAddress
      match V.PackConvertPositions negRiskMarketID indexSet amountInt with
      | .error err => .error err
      | .ok data => .ok (to_, data)

/-- Function `PolymarketGaslessWeb3Client.ConvertPositions`, lines 528-540;
`Execute` is the method `c.Execute` of the gasless client. -/
def PolymarketGaslessWeb3Client.ConvertPositions {F R : Type} (V : ConvertEnv F)
    (Execute : Address → List UInt8 → String → String → Except String R)
    (questionIDs : List String) (amount : F) : Except String R :=
  match convertCall V questionIDs amount with
  | .error err => .error err
  | .ok (to_, data) => Execute to_ data "Convert Positions" "convert"

/-- Function `PolymarketWeb3Client.ConvertPositions`, lines 378-390 of
`web3_client.go`; `Execute` is the method `c.Execute` of the gas-paying
client. -/
def PolymarketWeb3Client.ConvertPositions {F R : Type} (V : ConvertEnv F)
    (Execute : Address → List UInt8 → String → Except String R)
    (questionIDs : List String) (amount : F) : Except String R :=
  match convertCall V questionIDs amount with
  | .error err => .error err
  | .ok (to_, data) => Execute to_ data "Convert Positions"

/-- A conversion environment for concrete runs: the hash of a text is its
bytes cut or padded with zeros to 32, the call data is the hash followed by
the bytes of the index set, the amount is scaled by a million. -/
def sampleConvertEnv : ConvertEnv Int where
  ToWei := fun amount decimals => amount * 10 ^ decimals.toNat
  HexToHash := fun s => ⟨(s ++ List.replicate 32 0).take 32, by simp⟩
  NegRiskAdapterAddress := ⟨List.replicate 20 1, by simp⟩
  PackConvertPositions := fun h indexSet _ => .ok (h.bytes ++ bigIntBytes indexSet)

/-! ## Order objects (`utilities.go`) -/

/-- Type `model.SignedOrder` of go-order-utils, as `OrderToJSONWithPostOnly`
reads it: the `*big.Int` fields are integers, the addresses 20 bytes, and a
nil signature is `none`. -/
structure SignedOrder where
  Salt : Int
  Maker : Address
  Signer : Address
  Taker : Address
  TokenId : Int
  MakerAmount : Int
  TakerAmount : Int
  Expiration : Int
  Nonce : Int
  FeeRateBps : Int
  Side : Int
  SignatureType : Int
  Signature : Option (List UInt8)

/-- The map `orderDict` of lines 119-133, a field per key; the signature
is a Go string, kept as its bytes. -/
structure OrderDict where
  salt : Int
  maker : String
  signer : String
  taker : String
  tokenId : String
  makerAmount : String
  takerAmount : String
  expiration : String
  nonce : String
  feeRateBps : String
  side : String
  signatureType : Int
  signature : List UInt8
deriving DecidableEq, Repr

/-- The map returned at lines 134-139, a field per key. -/
structure OrderObject where
  order : OrderDict
  owner : String
  orderType : String
  postOnly : Bool
deriving DecidableEq, Repr

/-- What `OrderToJSONWithPostOnly` uses of the libraries:
`base64.StdEncoding.DecodeString` on the bytes of a Go string, and
`Address.Hex` and `common.HexToAddress` of go-ethereum. -/
structure JSONEnv where
  base64Decode : List UInt8 → Except String (List UInt8)
  Hex : Address → String
  HexToAddress : String → Address

/-- Lines 86-103 of `OrderToJSONWithPostOnly`: the text of the signature.
-/
def signatureText (J : JSONEnv) (signature : Option (List UInt8)) : List UInt8 :=
  match signature with
  | none => []
  | some sig =>
    let sigStr := sig
    if (utf8 "0x").isPrefixOf sigStr then sigStr
    else
      match J.base64Decode sigStr with
      | .ok decoded => utf8 "0x" ++ hex.Encode decoded
      | .error _ => utf8 "0x" ++ hex.Encode sig

/-- Function `OrderToJSONWithPostOnly`, lines 85-140. -/
def OrderToJSONWithPostOnly (J : JSONEnv) (order : SignedOrder) (owner orderType : String)
    (postOnly : Bool) : OrderObject :=
  let signatureHex := signatureText J order.Signature
  let makerAddr := J.HexToAddress (J.Hex order.Maker)
  let takerAddr := J.HexToAddress (J.Hex order.Taker)
  let signerAddr := J.HexToAddress (J.Hex order.Signer)
  let sideStr := if wrapInt order.Side = 1 then "SELL" else "BUY"
  let orderDict : OrderDict :=
    { salt := wrapInt order.Salt
      maker := J.Hex makerAddr
      signer := J.Hex signerAddr
      taker := J.Hex takerAddr
      tokenId := Itoa order.TokenId
      makerAmount := Itoa order.MakerAmount
      takerAmount := Itoa order.TakerAmount
      expiration := Itoa order.Expiration
      nonce := Itoa order.Nonce
      feeRateBps := Itoa order.FeeRateBps
      side := sideStr
      signatureType := wrapInt order.SignatureType
      signature := signatureHex }
  { order := orderDict, owner := owner, orderType := orderType, postOnly := postOnly }

/-- Function `OrderToJSON`, lines 80-82. -/
def OrderToJSON (J : JSONEnv) (order : SignedOrder) (owner orderType : String) : OrderObject :=
  OrderToJSONWithPostOnly J order owner orderType false

/-- The library functions for concrete runs: no text is valid base64, an
address is shown as the hex text of its bytes and read back as in
`sampleEthCommon`. -/
def sampleJSONEnv : JSONEnv where
  base64Decode := fun _ => .error "illegal base64 data at input byte 0"
  Hex := fun a => "0x" ++ hex.EncodeToString a.bytes
  HexToAddress := sampleEthCommon.HexToAddress

/-- A signed order for concrete runs with the given signature. -/
def sampleSignedOrder (signature : Option (List UInt8)) : SignedOrder :=
  { Salt := 7, Maker := ⟨List.replicate 20 1, by simp⟩, Signer := ⟨List.replicate 20 2, by simp⟩,
    Taker := ⟨List.replicate 20 0, by simp⟩, TokenId := 123, MakerAmount := 5500000,
    TakerAmount := 10000000, Expiration := 0, Nonce := 0, FeeRateBps := 10, Side := 0,
    SignatureType := 1, Signature := signature }

/-- A market service whose fee rate is 0, otherwise as `sampleMarket`. -/
def zeroFeeMarket : MarketService where
  fetchTickSize := fun _ => .ok "0.01"
  fetchNegRisk := fun _ => .ok false
  fetchFeeRate := fun _ => .ok 0
  fetchOrderBook := fun _ => .ok ⟨[], sampleAsks⟩

/-! ## The L1 auth message (`signing_internal.go`) -/

/-- Go `strings.HasPrefix`. -/
def HasPrefix (s pre : String) : Bool := pre.data.isPrefixOf s.data

/-- What `SignClobAuthMessage` and `CreateLevel1Headers` use and the
sources do not hold: the constants `CLOBDomainName`, `CLOBVersion` and
`MsgToSign`, `crypto.Keccak256Hash`, `common.HexToAddress` and `Address.Hex`
of go-ethereum, and of the `Signer` its chain id and its method `Sign`, which
is handed bytes and returns the signature as text. -/
structure AuthEnv where
  CLOBDomainName : String
  CLOBVersion : String
  MsgToSign : String
  Keccak256Hash : List UInt8 → Bytes32
  HexToAddress : String → Address
  Hex : Address → String
  GetChainID : Signer → Int
  Sign : Signer → List UInt8 → Except String String

/-- Lines 25-88 of `SignClobAuthMessage`: the hash `authStructHash` that
is handed to the signer. -/
def authStructHash (E : AuthEnv) (signer : Signer) (timestamp nonce : Int) : Bytes32 :=
  let domainNameHash := E.Keccak256Hash (utf8 E.CLOBDomainName)
  let domainVersionHash := E.Keccak256Hash (utf8 E.CLOBVersion)
  let chainID := wrapInt (E.GetChainID signer)
  let eip712DomainTypeHash :=
    E.Keccak256Hash (utf8 "EIP712Domain(string name,string version,uint256 chainId)")
  let domainData := List.replicate 96 (0 : UInt8)
  let domainData := copyInto domainData 0 32 domainNameHash.bytes
  let domainData := copyInto domainData 32 64 domainVersionHash.bytes
  let domainData := copyInto domainData 64 96 (LeftPadBytes (bigIntBytes chainID) 32)
  let domainHashBytes := eip712DomainTypeHash.bytes ++ domainData
  let domainSeparator := E.Keccak256Hash domainHashBytes
  let address := E.HexToAddress signer.address
  let timestampStr := Itoa timestamp
  let nonceBig := wrapInt nonce
  let typeHash := E.Keccak256Hash
    (utf8 "ClobAuth(address address,string timestamp,uint256 nonce,string message)")
  let timestampHash := E.Keccak256Hash (utf8 timestampStr)
  let messageStrHash := E.Keccak256Hash (utf8 E.MsgToSign)
  let encoded := List.replicate 128 (0 : UInt8)
  let encoded := copyInto encoded 0 32 (LeftPadBytes address.bytes 32)
  let encoded := copyInto encoded 32 64 timestampHash.bytes
  let encoded := copyInto encoded 64 96 (LeftPadBytes (bigIntBytes nonceBig) 32)
  let encoded := copyInto encoded 96 128 messageStrHash.bytes
  let structHashBytes := typeHash.bytes ++ encoded
  let structHash := E.Keccak256Hash structHashBytes
  let prefix_ : List UInt8 := [0x19, 0x01]
  let signableBytes := prefix_ ++ domainSeparator.bytes
  let signableBytes := signableBytes ++ structHash.bytes
  E.Keccak256Hash signableBytes

/-- Function `SignClobAuthMessage`, lines 21-104; a nil signer is the nil
dereference of line 27. -/
def SignClobAuthMessage (E : AuthEnv) (signer : Option Signer) (timestamp nonce : Int) :
    Except String String :=
  match signer with
  | none => .error nilDereference
  | some signer =>
    match E.Sign signer (authStructHash E signer timestamp nonce).bytes with
    | .error err => .error err
    | .ok signature =>
      if !HasPrefix signature "0x" then .ok ("0x" ++ signature) else .ok signature

/-- Function `CreateLevel1Headers`, lines 150-183, with the clock reading
`time.Now().Unix()` as the argument `now`; the header map is a list of name
and value pairs, and the debug print is left out. -/
def CreateLevel1Headers (K : Consts) (E : AuthEnv) (now : Int) (signer : Option Signer)
    (nonce : Option Int) : Except String (List (String × String)) :=
  let timestamp := now
  let n := match nonce with
    | some n => n
    | none => 0
  match SignClobAuthMessage E signer timestamp n with
  | .error err => .error err
  | .ok signature =>
    match signer with
    | none => .error nilDereference
    | some signer =>
      let address := E.HexToAddress signer.address
      .ok [(K.PolyAddress, E.Hex address), (K.PolySignature, signature),
        (K.PolyTimestamp, Itoa timestamp), (K.PolyNonce, Itoa n)]

/-- The digest of the L1 auth message in the words of the specification
(section 4.3): the hash of the bytes 0x19 0x01, the domain separator and the
struct hash, where the domain separator is the hash of the domain type hash,
the hashes of name and version and the chain id as a 32-byte word, and the
struct hash is the hash of the message type hash, the address padded on the
left to 32 bytes, the hash of the decimal timestamp, the nonce as a 32-byte
big-endian word and the hash of the message constant. -/
def clobAuthDigest (E : AuthEnv) (signer : Signer) (timestamp nonce : Int) : Bytes32 :=
  let domainSeparator := E.Keccak256Hash
    ((E.Keccak256Hash
        (utf8 "EIP712Domain(string name,string version,uint256 chainId)")).bytes
      ++ (E.Keccak256Hash (utf8 E.CLOBDomainName)).bytes
      ++ (E.Keccak256Hash (utf8 E.CLOBVersion)).bytes
      ++ beWord 32 (E.GetChainID signer).toNat)
  let structHash := E.Keccak256Hash
    ((E.Keccak256Hash
        (utf8 "ClobAuth(address address,string timestamp,uint256 nonce,string message)")).bytes
      ++ (List.replicate 12 0 ++ (E.HexToAddress signer.address).bytes)
      ++ (E.Keccak256Hash (utf8 (Itoa timestamp))).bytes
      ++ beWord 32 nonce.toNat
      ++ (E.Keccak256Hash (utf8 E.MsgToSign)).bytes)
  E.Keccak256Hash ([0x19, 0x01] ++ domainSeparator.bytes ++ structHash.bytes)

/-- An environment for concrete runs: the hash of a byte string is the
32-byte word of a polynomial checksum, the signer of chain 137 signs by
writing out the bytes it is handed as hex digits, without a "0x". -/
def sampleAuthEnv : AuthEnv where
  CLOBDomainName := "ClobAuthDomain"
  CLOBVersion := "1"
  MsgToSign := "This message attests that I control the given wallet"
  Keccak256Hash := fun bs =>
    ⟨(beWord 32 (bs.foldl (fun (h : Nat) (b : UInt8) => (h * 257 + b.toNat + 1) % 2 ^ 256) 0)
      ++ List.replicate 32 0).take 32, by simp⟩
  HexToAddress := sampleEthCommon.HexToAddress
  Hex := fun a => "0x" ++ hex.EncodeToString a.bytes
  GetChainID := fun _ => 137
  Sign := fun _ digest => .ok (hex.EncodeToString digest)

/-! ## The gasless relay (`web3/gasless_client.go`): data -/

deriving instance DecidableEq for Address
deriving instance DecidableEq for Bytes32

/-- Type `ProxyCall` of `web3/types.go`. -/
structure ProxyCall where
  TypeCode : Nat
  To : Address
  Value : Int
  Data : List UInt8
deriving DecidableEq

/-- Type `RelayConfig` of `web3/types.go`. -/
structure RelayConfig where
  RelayURL : String
  SignURL : String
  RelayHub : String
  RelayAddress : String
deriving DecidableEq, Repr

/-- Type `RelaySubmitRequest` of `web3/types.go`; the map `SignatureParams`
is a list of key and value, the field `Type` is `Type_`. -/
structure RelaySubmitRequest where
  Data : String
  From : String
  Metadata : String
  Nonce : String
  ProxyWallet : String
  Signature : String
  SignatureParams : List (String × String)
  To : String
  Type_ : String
deriving DecidableEq, Repr

/-- Type `RelayResponse` of `web3/types.go`. -/
structure RelayResponse where
  TransactionHash : String
  TransactionID : String
  State : String
deriving DecidableEq, Repr

/-- What the code reads of an `http.Response`: the status code and the
body. -/
structure HttpResponse where
  StatusCode : Int
  Body : String
deriving DecidableEq, Repr

/-- Type `RedeemRequest`, lines 543-547. -/
structure RedeemRequest (F : Type) where
  ConditionID : Bytes32
  Amounts : List F
  NegRisk : Bool

/-- What the gasless client does outside the process: a request of the
HTTP client (`Get` of a URL, `Post` of a body to a URL, `Do` of a request
with method, URL, headers and body) or a call of the Ethereum client
(`EstimateGas` from an address to an address with data, `CallContract` to an
address with data, `TransactionReceipt` of a hash). -/
inductive RelayEvent where
  | httpGet : String → RelayEvent
  | httpPost : String → String → RelayEvent
  | httpDo : String → String → List (String × String) → String → RelayEvent
  | estimateGas : Address → Address → List UInt8 → RelayEvent
  | callContract : Address → List UInt8 → RelayEvent
  | transactionReceipt : Bytes32 → RelayEvent
deriving DecidableEq

/-- The fields of `PolymarketGaslessWeb3Client` and of the
`BaseWeb3Client` in it that the relay path reads; the private key is in
`RelayWorld.Sign`, the HTTP and Ethereum clients are the `RelayWorld`. -/
structure GaslessClient where
  account : Address
  signatureType : Int
  USDCAddress : Address
  ConditionalTokensAddress : Address
  ExchangeAddress : Address
  ProxyFactoryAddress : Address
  relayConfig : RelayConfig
  builderCreds : Option ApiCreds

/-- What the relay path calls and the sources do not hold: go-ethereum
(`common`, `Address.Hex`, `Hash.Hex`, `common.HexToHash`, `crypto.Keccak256`,
`crypto.Sign` with the client's key, the `Pack` and `Unpack` of the ABIs, the
Ethereum client with the receipt the `k`-th poll of a hash finds), the two
float computations `uint64(float64(gas)*1.3)` and `uint64(float64(gas)*1.5)`,
`ToWei`, the HTTP client, `strconv.Atoi`, the JSON decoders, the clock, and
the primitives of the HMAC signer with `json.Marshal` of a request. -/
structure RelayWorld (F Rc R : Type) where
  common : EthCommon
  Hex : Address → String
  HashHex : Bytes32 → String
  HexToHash : String → Bytes32
  Keccak256 : List UInt8 → Bytes32
  Sign : List UInt8 → Except String (List UInt8)
  gasTimes13 : Nat → Nat
  gasTimes15 : Nat → Nat
  ToWei : F → Int → Int
  PackProxy : List ProxyCall → Except String (List UInt8)
  PackGetPolyProxyWalletAddress : Address → Except String (List UInt8)
  UnpackAddress : List UInt8 → Except String Address
  PackRedeemNegRisk : Bytes32 → List Int → Except String (List UInt8)
  PackRedeem : Address → Bytes32 → Bytes32 → List Int → Except String (List UInt8)
  EstimateGas : Address → Address → List UInt8 → Except String Nat
  CallContract : Address → List UInt8 → Except String (List UInt8)
  TransactionReceipt : Bytes32 → Nat → Except String Rc
  FromEthReceipt : Rc → Address → R
  Get : String → Except String HttpResponse
  Post : String → String → String → Except String HttpResponse
  NewRequest : String → String → Except String Unit
  Do : String → String → List (String × String) → String → Except String HttpResponse
  Atoi : String → Except String Int
  MarshalSignPayload : String → String → String → Except String String
  decodeRelayPayload : String → Except String (String × String)
  decodeHeaders : String → Except String (List (String × String))
  decodeRelayResponse : String → Except String RelayResponse
  now : Int
  primitives : Primitives RelaySubmitRequest

/-- The result of a step of the relay path and the events it caused, in
order. -/
structure Run (α : Type) where
  result : Except String α
  trace : List RelayEvent

/-- A step followed by what is done with its value: an error ends the
path, the events add up. -/
def Run.bind {α β : Type} (m : Run α) (f : α → Run β) : Run β :=
  match m.result with
  | .error err => ⟨.error err, m.trace⟩
  | .ok a => ⟨(f a).result, m.trace ++ (f a).trace⟩

/-- A step without events. -/
def Run.pure {α : Type} (r : Except String α) : Run α := ⟨r, []⟩

/-- Constant `SignatureTypePolyProxy` of `web3/types.go`. -/
def SignatureTypePolyProxy : Int := 1

/-- Constant `SignatureTypeSafe` of `web3/types.go`. -/
def SignatureTypeSafe : Int := 2

/-- Constant `HashZero` of `base_client.go`. -/
def HashZero : Bytes32 := ⟨List.replicate 32 0, by simp⟩

/-- Constant `NegRiskAdapterAddress` of `base_client.go`. -/
def NegRiskAdapterAddress (C : EthCommon) : Address :=
  C.HexToAddress "0xd91E80cF2E7be2e162c6513ceD06f1dD0dA35296"

/-- Function `Keccak256Hash` of `helpers.go`, lines 133-135. -/
def Keccak256Hash {F Rc R : Type} (W : RelayWorld F Rc R) (data : List UInt8) : String :=
  "0x" ++ hex.EncodeToString (W.Keccak256 data).bytes

/-- Go `uint64` addition: the sum wraps at `2^64`. -/
def addUint64 (x y : Nat) : Nat := (x + y) % 2 ^ 64

/-- Go `strconv.FormatUint(x, 10)`. -/
def FormatUint (x : Nat) : String := toString x

/-! ## The gasless relay: building the meta-transaction -/

/-- Function `getRelayPayload`, lines 149-177. -/
def getRelayPayload {F Rc R : Type} (W : RelayWorld F Rc R) (c : GaslessClient)
    (walletType : String) : Run (String × Int) :=
  let url := c.relayConfig.RelayURL ++ "/relay-payload?address=" ++ W.Hex c.account
    ++ "&type=" ++ walletType
  match W.Get url with
  | .error err => ⟨.error ("failed to get relay payload: " ++ err), [.httpGet url]⟩
  | .ok resp =>
    if resp.StatusCode ≠ 200 then
      ⟨.error ("failed to get relay payload: " ++ resp.Body), [.httpGet url]⟩
    else
      match W.decodeRelayPayload resp.Body with
      | .error err =>
        ⟨.error ("failed to decode relay payload response: " ++ err), [.httpGet url]⟩
      | .ok (address, nonce) =>
        match W.Atoi nonce with
        | .error err => ⟨.error ("invalid nonce value: " ++ err), [.httpGet url]⟩
        | .ok nonceInt => ⟨.ok (address, nonceInt), [.httpGet url]⟩

/-- Function `BaseWeb3Client.GetPolyProxyAddress`, lines 182-207 of
`base_client.go`. -/
def GetPolyProxyAddress {F Rc R : Type} (W : RelayWorld F Rc R) (c : GaslessClient)
    (address : Address) : Run Address :=
  match W.PackGetPolyProxyWalletAddress address with
  | .error err => ⟨.error ("failed to pack call data: " ++ err), []⟩
  | .ok data =>
    match W.CallContract c.ExchangeAddress data with
    | .error err =>
      ⟨.error ("failed to call contract: " ++ err), [.callContract c.ExchangeAddress data]⟩
    | .ok result =>
      match W.UnpackAddress result with
      | .error err =>
        ⟨.error ("failed to unpack result: " ++ err), [.callContract c.ExchangeAddress data]⟩
      | .ok proxyAddress => ⟨.ok proxyAddress, [.callContract c.ExchangeAddress data]⟩

/-- The signing of lines 218-243, the same as lines 671-696: the struct
of `CreateProxyStruct`, its hash, the hash of the prefixed message, the
signature of the client's key with the recovery byte adjusted, as hex text.
-/
def signProxyStruct {F Rc R : Type} (W : RelayWorld F Rc R) (c : GaslessClient)
    (encodedTxnHex relayerFee gasPrice gasLimit nonce relayAddress : String) :
    Except String String :=
  match CreateProxyStruct W.common (W.Hex c.account) (W.Hex c.ProxyFactoryAddress)
      encodedTxnHex relayerFee gasPrice gasLimit nonce c.relayConfig.RelayHub
      relayAddress with
  | .error err => .error err
  | .ok structBytes =>
    let structHash := Keccak256Hash W structBytes
    let prefixedHash := W.Keccak256
      (utf8 "\x19Ethereum Signed Message:\n32" ++ W.common.FromHex structHash)
    match W.Sign prefixedHash.bytes with
    | .error err => .error ("failed to sign: " ++ err)
    | .ok sig =>
      match adjustRecoveryByte proxyRelayV sig with
      | .error err => .error err
      | .ok sig => .ok ("0x" ++ hex.EncodeToString sig)

/-- Lines 181-266 of `buildProxyRelayTransaction`, which are lines 642-719
of `buildBatchProxyRelayTransaction` but for the calls that are packed, the
text of the encoding error, the gas limit without an estimate and the gas
limit made of an estimate. -/
def proxyRelayTransaction {F Rc R : Type} (W : RelayWorld F Rc R) (c : GaslessClient)
    (calls : List ProxyCall) (metadata encodeError fallbackGas : String)
    (gasOf : Nat → Nat) : Run RelaySubmitRequest :=
  (getRelayPayload W c "PROXY").bind fun payload =>
    let relayAddress := payload.1
    let proxyNonce := payload.2
    let gasPrice := "0"
    let relayerFee := "0"
    match W.PackProxy calls with
    | .error err => Run.pure (.error (encodeError ++ err))
    | .ok proxyData =>
      let encodedTxnHex := "0x" ++ hex.EncodeToString proxyData
      let gasLimit :=
        match W.EstimateGas c.account c.ProxyFactoryAddress proxyData with
        | .error _ => fallbackGas
        | .ok gas => FormatUint (gasOf gas)
      Run.bind ⟨.ok (), [.estimateGas c.account c.ProxyFactoryAddress proxyData]⟩ fun _ =>
        match signProxyStruct W c encodedTxnHex relayerFee gasPrice gasLimit
            (Itoa proxyNonce) relayAddress with
        | .error err => Run.pure (.error err)
        | .ok signature =>
          (GetPolyProxyAddress W c c.account).bind fun proxyWalletAddr =>
            Run.pure (.ok
              { Data := encodedTxnHex
                From := W.Hex c.account
                Metadata := metadata
                Nonce := Itoa proxyNonce
                ProxyWallet := W.Hex proxyWalletAddr
                Signature := signature
                SignatureParams :=
                  [("gasPrice", gasPrice), ("gasLimit", gasLimit), ("relayerFee", relayerFee),
                    ("relayHub", c.relayConfig.RelayHub), ("relay", relayAddress)]
                To := W.Hex c.ProxyFactoryAddress
                Type_ := "PROXY" })

/-- Function `buildProxyRelayTransaction`, lines 180-267. -/
def buildProxyRelayTransaction {F Rc R : Type} (W : RelayWorld F Rc R) (c : GaslessClient)
    (to_ : Address) (data : List UInt8) (metadata : String) : Run RelaySubmitRequest :=
  proxyRelayTransaction W c [⟨1, to_, 0, data⟩] metadata
    "failed to encode proxy transaction: " "10000000"
    fun gas => addUint64 (W.gasTimes13 gas) 100000

/-- Function `buildBatchProxyRelayTransaction`, lines 641-720. -/
def buildBatchProxyRelayTransaction {F Rc R : Type} (W : RelayWorld F Rc R)
    (c : GaslessClient) (calls : List ProxyCall) (metadata : String) :
    Run RelaySubmitRequest :=
  proxyRelayTransaction W c calls metadata
    "failed to encode batch proxy transaction: " "15000000"
    fun gas => addUint64 (W.gasTimes15 gas) 200000

/-! ## The gasless relay: headers, submission, batches -/

/-- Function `CreateBuilderHeaders`, lines 226-254 of `signing_internal.go`,
with the clock reading as the argument `now`; the header names are the
constants of lines 218-223. -/
def CreateBuilderHeaders {V : Type} (P : Primitives V) (now : Int) (creds : Option ApiCreds)
    (requestArgs : RequestArgs V) : Except String (List (String × String)) :=
  let timestamp := now
  let bodyForSig : Body V :=
    match requestArgs.SerializedBody with
    | some s => .str s
    | none => requestArgs.Body
  match creds with
  | none => .error nilDereference
  | some creds =>
    match BuildHMACSignature P creds.APISecret timestamp requestArgs.Method
        requestArgs.RequestPath bodyForSig with
    | .error err => .error err
    | .ok hmacSig =>
      .ok [("POLY_BUILDER_SIGNATURE", hmacSig), ("POLY_BUILDER_TIMESTAMP", Itoa timestamp),
        ("POLY_BUILDER_API_KEY", creds.APIKey), ("POLY_BUILDER_PASSPHRASE", creds.APIPassphrase)]

/-- Function `getRelayHeaders`, lines 358-409. -/
def getRelayHeaders {F Rc R : Type} (W : RelayWorld F Rc R) (c : GaslessClient)
    (body : RelaySubmitRequest) : Run (List (String × String)) :=
  match W.primitives.Marshal body with
  | .error err => Run.pure (.error err)
  | .ok bodyJSON =>
    match c.builderCreds with
    | none =>
      match W.MarshalSignPayload "POST" "/submit" bodyJSON with
      | .error err => Run.pure (.error err)
      | .ok payloadJSON =>
        match W.Post c.relayConfig.SignURL "application/json" payloadJSON with
        | .error err =>
          ⟨.error ("failed to get headers from sign server: " ++ err),
            [.httpPost c.relayConfig.SignURL payloadJSON]⟩
        | .ok resp =>
          if resp.StatusCode ≠ 200 then
            ⟨.error ("sign server error: " ++ resp.Body),
              [.httpPost c.relayConfig.SignURL payloadJSON]⟩
          else
            match W.decodeHeaders resp.Body with
            | .error err =>
              ⟨.error ("failed to decode headers: " ++ err),
                [.httpPost c.relayConfig.SignURL payloadJSON]⟩
            | .ok headers => ⟨.ok headers, [.httpPost c.relayConfig.SignURL payloadJSON]⟩
    | some creds =>
      Run.pure
        (CreateBuilderHeaders W.primitives W.now (some creds)
          ⟨"POST", "/submit", .other body, none⟩)

/-- Function `submitToRelay`, lines 412-446; the headers of the request
are the content type and the given ones. -/
def submitToRelay {F Rc R : Type} (W : RelayWorld F Rc R) (c : GaslessClient)
    (body : RelaySubmitRequest) (headers : List (String × String)) : Run RelayResponse :=
  match W.primitives.Marshal body with
  | .error err => Run.pure (.error err)
  | .ok bodyJSON =>
    let url := c.relayConfig.RelayURL ++ "/submit"
    match W.NewRequest "POST" url with
    | .error err => Run.pure (.error err)
    | .ok _ =>
      let reqHeaders := ("Content-Type", "application/json") :: headers
      match W.Do "POST" url reqHeaders bodyJSON with
      | .error err =>
        ⟨.error ("failed to submit to relay: " ++ err), [.httpDo "POST" url reqHeaders bodyJSON]⟩
      | .ok resp =>
        if resp.StatusCode ≠ 200 then
          ⟨.error ("relay error: " ++ resp.Body), [.httpDo "POST" url reqHeaders bodyJSON]⟩
        else
          match W.decodeRelayResponse resp.Body with
          | .error err =>
            ⟨.error ("failed to decode relay response: " ++ err),
              [.httpDo "POST" url reqHeaders bodyJSON]⟩
          | .ok result => ⟨.ok result, [.httpDo "POST" url reqHeaders bodyJSON]⟩

/-- Function `waitForReceipt`, lines 449-457: the loop polls until a poll
finds the receipt; `fuel` bounds the polls that are followed, `k` counts the
polls made, and `none` is a loop that is still polling when the fuel is
spent. -/
def waitForReceipt {F Rc R : Type} (W : RelayWorld F Rc R) (c : GaslessClient)
    (txHash : Bytes32) : Nat → Nat → Run (Option R)
  | 0, _ => ⟨.ok none, []⟩
  | fuel + 1, k =>
    match W.TransactionReceipt txHash k with
    | .ok receipt =>
      ⟨.ok (some (W.FromEthReceipt receipt c.account)), [.transactionReceipt txHash]⟩
    | .error _ =>
      ⟨(waitForReceipt W c txHash fuel (k + 1)).result,
        .transactionReceipt txHash :: (waitForReceipt W c txHash fuel (k + 1)).trace⟩

/-- The text of a `*RelayResponse` under the verb `%+v`. -/
def showRelayResponse (resp : RelayResponse) : String :=
  "&\x7bTransactionHash:" ++ resp.TransactionHash ++ " TransactionID:" ++ resp.TransactionID
    ++ " State:" ++ resp.State ++ "\x7d"

/-- Function `ExecuteBatch`, lines 591-638; the prints to the standard
output are left out, so the operation name is not read. -/
def ExecuteBatch {F Rc R : Type} (W : RelayWorld F Rc R) (c : GaslessClient)
    (calls : List ProxyCall) (_operationName metadata : String) (fuel : Nat) :
    Run (Option R) :=
  if c.signatureType = SignatureTypePolyProxy then
    (buildBatchProxyRelayTransaction W c calls metadata).bind fun body =>
      (getRelayHeaders W c body).bind fun headers =>
        (submitToRelay W c body headers).bind fun resp =>
          if resp.TransactionHash ≠ "" then
            waitForReceipt W c (W.HexToHash resp.TransactionHash) fuel 0
          else
            Run.pure (.error ("no transaction hash in response: " ++ showRelayResponse resp))
  else Run.pure (.error "batch execution only supports PolyProxy signature type")

/-- The loop body of `RedeemPositions`, lines 560-584: the proxy call of
one request. -/
def redeemCall {F Rc R : Type} (W : RelayWorld F Rc R) (c : GaslessClient)
    (req : RedeemRequest F) : Except String ProxyCall :=
  let encoded : Address × Except String (List UInt8) :=
    if req.NegRisk then
      (NegRiskAdapterAddress W.common,
        W.PackRedeemNegRisk req.ConditionID (req.Amounts.map fun amt => W.ToWei amt 6))
    else
      (c.ConditionalTokensAddress, W.PackRedeem c.USDCAddress HashZero req.ConditionID [1, 2])
  match encoded.2 with
  | .error err =>
    .error ("failed to encode redeem for condition " ++ W.HashHex req.ConditionID ++ ": "
      ++ err)
  | .ok data => .ok ⟨1, encoded.1, 0, data⟩

/-- The loop of `RedeemPositions`, lines 559-585, from the calls appended
so far. -/
def redeemCalls {F Rc R : Type} (W : RelayWorld F Rc R) (c : GaslessClient) :
    List (RedeemRequest F) → List ProxyCall → Except String (List ProxyCall)
  | [], calls => .ok calls
  | req :: rest, calls =>
    match redeemCall W c req with
    | .error err => .error err
    | .ok call => redeemCalls W c rest (calls ++ [call])

/-- Function `RedeemPositions`, lines 551-588. -/
def RedeemPositions {F Rc R : Type} (W : RelayWorld F Rc R) (c : GaslessClient)
    (requests : List (RedeemRequest F)) (fuel : Nat) : Run (Option R) :=
  if requests.length = 0 then Run.pure (.error "no redeem requests provided")
  else
    match redeemCalls W c requests [] with
    | .error err => Run.pure (.error err)
    | .ok calls => ExecuteBatch W c calls "Batch Redeem Positions" "batch_redeem" fuel

/-! ## The gasless relay: a world for concrete runs -/

/-- A world for concrete runs.  The relay answers the payload request with
the relay address "0xrelay" and the nonce "7", and a submission with the
transaction hash "0xhash"; the gas estimate is 1000 when `estimate` is set
and fails otherwise; the second poll finds the receipt; packing a list of
calls writes the type code and the data of each; hashes, signatures and
JSON texts are short stand-ins. -/
def sampleRelayWorld (estimate : Bool) : RelayWorld Int String String where
  common := sampleEthCommon
  Hex := fun a => "0x" ++ hex.EncodeToString a.bytes
  HashHex := fun h => "0x" ++ hex.EncodeToString h.bytes
  HexToHash := fun s => ⟨(utf8 s ++ List.replicate 32 0).take 32, by simp⟩
  Keccak256 := sampleAuthEnv.Keccak256Hash
  Sign := fun digest => .ok (digest ++ digest ++ [1])
  gasTimes13 := fun gas => gas * 13 / 10
  gasTimes15 := fun gas => gas * 15 / 10
  ToWei := fun amount decimals => amount * 10 ^ decimals.toNat
  PackProxy := fun calls => .ok (calls.flatMap fun call => UInt8.ofNat call.TypeCode :: call.Data)
  PackGetPolyProxyWalletAddress := fun a => .ok a.bytes
  UnpackAddress := fun bs => .ok ⟨(bs ++ List.replicate 20 0).take 20, by simp⟩
  PackRedeemNegRisk := fun h amounts => .ok (2 :: h.bytes.take 2 ++ amounts.map fun a => UInt8.ofNat a.toNat)
  PackRedeem := fun _ _ h _ => .ok (1 :: h.bytes.take 2)
  EstimateGas := fun _ _ _ => if estimate then .ok 1000 else .error "execution reverted"
  CallContract := fun _ data => .ok data
  TransactionReceipt := fun _ k => if k = 1 then .ok "receipt" else .error "not found"
  FromEthReceipt := fun receipt _ => receipt
  Get := fun _ => .ok ⟨200, "payload"⟩
  Post := fun _ _ _ => .ok ⟨200, "headers"⟩
  NewRequest := fun _ _ => .ok ()
  Do := fun _ _ _ _ => .ok ⟨200, "submitted"⟩
  Atoi := fun s => match SetString10 s with
    | some n => .ok n
    | none => .error "invalid syntax"
  MarshalSignPayload := fun method path body => .ok (method ++ " " ++ path ++ " " ++ body)
  decodeRelayPayload := fun _ => .ok ("0xrelay", "7")
  decodeHeaders := fun _ => .ok [("POLY_BUILDER_SIGNATURE", "fromserver")]
  decodeRelayResponse := fun _ => .ok ⟨"0xhash", "id-1", "STATE_NEW"⟩
  now := 1700000000
  primitives :=
    { DecodeString := fun s => .ok (utf8 s)
      EncodeToString := hex.EncodeToString
      hmacSha256 := fun key message => (sampleAuthEnv.Keccak256Hash (key ++ message)).bytes
      Marshal := fun req => .ok (req.Data ++ "|" ++ req.Nonce ++ "|" ++ req.Signature) }

/-- A proxy-wallet client for concrete runs, without builder credentials.
-/
def sampleGaslessClient : GaslessClient :=
  { account := ⟨List.replicate 20 1, by simp⟩
    signatureType := 1
    USDCAddress := ⟨List.replicate 20 2, by simp⟩
    ConditionalTokensAddress := ⟨List.replicate 20 3, by simp⟩
    ExchangeAddress := ⟨List.replicate 20 4, by simp⟩
    ProxyFactoryAddress := ⟨List.replicate 20 5, by simp⟩
    relayConfig := ⟨"https://relay.example", "https://sign.example", "0xhub", "0xunused"⟩
    builderCreds := none }

/-- Two redeem requests for concrete runs: one on a neg-risk market, one
not. -/
def sampleRedeemRequests : List (RedeemRequest Int) :=
  [⟨⟨List.replicate 32 9, by simp⟩, [1, 2], true⟩, ⟨⟨List.replicate 32 8, by simp⟩, [], false⟩]

/-- An event is a `Get` of the HTTP client. -/
def RelayEvent.isGet : RelayEvent → Bool
  | .httpGet _ => true
  | _ => false

/-- An event is a submission to the relay: a `Do` of a request. -/
def RelayEvent.isSubmit : RelayEvent → Bool
  | .httpDo _ _ _ _ => true
  | _ => false

/-- The URL of the relay payload of a client for a wallet type, line 150.
-/
def relayPayloadURL {F Rc R : Type} (W : RelayWorld F Rc R) (c : GaslessClient)
    (walletType : String) : String :=
  c.relayConfig.RelayURL ++ "/relay-payload?address=" ++ W.Hex c.account ++ "&type="
    ++ walletType

/-- The values of a relay request are the ones its signature covers: the
signature parameters are gas price, gas limit, relayer fee, relay hub and
relay; `CreateProxyStruct` of the request's `From`, `To` and `Data`, of these
five values and of the request's `Nonce` gives the bytes whose prefixed hash
was signed by the client's key, and the request's signature is that
signature with the recovery byte adjusted; the data is the hex text of the
packed calls, and the gas limit is the fallback text when the estimate
failed and the text of the number made of the estimate otherwise. -/
def CoveredBySignature {F Rc R : Type} (W : RelayWorld F Rc R) (c : GaslessClient)
    (calls : List ProxyCall) (fallbackGas : String) (gasOf : Nat → Nat)
    (req : RelaySubmitRequest) : Prop :=
  ∃ gasPrice gasLimit relayerFee relayHub relay proxyData structBytes sig adjusted,
    req.SignatureParams
        = [("gasPrice", gasPrice), ("gasLimit", gasLimit), ("relayerFee", relayerFee),
            ("relayHub", relayHub), ("relay", relay)]
      ∧ CreateProxyStruct W.common req.From req.To req.Data relayerFee gasPrice gasLimit
          req.Nonce relayHub relay = .ok structBytes
      ∧ W.Sign (W.Keccak256 (utf8 "\x19Ethereum Signed Message:\n32"
          ++ W.common.FromHex (Keccak256Hash W structBytes))).bytes = .ok sig
      ∧ adjustRecoveryByte proxyRelayV sig = .ok adjusted
      ∧ req.Signature = "0x" ++ hex.EncodeToString adjusted
      ∧ W.PackProxy calls = .ok proxyData
      ∧ req.Data = "0x" ++ hex.EncodeToString proxyData
      ∧ ((∃ err, W.EstimateGas c.account c.ProxyFactoryAddress proxyData = .error err)
            ∧ gasLimit = fallbackGas
          ∨ ∃ gas, W.EstimateGas c.account c.ProxyFactoryAddress proxyData = .ok gas
            ∧ gasLimit = FormatUint (gasOf gas))

/-- The request `buildProxyRelayTransaction` returns in the sample world
without a gas estimate, for a call with the data 1, 2, 3. -/
def sampleProxyRequest : RelaySubmitRequest :=
  { Data := "0x01010203"
    From := "0x0101010101010101010101010101010101010101"
    Metadata := "redeem"
    Nonce := "7"
    ProxyWallet := "0x0101010101010101010101010101010101010101"
    Signature := "0xed441c6d46fe8dc97764761d5090cbc73fbf5fd58aaec4b34dfd951b04ce7ae9"
      ++ "ed441c6d46fe8dc97764761d5090cbc73fbf5fd58aaec4b34dfd951b04ce7ae91c"
    SignatureParams :=
      [("gasPrice", "0"), ("gasLimit", "10000000"), ("relayerFee", "0"), ("relayHub", "0xhub"),
        ("relay", "0xrelay")]
    To := "0x0505050505050505050505050505050505050505"
    Type_ := "PROXY" }

/-! ## float64 (IEEE 754 binary64, round to nearest, ties to even) -/

/-- A Go `float64`: `finite neg m e` is the value `(-1)^neg * m * 2^e`, with
a significand below `2^53` and an exponent from -1074 to 971 (a zero has
significand 0 and keeps its sign); the two infinities; NaN.  A value may
have several such forms; the operations compare values, not forms. -/
inductive Float64 where
  | finite (neg : Bool) (m : Nat) (e : Int) (hm : m < 2 ^ 53) (he : -1074 ≤ e ∧ e ≤ 971)
  | inf (neg : Bool)
  | nan
deriving DecidableEq

namespace Float64

/-- The value is NaN. -/
def isNaN : Float64 → Bool
  | nan => true
  | _ => false

/-- The exact value of a finite float64 as a fraction.  An infinity reads
as `2^1024` (written `16^256`) with its sign, which is beyond every finite
float64 and so keeps the order; NaN, which is not ordered, reads as 0. -/
def toDec : Float64 → Dec
  | finite neg m e _ _ =>
    if 0 ≤ e then ⟨(if neg then -1 else 1) * ((m * 2 ^ e.toNat : Nat) : Int), 1, Nat.one_pos⟩
    else ⟨(if neg then -1 else 1) * (m : Int), 2 ^ (-e).toNat, Nat.pos_pow_of_pos _ (by decide)⟩
  | inf neg => ⟨(if neg then -1 else 1) * ((16 ^ 256 : Nat) : Int), 1, Nat.one_pos⟩
  | nan => Dec.ofInt 0

/-- The exact value as a rational number, with the conventions of `toDec`. -/
def toRat (x : Float64) : ℚ := (toDec x).toRat

/-- The zero of the given sign. -/
def zero (neg : Bool) : Float64 := finite neg 0 0 (by decide) (by decide)

/-- The number of binary digits of `n`, with `fuel` at least that number. -/
def bitLength : Nat → Nat → Nat
  | 0, _ => 0
  | fuel + 1, n => if n = 0 then 0 else bitLength fuel (n / 2) + 1

/-- The exponent of the float64 nearest to `num / den`, for positive `num`
and `den`: the floor of the binary logarithm of the quotient less 52, so that
the significand has 53 bits, but at least -1074. -/
def roundExponent (num den : Nat) : Int :=
  let k : Int := (bitLength num num : Int) - (bitLength den den : Int)
  let reaches : Bool :=
    if 0 ≤ k then decide (den * 2 ^ k.toNat ≤ num) else decide (den ≤ num * 2 ^ (-k).toNat)
  let l : Int := if reaches then k else k - 1
  max (l - 52) (-1074)

/-- The significand at exponent `e`: the quotient `num / (den * 2^e)`
rounded to the nearest integer, to the even one in a tie. -/
def roundSignificand (num den : Nat) (e : Int) : Nat :=
  let n1 : Nat := if 0 ≤ e then num else num * 2 ^ (-e).toNat
  let d1 : Nat := if 0 ≤ e then den * 2 ^ e.toNat else den
  let q := n1 / d1
  let r := n1 % d1
  if 2 * r < d1 then q else if d1 < 2 * r then q + 1 else if q % 2 = 0 then q else q + 1

/-- The float64 `(-1)^neg * m * 2^e` for a rounded significand: a
significand 0 is the zero, the significand `2^53` is `2^52` at the next
exponent, and an exponent above 971 gives the infinity. -/
def pack (neg : Bool) (m : Nat) (e : Int) : Float64 :=
  if m = 0 then zero neg
  else if h : m < 2 ^ 53 ∧ -1074 ≤ e ∧ e ≤ 971 then finite neg m e h.1 h.2
  else if h : m = 2 ^ 53 ∧ -1074 ≤ e + 1 ∧ e + 1 ≤ 971 then
    finite neg (2 ^ 52) (e + 1) (by decide) h.2
  else inf neg

/-- The float64 nearest to `(-1)^neg * num / den`, for a positive `den`,
ties going to the even significand; a value that rounds to nothing gives the
zero and one that rounds beyond the largest finite float64 the infinity, of
the given sign. -/
def round (neg : Bool) (num den : Nat) : Float64 :=
  if num = 0 then zero neg
  else pack neg (roundSignificand num den (roundExponent num den)) (roundExponent num den)

/-- The float64 nearest to an exact fraction; an exact zero gets the given
sign. -/
def ofDec (d : Dec) (zeroNeg : Bool) : Float64 :=
  if d.num = 0 then zero zeroNeg else round (decide (d.num < 0)) d.num.natAbs d.den


/-- The sign bit. -/
def signBit : Float64 → Bool
  | finite neg _ _ _ _ => neg
  | inf neg => neg
  | nan => false

/-- The value is a zero. -/
def isZero : Float64 → Bool
  | finite _ m _ _ _ => m == 0
  | _ => false

/-- Go `-x`: the sign is flipped. -/
def neg : Float64 → Float64
  | finite s m e hm he => finite (!s) m e hm he
  | inf s => inf (!s)
  | nan => nan

/-- Go `x + y` on float64: NaN when an operand is NaN or the operands are
opposite infinities; an infinity when one operand is; else the exact sum
rounded, an exact zero being negative only when both operands are. -/
def add (x y : Float64) : Float64 :=
  match x, y with
  | nan, _ => nan
  | _, nan => nan
  | inf s, inf t => if s = t then inf s else nan
  | inf s, finite _ _ _ _ _ => inf s
  | finite _ _ _ _ _, inf t => inf t
  | finite s m e hm he, finite t n f hn hf =>
    ofDec (Dec.add (toDec (finite s m e hm he)) (toDec (finite t n f hn hf))) (s && t)

/-- Go `x - y` on float64: `x + (-y)`. -/
def sub (x y : Float64) : Float64 := add x (neg y)

/-- Go `x * y` on float64: NaN when an operand is NaN or a zero meets an
infinity; else the sign is the exclusive or of the signs and the value the
exact product rounded. -/
def mul (x y : Float64) : Float64 :=
  match x, y with
  | nan, _ => nan
  | _, nan => nan
  | inf s, inf t => inf (xor s t)
  | inf s, finite t n _ _ _ => if n = 0 then nan else inf (xor s t)
  | finite s m _ _ _, inf t => if m = 0 then nan else inf (xor s t)
  | finite s m e hm he, finite t n f hn hf =>
    ofDec (Dec.mul (toDec (finite s m e hm he)) (toDec (finite t n f hn hf))) (xor s t)

/-- Go `x / y` on float64: NaN when an operand is NaN and for 0/0 and
infinity/infinity; a non-zero value over a zero and an infinity over a finite
value are an infinity, a finite value over an infinity is a zero; else the
exact quotient rounded; the sign is the exclusive or of the signs. -/
def div (x y : Float64) : Float64 :=
  match x, y with
  | nan, _ => nan
  | _, nan => nan
  | inf _, inf _ => nan
  | inf s, finite t _ _ _ _ => inf (xor s t)
  | finite s _ _ _ _, inf t => zero (xor s t)
  | finite s m e hm he, finite t n f hn hf =>
    if n = 0 then (if m = 0 then nan else inf (xor s t))
    else
      round (xor s t)
        ((toDec (finite s m e hm he)).num.natAbs * (toDec (finite t n f hn hf)).den)
        ((toDec (finite s m e hm he)).den * (toDec (finite t n f hn hf)).num.natAbs)

/-- Go `x <= y` on float64: false when an operand is NaN. -/
def le (x y : Float64) : Bool := !x.isNaN && !y.isNaN && Dec.le (toDec x) (toDec y)

/-- Go `x >= y` on float64. -/
def ge (x y : Float64) : Bool := le y x

/-- Go `x < y` on float64: false when an operand is NaN. -/
def lt (x y : Float64) : Bool := !x.isNaN && !y.isNaN && Dec.lt (toDec x) (toDec y)

/-- The literal `1.0`. -/
def one : Float64 := finite false (2 ^ 52) (-52) (by decide) (by decide)

/-! ### `strconv.ParseFloat(s, 64)` -/

/-- The value of a digit of the mantissa: a decimal digit, or in a
hexadecimal mantissa also a letter from a to f in either case. -/
def digitValue (hex : Bool) (c : Char) : Option Nat :=
  if '0' ≤ c ∧ c ≤ '9' then some (c.toNat - 48)
  else if hex = true ∧ 'a' ≤ c ∧ c ≤ 'f' then some (c.toNat - 87)
  else if hex = true ∧ 'A' ≤ c ∧ c ≤ 'F' then some (c.toNat - 55)
  else none

/-- What the digit loop of `readFloat` has read: the digits as one integer,
the number of digits after the point, and the flags `sawdot`, `sawdigits`
and `underscores`. -/
structure Digits where
  value : Nat
  fraction : Nat
  sawdot : Bool
  sawdigits : Bool
  underscores : Bool
deriving DecidableEq, Repr

/-- The digit loop of `readFloat`: underscores are skipped and noted, the
first point is accepted, digits are accumulated, anything else (a second
point too) ends the loop.  The result is what was read and the rest of the
string. -/
def readDigits (hex : Bool) : List Char → Digits → Digits × List Char
  | [], st => (st, [])
  | c :: cs, st =>
    if c = '_' then readDigits hex cs { st with underscores := true }
    else if c = '.' then
      if st.sawdot then (st, c :: cs) else readDigits hex cs { st with sawdot := true }
    else
      match digitValue hex c with
      | some d =>
        readDigits hex cs
          { st with
            value := st.value * (if hex then 16 else 10) + d
            fraction := if st.sawdot then st.fraction + 1 else st.fraction
            sawdigits := true }
      | none => (st, c :: cs)

/-- The digits of the exponent in `readFloat`: decimal digits and
underscores; the exponent stops growing once it has reached 10000. -/
def readExponent : List Char → Nat → Bool → Nat × Bool × List Char
  | [], e, u => (e, u, [])
  | c :: cs, e, u =>
    if c = '_' then readExponent cs e true
    else if '0' ≤ c ∧ c ≤ '9' then
      readExponent cs (if e < 10000 then e * 10 + (c.toNat - 48) else e) u
    else (e, u, c :: cs)

/-- The loop of `underscoreOK` over the number proper: `saw` is the kind of
the last character, `'0'` for a digit or the base prefix, `'_'` for an
underscore, `'!'` for anything else, `'^'` at the start. -/
def underscoreLoop (hex : Bool) : List Char → Char → Bool
  | [], saw => saw != '_'
  | c :: cs, saw =>
    if (digitValue hex c).isSome then underscoreLoop hex cs '0'
    else if c = '_' then
      if saw != '0' then false else underscoreLoop hex cs '_'
    else if saw = '_' then false
    else underscoreLoop hex cs '!'

/-- Function `underscoreOK` of `strconv`: an underscore may stand only
between digits or between a base prefix and a digit. -/
def underscoreOK (s : List Char) : Bool :=
  let s := if s.head? = some '-' ∨ s.head? = some '+' then s.tail else s
  match s with
  | z :: p :: cs =>
    if z = '0' ∧ (p = 'b' ∨ p = 'B' ∨ p = 'o' ∨ p = 'O' ∨ p = 'x' ∨ p = 'X') then
      underscoreLoop (p = 'x' ∨ p = 'X') cs '0'
    else underscoreLoop false (z :: p :: cs) '^'
  | cs => underscoreLoop false cs '^'

/-- What `readFloat` finds in a well-formed prefix: the sign, the base, the
digits as an integer, the number of digits after the point, the exponent
(of 10, or of 2 after a hexadecimal mantissa), and what is left of the
string. -/
structure Numeral where
  neg : Bool
  hex : Bool
  value : Nat
  fraction : Nat
  exponent : Int
  rest : List Char
deriving DecidableEq, Repr

/-- Function `readFloat` of `strconv`: an optional sign, an optional `0x`
that is followed by at least one more character, the mantissa, and the
exponent, which a hexadecimal mantissa must have; `none` is its result
`ok = false`. -/
def readFloat (s : List Char) : Option Numeral :=
  let neg : Bool := s.head? = some '-'
  let body : List Char := if s.head? = some '-' ∨ s.head? = some '+' then s.tail else s
  let hex : Bool :=
    match body with
    | z :: x :: _ :: _ => z = '0' ∧ (x = 'x' ∨ x = 'X')
    | _ => false
  let digits := readDigits hex (if hex then body.drop 2 else body) ⟨0, 0, false, false, false⟩
  if !digits.1.sawdigits then none
  else
    let finish (exponent : Int) (underscores : Bool) (rest : List Char) : Option Numeral :=
      if underscores && !underscoreOK (s.take (s.length - rest.length)) then none
      else some ⟨neg, hex, digits.1.value, digits.1.fraction, exponent, rest⟩
    match digits.2 with
    | c :: cs =>
      if (hex = true ∧ (c = 'p' ∨ c = 'P')) ∨ (hex = false ∧ (c = 'e' ∨ c = 'E')) then
        let esign : Int := if cs.head? = some '-' then -1 else 1
        let ds : List Char := if cs.head? = some '-' ∨ cs.head? = some '+' then cs.tail else cs
        match ds with
        | d :: _ =>
          if '0' ≤ d ∧ d ≤ '9' then
            let r := readExponent ds 0 digits.1.underscores
            finish (esign * (r.1 : Int)) r.2.1 r.2.2
          else none
        | [] => none
      else if hex then none
      else finish 0 digits.1.underscores (c :: cs)
    | [] => if hex then none else finish 0 digits.1.underscores []

/-- Function `commonPrefixLenIgnoreCase` of `strconv`, for a lower-case
`pattern`. -/
def commonPrefixLenIgnoreCase : List Char → List Char → Nat
  | c :: cs, p :: ps =>
    if (if 'A' ≤ c ∧ c ≤ 'Z' then Char.ofNat (c.toNat + 32) else c) = p then
      commonPrefixLenIgnoreCase cs ps + 1
    else 0
  | _, _ => 0

/-- Function `special` of `strconv`: the value and the number of characters
read when the string starts with an optionally signed "inf" or "infinity",
or with an unsigned "nan", in any case of the letters. -/
def special (s : List Char) : Option (Float64 × Nat) :=
  let infinity (neg : Bool) (nsign : Nat) (cs : List Char) : Option (Float64 × Nat) :=
    let n := commonPrefixLenIgnoreCase cs "infinity".toList
    let n := if 3 < n ∧ n < 8 then 3 else n
    if n = 3 ∨ n = 8 then some (inf neg, nsign + n) else none
  match s with
  | [] => none
  | c :: cs =>
    if c = '+' then infinity false 1 cs
    else if c = '-' then infinity true 1 cs
    else if c = 'i' ∨ c = 'I' then infinity false 0 s
    else if c = 'n' ∨ c = 'N' then
      if commonPrefixLenIgnoreCase s "nan".toList = 3 then some (nan, 3) else none
    else none

/-- The value `strconv.ParseFloat(s, 64)` returns, its error discarded: the
special value or the float64 nearest to the numeral when the whole string is
one; the infinity when the numeral is out of range; 0 when the string is not
well formed. -/
def ParseFloat (s : String) : Float64 :=
  let cs := s.toList
  match special cs with
  | some (v, n) => if n = cs.length then v else zero false
  | none =>
    match readFloat cs with
    | none => zero false
    | some r =>
      if r.rest ≠ [] then zero false
      else
        let base : Nat := if r.hex then 2 else 10
        let shift : Int := if r.hex then r.exponent - 4 * r.fraction else r.exponent - r.fraction
        if r.value = 0 then zero r.neg
        else if 0 ≤ shift then round r.neg (r.value * base ^ shift.toNat) 1
        else round r.neg r.value (base ^ (-shift).toNat)

/-- The rendering `%.6f` of `fmt` for a float64: "NaN", "+Inf", "-Inf", or
the sign and the exact value rounded to six places, to the even digit in a
tie. -/
def Sprintf6 : Float64 → String
  | nan => "NaN"
  | inf neg => if neg then "-Inf" else "+Inf"
  | finite neg m e hm he =>
    let v := toDec (finite false m e hm he)
    let n := v.num.natAbs * 10 ^ 6
    let q := n / v.den
    let r := n % v.den
    let u := if 2 * r < v.den then q else if v.den < 2 * r then q + 1
      else if q % 2 = 0 then q else q + 1
    (if neg then "-" else "") ++ toString (u / 10 ^ 6) ++ "." ++ Dec.sixDigits u

end Float64

/-- The float64 primitives with given rounding helpers (the helpers are
functions of package `order_builder` whose source file is not among the
sources). -/
def float64ArithWith (RoundNormal RoundDown RoundUp : Float64 → Int → Float64)
    (DecimalPlaces ToTokenDecimals : Float64 → Int) : Arith Float64 where
  mul := Float64.mul
  div := Float64.div
  sub := Float64.sub
  ge := Float64.ge
  le := Float64.le
  one := Float64.one
  ParseFloat := Float64.ParseFloat
  RoundNormal := RoundNormal
  RoundDown := RoundDown
  RoundUp := RoundUp
  DecimalPlaces := DecimalPlaces
  ToTokenDecimals := ToTokenDecimals

/-- The float64 primitives for runs of the functions that call no rounding
helper (`PriceValid` and the walks over the book): the helper fields, never
called there, are constant. -/
def float64Arith : Arith Float64 :=
  float64ArithWith (fun x _ => x) (fun x _ => x) (fun x _ => x) (fun _ => 0) (fun _ => 0)

/-- The further float64 primitives: the literal `0`, `+`, `<` and `%.6f`. -/
def float64Ops : FloatOps Float64 where
  zero := Float64.zero false
  add := Float64.add
  lt := Float64.lt
  Sprintf6 := Float64.Sprintf6

/-! ## Running totals, lossless amounts, signed fee rates -/

/-- The running totals of a walk over the levels in walking order, a level
weighing `weight level`: the total after each level. -/
def runningTotals {F : Type} (X : FloatOps F) (weight : OrderSummary → F) :
    List OrderSummary → F → List F
  | [], _ => []
  | level :: rest, total =>
    X.add total (weight level) :: runningTotals X weight rest (X.add total (weight level))

/-- The raw amounts of an order lose nothing under a reading `val` of the
numbers: the raw collateral amount is the raw token amount times the price,
and both raw amounts are converted to token units without truncation. -/
def Lossless {F : Type} (A : Arith F) (val : F → ℚ) (price tokens collateral : F) : Prop :=
  val collateral = val tokens * val price
    ∧ ((A.ToTokenDecimals tokens : Int) : ℚ) = val tokens * 10 ^ 6
    ∧ ((A.ToTokenDecimals collateral : Int) : ℚ) = val collateral * 10 ^ 6

/-- The fee-rate text of the order an event hands to the signing library. -/
def Event.signedFeeRate : Event → Option String
  | .signing d => some d.FeeRateBps
  | _ => none

/-! ## Exact decimal arithmetic is sound for the rationals -/

theorem Dec.toRat_ofInt (n : Int) : (Dec.ofInt n).toRat = n := by
  simp [Dec.toRat, Dec.ofInt]

theorem Dec.le_iff (x y : Dec) : Dec.le x y = true ↔ x.toRat ≤ y.toRat := by
  have hx : (0 : ℚ) < x.den := by exact_mod_cast x.den_pos
  have hy : (0 : ℚ) < y.den := by exact_mod_cast y.den_pos
  simp only [Dec.le, Dec.toRat, decide_eq_true_eq]
  rw [div_le_div_iff₀ hx hy]
  exact_mod_cast Iff.rfl

theorem Dec.toRat_sub (x y : Dec) : (Dec.sub x y).toRat = x.toRat - y.toRat := by
  have hx : (x.den : ℚ) ≠ 0 := Nat.cast_ne_zero.mpr x.den_pos.ne.symm
  have hy : (y.den : ℚ) ≠ 0 := Nat.cast_ne_zero.mpr y.den_pos.ne.symm
  simp only [Dec.sub, Dec.toRat]
  push_cast
  field_simp
  ring

theorem Dec.toRat_mul_pow (x : Dec) (k : Nat) :
    x.toRat * 10 ^ k = ((x.num * 10 ^ k : Int) : ℚ) / (x.den : ℚ) := by
  simp only [Dec.toRat]
  push_cast
  ring

theorem Dec.ToTokenDecimals_eq_truncate (x : Dec) :
    Dec.ToTokenDecimals x = truncate (x.toRat * 10 ^ 6) := by
  have hq : (0 : ℚ) < x.den := by exact_mod_cast x.den_pos
  rw [Dec.toRat_mul_pow]
  unfold truncate Dec.ToTokenDecimals
  by_cases hn : 0 ≤ x.num * 10 ^ 6
  · have h0 : (0 : ℚ) ≤ ((x.num * 10 ^ 6 : Int) : ℚ) / (x.den : ℚ) :=
      div_nonneg (by exact_mod_cast hn) hq.le
    rw [if_pos h0, Rat.floor_intCast_div_natCast]
    exact Int.tdiv_eq_ediv hn (Int.natCast_nonneg _)
  · have hn2 : x.num * 10 ^ 6 < 0 := not_le.mp hn
    have h0 : ¬ (0 : ℚ) ≤ ((x.num * 10 ^ 6 : Int) : ℚ) / (x.den : ℚ) :=
      not_le.mpr (div_neg_of_neg_of_pos (by exact_mod_cast hn2) hq)
    rw [if_neg h0]
    have h1 : ((-(x.num * 10 ^ 6) : Int) : ℚ) / (x.den : ℚ)
        = -(((x.num * 10 ^ 6 : Int) : ℚ) / (x.den : ℚ)) := by
      push_cast
      ring
    have h2 : ⌈((x.num * 10 ^ 6 : Int) : ℚ) / (x.den : ℚ)⌉
        = -⌊((-(x.num * 10 ^ 6) : Int) : ℚ) / (x.den : ℚ)⌋ := by
      rw [h1, Int.floor_neg, neg_neg]
    rw [h2, Rat.floor_intCast_div_natCast]
    have h3 : Int.tdiv (x.num * 10 ^ 6) x.den = -(Int.tdiv (-(x.num * 10 ^ 6)) x.den) := by
      rw [Int.neg_tdiv, neg_neg]
    rw [h3, Int.tdiv_eq_ediv (by omega) (Int.natCast_nonneg _)]

theorem Dec.toRat_RoundDown (x : Dec) (s : Nat) :
    (Dec.RoundDown x (s : Int)).toRat = (⌊x.toRat * 10 ^ s⌋ : ℚ) / 10 ^ s := by
  have h0 : (0 : Int) ≤ (s : Int) := Int.natCast_nonneg s
  rw [Dec.toRat_mul_pow, Rat.floor_intCast_div_natCast]
  simp only [Dec.RoundDown, Dec.unshift, Dec.shift, Dec.floor, h0, if_true, Dec.decimal,
    Int.toNat_ofNat, Dec.toRat]
  push_cast
  rfl

theorem Dec.toRat_RoundUp (x : Dec) (s : Nat) :
    (Dec.RoundUp x (s : Int)).toRat = (⌈x.toRat * 10 ^ s⌉ : ℚ) / 10 ^ s := by
  have h0 : (0 : Int) ≤ (s : Int) := Int.natCast_nonneg s
  have h1 : ((-(x.num * 10 ^ s) : Int) : ℚ) / (x.den : ℚ)
      = -(((x.num * 10 ^ s : Int) : ℚ) / (x.den : ℚ)) := by
    push_cast
    ring
  have h2 : ⌈((x.num * 10 ^ s : Int) : ℚ) / (x.den : ℚ)⌉
      = -⌊((-(x.num * 10 ^ s) : Int) : ℚ) / (x.den : ℚ)⌋ := by
    rw [h1, Int.floor_neg, neg_neg]
  rw [Dec.toRat_mul_pow, h2, Rat.floor_intCast_div_natCast]
  simp only [Dec.RoundUp, Dec.unshift, Dec.shift, Dec.ceil, h0, if_true, Dec.decimal,
    Int.toNat_ofNat, Dec.toRat]
  push_cast
  rfl

theorem Dec.toRat_RoundNormal (x : Dec) (s : Nat) :
    (Dec.RoundNormal x (s : Int)).toRat = (⌊x.toRat * 10 ^ s + 1 / 2⌋ : ℚ) / 10 ^ s := by
  have h0 : (0 : Int) ≤ (s : Int) := Int.natCast_nonneg s
  have hq : (x.den : ℚ) ≠ 0 := Nat.cast_ne_zero.mpr x.den_pos.ne.symm
  have h1 : x.toRat * 10 ^ s + 1 / 2
      = ((2 * (x.num * 10 ^ s) + x.den : Int) : ℚ) / ((2 * x.den : ℕ) : ℚ) := by
    simp only [Dec.toRat]
    push_cast
    field_simp
    ring
  rw [h1, Rat.floor_intCast_div_natCast]
  simp only [Dec.RoundNormal, Dec.unshift, Dec.shift, Dec.floor, h0, if_true, Dec.decimal,
    Int.toNat_ofNat, Dec.toRat]
  push_cast
  rfl

/-! ## The calculator, branch by branch -/

theorem GetOrderAmounts_buy_eq {F : Type} (A : Arith F) (size price : F) (cfg : RoundConfig) :
    GetOrderAmounts A "BUY" size price cfg
      = .ok ⟨BUY,
          A.ToTokenDecimals (twoStageCorrection A
            (A.mul (A.RoundDown size cfg.Size) (A.RoundNormal price cfg.Price)) cfg.Amount),
          A.ToTokenDecimals (A.RoundDown size cfg.Size)⟩ := by
  simp only [GetOrderAmounts, twoStageCorrection, if_true]

theorem GetOrderAmounts_sell_eq {F : Type} (A : Arith F) (size price : F) (cfg : RoundConfig) :
    GetOrderAmounts A "SELL" size price cfg
      = .ok ⟨SELL,
          A.ToTokenDecimals (A.RoundDown size cfg.Size),
          A.ToTokenDecimals (twoStageCorrection A
            (A.mul (A.RoundDown size cfg.Size) (A.RoundNormal price cfg.Price))
            cfg.Amount)⟩ := by
  have h : ¬ ("SELL" = "BUY") := by decide
  simp only [GetOrderAmounts, twoStageCorrection, if_true, if_false, h]

theorem GetMarketOrderAmounts_buy_eq {F : Type} (A : Arith F) (amount price : F)
    (cfg : RoundConfig) :
    GetMarketOrderAmounts A "BUY" amount price cfg
      = .ok ⟨BUY,
          A.ToTokenDecimals (twoStageCorrection A
            (A.mul
              (roundDownIfFiner A
                (A.div (A.RoundDown amount cfg.Size) (A.RoundNormal price cfg.Price))
                cfg.Size)
              (A.RoundNormal price cfg.Price))
            cfg.Amount),
          A.ToTokenDecimals
            (roundDownIfFiner A
              (A.div (A.RoundDown amount cfg.Size) (A.RoundNormal price cfg.Price))
              cfg.Size)⟩ := by
  simp only [GetMarketOrderAmounts, twoStageCorrection, roundDownIfFiner, if_true]

theorem GetMarketOrderAmounts_sell_eq {F : Type} (A : Arith F) (amount price : F)
    (cfg : RoundConfig) :
    GetMarketOrderAmounts A "SELL" amount price cfg
      = .ok ⟨SELL,
          A.ToTokenDecimals (A.RoundDown amount cfg.Size),
          A.ToTokenDecimals (roundDownIfFiner A
            (A.mul (A.RoundDown amount cfg.Size) (A.RoundNormal price cfg.Price))
            cfg.Amount)⟩ := by
  have h : ¬ ("SELL" = "BUY") := by decide
  simp only [GetMarketOrderAmounts, roundDownIfFiner, if_true, if_false, h]

/-! ## Limit orders -/

/-- C1, as stated, fails: a limit BUY of size 2 at price 0.75 under the
rounding config (1,2,3) multiplies by the price rounded to one
place, 0.8, and returns maker amount 1600000, where the input price as
factor gives 1500000. -/
theorem GetOrderAmounts_buy_not_at_input_price :
    GetOrderAmounts decimalArith "BUY" (Dec.ofInt 2) (Dec.decimal 75 2) cfgTenth
        = .ok ⟨0, 1600000, 2000000⟩
      ∧ limitBuyAtInputPrice decimalArith (Dec.ofInt 2) (Dec.decimal 75 2) cfgTenth
        = ⟨0, 1500000, 2000000⟩
      ∧ GetOrderAmounts decimalArith "BUY" (Dec.ofInt 2) (Dec.decimal 75 2) cfgTenth
        ≠ .ok (limitBuyAtInputPrice decimalArith (Dec.ofInt 2) (Dec.decimal 75 2)
            cfgTenth) := by
  decide

/-- C1, amended: for every arithmetic, size, price and rounding config,
`GetOrderAmounts` with side "BUY" returns side BUY, the taker amount of
`t = RoundDown(size, sizePlaces)` and the maker amount of `t * p` after the
two-stage correction at `amountPlaces`, where `p = RoundNormal(price,
pricePlaces)` is the rounded price; in exact decimals the amount of a value
is the value times 10^6, truncated; size 10.0 at price 0.55 under (2,2,4)
gives maker amount 5500000 and taker amount 10000000. -/
theorem GetOrderAmounts_buy {F : Type} (A : Arith F) (size price : F) (cfg : RoundConfig) :
    GetOrderAmounts A "BUY" size price cfg
        = .ok ⟨BUY,
            A.ToTokenDecimals (twoStageCorrection A
              (A.mul (A.RoundDown size cfg.Size) (A.RoundNormal price cfg.Price)) cfg.Amount),
            A.ToTokenDecimals (A.RoundDown size cfg.Size)⟩
      ∧ (∀ v : Dec, decimalArith.ToTokenDecimals v = truncate (v.toRat * 10 ^ 6))
      ∧ GetOrderAmounts decimalArith "BUY" (Dec.decimal 100 1) (Dec.decimal 55 2) cfgCent
        = .ok ⟨0, 5500000, 10000000⟩ :=
  ⟨GetOrderAmounts_buy_eq A size price cfg, Dec.ToTokenDecimals_eq_truncate, by decide⟩

/-- C4, as stated, fails: a limit SELL of size 2 at price 0.75 under the
rounding config (1,2,3) multiplies by the price rounded to one
place, 0.8, and returns taker amount 1600000, where the input price as
factor gives 1500000. -/
theorem GetOrderAmounts_sell_not_at_input_price :
    GetOrderAmounts decimalArith "SELL" (Dec.ofInt 2) (Dec.decimal 75 2) cfgTenth
        = .ok ⟨1, 2000000, 1600000⟩
      ∧ limitSellAtInputPrice decimalArith (Dec.ofInt 2) (Dec.decimal 75 2) cfgTenth
        = ⟨1, 2000000, 1500000⟩
      ∧ GetOrderAmounts decimalArith "SELL" (Dec.ofInt 2) (Dec.decimal 75 2) cfgTenth
        ≠ .ok (limitSellAtInputPrice decimalArith (Dec.ofInt 2) (Dec.decimal 75 2)
            cfgTenth) := by
  decide

/-- C4, amended: for every arithmetic, size, price and rounding config,
`GetOrderAmounts` with side "SELL" returns side SELL, the maker amount of
`m = RoundDown(size, sizePlaces)` and the taker amount of `m * p` after the
two-stage correction at `amountPlaces`, where `p = RoundNormal(price,
pricePlaces)` is the rounded price; in exact decimals the amount of a value
is the value times 10^6, truncated. -/
theorem GetOrderAmounts_sell {F : Type} (A : Arith F) (size price : F) (cfg : RoundConfig) :
    GetOrderAmounts A "SELL" size price cfg
        = .ok ⟨SELL,
            A.ToTokenDecimals (A.RoundDown size cfg.Size),
            A.ToTokenDecimals (twoStageCorrection A
              (A.mul (A.RoundDown size cfg.Size) (A.RoundNormal price cfg.Price))
              cfg.Amount)⟩
      ∧ (∀ v : Dec, decimalArith.ToTokenDecimals v = truncate (v.toRat * 10 ^ 6)) :=
  ⟨GetOrderAmounts_sell_eq A size price cfg, Dec.ToTokenDecimals_eq_truncate⟩

/-! ## Market orders -/

/-- C2, as stated, fails: a market BUY of amount 3 at price 0.75 under the
rounding config (1,2,3) divides by the price rounded to one place,
0.8, and returns taker amount 3750000, where the input price as divisor
gives 4000000. -/
theorem GetMarketOrderAmounts_buy_not_at_input_price :
    GetMarketOrderAmounts decimalArith "BUY" (Dec.ofInt 3) (Dec.decimal 75 2) cfgTenth
        = .ok ⟨0, 3000000, 3750000⟩
      ∧ marketBuyAtInputPrice decimalArith (Dec.ofInt 3) (Dec.decimal 75 2) cfgTenth
        = ⟨0, 3000000, 4000000⟩
      ∧ GetMarketOrderAmounts decimalArith "BUY" (Dec.ofInt 3) (Dec.decimal 75 2) cfgTenth
        ≠ .ok (marketBuyAtInputPrice decimalArith (Dec.ofInt 3) (Dec.decimal 75 2)
            cfgTenth) := by
  decide

/-- C2, amended: for every arithmetic, amount, price and rounding config,
`GetMarketOrderAmounts` with side "BUY" takes the taker `t` as
`RoundDown(amount, sizePlaces) / p`, rounded down to `sizePlaces` places
when it has more, and returns the taker amount of `t` and the maker amount
of `t * p` after the two-stage correction, where `p = RoundNormal(price,
pricePlaces)` is the rounded price; in exact decimals the amount of a value
is the value times 10^6, truncated.  Amount 100 at price 0.50 under (2,2,4)
gives maker amount 100000000 and taker amount 200000000; amount 1 at price
0.30 gives maker amount 999000, not the 1000000 of the rounded amount. -/
theorem GetMarketOrderAmounts_buy {F : Type} (A : Arith F) (amount price : F)
    (cfg : RoundConfig) :
    GetMarketOrderAmounts A "BUY" amount price cfg
        = .ok ⟨BUY,
            A.ToTokenDecimals (twoStageCorrection A
              (A.mul
                (roundDownIfFiner A
                  (A.div (A.RoundDown amount cfg.Size) (A.RoundNormal price cfg.Price))
                  cfg.Size)
                (A.RoundNormal price cfg.Price))
              cfg.Amount),
            A.ToTokenDecimals
              (roundDownIfFiner A
                (A.div (A.RoundDown amount cfg.Size) (A.RoundNormal price cfg.Price))
                cfg.Size)⟩
      ∧ (∀ v : Dec, decimalArith.ToTokenDecimals v = truncate (v.toRat * 10 ^ 6))
      ∧ GetMarketOrderAmounts decimalArith "BUY" (Dec.ofInt 100) (Dec.decimal 50 2) cfgCent
        = .ok ⟨0, 100000000, 200000000⟩
      ∧ GetMarketOrderAmounts decimalArith "BUY" (Dec.ofInt 1) (Dec.decimal 30 2) cfgCent
        = .ok ⟨0, 999000, 3330000⟩ :=
  ⟨GetMarketOrderAmounts_buy_eq A amount price cfg, Dec.ToTokenDecimals_eq_truncate,
    by decide, by decide⟩

/-- C5, as stated, fails: a market SELL of amount 2 at price 0.75 under the
rounding config (1,2,3) multiplies by the price rounded to one
place, 0.8, and returns taker amount 1600000, where the input price as
factor gives 1500000. -/
theorem GetMarketOrderAmounts_sell_not_at_input_price :
    GetMarketOrderAmounts decimalArith "SELL" (Dec.ofInt 2) (Dec.decimal 75 2) cfgTenth
        = .ok ⟨1, 2000000, 1600000⟩
      ∧ marketSellAtInputPrice decimalArith (Dec.ofInt 2) (Dec.decimal 75 2) cfgTenth
        = ⟨1, 2000000, 1500000⟩
      ∧ GetMarketOrderAmounts decimalArith "SELL" (Dec.ofInt 2) (Dec.decimal 75 2) cfgTenth
        ≠ .ok (marketSellAtInputPrice decimalArith (Dec.ofInt 2) (Dec.decimal 75 2)
            cfgTenth) := by
  decide

/-- C5, amended: for every arithmetic, amount, price and rounding config,
`GetMarketOrderAmounts` with side "SELL" returns side SELL, the maker
amount of `m = RoundDown(amount, sizePlaces)` and the taker amount of
`m * p`, rounded down to `amountPlaces` places when it has more and never
rounded up, where `p = RoundNormal(price, pricePlaces)` is the rounded
price; in exact decimals the amount of a value is the value times 10^6,
truncated. -/
theorem GetMarketOrderAmounts_sell {F : Type} (A : Arith F) (amount price : F)
    (cfg : RoundConfig) :
    GetMarketOrderAmounts A "SELL" amount price cfg
        = .ok ⟨SELL,
            A.ToTokenDecimals (A.RoundDown amount cfg.Size),
            A.ToTokenDecimals (roundDownIfFiner A
              (A.mul (A.RoundDown amount cfg.Size) (A.RoundNormal price cfg.Price))
              cfg.Amount)⟩
      ∧ (∀ v : Dec, decimalArith.ToTokenDecimals v = truncate (v.toRat * 10 ^ 6)) :=
  ⟨GetMarketOrderAmounts_sell_eq A amount price cfg, Dec.ToTokenDecimals_eq_truncate⟩

/-! ## Side strings -/

/-- C6: for every arithmetic, numeric arguments and rounding config, a
side string other than "BUY" and "SELL" makes `GetOrderAmounts` and
`GetMarketOrderAmounts` return the error and no amounts, while "BUY" and
"SELL" return amounts whose side is 0 and 1. -/
theorem side_string_decides_error {F : Type} (A : Arith F) (side : String) (x price : F)
    (cfg : RoundConfig) :
    (side ≠ "BUY" → side ≠ "SELL" →
        GetOrderAmounts A side x price cfg = .error sideError
          ∧ GetMarketOrderAmounts A side x price cfg = .error sideError)
      ∧ (∃ m t, GetOrderAmounts A "BUY" x price cfg = .ok ⟨0, m, t⟩)
      ∧ (∃ m t, GetOrderAmounts A "SELL" x price cfg = .ok ⟨1, m, t⟩)
      ∧ (∃ m t, GetMarketOrderAmounts A "BUY" x price cfg = .ok ⟨0, m, t⟩)
      ∧ (∃ m t, GetMarketOrderAmounts A "SELL" x price cfg = .ok ⟨1, m, t⟩) := by
  have h : ¬ ("SELL" = "BUY") := by decide
  refine ⟨fun hb hs => ?_, ?_, ?_, ?_, ?_⟩
  · simp only [GetOrderAmounts, GetMarketOrderAmounts, if_neg hb, if_neg hs, and_self]
  · simp only [GetOrderAmounts, if_true]
    exact ⟨_, _, rfl⟩
  · simp only [GetOrderAmounts, if_true, if_false, h]
    exact ⟨_, _, rfl⟩
  · simp only [GetMarketOrderAmounts, if_true]
    exact ⟨_, _, rfl⟩
  · simp only [GetMarketOrderAmounts, if_true, if_false, h]
    exact ⟨_, _, rfl⟩

/-- C6 at the empty string and the lower-case spellings, in exact decimal
arithmetic: each is an error for both calculators. -/
theorem side_string_decides_error_witness :
    ("" ≠ "BUY" ∧ "" ≠ "SELL" ∧ "buy" ≠ "BUY" ∧ "buy" ≠ "SELL" ∧ "sell" ≠ "BUY"
        ∧ "sell" ≠ "SELL")
      ∧ (GetOrderAmounts decimalArith "" (Dec.ofInt 10) (Dec.decimal 55 2) cfgCent
            = .error sideError
          ∧ GetMarketOrderAmounts decimalArith "" (Dec.ofInt 10) (Dec.decimal 55 2) cfgCent
            = .error sideError)
      ∧ (GetOrderAmounts decimalArith "buy" (Dec.ofInt 10) (Dec.decimal 55 2) cfgCent
            = .error sideError
          ∧ GetMarketOrderAmounts decimalArith "buy" (Dec.ofInt 10) (Dec.decimal 55 2) cfgCent
            = .error sideError)
      ∧ (GetOrderAmounts decimalArith "sell" (Dec.ofInt 10) (Dec.decimal 55 2) cfgCent
            = .error sideError
          ∧ GetMarketOrderAmounts decimalArith "sell" (Dec.ofInt 10) (Dec.decimal 55 2) cfgCent
            = .error sideError) :=
  ⟨by decide,
   (side_string_decides_error decimalArith "" (Dec.ofInt 10) (Dec.decimal 55 2) cfgCent).1
     (by decide) (by decide),
   (side_string_decides_error decimalArith "buy" (Dec.ofInt 10) (Dec.decimal 55 2) cfgCent).1
     (by decide) (by decide),
   (side_string_decides_error decimalArith "sell" (Dec.ofInt 10) (Dec.decimal 55 2) cfgCent).1
     (by decide) (by decide)⟩

/-! ## Price bounds -/

/-- In exact decimal arithmetic, for every price and every tick size `t`
(whatever the parser reads from the tick-size string), `PriceValid` is true
exactly when `t <= price <= 1 - t`; the two bounds `t` and `1 - t` are valid
prices whenever `t <= 1 - t`; with tick size "0.001" the price 0.9999 is
invalid and the prices 0.999 and 0.001, the two bounds, are valid. -/
theorem PriceValid_decimal_iff (parse : String → Dec) (price : Dec) (tickSize : String) :
    (PriceValid (decimalArithWith parse) price tickSize = true
        ↔ (parse tickSize).toRat ≤ price.toRat
          ∧ price.toRat ≤ 1 - (parse tickSize).toRat)
      ∧ ((parse tickSize).toRat ≤ 1 - (parse tickSize).toRat →
          PriceValid (decimalArithWith parse) (parse tickSize) tickSize = true
            ∧ PriceValid (decimalArithWith parse)
                (Dec.sub (Dec.ofInt 1) (parse tickSize)) tickSize = true)
      ∧ PriceValid decimalArith (Dec.decimal 9999 4) "0.001" = false
      ∧ PriceValid decimalArith (Dec.decimal 999 3) "0.001" = true
      ∧ PriceValid decimalArith (Dec.decimal 1 3) "0.001" = true := by
  have key : ∀ q : Dec, PriceValid (decimalArithWith parse) q tickSize = true
      ↔ (parse tickSize).toRat ≤ q.toRat ∧ q.toRat ≤ 1 - (parse tickSize).toRat := by
    intro q
    simp only [PriceValid, decimalArithWith, Dec.ge, Bool.and_eq_true, Dec.le_iff,
      Dec.toRat_sub, Dec.toRat_ofInt, Int.cast_one]
  refine ⟨key price, fun h => ⟨(key _).mpr ⟨le_refl _, h⟩, (key _).mpr ⟨?_, ?_⟩⟩,
    by decide, by decide, by decide⟩
  · rw [Dec.toRat_sub, Dec.toRat_ofInt, Int.cast_one]
    exact h
  · rw [Dec.toRat_sub, Dec.toRat_ofInt, Int.cast_one]

/-! ## float64: order and NaN -/

theorem Float64.le_iff_toRat (x y : Float64) :
    Float64.le x y = true ↔ x.isNaN = false ∧ y.isNaN = false ∧ x.toRat ≤ y.toRat := by
  simp only [Float64.le, Float64.toRat, Bool.and_eq_true, Bool.not_eq_true', Dec.le_iff]
  tauto

theorem Float64.round_isNaN (neg : Bool) (num den : Nat) :
    (Float64.round neg num den).isNaN = false := by
  unfold Float64.round
  split_ifs
  · rfl
  · unfold Float64.pack
    split_ifs <;> rfl

theorem Float64.ofDec_isNaN (d : Dec) (zeroNeg : Bool) :
    (Float64.ofDec d zeroNeg).isNaN = false := by
  unfold Float64.ofDec
  split_ifs
  · rfl
  · exact Float64.round_isNaN _ _ _

theorem Float64.sub_one_isNaN (t : Float64) :
    (Float64.sub Float64.one t).isNaN = t.isNaN := by
  cases t with
  | nan => rfl
  | inf s => rfl
  | finite s m e hm he => exact Float64.ofDec_isNaN _ _

/-! ## Price bounds in float64 -/

/-- C7, as stated, fails.  The upper bound is the float64 difference
`1.0 - t`, not the number `1 - t`.  With tick size "0.064" the price 0.936
is rejected, although 0.064 <= 0.936 <= 1 - 0.064 as decimals: the float64
`1.0 - 0.064` is below the float64 0.936.  With tick size "0.1" the price 0.9
is accepted, although the exact value of the float64 0.9 is above 1 less the
exact value of the float64 0.1. -/
theorem PriceValid_not_exact :
    PriceValid float64Arith (Float64.ParseFloat "0.936") "0.064" = false
      ∧ PriceValid decimalArith (Dec.ParseFloat "0.936") "0.064" = true
      ∧ Float64.lt (Float64.sub Float64.one (Float64.ParseFloat "0.064"))
          (Float64.ParseFloat "0.936") = true
      ∧ PriceValid float64Arith (Float64.ParseFloat "0.9") "0.1" = true
      ∧ Dec.lt (Dec.sub (Dec.ofInt 1) (Float64.ParseFloat "0.1").toDec)
          (Float64.ParseFloat "0.9").toDec = true := by
  decide

/-- C7, amended: for every float64 price and every tick-size string, whose
float64 reading is `t`, `PriceValid` is true exactly when neither is NaN and
`t <= price <= b`, where `b` is the float64 difference `1.0 - t`; the
prices `t` and `b` are both valid whenever `t <= b`.  For the tick sizes
"0.1", "0.01", "0.001" and "0.0001" the bound `b` is the float64 of 0.9,
0.99, 0.999 and 0.9999, and both bounds are valid; with tick size "0.001"
the price 0.9999 is invalid and the price 0.999 is valid.  The rounding
helpers of the arithmetic play no part; `toRat` is the exact value, an
infinity reading as `2^1024` with its sign. -/
theorem PriceValid_float64 (RoundNormal RoundDown RoundUp : Float64 → Int → Float64)
    (DecimalPlaces ToTokenDecimals : Float64 → Int) (price : Float64) (tickSize : String) :
    (PriceValid (float64ArithWith RoundNormal RoundDown RoundUp DecimalPlaces ToTokenDecimals)
          price tickSize = true
        ↔ price.isNaN = false ∧ (Float64.ParseFloat tickSize).isNaN = false
          ∧ (Float64.ParseFloat tickSize).toRat ≤ price.toRat
          ∧ price.toRat
            ≤ (Float64.sub Float64.one (Float64.ParseFloat tickSize)).toRat)
      ∧ ((Float64.ParseFloat tickSize).isNaN = false →
          (Float64.ParseFloat tickSize).toRat
            ≤ (Float64.sub Float64.one (Float64.ParseFloat tickSize)).toRat →
          PriceValid
              (float64ArithWith RoundNormal RoundDown RoundUp DecimalPlaces ToTokenDecimals)
              (Float64.ParseFloat tickSize) tickSize = true
            ∧ PriceValid
                (float64ArithWith RoundNormal RoundDown RoundUp DecimalPlaces ToTokenDecimals)
                (Float64.sub Float64.one (Float64.ParseFloat tickSize)) tickSize = true)
      ∧ (Float64.sub Float64.one (Float64.ParseFloat "0.1") = Float64.ParseFloat "0.9"
        ∧ Float64.sub Float64.one (Float64.ParseFloat "0.01") = Float64.ParseFloat "0.99"
        ∧ Float64.sub Float64.one (Float64.ParseFloat "0.001") = Float64.ParseFloat "0.999"
        ∧ Float64.sub Float64.one (Float64.ParseFloat "0.0001") = Float64.ParseFloat "0.9999")
      ∧ (PriceValid float64Arith (Float64.ParseFloat "0.1") "0.1" = true
        ∧ PriceValid float64Arith (Float64.ParseFloat "0.9") "0.1" = true
        ∧ PriceValid float64Arith (Float64.ParseFloat "0.01") "0.01" = true
        ∧ PriceValid float64Arith (Float64.ParseFloat "0.99") "0.01" = true
        ∧ PriceValid float64Arith (Float64.ParseFloat "0.001") "0.001" = true
        ∧ PriceValid float64Arith (Float64.ParseFloat "0.999") "0.001" = true
        ∧ PriceValid float64Arith (Float64.ParseFloat "0.0001") "0.0001" = true
        ∧ PriceValid float64Arith (Float64.ParseFloat "0.9999") "0.0001" = true)
      ∧ PriceValid float64Arith (Float64.ParseFloat "0.9999") "0.001" = false := by
  have key : ∀ q : Float64,
      PriceValid (float64ArithWith RoundNormal RoundDown RoundUp DecimalPlaces ToTokenDecimals)
          q tickSize = true
        ↔ q.isNaN = false ∧ (Float64.ParseFloat tickSize).isNaN = false
          ∧ (Float64.ParseFloat tickSize).toRat ≤ q.toRat
          ∧ q.toRat ≤ (Float64.sub Float64.one (Float64.ParseFloat tickSize)).toRat := by
    intro q
    simp only [PriceValid, float64ArithWith, Float64.ge, Bool.and_eq_true, Float64.le_iff_toRat,
      Float64.sub_one_isNaN]
    tauto
  refine ⟨key price, fun hnan hle => ⟨(key _).mpr ⟨hnan, hnan, le_refl _, hle⟩,
    (key _).mpr ⟨?_, hnan, hle, le_refl _⟩⟩, by decide, by decide, by decide⟩
  rw [Float64.sub_one_isNaN]
  exact hnan

/-! ## Decimal places and the ratio of the amounts -/

theorem Dec.toRat_mul (x y : Dec) : (Dec.mul x y).toRat = x.toRat * y.toRat := by
  have hx : (x.den : ℚ) ≠ 0 := Nat.cast_ne_zero.mpr x.den_pos.ne.symm
  have hy : (y.den : ℚ) ≠ 0 := Nat.cast_ne_zero.mpr y.den_pos.ne.symm
  simp only [Dec.mul, Dec.toRat]
  push_cast
  field_simp

theorem Dec.HasPlaces.mono {x : Dec} {j k : Nat} (h : (x.den : Int) ∣ x.num * 10 ^ j)
    (hjk : j ≤ k) : (x.den : Int) ∣ x.num * 10 ^ k := by
  obtain ⟨d, rfl⟩ := Nat.exists_eq_add_of_le hjk
  rw [pow_add, ← mul_assoc]
  exact Dvd.dvd.mul_right h _

theorem Dec.HasPlaces.mul {x y : Dec} {j k : Nat} (hx : x.HasPlaces j) (hy : y.HasPlaces k) :
    (Dec.mul x y).HasPlaces (j + k) := by
  constructor
  · simp only [Dec.mul]
    push_cast
    rw [pow_add]
    have := mul_dvd_mul hx.1 hy.1
    convert this using 1
    ring
  · simp only [Dec.mul]
    rw [pow_add]
    exact mul_dvd_mul hx.2 hy.2

theorem Dec.placesFrom_le (x : Dec) :
    ∀ (fuel n j : Nat), n ≤ j → j < n + fuel → (x.num * 10 ^ j) % (x.den : Int) = 0 →
      ∃ r, Dec.placesFrom x fuel n = some r ∧ r ≤ j := by
  intro fuel
  induction fuel with
  | zero => intro n j h1 h2 _; omega
  | succ f ih =>
    intro n j h1 h2 h3
    unfold Dec.placesFrom
    by_cases hn : (x.num * 10 ^ n) % (x.den : Int) = 0
    · exact ⟨n, by simp [hn], h1⟩
    · have hne : n ≠ j := by
        rintro rfl
        exact hn h3
      simp only [hn, if_false]
      exact ih (n + 1) j (by omega) (by omega) h3

theorem Dec.placesFrom_sound (x : Dec) :
    ∀ (fuel n r : Nat), Dec.placesFrom x fuel n = some r →
      (x.num * 10 ^ r) % (x.den : Int) = 0 := by
  intro fuel
  induction fuel with
  | zero => intro n r h; simp [Dec.placesFrom] at h
  | succ f ih =>
    intro n r h
    unfold Dec.placesFrom at h
    by_cases hn : (x.num * 10 ^ n) % (x.den : Int) = 0
    · simp only [hn, if_true, Option.some.injEq] at h
      subst h
      exact hn
    · simp only [hn, if_false] at h
      exact ih _ _ h

theorem Dec.DecimalPlaces_le {x : Dec} {k : Nat} (h : x.HasPlaces k) :
    Dec.DecimalPlaces x ≤ (k : Int) := by
  have hk : k < 0 + (x.den + 1) := by
    have h1 : 10 ^ k ≤ x.den := Nat.le_of_dvd x.den_pos h.2
    have h2 : k < 10 ^ k := Nat.lt_pow_self (by decide) k
    omega
  obtain ⟨r, hr, hle⟩ := Dec.placesFrom_le x (x.den + 1) 0 k (Nat.zero_le _) hk
    (Int.emod_eq_zero_of_dvd h.1)
  simp only [Dec.DecimalPlaces, hr]
  exact_mod_cast hle

theorem Dec.dvd_of_DecimalPlaces_le {x : Dec} {k : Nat} (hk : (k : Int) < 2 ^ 63 - 1)
    (h : Dec.DecimalPlaces x ≤ (k : Int)) : (x.den : Int) ∣ x.num * 10 ^ k := by
  unfold Dec.DecimalPlaces at h
  cases hs : Dec.placesFrom x (x.den + 1) 0 with
  | none =>
    simp only [hs] at h
    omega
  | some r =>
    simp only [hs] at h
    have hr : r ≤ k := by exact_mod_cast h
    exact Dec.HasPlaces.mono (Int.dvd_of_emod_eq_zero (Dec.placesFrom_sound x _ _ _ hs)) hr

theorem Dec.ToTokenDecimals_cast {x : Dec} (h : (x.den : Int) ∣ x.num * 10 ^ 6) :
    ((Dec.ToTokenDecimals x : Int) : ℚ) = x.toRat * 10 ^ 6 := by
  have hd : (x.den : Int) ≠ 0 := by exact_mod_cast x.den_pos.ne.symm
  have hq : (x.den : ℚ) ≠ 0 := Nat.cast_ne_zero.mpr x.den_pos.ne.symm
  obtain ⟨c, hc⟩ := h
  simp only [Dec.ToTokenDecimals, Dec.toRat, hc]
  rw [Int.mul_tdiv_cancel_left _ hd]
  have hc2 : (x.num : ℚ) * 10 ^ 6 = (x.den : ℚ) * (c : ℚ) := by exact_mod_cast hc
  field_simp
  linarith

theorem Dec.RoundDown_places (x : Dec) (s : Nat) : (Dec.RoundDown x (s : Int)).HasPlaces s := by
  have h0 : (0 : Int) ≤ (s : Int) := Int.natCast_nonneg s
  simp only [Dec.RoundDown, Dec.unshift, h0, if_true, Dec.decimal, Int.toNat_ofNat,
    Dec.HasPlaces]
  refine ⟨?_, dvd_rfl⟩
  push_cast
  exact Dvd.intro_left _ rfl

theorem Dec.RoundNormal_places (x : Dec) (s : Nat) :
    (Dec.RoundNormal x (s : Int)).HasPlaces s := by
  have h0 : (0 : Int) ≤ (s : Int) := Int.natCast_nonneg s
  simp only [Dec.RoundNormal, Dec.unshift, h0, if_true, Dec.decimal, Int.toNat_ofNat,
    Dec.HasPlaces]
  refine ⟨?_, dvd_rfl⟩
  push_cast
  exact Dvd.intro_left _ rfl

theorem Dec.ratio_of_product {t pr : Dec} {j k : Nat} (ht : t.HasPlaces j)
    (hp : pr.HasPlaces k) (h6 : j + k ≤ 6) (hne : Dec.ToTokenDecimals t ≠ 0) :
    ((Dec.ToTokenDecimals (Dec.mul t pr) : Int) : ℚ) / ((Dec.ToTokenDecimals t : Int) : ℚ)
      = pr.toRat := by
  have h1 := Dec.ToTokenDecimals_cast (Dec.HasPlaces.mono ht.1 (by omega : j ≤ 6))
  have h2 := Dec.ToTokenDecimals_cast
    (Dec.HasPlaces.mono (Dec.HasPlaces.mul ht hp).1 (by omega : j + k ≤ 6))
  have h3 : ((Dec.ToTokenDecimals t : Int) : ℚ) ≠ 0 := by exact_mod_cast hne
  rw [h2, Dec.toRat_mul]
  rw [h1] at h3 ⊢
  have h4 : t.toRat ≠ 0 := by
    intro h
    rw [h, zero_mul] at h3
    exact h3 rfl
  field_simp
  ring

theorem twoStageCorrection_of_places {x : Dec} {k : Nat} {places : Int} (h : x.HasPlaces k)
    (hk : (k : Int) ≤ places) : twoStageCorrection decimalArith x places = x := by
  have hle : Dec.DecimalPlaces x ≤ places := le_trans (Dec.DecimalPlaces_le h) hk
  have hnot : ¬ (decimalArith.DecimalPlaces x > places) := not_lt.mpr hle
  simp only [twoStageCorrection, hnot, if_false]

theorem roundDownIfFiner_of_places {x : Dec} {k : Nat} {places : Int} (h : x.HasPlaces k)
    (hk : (k : Int) ≤ places) : roundDownIfFiner decimalArith x places = x := by
  have hle : Dec.DecimalPlaces x ≤ places := le_trans (Dec.DecimalPlaces_le h) hk
  have hnot : ¬ (decimalArith.DecimalPlaces x > places) := not_lt.mpr hle
  simp only [roundDownIfFiner, hnot, if_false]

theorem Dec.div_den_dvd (x y : Dec) (hy : y.num ≠ 0) : x.den ∣ (Dec.div x y).den := by
  unfold Dec.div
  by_cases h1 : 0 < y.num
  · simp only [h1, dif_pos]
    exact Dvd.intro _ rfl
  · have h2 : y.num < 0 := by omega
    simp only [h1, dif_neg, not_false_eq_true, h2, dif_pos]
    exact Dvd.intro _ rfl

theorem Dec.div_of_num_eq_zero (x y : Dec) (hy : y.num = 0) : Dec.div x y = Dec.ofInt 0 := by
  unfold Dec.div
  simp [hy]

theorem Dec.ToTokenDecimals_of_num_eq_zero (x : Dec) (h : x.num = 0) :
    Dec.ToTokenDecimals x = 0 := by
  simp [Dec.ToTokenDecimals, h]

/-- The taker of a market BUY, rounded down when it is finer than the size
precision, has at most that many places unless the rounded price is zero,
in which case it is zero. -/
theorem marketTaker_places (m0 pr : Dec) (s : Nat) (hs : s ≤ 6) (hm : m0.HasPlaces s) :
    (roundDownIfFiner decimalArith (Dec.div m0 pr) (s : Int)).HasPlaces s
      ∨ Dec.ToTokenDecimals (roundDownIfFiner decimalArith (Dec.div m0 pr) (s : Int)) = 0 := by
  unfold roundDownIfFiner
  by_cases hgt : decimalArith.DecimalPlaces (Dec.div m0 pr) > (s : Int)
  · simp only [hgt, if_true]
    exact Or.inl (Dec.RoundDown_places _ s)
  · simp only [hgt, if_false]
    by_cases hz : pr.num = 0
    · right
      rw [Dec.div_of_num_eq_zero _ _ hz]
      rfl
    · left
      have hle : Dec.DecimalPlaces (Dec.div m0 pr) ≤ (s : Int) := not_lt.mp hgt
      have hlt : (s : Int) < 2 ^ 63 - 1 := by
        have : (s : Int) ≤ 6 := by exact_mod_cast hs
        omega
      exact ⟨Dec.dvd_of_DecimalPlaces_le hlt hle,
        dvd_trans hm.2 (Dec.div_den_dvd m0 pr hz)⟩

/-- C3, as stated, fails: a limit SELL of size 10 at price 0.5 under
(2,2,4) returns maker amount 10000000 and taker amount 5000000, whose ratio
maker / taker is 2, not the rounded price 1/2.  With other place counts
the BUY ratio fails too: under (2,2,0) a BUY of size 1 at price 0.55 has
maker amount 0, and under (4,4,8) a BUY of size 0.0001 at price 0.0003 has
maker amount 0 beside taker amount 100. -/
theorem amounts_ratio_not_rounded_price :
    GetOrderAmounts decimalArith "SELL" (Dec.ofInt 10) (Dec.decimal 5 1) cfgCent
        = .ok ⟨1, 10000000, 5000000⟩
      ∧ (Dec.RoundNormal (Dec.decimal 5 1) cfgCent.Price).toRat = 1 / 2
      ∧ ((10000000 : Int) : ℚ) / ((5000000 : Int) : ℚ)
          ≠ (Dec.RoundNormal (Dec.decimal 5 1) cfgCent.Price).toRat
      ∧ GetOrderAmounts decimalArith "BUY" (Dec.ofInt 1) (Dec.decimal 55 2) ⟨2, 2, 0⟩
        = .ok ⟨0, 0, 1000000⟩
      ∧ GetOrderAmounts decimalArith "BUY" (Dec.decimal 1 4) (Dec.decimal 3 4) ⟨4, 4, 8⟩
        = .ok ⟨0, 0, 100⟩ := by
  have hn : (Dec.RoundNormal (Dec.decimal 5 1) cfgCent.Price).num = 50 := by decide
  have hd : (Dec.RoundNormal (Dec.decimal 5 1) cfgCent.Price).den = 100 := by decide
  have hv : (Dec.RoundNormal (Dec.decimal 5 1) cfgCent.Price).toRat = 1 / 2 := by
    simp only [Dec.toRat, hn, hd]
    norm_num
  refine ⟨by decide, hv, ?_, by decide, by decide⟩
  rw [hv]
  norm_num

/-- In exact decimal arithmetic, for every rounding config with
non-negative price and size places whose sum is at most the amount places
and at most 6 (as in the config (2,2,4) of tick size 0.01), the amounts of
`GetOrderAmounts` and of `GetMarketOrderAmounts` reproduce the rounded
price exactly: for side BUY with a non-zero taker amount, maker / taker is
`RoundNormal(price, pricePlaces)`; for side SELL with a non-zero maker
amount, taker / maker is. -/
theorem decimal_amounts_ratio (x price : Dec) (cfg : RoundConfig)
    (hP : 0 ≤ cfg.Price) (hS : 0 ≤ cfg.Size) (hA : cfg.Price + cfg.Size ≤ cfg.Amount)
    (h6 : cfg.Price + cfg.Size ≤ 6) :
    (∀ r : Amounts,
        (GetOrderAmounts decimalArith "BUY" x price cfg = .ok r
          ∨ GetMarketOrderAmounts decimalArith "BUY" x price cfg = .ok r) →
        r.takerAmount ≠ 0 →
        ((r.makerAmount : Int) : ℚ) / ((r.takerAmount : Int) : ℚ)
          = (Dec.RoundNormal price cfg.Price).toRat)
      ∧ (∀ r : Amounts,
        (GetOrderAmounts decimalArith "SELL" x price cfg = .ok r
          ∨ GetMarketOrderAmounts decimalArith "SELL" x price cfg = .ok r) →
        r.makerAmount ≠ 0 →
        ((r.takerAmount : Int) : ℚ) / ((r.makerAmount : Int) : ℚ)
          = (Dec.RoundNormal price cfg.Price).toRat) := by
  obtain ⟨P, S, A⟩ := cfg
  simp only at hP hS hA h6 ⊢
  lift P to ℕ using hP
  lift S to ℕ using hS
  have hs6 : S ≤ 6 := by omega
  have hsp6 : S + P ≤ 6 := by omega
  have hspA : ((S + P : ℕ) : Int) ≤ A := by push_cast; omega
  have hpr : (Dec.RoundNormal price (P : Int)).HasPlaces P := Dec.RoundNormal_places price P
  have hrd : (Dec.RoundDown x (S : Int)).HasPlaces S := Dec.RoundDown_places x S
  have hprod : twoStageCorrection decimalArith
      (Dec.mul (Dec.RoundDown x (S : Int)) (Dec.RoundNormal price (P : Int))) A
      = Dec.mul (Dec.RoundDown x (S : Int)) (Dec.RoundNormal price (P : Int)) :=
    twoStageCorrection_of_places (Dec.HasPlaces.mul hrd hpr) hspA
  have hprod2 : roundDownIfFiner decimalArith
      (Dec.mul (Dec.RoundDown x (S : Int)) (Dec.RoundNormal price (P : Int))) A
      = Dec.mul (Dec.RoundDown x (S : Int)) (Dec.RoundNormal price (P : Int)) :=
    roundDownIfFiner_of_places (Dec.HasPlaces.mul hrd hpr) hspA
  constructor
  · intro r hr hne
    rcases hr with hr | hr
    · rw [GetOrderAmounts_buy_eq] at hr
      simp only [Except.ok.injEq] at hr
      subst hr
      simp only at hne ⊢
      change ((Dec.ToTokenDecimals (twoStageCorrection decimalArith
        (Dec.mul (Dec.RoundDown x (S : Int)) (Dec.RoundNormal price (P : Int))) A) : Int) : ℚ)
        / ((Dec.ToTokenDecimals (Dec.RoundDown x (S : Int)) : Int) : ℚ) = _
      rw [hprod]
      exact Dec.ratio_of_product hrd hpr hsp6 hne
    · rw [GetMarketOrderAmounts_buy_eq] at hr
      simp only [Except.ok.injEq] at hr
      subst hr
      simp only at hne ⊢
      rcases marketTaker_places (Dec.RoundDown x (S : Int)) (Dec.RoundNormal price (P : Int))
          S hs6 hrd with hT | hz
      · change ((Dec.ToTokenDecimals (twoStageCorrection decimalArith
          (Dec.mul (roundDownIfFiner decimalArith
            (Dec.div (Dec.RoundDown x (S : Int)) (Dec.RoundNormal price (P : Int))) (S : Int))
            (Dec.RoundNormal price (P : Int))) A) : Int) : ℚ)
          / ((Dec.ToTokenDecimals (roundDownIfFiner decimalArith
            (Dec.div (Dec.RoundDown x (S : Int)) (Dec.RoundNormal price (P : Int)))
            (S : Int)) : Int) : ℚ) = _
        rw [twoStageCorrection_of_places (Dec.HasPlaces.mul hT hpr) hspA]
        exact Dec.ratio_of_product hT hpr hsp6 hne
      · exact absurd hz hne
  · intro r hr hne
    rcases hr with hr | hr
    · rw [GetOrderAmounts_sell_eq] at hr
      simp only [Except.ok.injEq] at hr
      subst hr
      simp only at hne ⊢
      change ((Dec.ToTokenDecimals (twoStageCorrection decimalArith
        (Dec.mul (Dec.RoundDown x (S : Int)) (Dec.RoundNormal price (P : Int))) A) : Int) : ℚ)
        / ((Dec.ToTokenDecimals (Dec.RoundDown x (S : Int)) : Int) : ℚ) = _
      rw [hprod]
      exact Dec.ratio_of_product hrd hpr hsp6 hne
    · rw [GetMarketOrderAmounts_sell_eq] at hr
      simp only [Except.ok.injEq] at hr
      subst hr
      simp only at hne ⊢
      change ((Dec.ToTokenDecimals (roundDownIfFiner decimalArith
        (Dec.mul (Dec.RoundDown x (S : Int)) (Dec.RoundNormal price (P : Int))) A) : Int) : ℚ)
        / ((Dec.ToTokenDecimals (Dec.RoundDown x (S : Int)) : Int) : ℚ) = _
      rw [hprod2]
      exact Dec.ratio_of_product hrd hpr hsp6 hne

/-- Exact decimals on concrete runs under (2,2,4): a limit BUY of size 10
at price 0.55 and a market SELL of amount 10 at price 0.55. -/
theorem decimal_amounts_ratio_sample :
    ((0 : Int) ≤ cfgCent.Price ∧ 0 ≤ cfgCent.Size
        ∧ cfgCent.Price + cfgCent.Size ≤ cfgCent.Amount ∧ cfgCent.Price + cfgCent.Size ≤ 6)
      ∧ GetOrderAmounts decimalArith "BUY" (Dec.ofInt 10) (Dec.decimal 55 2) cfgCent
        = .ok ⟨0, 5500000, 10000000⟩
      ∧ ((5500000 : Int) : ℚ) / ((10000000 : Int) : ℚ)
        = (Dec.RoundNormal (Dec.decimal 55 2) cfgCent.Price).toRat
      ∧ GetMarketOrderAmounts decimalArith "SELL" (Dec.ofInt 10) (Dec.decimal 55 2) cfgCent
        = .ok ⟨1, 10000000, 5500000⟩
      ∧ ((5500000 : Int) : ℚ) / ((10000000 : Int) : ℚ)
        = (Dec.RoundNormal (Dec.decimal 55 2) cfgCent.Price).toRat :=
  ⟨by decide, by decide,
    (decimal_amounts_ratio (Dec.ofInt 10) (Dec.decimal 55 2) cfgCent (by decide)
      (by decide) (by decide) (by decide)).1 ⟨0, 5500000, 10000000⟩ (Or.inl (by decide))
      (by decide),
    by decide,
    (decimal_amounts_ratio (Dec.ofInt 10) (Dec.decimal 55 2) cfgCent (by decide)
      (by decide) (by decide) (by decide)).2 ⟨1, 10000000, 5500000⟩ (Or.inr (by decide))
      (by decide)⟩

/-! ## The ratio of the amounts, for every arithmetic -/

theorem Lossless.ratio {F : Type} {A : Arith F} {val : F → ℚ} {price tokens collateral : F}
    (h : Lossless A val price tokens collateral) (hne : A.ToTokenDecimals tokens ≠ 0) :
    ((A.ToTokenDecimals collateral : Int) : ℚ) / ((A.ToTokenDecimals tokens : Int) : ℚ)
      = val price := by
  obtain ⟨hc, ht, hcc⟩ := h
  have h3 : ((A.ToTokenDecimals tokens : Int) : ℚ) ≠ 0 := by exact_mod_cast hne
  have h4 : val tokens ≠ 0 := by
    intro h0
    rw [ht, h0, zero_mul] at h3
    exact h3 rfl
  rw [hcc, ht, hc]
  field_simp
  ring

/-- C3, amended: for every arithmetic and every reading `val` of its
numbers as rationals, whenever the raw amounts lose nothing (the raw
collateral amount, after the precision corrections, is the raw token amount
times the rounded price, and both convert to token units without
truncation), `GetOrderAmounts` and `GetMarketOrderAmounts` return amounts
that reproduce the rounded price exactly: for side BUY with a non-zero taker
amount, maker / taker is `RoundNormal(price, pricePlaces)`; for side SELL
with a non-zero maker amount, taker / maker is. -/
theorem amounts_ratio_is_rounded_price {F : Type} (A : Arith F) (val : F → ℚ) (x price : F)
    (cfg : RoundConfig) :
    (Lossless A val (A.RoundNormal price cfg.Price) (A.RoundDown x cfg.Size)
        (twoStageCorrection A
          (A.mul (A.RoundDown x cfg.Size) (A.RoundNormal price cfg.Price)) cfg.Amount) →
      (∃ r, GetOrderAmounts A "BUY" x price cfg = .ok r
        ∧ (r.takerAmount ≠ 0 →
          ((r.makerAmount : Int) : ℚ) / ((r.takerAmount : Int) : ℚ)
            = val (A.RoundNormal price cfg.Price)))
      ∧ ∃ r, GetOrderAmounts A "SELL" x price cfg = .ok r
        ∧ (r.makerAmount ≠ 0 →
          ((r.takerAmount : Int) : ℚ) / ((r.makerAmount : Int) : ℚ)
            = val (A.RoundNormal price cfg.Price)))
      ∧ (Lossless A val (A.RoundNormal price cfg.Price)
          (roundDownIfFiner A
            (A.div (A.RoundDown x cfg.Size) (A.RoundNormal price cfg.Price)) cfg.Size)
          (twoStageCorrection A
            (A.mul
              (roundDownIfFiner A
                (A.div (A.RoundDown x cfg.Size) (A.RoundNormal price cfg.Price)) cfg.Size)
              (A.RoundNormal price cfg.Price)) cfg.Amount) →
        ∃ r, GetMarketOrderAmounts A "BUY" x price cfg = .ok r
          ∧ (r.takerAmount ≠ 0 →
            ((r.makerAmount : Int) : ℚ) / ((r.takerAmount : Int) : ℚ)
              = val (A.RoundNormal price cfg.Price)))
      ∧ (Lossless A val (A.RoundNormal price cfg.Price) (A.RoundDown x cfg.Size)
          (roundDownIfFiner A
            (A.mul (A.RoundDown x cfg.Size) (A.RoundNormal price cfg.Price)) cfg.Amount) →
        ∃ r, GetMarketOrderAmounts A "SELL" x price cfg = .ok r
          ∧ (r.makerAmount ≠ 0 →
            ((r.takerAmount : Int) : ℚ) / ((r.makerAmount : Int) : ℚ)
              = val (A.RoundNormal price cfg.Price))) := by
  refine ⟨fun h => ⟨⟨_, GetOrderAmounts_buy_eq A x price cfg, fun hne => h.ratio hne⟩,
      ⟨_, GetOrderAmounts_sell_eq A x price cfg, fun hne => h.ratio hne⟩⟩,
    fun h => ⟨_, GetMarketOrderAmounts_buy_eq A x price cfg, fun hne => h.ratio hne⟩,
    fun h => ⟨_, GetMarketOrderAmounts_sell_eq A x price cfg, fun hne => h.ratio hne⟩⟩

theorem Dec.decimal_toRat (m : Int) (e : Nat) : (Dec.decimal m e).toRat = (m : ℚ) / 10 ^ e := by
  simp [Dec.toRat, Dec.decimal]

/-- In exact decimals a limit order of size 10 at price 0.55 under (2,2,4)
loses nothing. -/
theorem sampleLimit_lossless :
    Lossless decimalArith Dec.toRat (decimalArith.RoundNormal (Dec.decimal 55 2) cfgCent.Price)
      (decimalArith.RoundDown (Dec.ofInt 10) cfgCent.Size)
      (twoStageCorrection decimalArith
        (decimalArith.mul (decimalArith.RoundDown (Dec.ofInt 10) cfgCent.Size)
          (decimalArith.RoundNormal (Dec.decimal 55 2) cfgCent.Price)) cfgCent.Amount) := by
  have hp : decimalArith.RoundNormal (Dec.decimal 55 2) cfgCent.Price = Dec.decimal 55 2 := by
    decide
  have ht : decimalArith.RoundDown (Dec.ofInt 10) cfgCent.Size = Dec.decimal 1000 2 := by
    decide
  have hc : twoStageCorrection decimalArith
      (decimalArith.mul (Dec.decimal 1000 2) (Dec.decimal 55 2)) cfgCent.Amount
      = Dec.decimal 55000 4 := by decide
  have h1 : decimalArith.ToTokenDecimals (Dec.decimal 1000 2) = 10000000 := by decide
  have h2 : decimalArith.ToTokenDecimals (Dec.decimal 55000 4) = 5500000 := by decide
  rw [hp, ht, hc]
  refine ⟨?_, ?_, ?_⟩
  · simp only [Dec.decimal_toRat]; norm_num
  · rw [h1, Dec.decimal_toRat]; norm_num
  · rw [h2, Dec.decimal_toRat]; norm_num

/-- C3 on a concrete run under (2,2,4): a limit BUY of size 10 at price 0.55
returns maker 5500000 and taker 10000000, whose ratio is the rounded price
0.55, and the limit SELL returns them exchanged. -/
theorem amounts_ratio_is_rounded_price_witness :
    GetOrderAmounts decimalArith "BUY" (Dec.ofInt 10) (Dec.decimal 55 2) cfgCent
        = .ok ⟨0, 5500000, 10000000⟩
      ∧ GetOrderAmounts decimalArith "SELL" (Dec.ofInt 10) (Dec.decimal 55 2) cfgCent
        = .ok ⟨1, 10000000, 5500000⟩
      ∧ (Dec.RoundNormal (Dec.decimal 55 2) cfgCent.Price).toRat = 55 / 100
      ∧ ((∃ r, GetOrderAmounts decimalArith "BUY" (Dec.ofInt 10) (Dec.decimal 55 2) cfgCent
            = .ok r
          ∧ (r.takerAmount ≠ 0 →
            ((r.makerAmount : Int) : ℚ) / ((r.takerAmount : Int) : ℚ)
              = (decimalArith.RoundNormal (Dec.decimal 55 2) cfgCent.Price).toRat))
        ∧ ∃ r, GetOrderAmounts decimalArith "SELL" (Dec.ofInt 10) (Dec.decimal 55 2) cfgCent
            = .ok r
          ∧ (r.makerAmount ≠ 0 →
            ((r.takerAmount : Int) : ℚ) / ((r.makerAmount : Int) : ℚ)
              = (decimalArith.RoundNormal (Dec.decimal 55 2) cfgCent.Price).toRat)) :=
  ⟨by decide, by decide,
    by
      have hp : Dec.RoundNormal (Dec.decimal 55 2) cfgCent.Price = Dec.decimal 55 2 := by decide
      rw [hp, Dec.decimal_toRat]
      norm_num,
    (amounts_ratio_is_rounded_price decimalArith Dec.toRat (Dec.ofInt 10) (Dec.decimal 55 2)
      cfgCent).1 sampleLimit_lossless⟩

/-! ## Request signing -/

/-- C8, as stated, fails: with a secret that decodes, a body that is not a
string and that `json.Marshal` rejects (a channel) yields the marshal error
and no signature. -/
theorem BuildHMACSignature_marshal_error :
    signerPrimitives.DecodeString "secret" = .ok (utf8 "secret")
      ∧ BuildHMACSignature signerPrimitives "secret" 1700000000 "POST" "/order"
          (.other .channel)
        = .error "failed to marshal body for HMAC signing: json: unsupported type: chan int"
      ∧ BuildHMACSignature signerPrimitives "secret" 1700000000 "POST" "/order"
          (.other (.text "a"))
        = .ok (signerPrimitives.EncodeToString (signerPrimitives.hmacSha256 (utf8 "secret")
            (utf8 ("1700000000" ++ "POST" ++ "/order" ++ "\"a\"")))) := by
  decide

/-- C8, amended: when the secret decodes to `key` and the body has a text
(nothing for an absent body, the string itself for a string, the compact
JSON serialisation for any other value that has one), `BuildHMACSignature`
returns the base64url encoding of HMAC-SHA256 under `key` of the UTF-8 bytes
of the decimal timestamp followed by the method, the path and that text; a
secret that does not decode, and a non-string body that does not marshal,
yield an error and no signature. -/
theorem BuildHMACSignature_message {V : Type} (P : Primitives V) (secret : String)
    (timestamp : Int) (method requestPath : String) (body : Body V) (key : List UInt8)
    (text : String) (hkey : P.DecodeString secret = .ok key)
    (htext : bodyText P body = some text) :
    BuildHMACSignature P secret timestamp method requestPath body
        = .ok (P.EncodeToString (P.hmacSha256 key
            (utf8 (Itoa timestamp ++ method ++ requestPath ++ text))))
      ∧ BuildHMACSignature P secret timestamp method requestPath .nil
        = .ok (P.EncodeToString (P.hmacSha256 key
            (utf8 (Itoa timestamp ++ method ++ requestPath))))
      ∧ (∀ s : String, BuildHMACSignature P secret timestamp method requestPath (.str s)
        = .ok (P.EncodeToString (P.hmacSha256 key
            (utf8 (Itoa timestamp ++ method ++ requestPath ++ s)))))
      ∧ (∀ (v : V) (j : String), P.Marshal v = .ok j →
          BuildHMACSignature P secret timestamp method requestPath (.other v)
            = .ok (P.EncodeToString (P.hmacSha256 key
                (utf8 (Itoa timestamp ++ method ++ requestPath ++ j)))))
      ∧ (∀ (v : V) (err : String), P.Marshal v = .error err →
          BuildHMACSignature P secret timestamp method requestPath (.other v)
            = .error ("failed to marshal body for HMAC signing: " ++ err))
      ∧ (∀ (bad err : String) (b : Body V), P.DecodeString bad = .error err →
          BuildHMACSignature P bad timestamp method requestPath b
            = .error ("failed to decode secret: " ++ err)) := by
  refine ⟨?_, ?_, ?_, ?_, ?_, ?_⟩
  · cases body with
    | nil =>
      simp only [bodyText, Option.some.injEq] at htext
      subst htext
      simp only [BuildHMACSignature, hkey, String.append_empty]
    | strPtr s =>
      simp only [bodyText, Option.some.injEq] at htext
      subst htext
      simp only [BuildHMACSignature, hkey]
    | str s =>
      simp only [bodyText, Option.some.injEq] at htext
      subst htext
      simp only [BuildHMACSignature, hkey]
    | other v =>
      simp only [bodyText] at htext
      cases hm : P.Marshal v with
      | error e => simp [hm] at htext
      | ok j =>
        simp only [hm, Option.some.injEq] at htext
        subst htext
        simp only [BuildHMACSignature, hkey, hm]
  · simp only [BuildHMACSignature, hkey]
  · intro s
    simp only [BuildHMACSignature, hkey]
  · intro v j hm
    simp only [BuildHMACSignature, hkey, hm]
  · intro v err hm
    simp only [BuildHMACSignature, hkey, hm]
  · intro bad err b hbad
    simp only [BuildHMACSignature, hbad]

/-- C8 on a concrete run: timestamp 1700000000, method POST, path /order
and a string body. -/
theorem BuildHMACSignature_message_witness :
    samplePrimitives.DecodeString "secret" = .ok (utf8 "secret")
      ∧ bodyText samplePrimitives (.str "\x7b\x7d") = some "\x7b\x7d"
      ∧ BuildHMACSignature samplePrimitives "secret" 1700000000 "POST" "/order"
          (.str "\x7b\x7d")
        = .ok (samplePrimitives.EncodeToString (samplePrimitives.hmacSha256 (utf8 "secret")
            (utf8 (Itoa 1700000000 ++ "POST" ++ "/order" ++ "\x7b\x7d")))) :=
  ⟨by decide, rfl,
    (BuildHMACSignature_message samplePrimitives "secret" 1700000000 "POST" "/order"
      (.str "\x7b\x7d") (utf8 "secret") "\x7b\x7d" (by decide) rfl).1⟩

/-! ## Order submission -/

/-- C9: every request `PostOrderWithOptions` or `PostOrders` hands to the
HTTP client carries as body the one serialisation of the payload, and its
signature header is the HMAC signature computed over that very body string
with the client credentials, the clock reading, the method POST and the
request path. -/
theorem posted_body_is_signed_body {S O R : Type} (K : Consts) (P : Primitives (Payload O))
    (E : Env S O R) (c : ClobClient) (order : S) (orderType : String) (postOnly : Bool)
    (args : List (PostOrdersArgs S)) :
    (∀ req ∈ (PostOrderWithOptions K P E c order orderType postOnly).2,
        ∃ creds sig, c.creds = some creds
          ∧ req.path = PostOrderPath
          ∧ P.Marshal (.one (E.OrderToJSONWithPostOnly order creds.APIKey orderType postOnly))
              = .ok req.body
          ∧ BuildHMACSignature P creds.APISecret E.now "POST" req.path (.str req.body)
              = .ok sig
          ∧ (K.PolySignature, sig) ∈ req.headers)
      ∧ (∀ req ∈ (PostOrders K P E c args).2,
        ∃ creds sig orders, c.creds = some creds
          ∧ req.path = PostOrdersPath
          ∧ postOrdersBody E c args = .ok orders
          ∧ P.Marshal (.many orders) = .ok req.body
          ∧ BuildHMACSignature P creds.APISecret E.now "POST" req.path (.str req.body)
              = .ok sig
          ∧ (K.PolySignature, sig) ∈ req.headers) := by
  constructor
  · intro req hreq
    unfold PostOrderWithOptions at hreq
    split_ifs at hreq with h1
    · simp at hreq
    · cases h2 : assertLevel2Auth K c with
      | error e => simp [h2] at hreq
      | ok u =>
        cases h3 : c.creds with
        | none => simp [h2, h3] at hreq
        | some creds =>
          simp only [h2, h3] at hreq
          cases h4 : P.Marshal
              (.one (E.OrderToJSONWithPostOnly order creds.APIKey orderType postOnly)) with
          | error e => simp [h4] at hreq
          | ok bodyStr =>
            simp only [h4, CreateLevel2Headers] at hreq
            cases h5 : BuildHMACSignature P creds.APISecret E.now "POST" PostOrderPath
                (.str bodyStr) with
            | error e => simp [h5] at hreq
            | ok sig =>
              simp only [h5] at hreq
              cases h6 : c.signer with
              | none => simp [h6] at hreq
              | some signer =>
                simp only [h6] at hreq
                have hr : req = ⟨PostOrderPath,
                    [(K.PolyAddress, signer.address), (K.PolySignature, sig),
                      (K.PolyTimestamp, Itoa E.now), (K.PolyAPIKey, creds.APIKey),
                      (K.PolyPassphrase, creds.APIPassphrase)], bodyStr⟩ := by
                  cases h7 : E.Post ⟨PostOrderPath,
                    [(K.PolyAddress, signer.address), (K.PolySignature, sig),
                      (K.PolyTimestamp, Itoa E.now), (K.PolyAPIKey, creds.APIKey),
                      (K.PolyPassphrase, creds.APIPassphrase)], bodyStr⟩ with
                  | error e => simpa [h7] using hreq
                  | ok r => simpa [h7] using hreq
                subst hr
                exact ⟨creds, sig, rfl, rfl, h4, h5, by simp⟩
  · intro req hreq
    unfold PostOrders at hreq
    cases h2 : assertLevel2Auth K c with
    | error e => simp [h2] at hreq
    | ok u =>
      simp only [h2] at hreq
      split_ifs at hreq with h1
      · simp at hreq
      · cases h3 : postOrdersBody E c args with
        | error e => simp [h3] at hreq
        | ok orders =>
          simp only [h3] at hreq
          cases h4 : P.Marshal (.many orders) with
          | error e => simp [h4] at hreq
          | ok bodyStr =>
            simp only [h4, CreateLevel2Headers] at hreq
            cases hc : c.creds with
            | none => simp [hc] at hreq
            | some creds =>
              simp only [hc] at hreq
              cases h5 : BuildHMACSignature P creds.APISecret E.now "POST" PostOrdersPath
                  (.str bodyStr) with
              | error e => simp [h5] at hreq
              | ok sig =>
                simp only [h5] at hreq
                cases h6 : c.signer with
                | none => simp [h6] at hreq
                | some signer =>
                  simp only [h6] at hreq
                  have hr : req = ⟨PostOrdersPath,
                      [(K.PolyAddress, signer.address), (K.PolySignature, sig),
                        (K.PolyTimestamp, Itoa E.now), (K.PolyAPIKey, creds.APIKey),
                        (K.PolyPassphrase, creds.APIPassphrase)], bodyStr⟩ := by
                    cases h7 : E.Post ⟨PostOrdersPath,
                      [(K.PolyAddress, signer.address), (K.PolySignature, sig),
                        (K.PolyTimestamp, Itoa E.now), (K.PolyAPIKey, creds.APIKey),
                        (K.PolyPassphrase, creds.APIPassphrase)], bodyStr⟩ with
                    | error e => simpa [h7] using hreq
                    | ok r => simpa [h7] using hreq
                  subst hr
                  exact ⟨creds, sig, orders, rfl, rfl, rfl, h4, h5, by simp⟩

/-- C9 on a concrete run: an L2 client posts one order; the request body
is the marshalled order and the signature header is computed over it. -/
theorem posted_body_is_signed_body_witness :
    (PostOrderWithOptions sampleConsts samplePrimitives sampleEnv sampleClient "x" "GTC"
        false).2
        = [⟨"/order", [("POLY_ADDRESS", "0xabc"), ("POLY_SIGNATURE", "27"),
            ("POLY_TIMESTAMP", "1700000000"), ("POLY_API_KEY", "key"),
            ("POLY_PASSPHRASE", "pass")], "x"⟩]
      ∧ ∃ creds sig, sampleClient.creds = some creds
          ∧ "/order" = PostOrderPath
          ∧ samplePrimitives.Marshal
              (.one (sampleEnv.OrderToJSONWithPostOnly "x" creds.APIKey "GTC" false))
              = .ok "x"
          ∧ BuildHMACSignature samplePrimitives creds.APISecret sampleEnv.now "POST" "/order"
              (.str "x") = .ok sig
          ∧ (sampleConsts.PolySignature, sig)
              ∈ [("POLY_ADDRESS", "0xabc"), ("POLY_SIGNATURE", "27"),
                ("POLY_TIMESTAMP", "1700000000"), ("POLY_API_KEY", "key"),
                ("POLY_PASSPHRASE", "pass")] :=
  ⟨by decide,
    (posted_body_is_signed_body sampleConsts samplePrimitives sampleEnv sampleClient "x" "GTC"
      false []).1
      ⟨"/order", [("POLY_ADDRESS", "0xabc"), ("POLY_SIGNATURE", "27"),
        ("POLY_TIMESTAMP", "1700000000"), ("POLY_API_KEY", "key"),
        ("POLY_PASSPHRASE", "pass")], "x"⟩ (by decide)⟩

/-! ## Authentication mode -/

theorem getClientMode_eq_derivedMode (K : Consts) (c : ClobClient) :
    getClientMode K c = derivedMode K c.signer.isSome c.creds.isSome := by
  unfold getClientMode derivedMode
  cases c.signer <;> cases c.creds <;> simp

theorem SetAPICreds_mode (K : Consts) (c : ClobClient) (creds : Option ApiCreds) :
    (SetAPICreds K c creds).mode
      = derivedMode K (SetAPICreds K c creds).signer.isSome
          (SetAPICreds K c creds).creds.isSome := by
  simp only [SetAPICreds]
  exact getClientMode_eq_derivedMode K _

theorem foldl_SetAPICreds_mode (K : Consts) (calls : List (Option ApiCreds)) :
    ∀ c : ClobClient,
      c.mode = derivedMode K c.signer.isSome c.creds.isSome →
      (calls.foldl (SetAPICreds K) c).mode
        = derivedMode K (calls.foldl (SetAPICreds K) c).signer.isSome
            (calls.foldl (SetAPICreds K) c).creds.isSome := by
  induction calls with
  | nil => intro c h; exact h
  | cons x xs ih => intro c _; exact ih _ (SetAPICreds_mode K c x)

theorem NewClobClient_mode (K : Consts) (NewSigner : String → Int → Except String Signer)
    (host : String) (chainID : Int) (privateKey : String) (creds : Option ApiCreds)
    (signatureType : Option Int) (funder : String) (c : ClobClient)
    (hnew : NewClobClient K NewSigner host chainID privateKey creds signatureType funder
      = .ok c) :
    c.mode = derivedMode K c.signer.isSome c.creds.isSome := by
  unfold NewClobClient at hnew
  by_cases hpk : privateKey = ""
  · simp only [hpk, ne_eq, not_true_eq_false, if_false, Except.ok.injEq] at hnew
    rw [← hnew]
    cases creds <;> simp [getClientMode, derivedMode]
  · simp only [ne_eq, hpk, not_false_eq_true, if_true] at hnew
    cases hs : NewSigner privateKey chainID with
    | error e => simp [hs] at hnew
    | ok signer =>
      simp only [hs, NewOrderBuilder, Except.ok.injEq] at hnew
      rw [← hnew]
      cases creds <;> simp [getClientMode, derivedMode]

/-- C10: the client `NewClobClient` returns, and the client after any
sequence of `SetAPICreds` calls on it (nil credentials included), stores the
mode derived from its fields: L0 without a signer, L1 with a signer and no
credentials, L2 with both.  `SetAPICreds` establishes this on every client,
and a client built with credentials and no private key is at L0. -/
theorem stored_mode_is_derived (K : Consts) (NewSigner : String → Int → Except String Signer)
    (host : String) (chainID : Int) (privateKey : String) (creds : Option ApiCreds)
    (signatureType : Option Int) (funder : String) (c : ClobClient)
    (calls : List (Option ApiCreds))
    (hnew : NewClobClient K NewSigner host chainID privateKey creds signatureType funder
      = .ok c) :
    (calls.foldl (SetAPICreds K) c).mode
        = derivedMode K (calls.foldl (SetAPICreds K) c).signer.isSome
            (calls.foldl (SetAPICreds K) c).creds.isSome
      ∧ (∀ (c1 : ClobClient) (cr : Option ApiCreds),
          (SetAPICreds K c1 cr).mode
            = derivedMode K (SetAPICreds K c1 cr).signer.isSome
                (SetAPICreds K c1 cr).creds.isSome
          ∧ (SetAPICreds K c1 cr).creds = cr
          ∧ (SetAPICreds K c1 cr).signer = c1.signer)
      ∧ (∀ cr : ApiCreds, ∃ c0,
          NewClobClient K NewSigner host chainID "" (some cr) signatureType funder = .ok c0
            ∧ c0.signer = none ∧ c0.creds = some cr ∧ c0.mode = K.L0) := by
  refine ⟨?_, ?_, ?_⟩
  · exact foldl_SetAPICreds_mode K calls c
      (NewClobClient_mode K NewSigner host chainID privateKey creds signatureType funder c hnew)
  · intro c1 cr
    exact ⟨SetAPICreds_mode K c1 cr, rfl, rfl⟩
  · intro cr
    simp only [NewClobClient, ne_eq, not_true_eq_false, if_false]
    exact ⟨_, rfl, rfl, rfl, by simp [getClientMode]⟩

/-- C10 on a concrete run: a client built from a private key alone is at
L1, at L2 once credentials are set, and back at L1 once they are cleared. -/
theorem stored_mode_is_derived_witness :
    NewClobClient sampleConsts sampleNewSigner "https://clob.example/" 137 "0xabc" none none ""
        = .ok ⟨"https://clob.example", 137, some ⟨"0xabc"⟩, none, 1,
            some ⟨⟨"0xabc"⟩, 0, "0xabc"⟩⟩
      ∧ ([some sampleCreds, none].foldl (SetAPICreds sampleConsts)
            ⟨"https://clob.example", 137, some ⟨"0xabc"⟩, none, 1,
              some ⟨⟨"0xabc"⟩, 0, "0xabc"⟩⟩).mode = 1
      ∧ ([some sampleCreds].foldl (SetAPICreds sampleConsts)
            ⟨"https://clob.example", 137, some ⟨"0xabc"⟩, none, 1,
              some ⟨⟨"0xabc"⟩, 0, "0xabc"⟩⟩).mode = 2
      ∧ ([some sampleCreds, none].foldl (SetAPICreds sampleConsts)
            ⟨"https://clob.example", 137, some ⟨"0xabc"⟩, none, 1,
              some ⟨⟨"0xabc"⟩, 0, "0xabc"⟩⟩).mode
          = derivedMode sampleConsts
              ([some sampleCreds, none].foldl (SetAPICreds sampleConsts)
                ⟨"https://clob.example", 137, some ⟨"0xabc"⟩, none, 1,
                  some ⟨⟨"0xabc"⟩, 0, "0xabc"⟩⟩).signer.isSome
              ([some sampleCreds, none].foldl (SetAPICreds sampleConsts)
                ⟨"https://clob.example", 137, some ⟨"0xabc"⟩, none, 1,
                  some ⟨⟨"0xabc"⟩, 0, "0xabc"⟩⟩).creds.isSome :=
  ⟨by decide, by decide, by decide,
    (stored_mode_is_derived sampleConsts sampleNewSigner "https://clob.example/" 137 "0xabc"
      none none "" _ [some sampleCreds, none] (by decide)).1⟩

/-! ## Post-only validation -/

theorem postOnlyRejected_iff (K : Consts) (orderType : String) (postOnly : Bool) :
    postOnlyRejected K orderType postOnly = true
      ↔ postOnly = true ∧ orderType ≠ K.OrderTypeGTC ∧ orderType ≠ K.OrderTypeGTD := by
  simp [postOnlyRejected, and_assoc]

/-- C11: `PostOrderWithOptions` with postOnly set and an order type other
than GTC and GTD returns the validation error and hands no request to the
HTTP client; `PostOrders` returns an error (the level-2 auth error or the
validation error) and hands over no request when some element is post-only
with a type other than GTC and GTD.  In every other case the validation
lets the call through: the functions do what their remaining lines do. -/
theorem postOnly_validation {S O R : Type} (K : Consts) (P : Primitives (Payload O))
    (E : Env S O R) (c : ClobClient) (order : S) (orderType : String) (postOnly : Bool)
    (args : List (PostOrdersArgs S)) :
    (postOnly = true → orderType ≠ K.OrderTypeGTC → orderType ≠ K.OrderTypeGTD →
        PostOrderWithOptions K P E c order orderType postOnly = (.error postOnlyError, []))
      ∧ ((postOnly = false ∨ orderType = K.OrderTypeGTC ∨ orderType = K.OrderTypeGTD) →
        PostOrderWithOptions K P E c order orderType postOnly
          = submitOrder K P E c order orderType postOnly)
      ∧ ((∃ arg ∈ args, arg.PostOnly = true ∧ arg.OrderType ≠ K.OrderTypeGTC
            ∧ arg.OrderType ≠ K.OrderTypeGTD) →
        ∃ err, PostOrders K P E c args = (.error err, [])
          ∧ (err = K.L2AuthUnavailable ∨ err = postOnlyError))
      ∧ ((∀ arg ∈ args, arg.PostOnly = false ∨ arg.OrderType = K.OrderTypeGTC
            ∨ arg.OrderType = K.OrderTypeGTD) →
        PostOrders K P E c args
          = match assertLevel2Auth K c with
            | .error err => (.error err, [])
            | .ok _ => submitOrders K P E c args) := by
  refine ⟨?_, ?_, ?_, ?_⟩
  · intro h1 h2 h3
    have hg : postOnlyRejected K orderType postOnly = true :=
      (postOnlyRejected_iff K orderType postOnly).mpr ⟨h1, h2, h3⟩
    unfold postOnlyRejected at hg
    unfold PostOrderWithOptions
    rw [if_pos hg]
  · intro h
    have hg : ¬ (postOnlyRejected K orderType postOnly = true) := by
      rw [postOnlyRejected_iff]
      rintro ⟨h1, h2, h3⟩
      rcases h with h | h | h
      · rw [h1] at h
        exact Bool.noConfusion h
      · exact h2 h
      · exact h3 h
    unfold postOnlyRejected at hg
    unfold PostOrderWithOptions submitOrder
    rw [if_neg hg]
  · rintro ⟨arg, harg, h1, h2, h3⟩
    have hany : args.any (fun arg =>
        arg.PostOnly && arg.OrderType != K.OrderTypeGTC && arg.OrderType != K.OrderTypeGTD)
        = true := by
      rw [List.any_eq_true]
      exact ⟨arg, harg, (postOnlyRejected_iff K arg.OrderType arg.PostOnly).mpr ⟨h1, h2, h3⟩⟩
    unfold PostOrders
    cases h : assertLevel2Auth K c with
    | error e =>
      refine ⟨e, rfl, Or.inl ?_⟩
      unfold assertLevel2Auth at h
      split_ifs at h
      exact (Except.error.inj h).symm
    | ok u =>
      refine ⟨postOnlyError, ?_, Or.inr rfl⟩
      simp only [hany, if_true]
  · intro h
    have hany : ¬ (args.any (fun arg =>
        arg.PostOnly && arg.OrderType != K.OrderTypeGTC && arg.OrderType != K.OrderTypeGTD)
        = true) := by
      rw [List.any_eq_true]
      rintro ⟨arg, harg, hg⟩
      have hg2 := (postOnlyRejected_iff K arg.OrderType arg.PostOnly).mp hg
      rcases h arg harg with h1 | h1 | h1
      · rw [hg2.1] at h1
        exact Bool.noConfusion h1
      · exact hg2.2.1 h1
      · exact hg2.2.2 h1
    unfold PostOrders submitOrders
    cases h2 : assertLevel2Auth K c with
    | error e => rfl
    | ok u => simp only [if_neg hany]

/-- C11 on concrete runs: an L2 client posting a post-only FOK order is
rejected without a request; the same order as GTC is sent. -/
theorem postOnly_validation_witness :
    (true = true ∧ "FOK" ≠ sampleConsts.OrderTypeGTC ∧ "FOK" ≠ sampleConsts.OrderTypeGTD)
      ∧ PostOrderWithOptions sampleConsts samplePrimitives sampleEnv sampleClient "x" "FOK" true
        = (.error postOnlyError, [])
      ∧ (PostOrderWithOptions sampleConsts samplePrimitives sampleEnv sampleClient "x" "GTC"
          true).2.length = 1
      ∧ PostOrders sampleConsts samplePrimitives sampleEnv sampleClient
          [⟨"x", "GTC", false⟩, ⟨"y", "FOK", true⟩] = (.error postOnlyError, []) :=
  ⟨by decide,
    (postOnly_validation sampleConsts samplePrimitives sampleEnv sampleClient "x" "FOK" true
      []).1 rfl (by decide) (by decide),
    by decide, by decide⟩

/-! ## Market price from the book -/

theorem buyLoop_eq_walkLoop {F : Type} (A : Arith F) (X : FloatOps F)
    (positions : List (Option OrderSummary)) (amount : F) :
    ∀ (n : Nat) (sum : F), buyLoop A X positions amount n sum
      = walkLoop A X (fun l => A.mul (A.ParseFloat l.Size) (A.ParseFloat l.Price))
          positions amount n sum := by
  intro n
  induction n with
  | zero => intro sum; rfl
  | succ i ih =>
    intro sum
    unfold buyLoop walkLoop
    cases h : positions.get? i with
    | none => exact ih sum
    | some o =>
      cases o with
      | none => exact ih sum
      | some pos =>
        simp only
        split_ifs
        · rfl
        · exact ih _

theorem sellLoop_eq_walkLoop {F : Type} (A : Arith F) (X : FloatOps F)
    (positions : List (Option OrderSummary)) (amount : F) :
    ∀ (n : Nat) (sum : F), sellLoop A X positions amount n sum
      = walkLoop A X (fun l => A.ParseFloat l.Size) positions amount n sum := by
  intro n
  induction n with
  | zero => intro sum; rfl
  | succ i ih =>
    intro sum
    unfold sellLoop walkLoop
    cases h : positions.get? i with
    | none => exact ih sum
    | some o =>
      cases o with
      | none => exact ih sum
      | some pos =>
        simp only
        split_ifs
        · rfl
        · exact ih _

theorem walkLoop_append {F : Type} (A : Arith F) (X : FloatOps F) (w : OrderSummary → F)
    (pre suf : List (Option OrderSummary)) (amount : F) :
    ∀ (n : Nat) (sum : F), n ≤ pre.length →
      walkLoop A X w (pre ++ suf) amount n sum = walkLoop A X w pre amount n sum := by
  intro n
  induction n with
  | zero => intro sum _; rfl
  | succ i ih =>
    intro sum hle
    have hi : i < pre.length := hle
    unfold walkLoop
    rw [List.get?_append hi]
    cases h : pre.get? i with
    | none => exact ih sum (Nat.le_of_lt hi)
    | some o =>
      cases o with
      | none => exact ih sum (Nat.le_of_lt hi)
      | some pos =>
        simp only
        split_ifs
        · rfl
        · exact ih _ (Nat.le_of_lt hi)

theorem walkLoop_eq_firstReaching {F : Type} (A : Arith F) (X : FloatOps F)
    (w : OrderSummary → F) (amount : F) (levels : List OrderSummary) :
    ∀ sum : F, walkLoop A X w (levels.map some) amount levels.length sum
      = firstReaching A X w amount levels.reverse sum := by
  induction levels using List.reverseRecOn with
  | nil => intro sum; rfl
  | append_singleton pre x ih =>
    intro sum
    have hlen : (pre ++ [x]).length = pre.length + 1 := by simp
    have hget : ((pre ++ [x]).map some).get? pre.length = some (some x) := by
      simp [List.get?_append_right]
    have hmap : (pre ++ [x]).map some = pre.map some ++ [some x] := by simp
    rw [hlen, List.reverse_append]
    simp only [List.reverse_singleton, List.singleton_append]
    unfold walkLoop firstReaching
    rw [hget]
    simp only
    split_ifs
    · rfl
    · rw [hmap, walkLoop_append A X w (pre.map some) [some x] amount pre.length _
        (by simp)]
      exact ih _

theorem firstLevelReaching_eq_firstReaching {F : Type} (A : Arith F) (X : FloatOps F)
    (amount : F) (levels : List OrderSummary) :
    ∀ total : F, firstLevelReaching A X amount levels total
      = firstReaching A X (fun l => A.mul (A.ParseFloat l.Size) (A.ParseFloat l.Price))
          amount levels total := by
  induction levels with
  | nil => intro total; rfl
  | cons l rest ih =>
    intro total
    unfold firstLevelReaching firstReaching
    split_ifs
    · rfl
    · exact ih _

theorem CalculateBuyMarketPrice_eq {F : Type} (A : Arith F) (X : FloatOps F)
    (first : OrderSummary) (rest : List OrderSummary) (amount : F) (orderType : String) :
    CalculateBuyMarketPrice A X (ConvertOrderSummaries (first :: rest)) amount orderType
      = match firstLevelReaching A X amount (first :: rest).reverse X.zero with
        | some price => .ok price
        | none =>
          if orderType = "FOK" then .error "no match" else .ok (A.ParseFloat first.Price) := by
  have hlen : (ConvertOrderSummaries (first :: rest)).length ≠ 0 := by
    simp [ConvertOrderSummaries]
  have hlen2 : (ConvertOrderSummaries (first :: rest)).length = (first :: rest).length := by
    simp [ConvertOrderSummaries]
  unfold CalculateBuyMarketPrice
  rw [if_neg hlen, buyLoop_eq_walkLoop, hlen2]
  unfold ConvertOrderSummaries
  rw [walkLoop_eq_firstReaching, firstLevelReaching_eq_firstReaching]
  rfl

theorem CalculateSellMarketPrice_eq {F : Type} (A : Arith F) (X : FloatOps F)
    (first : OrderSummary) (rest : List OrderSummary) (amount : F) (orderType : String) :
    CalculateSellMarketPrice A X (ConvertOrderSummaries (first :: rest)) amount orderType
      = match firstReaching A X (fun l => A.ParseFloat l.Size) amount
            (first :: rest).reverse X.zero with
        | some price => .ok price
        | none =>
          if orderType = "FOK" then .error "no match" else .ok (A.ParseFloat first.Price) := by
  have hlen : (ConvertOrderSummaries (first :: rest)).length ≠ 0 := by
    simp [ConvertOrderSummaries]
  have hlen2 : (ConvertOrderSummaries (first :: rest)).length = (first :: rest).length := by
    simp [ConvertOrderSummaries]
  unfold CalculateSellMarketPrice
  rw [if_neg hlen, sellLoop_eq_walkLoop, hlen2]
  unfold ConvertOrderSummaries
  rw [walkLoop_eq_firstReaching]
  rfl

/-- C18, as stated, fails: on the asks 100 at 0.5 and 100 at 0.6, listed
best price first, an amount of 10 is reached at the first level from the
best price, 0.5, while `CalculateBuyMarketPrice` returns 0.6: it walks the
list from its last element. -/
theorem CalculateBuyMarketPrice_not_from_first :
    Dec.le (Dec.ParseFloat "0.5") (Dec.ParseFloat "0.6") = true
      ∧ firstLevelReaching decimalArith decimalOps (Dec.ofInt 10) sampleAsks decimalOps.zero
        = some (Dec.decimal 5 1)
      ∧ CalculateBuyMarketPrice decimalArith decimalOps (ConvertOrderSummaries sampleAsks)
          (Dec.ofInt 10) "FOK" = .ok (Dec.decimal 6 1)
      ∧ CalculateBuyMarketPrice decimalArith decimalOps (ConvertOrderSummaries sampleAsks)
          (Dec.ofInt 10) "GTC" = .ok (Dec.decimal 6 1)
      ∧ Dec.le (Dec.decimal 6 1) (Dec.decimal 5 1) = false := by
  decide

/-- C18, amended: for every arithmetic, every non-empty list of asks and
every amount some running total reaches, `CalculateBuyMarketPrice` returns
the price of the first level, counting from the last element of the list
towards its first, at which the running total of size times price reaches
the requested amount, whatever the order type. -/
theorem CalculateBuyMarketPrice_from_last {F : Type} (A : Arith F) (X : FloatOps F)
    (first : OrderSummary) (rest : List OrderSummary) (amount : F) (orderType : String)
    (price : F)
    (hreach : firstLevelReaching A X amount (first :: rest).reverse X.zero = some price) :
    CalculateBuyMarketPrice A X (ConvertOrderSummaries (first :: rest)) amount orderType
      = .ok price := by
  rw [CalculateBuyMarketPrice_eq, hreach]

/-- C18 on a concrete run: on the asks 100 at 0.5 and 100 at 0.6 the walk
from the last element reaches an amount of 10 at 0.6 and an amount of 100
at 0.5. -/
theorem CalculateBuyMarketPrice_from_last_witness :
    firstLevelReaching decimalArith decimalOps (Dec.ofInt 100)
        ([⟨"0.5", "100"⟩, ⟨"0.6", "100"⟩] : List OrderSummary).reverse decimalOps.zero
        = some (Dec.decimal 5 1)
      ∧ CalculateBuyMarketPrice decimalArith decimalOps
          (ConvertOrderSummaries [⟨"0.5", "100"⟩, ⟨"0.6", "100"⟩]) (Dec.ofInt 100) "FOK"
        = .ok (Dec.decimal 5 1) :=
  ⟨by decide,
    CalculateBuyMarketPrice_from_last decimalArith decimalOps ⟨"0.5", "100"⟩ [⟨"0.6", "100"⟩]
      (Dec.ofInt 100) "FOK" (Dec.decimal 5 1) (by decide)⟩

theorem Dec.toRat_add (x y : Dec) : (Dec.add x y).toRat = x.toRat + y.toRat := by
  have hx : (x.den : ℚ) ≠ 0 := Nat.cast_ne_zero.mpr x.den_pos.ne.symm
  have hy : (y.den : ℚ) ≠ 0 := Nat.cast_ne_zero.mpr y.den_pos.ne.symm
  simp only [Dec.add, Dec.toRat]
  push_cast
  field_simp

theorem firstReaching_none_of_depth (w : OrderSummary → Dec) (amount : Dec) :
    ∀ (levels : List OrderSummary) (total : Dec),
      (∀ l ∈ levels, 0 ≤ (w l).toRat) →
      total.toRat + (levels.map fun l => (w l).toRat).sum < amount.toRat →
      firstReaching decimalArith decimalOps w amount levels total = none := by
  intro levels
  induction levels with
  | nil => intro total _ _; rfl
  | cons l rest ih =>
    intro total hnn hlt
    have hrest : 0 ≤ (rest.map fun l => (w l).toRat).sum :=
      List.sum_nonneg (by
        intro x hx
        obtain ⟨a, ha, rfl⟩ := List.mem_map.mp hx
        exact hnn a (List.mem_cons_of_mem _ ha))
    have hsum : (Dec.add total (w l)).toRat = total.toRat + (w l).toRat := Dec.toRat_add _ _
    simp only [List.map_cons, List.sum_cons] at hlt
    have hge : ¬ (decimalArith.ge (decimalOps.add total (w l)) amount = true) := by
      change ¬ (Dec.le amount (Dec.add total (w l)) = true)
      rw [Dec.le_iff, hsum]
      linarith
    unfold firstReaching
    rw [if_neg hge]
    apply ih
    · intro a ha
      exact hnn a (List.mem_cons_of_mem _ ha)
    · change (Dec.add total (w l)).toRat + _ < _
      rw [hsum]
      linarith

/-- In exact decimal arithmetic, for every non-empty book side with
non-negative prices and sizes whose depth is below the requested amount (the
sum of size times price for a buy, the sum of sizes for a sell), with order
type "FOK" `CalculateBuyMarketPrice` and `CalculateSellMarketPrice` fail
with the no-match error, and with every other order type they return the
price of the first level of the list, which is the best price of a side
listed best price first. -/
theorem decimal_insufficient_depth (first : OrderSummary) (rest : List OrderSummary) (amount : Dec)
    (hnn : NonNegativeLevels (first :: rest)) :
    (buyDepth (first :: rest) < amount.toRat →
        CalculateBuyMarketPrice decimalArith decimalOps
            (ConvertOrderSummaries (first :: rest)) amount "FOK" = .error "no match"
          ∧ ∀ orderType : String, orderType ≠ "FOK" →
            CalculateBuyMarketPrice decimalArith decimalOps
              (ConvertOrderSummaries (first :: rest)) amount orderType
              = .ok (Dec.ParseFloat first.Price))
      ∧ (sellDepth (first :: rest) < amount.toRat →
        CalculateSellMarketPrice decimalArith decimalOps
            (ConvertOrderSummaries (first :: rest)) amount "FOK" = .error "no match"
          ∧ ∀ orderType : String, orderType ≠ "FOK" →
            CalculateSellMarketPrice decimalArith decimalOps
              (ConvertOrderSummaries (first :: rest)) amount orderType
              = .ok (Dec.ParseFloat first.Price))
      ∧ ((first :: rest).Pairwise
          (fun a b => (Dec.ParseFloat a.Price).toRat ≤ (Dec.ParseFloat b.Price).toRat) →
        ∀ l ∈ first :: rest,
          (Dec.ParseFloat first.Price).toRat ≤ (Dec.ParseFloat l.Price).toRat)
      ∧ ((first :: rest).Pairwise
          (fun a b => (Dec.ParseFloat b.Price).toRat ≤ (Dec.ParseFloat a.Price).toRat) →
        ∀ l ∈ first :: rest,
          (Dec.ParseFloat l.Price).toRat ≤ (Dec.ParseFloat first.Price).toRat) := by
  have hzero : (decimalOps.zero : Dec).toRat = 0 := by
    change (Dec.ofInt 0).toRat = 0
    rw [Dec.toRat_ofInt]
    norm_num
  refine ⟨?_, ?_, ?_, ?_⟩
  · intro hdepth
    have hnone : firstLevelReaching decimalArith decimalOps amount (first :: rest).reverse
        decimalOps.zero = none := by
      rw [firstLevelReaching_eq_firstReaching]
      apply firstReaching_none_of_depth
      · intro l hl
        have := hnn l (List.mem_reverse.mp hl)
        change 0 ≤ (Dec.mul (Dec.ParseFloat l.Size) (Dec.ParseFloat l.Price)).toRat
        rw [Dec.toRat_mul]
        exact mul_nonneg this.1 this.2
      · rw [hzero, zero_add, List.map_reverse, List.sum_reverse]
        have : ((first :: rest).map fun l =>
            (decimalArith.mul (decimalArith.ParseFloat l.Size)
              (decimalArith.ParseFloat l.Price)).toRat) = (first :: rest).map fun l =>
            (Dec.ParseFloat l.Size).toRat * (Dec.ParseFloat l.Price).toRat := by
          apply List.map_congr_left
          intro l _
          exact Dec.toRat_mul _ _
        rw [this]
        exact hdepth
    refine ⟨?_, ?_⟩
    · rw [CalculateBuyMarketPrice_eq, hnone]
      rfl
    · intro orderType hne
      rw [CalculateBuyMarketPrice_eq, hnone]
      simp only [if_neg hne]
      rfl
  · intro hdepth
    have hnone : firstReaching decimalArith decimalOps
        (fun l => decimalArith.ParseFloat l.Size) amount (first :: rest).reverse
        decimalOps.zero = none := by
      apply firstReaching_none_of_depth
      · intro l hl
        exact (hnn l (List.mem_reverse.mp hl)).1
      · rw [hzero, zero_add, List.map_reverse, List.sum_reverse]
        exact hdepth
    refine ⟨?_, ?_⟩
    · rw [CalculateSellMarketPrice_eq, hnone]
      rfl
    · intro orderType hne
      rw [CalculateSellMarketPrice_eq, hnone]
      simp only [if_neg hne]
      rfl
  · intro hp l hl
    rcases List.mem_cons.mp hl with rfl | hl
    · exact le_refl _
    · exact List.rel_of_pairwise_cons hp hl
  · intro hp l hl
    rcases List.mem_cons.mp hl with rfl | hl
    · exact le_refl _
    · exact List.rel_of_pairwise_cons hp hl

theorem Dec.toRat_nonneg_of_num (x : Dec) (h : 0 ≤ x.num) : 0 ≤ x.toRat := by
  unfold Dec.toRat
  exact div_nonneg (by exact_mod_cast h) (Nat.cast_nonneg _)

theorem sampleAsks_nonNegative : NonNegativeLevels sampleAsks := by
  intro l hl
  simp only [sampleAsks, List.mem_cons, List.mem_singleton, List.not_mem_nil, or_false] at hl
  rcases hl with rfl | rfl
  · exact ⟨Dec.toRat_nonneg_of_num _ (by decide), Dec.toRat_nonneg_of_num _ (by decide)⟩
  · exact ⟨Dec.toRat_nonneg_of_num _ (by decide), Dec.toRat_nonneg_of_num _ (by decide)⟩

theorem sampleAsks_buyDepth : buyDepth sampleAsks = 110 := by
  have h1 : Dec.ParseFloat "0.5" = Dec.decimal 5 1 := by decide
  have h2 : Dec.ParseFloat "0.6" = Dec.decimal 6 1 := by decide
  have h3 : Dec.ParseFloat "100" = Dec.ofInt 100 := by decide
  simp only [buyDepth, sampleAsks, List.map_cons, List.map_nil, List.sum_cons, List.sum_nil,
    h1, h2, h3, Dec.toRat, Dec.decimal, Dec.ofInt]
  norm_num

/-- Exact decimals on a concrete run: the asks 100 at 0.5 and 100 at 0.6
have depth 110, below an amount of 1000; "FOK" fails and "GTC" returns the
price of the first level, 0.5. -/
theorem decimal_insufficient_depth_sample :
    NonNegativeLevels sampleAsks
      ∧ buyDepth sampleAsks < (Dec.ofInt 1000).toRat
      ∧ CalculateBuyMarketPrice decimalArith decimalOps (ConvertOrderSummaries sampleAsks)
          (Dec.ofInt 1000) "FOK" = .error "no match"
      ∧ CalculateBuyMarketPrice decimalArith decimalOps (ConvertOrderSummaries sampleAsks)
          (Dec.ofInt 1000) "GTC" = .ok (Dec.decimal 5 1) :=
  have hdepth : buyDepth sampleAsks < (Dec.ofInt 1000).toRat := by
    rw [sampleAsks_buyDepth, Dec.toRat_ofInt]
    norm_num
  ⟨sampleAsks_nonNegative, hdepth,
    ((decimal_insufficient_depth ⟨"0.5", "100"⟩ [⟨"0.6", "100"⟩] (Dec.ofInt 1000)
      sampleAsks_nonNegative).1 hdepth).1,
    ((decimal_insufficient_depth ⟨"0.5", "100"⟩ [⟨"0.6", "100"⟩] (Dec.ofInt 1000)
      sampleAsks_nonNegative).1 hdepth).2 "GTC" (by decide)⟩

/-! ## Insufficient depth -/

theorem firstReaching_none_iff {F : Type} (A : Arith F) (X : FloatOps F)
    (w : OrderSummary → F) (amount : F) :
    ∀ (levels : List OrderSummary) (total : F),
      firstReaching A X w amount levels total = none
        ↔ ∀ t ∈ runningTotals X w levels total, A.ge t amount = false := by
  intro levels
  induction levels with
  | nil =>
    intro total
    simp [firstReaching, runningTotals]
  | cons l rest ih =>
    intro total
    unfold firstReaching runningTotals
    by_cases h : A.ge (X.add total (w l)) amount = true
    · simp [h]
    · have hf : A.ge (X.add total (w l)) amount = false := by
        cases hb : A.ge (X.add total (w l)) amount
        · rfl
        · exact absurd hb h
      rw [if_neg h, ih]
      simp only [List.mem_cons, forall_eq_or_imp, hf, true_and]

/-- C19, as stated, fails.  On the single ask of size 3 at price 0.1 the
depth, 3 times 0.1, is below the amount 0.30000000000000004 (as decimals, and
also in the exact values of the float64 numbers), yet with order type "FOK"
`CalculateBuyMarketPrice` returns the price 0.1: the float64 product is
0.30000000000000004.  On the bids of size -5 and of size 10 the sum of the
sizes, 5, is below the amount 8, yet `CalculateSellMarketPrice` returns a
price with "FOK": the walk stops at the first running total that reaches the
amount.  On the asks at 0.6 and at 0.5, of depth 1.1, an amount of 100 with
order type "GTC" returns 0.6, the price of the first level, which is not the
lowest ask. -/
theorem depth_not_decisive :
    CalculateBuyMarketPrice float64Arith float64Ops (ConvertOrderSummaries [⟨"0.1", "3"⟩])
        (Float64.ParseFloat "0.30000000000000004") "FOK" = .ok (Float64.ParseFloat "0.1")
      ∧ Dec.lt (Dec.mul (Dec.ParseFloat "3") (Dec.ParseFloat "0.1"))
          (Dec.ParseFloat "0.30000000000000004") = true
      ∧ Dec.lt (Dec.mul (Float64.ParseFloat "3").toDec (Float64.ParseFloat "0.1").toDec)
          (Float64.ParseFloat "0.30000000000000004").toDec = true
      ∧ CalculateSellMarketPrice float64Arith float64Ops
          (ConvertOrderSummaries [⟨"0.5", "-5"⟩, ⟨"0.4", "10"⟩]) (Float64.ParseFloat "8") "FOK"
        = .ok (Float64.ParseFloat "0.4")
      ∧ Float64.lt (Float64.add (Float64.ParseFloat "-5") (Float64.ParseFloat "10"))
          (Float64.ParseFloat "8") = true
      ∧ CalculateBuyMarketPrice float64Arith float64Ops
          (ConvertOrderSummaries [⟨"0.6", "1"⟩, ⟨"0.5", "1"⟩]) (Float64.ParseFloat "100") "GTC"
        = .ok (Float64.ParseFloat "0.6")
      ∧ Float64.lt (Float64.ParseFloat "0.5") (Float64.ParseFloat "0.6") = true := by
  decide

/-- C19, amended: for every arithmetic and every non-empty book side, with
order type "FOK" `CalculateBuyMarketPrice` and `CalculateSellMarketPrice`
fail with the no-match error exactly when no running total of the walk
reaches the requested amount (the totals the code accumulates in float64
from the last level of the list towards the first, of size times price for a
buy and of size for a sell); when none does, with every other order type
they succeed and return the price of the first level of the list. -/
theorem insufficient_running_total {F : Type} (A : Arith F) (X : FloatOps F)
    (first : OrderSummary) (rest : List OrderSummary) (amount : F) :
    ((∀ total ∈ runningTotals X
            (fun l => A.mul (A.ParseFloat l.Size) (A.ParseFloat l.Price))
            (first :: rest).reverse X.zero, A.ge total amount = false)
        ↔ CalculateBuyMarketPrice A X (ConvertOrderSummaries (first :: rest)) amount "FOK"
          = .error "no match")
      ∧ ((∀ total ∈ runningTotals X
            (fun l => A.mul (A.ParseFloat l.Size) (A.ParseFloat l.Price))
            (first :: rest).reverse X.zero, A.ge total amount = false) →
        ∀ orderType : String, orderType ≠ "FOK" →
          CalculateBuyMarketPrice A X (ConvertOrderSummaries (first :: rest)) amount orderType
            = .ok (A.ParseFloat first.Price))
      ∧ ((∀ total ∈ runningTotals X (fun l => A.ParseFloat l.Size)
            (first :: rest).reverse X.zero, A.ge total amount = false)
        ↔ CalculateSellMarketPrice A X (ConvertOrderSummaries (first :: rest)) amount "FOK"
          = .error "no match")
      ∧ ((∀ total ∈ runningTotals X (fun l => A.ParseFloat l.Size)
            (first :: rest).reverse X.zero, A.ge total amount = false) →
        ∀ orderType : String, orderType ≠ "FOK" →
          CalculateSellMarketPrice A X (ConvertOrderSummaries (first :: rest)) amount orderType
            = .ok (A.ParseFloat first.Price)) := by
  have hbuy := firstReaching_none_iff A X
    (fun l => A.mul (A.ParseFloat l.Size) (A.ParseFloat l.Price)) amount
    (first :: rest).reverse X.zero
  have hsell := firstReaching_none_iff A X (fun l => A.ParseFloat l.Size) amount
    (first :: rest).reverse X.zero
  refine ⟨?_, ?_, ?_, ?_⟩
  · rw [← hbuy, CalculateBuyMarketPrice_eq, firstLevelReaching_eq_firstReaching]
    cases firstReaching A X (fun l => A.mul (A.ParseFloat l.Size) (A.ParseFloat l.Price))
        amount (first :: rest).reverse X.zero with
    | none => simp
    | some price => simp
  · intro h orderType hne
    rw [CalculateBuyMarketPrice_eq, firstLevelReaching_eq_firstReaching, hbuy.mpr h]
    simp only [if_neg hne]
  · rw [← hsell, CalculateSellMarketPrice_eq]
    cases firstReaching A X (fun l => A.ParseFloat l.Size) amount (first :: rest).reverse
        X.zero with
    | none => simp
    | some price => simp
  · intro h orderType hne
    rw [CalculateSellMarketPrice_eq, hsell.mpr h]
    simp only [if_neg hne]

/-- C19 on a concrete float64 run: on the asks 100 at 0.5 and 100 at 0.6 the
running totals are 60 and 110, below an amount of 1000; "FOK" fails and
"GTC" returns the price of the first level, 0.5. -/
theorem insufficient_running_total_witness :
    runningTotals float64Ops
        (fun l => float64Arith.mul (float64Arith.ParseFloat l.Size)
          (float64Arith.ParseFloat l.Price))
        sampleAsks.reverse float64Ops.zero
        = [Float64.ParseFloat "60", Float64.ParseFloat "110"]
      ∧ CalculateBuyMarketPrice float64Arith float64Ops (ConvertOrderSummaries sampleAsks)
          (Float64.ParseFloat "1000") "FOK" = .error "no match"
      ∧ CalculateBuyMarketPrice float64Arith float64Ops (ConvertOrderSummaries sampleAsks)
          (Float64.ParseFloat "1000") "GTC" = .ok (Float64.ParseFloat "0.5") :=
  ⟨by decide,
    (insufficient_running_total float64Arith float64Ops ⟨"0.5", "100"⟩ [⟨"0.6", "100"⟩]
      (Float64.ParseFloat "1000")).1.mp (by decide),
    (insufficient_running_total float64Arith float64Ops ⟨"0.5", "100"⟩ [⟨"0.6", "100"⟩]
      (Float64.ParseFloat "1000")).2.1 (by decide) "GTC" (by decide)⟩

/-! ## Proxy-wallet struct -/

theorem beWord_length : ∀ (k n : Nat), (beWord k n).length = k := by
  intro k
  induction k with
  | zero => intro n; rfl
  | succ k ih =>
    intro n
    simp [beWord, ih]

theorem beValue_append_singleton (bs : List UInt8) (b : UInt8) :
    beValue (bs ++ [b]) = beValue bs * 256 + b.toNat := by
  simp [beValue, List.foldl_append]

theorem beValue_beWord : ∀ (k n : Nat), beValue (beWord k n) = n % 256 ^ k := by
  intro k
  induction k with
  | zero => intro n; simp [beWord, beValue, Nat.mod_one]
  | succ k ih =>
    intro n
    have hb : (UInt8.ofNat (n % 256)).toNat = n % 256 := by
      simp [UInt8.toNat, UInt8.ofNat, Fin.ofNat]
    rw [beWord, beValue_append_singleton, ih, hb, pow_succ, Nat.mul_comm (256 ^ k) 256,
      Nat.mod_mul]
    ring

theorem beDigits_pad : ∀ (k fuel n : Nat), n < 256 ^ k → n ≤ fuel →
    (beDigits fuel n).length ≤ k
      ∧ List.replicate (k - (beDigits fuel n).length) 0 ++ beDigits fuel n = beWord k n := by
  intro k
  induction k with
  | zero =>
    intro fuel n hn _
    have h0 : n = 0 := by simpa using hn
    subst h0
    cases fuel <;> simp [beDigits, beWord]
  | succ k ih =>
    intro fuel n hn hf
    by_cases h0 : n = 0
    · subst h0
      have hd : beDigits fuel 0 = [] := by cases fuel <;> simp [beDigits]
      have hk := (ih 0 0 (by positivity) (le_refl _)).2
      simp only [beDigits, List.length_nil, Nat.sub_zero, List.append_nil] at hk
      rw [hd]
      refine ⟨by simp, ?_⟩
      simp only [List.length_nil, Nat.sub_zero, List.append_nil, beWord, Nat.zero_div,
        Nat.zero_mod, ← hk]
      exact List.replicate_succ' _ _
    · obtain ⟨f, rfl⟩ : ∃ f, fuel = f + 1 := ⟨fuel - 1, by omega⟩
      have hdiv : n / 256 < 256 ^ k := by
        apply Nat.div_lt_of_lt_mul
        rw [pow_succ, Nat.mul_comm] at hn
        exact hn
      have hfd : n / 256 ≤ f := by
        have : n / 256 < n := Nat.div_lt_self (Nat.pos_of_ne_zero h0) (by decide)
        omega
      obtain ⟨hlen, hpad⟩ := ih f (n / 256) hdiv hfd
      simp only [beDigits, if_neg h0, List.length_append, List.length_singleton, beWord]
      refine ⟨by omega, ?_⟩
      rw [← hpad, List.append_assoc]
      congr 2
      omega

theorem LeftPadBytes_bigIntBytes (x : Int) (h0 : 0 ≤ x) (h1 : x < 2 ^ 256) :
    LeftPadBytes (bigIntBytes x) 32 = beWord 32 x.toNat := by
  have hx : x.natAbs = x.toNat := by omega
  have hlt : x.toNat < 256 ^ 32 := by
    have : (256 : Nat) ^ 32 = 2 ^ 256 := by norm_num
    omega
  obtain ⟨hlen, hpad⟩ := beDigits_pad 32 x.toNat x.toNat hlt (le_refl _)
  unfold LeftPadBytes bigIntBytes
  rw [hx]
  split_ifs with h
  · have h32 : (beDigits x.toNat x.toNat).length = 32 := le_antisymm hlen h
    rw [h32] at hpad
    simpa using hpad
  · exact hpad

/-- C20: for every from, to, relay-hub and relay address, every hex data
string and every fee, gas price, gas limit and nonce given as decimal
numerals of integers in `[0, 2^256)`, `CreateProxyStruct` returns the bytes
"rlx:", the 20 bytes of from, the 20 bytes of to, the data bytes, the four
numbers as 32-byte big-endian words, the 20 bytes of the relay hub and the
20 bytes of the relay: 212 bytes and the data. -/
theorem CreateProxyStruct_bytes (C : EthCommon) (fromAddress to_ data txFee gasPrice gasLimit
    nonce relayHubAddress relayAddress : String) (fee price limit n : Int)
    (hfee : IsWordNumeral txFee fee) (hprice : IsWordNumeral gasPrice price)
    (hlimit : IsWordNumeral gasLimit limit) (hnonce : IsWordNumeral nonce n) :
    CreateProxyStruct C fromAddress to_ data txFee gasPrice gasLimit nonce relayHubAddress
        relayAddress
        = .ok (utf8 "rlx:" ++ (C.HexToAddress fromAddress).bytes
            ++ (C.HexToAddress to_).bytes ++ C.FromHex data
            ++ beWord 32 fee.toNat ++ beWord 32 price.toNat
            ++ beWord 32 limit.toNat ++ beWord 32 n.toNat
            ++ (C.HexToAddress relayHubAddress).bytes ++ (C.HexToAddress relayAddress).bytes)
      ∧ (utf8 "rlx:" ++ (C.HexToAddress fromAddress).bytes
            ++ (C.HexToAddress to_).bytes ++ C.FromHex data
            ++ beWord 32 fee.toNat ++ beWord 32 price.toNat
            ++ beWord 32 limit.toNat ++ beWord 32 n.toNat
            ++ (C.HexToAddress relayHubAddress).bytes
            ++ (C.HexToAddress relayAddress).bytes).length = 212 + (C.FromHex data).length
      ∧ utf8 "rlx:" = [114, 108, 120, 58]
      ∧ (beValue (beWord 32 fee.toNat) = fee.toNat ∧ beValue (beWord 32 price.toNat) = price.toNat
          ∧ beValue (beWord 32 limit.toNat) = limit.toNat
          ∧ beValue (beWord 32 n.toNat) = n.toNat) := by
  have hval : ∀ x : Int, 0 ≤ x → x < 2 ^ 256 → beValue (beWord 32 x.toNat) = x.toNat := by
    intro x h0 h1
    rw [beValue_beWord]
    apply Nat.mod_eq_of_lt
    have : (256 : Nat) ^ 32 = 2 ^ 256 := by norm_num
    omega
  refine ⟨?_, ?_, by decide, hval _ hfee.2.1 hfee.2.2, hval _ hprice.2.1 hprice.2.2,
    hval _ hlimit.2.1 hlimit.2.2, hval _ hnonce.2.1 hnonce.2.2⟩
  · simp only [CreateProxyStruct, hfee.1, hprice.1, hlimit.1, hnonce.1,
      LeftPadBytes_bigIntBytes _ hfee.2.1 hfee.2.2,
      LeftPadBytes_bigIntBytes _ hprice.2.1 hprice.2.2,
      LeftPadBytes_bigIntBytes _ hlimit.2.1 hlimit.2.2,
      LeftPadBytes_bigIntBytes _ hnonce.2.1 hnonce.2.2]
  · have h4 : (utf8 "rlx:").length = 4 := by decide
    simp only [List.length_append, beWord_length, Address.length_eq, h4]
    omega

/-- C20 on a concrete run: fee 0, gas price 1, gas limit 256 and the nonce
`2^256 - 1`. -/
theorem CreateProxyStruct_bytes_witness :
    (IsWordNumeral "0" 0 ∧ IsWordNumeral "1" 1 ∧ IsWordNumeral "256" 256
        ∧ IsWordNumeral
          "115792089237316195423570985008687907853269984665640564039457584007913129639935"
          (2 ^ 256 - 1))
      ∧ (CreateProxyStruct sampleEthCommon "a" "b" "dd" "0" "1" "256"
          "115792089237316195423570985008687907853269984665640564039457584007913129639935"
          "h" "r").map List.length = .ok 214
      ∧ CreateProxyStruct sampleEthCommon "a" "b" "dd" "0" "1" "256"
          "115792089237316195423570985008687907853269984665640564039457584007913129639935"
          "h" "r"
        = .ok (utf8 "rlx:" ++ (sampleEthCommon.HexToAddress "a").bytes
            ++ (sampleEthCommon.HexToAddress "b").bytes ++ sampleEthCommon.FromHex "dd"
            ++ beWord 32 (0 : Int).toNat ++ beWord 32 (1 : Int).toNat
            ++ beWord 32 (256 : Int).toNat ++ beWord 32 (2 ^ 256 - 1 : Int).toNat
            ++ (sampleEthCommon.HexToAddress "h").bytes
            ++ (sampleEthCommon.HexToAddress "r").bytes) :=
  ⟨⟨⟨by decide, by decide, by decide⟩, ⟨by decide, by decide, by decide⟩,
      ⟨by decide, by decide, by decide⟩, ⟨by decide, by decide, by decide⟩⟩,
    by decide,
    (CreateProxyStruct_bytes sampleEthCommon "a" "b" "dd" "0" "1" "256"
      "115792089237316195423570985008687907853269984665640564039457584007913129639935"
      "h" "r" 0 1 256 (2 ^ 256 - 1) ⟨by decide, by decide, by decide⟩
      ⟨by decide, by decide, by decide⟩ ⟨by decide, by decide, by decide⟩
      ⟨by decide, by decide, by decide⟩).1⟩

/-! ## Order creation -/

theorem assertLevel1Auth_below (K : Consts) (c : ClobClient) (h : c.mode < K.L1) :
    assertLevel1Auth K c = .error K.L1AuthUnavailable := by
  simp [assertLevel1Auth, h]

theorem assertLevel1Auth_ok (K : Consts) (c : ClobClient) (h : ¬ c.mode < K.L1) :
    assertLevel1Auth K c = .ok () := by
  simp [assertLevel1Auth, h]

theorem CreateOrder_raw_eq {F S : Type} (K : Consts) (A : Arith F) (X : FloatOps F)
    (M : MarketService) (B : OrderEnv S) (c : ClobClient) (caches : MarketCaches)
    (orderArgs : OrderArgs F) (o : PartialCreateOrderOptions) (tickSize : String)
    (negRisk : Bool) (hmode : ¬ c.mode < K.L1) (hraw : o.RawOrder = true)
    (ht : o.TickSize = some tickSize) (hn : o.NegRisk = some negRisk) :
    CreateOrder K A X M B c caches orderArgs (some o)
      = finishOrder A X B c caches [] orderArgs tickSize negRisk := by
  simp [CreateOrder, assertLevel1Auth_ok K c hmode, hraw, ht, hn]

theorem CreateOrder_standard_eq {F S : Type} (K : Consts) (A : Arith F) (X : FloatOps F)
    (M : MarketService) (B : OrderEnv S) (c : ClobClient) (caches : MarketCaches)
    (orderArgs : OrderArgs F) (options : Option PartialCreateOrderOptions)
    (hmode : ¬ c.mode < K.L1) (hstd : StandardMode options) :
    CreateOrder K A X M B c caches orderArgs options
      = match (standardResolution A X M caches orderArgs options).result with
        | .error err =>
          ⟨.error err, (standardResolution A X M caches orderArgs options).args,
            (standardResolution A X M caches orderArgs options).caches,
            (standardResolution A X M caches orderArgs options).trace⟩
        | .ok (tickSize, negRisk) =>
          finishOrder A X B c (standardResolution A X M caches orderArgs options).caches
            (standardResolution A X M caches orderArgs options).trace
            (standardResolution A X M caches orderArgs options).args tickSize negRisk := by
  cases options with
  | none => simp only [CreateOrder, assertLevel1Auth_ok K c hmode]; rfl
  | some o =>
    simp only [CreateOrder, assertLevel1Auth_ok K c hmode, hstd o rfl]
    rfl

theorem CreateMarketOrder_eq {F S : Type} (K : Consts) (A : Arith F) (X : FloatOps F)
    (M : MarketService) (B : OrderEnv S) (c : ClobClient) (caches : MarketCaches)
    (orderArgs : MarketOrderArgs F) (options : Option PartialCreateOrderOptions)
    (hmode : ¬ c.mode < K.L1) :
    CreateMarketOrder K A X M B c caches orderArgs options
      = match (marketResolution A X M B caches orderArgs options).result with
        | .error err =>
          ⟨.error err, (marketResolution A X M B caches orderArgs options).args,
            (marketResolution A X M B caches orderArgs options).caches,
            (marketResolution A X M B caches orderArgs options).trace⟩
        | .ok tickSize =>
          finishMarketOrder A X M B c (marketResolution A X M B caches orderArgs options).caches
            (marketResolution A X M B caches orderArgs options).trace
            (marketResolution A X M B caches orderArgs options).args options tickSize := by
  simp only [CreateMarketOrder, assertLevel1Auth_ok K c hmode]

/-- C17: on a client whose mode is below L1, `CreateOrder` and
`CreateMarketOrder` return the L1 auth error for every order, option set,
arithmetic, market service and signing environment; the order arguments and
the caches are as before the call and there was no lookup and no signing. -/
theorem create_requires_level1 {F S : Type} (K : Consts) (A : Arith F) (X : FloatOps F)
    (M : MarketService) (B : OrderEnv S) (c : ClobClient) (caches : MarketCaches)
    (orderArgs : OrderArgs F) (marketArgs : MarketOrderArgs F)
    (options : Option PartialCreateOrderOptions) (h : c.mode < K.L1) :
    CreateOrder K A X M B c caches orderArgs options
        = ⟨.error K.L1AuthUnavailable, orderArgs, caches, []⟩
      ∧ CreateMarketOrder K A X M B c caches marketArgs options
        = ⟨.error K.L1AuthUnavailable, marketArgs, caches, []⟩ := by
  constructor
  · simp only [CreateOrder, assertLevel1Auth_below K c h]
  · simp only [CreateMarketOrder, assertLevel1Auth_below K c h]

theorem create_requires_level1_witness :
    sampleL0Client.mode < sampleConsts.L1
      ∧ CreateOrder sampleConsts decimalArith decimalOps sampleMarket sampleOrderEnv
          sampleL0Client noCaches (sampleOrder "BUY" (Dec.decimal 55 2)) none
        = ⟨.error sampleConsts.L1AuthUnavailable, sampleOrder "BUY" (Dec.decimal 55 2),
            noCaches, []⟩ :=
  ⟨by decide,
    (create_requires_level1 sampleConsts decimalArith decimalOps sampleMarket sampleOrderEnv
      sampleL0Client noCaches (sampleOrder "BUY" (Dec.decimal 55 2))
      ⟨"tok", Dec.ofInt 10, "BUY", Dec.ofInt 0, 0, 0, "", "FOK"⟩ none (by decide)).1⟩

/-- C13: when the market fee-rate lookup succeeds with `m`, `resolveFeeRate`
with the caller's rate `u` fails with the mismatch error if `u > 0`, `m > 0`
and `u ≠ m`, and in every other case succeeds with `m`; so it fails exactly
in the first case. -/
theorem resolveFeeRate_mismatch (M : MarketService) (caches : MarketCaches)
    (tokenID : String) (u m : Int)
    (hlookup : (GetFeeRateBps M caches tokenID).result = .ok m) :
    (0 < u ∧ 0 < m ∧ u ≠ m →
        (resolveFeeRate M caches tokenID u).result = .error (feeRateMismatch u m))
      ∧ (¬ (0 < u ∧ 0 < m ∧ u ≠ m) → (resolveFeeRate M caches tokenID u).result = .ok m)
      ∧ ((∃ err, (resolveFeeRate M caches tokenID u).result = .error err)
          ↔ 0 < u ∧ 0 < m ∧ u ≠ m) := by
  by_cases hc : 0 < u ∧ 0 < m ∧ u ≠ m
  · have hr : (resolveFeeRate M caches tokenID u).result = .error (feeRateMismatch u m) := by
      obtain ⟨hu, hm, hne⟩ := hc
      simp [resolveFeeRate, hlookup, hu, hm, hne]
    exact ⟨fun _ => hr, fun h => absurd hc h, ⟨fun _ => hc, fun _ => ⟨_, hr⟩⟩⟩
  · have hr : (resolveFeeRate M caches tokenID u).result = .ok m := by
      simp only [resolveFeeRate, hlookup]
      have hb : (decide (m > 0) && decide (u > 0) && (u != m)) = false := by
        by_contra hne
        apply hc
        simp only [Bool.not_eq_false, Bool.and_eq_true, decide_eq_true_eq, bne_iff_ne] at hne
        exact ⟨hne.1.2, hne.1.1, hne.2⟩
      simp [hb]
    refine ⟨fun h => absurd h hc, fun _ => hr, ⟨?_, fun h => absurd h hc⟩⟩
    rintro ⟨err, he⟩
    rw [hr] at he
    cases he

theorem resolveFeeRate_mismatch_witness :
    (GetFeeRateBps sampleMarket noCaches "tok").result = .ok 10
      ∧ (resolveFeeRate sampleMarket noCaches "tok" 25).result
        = .error (feeRateMismatch 25 10)
      ∧ (resolveFeeRate sampleMarket noCaches "tok" 0).result = .ok 10 :=
  ⟨by decide,
    (resolveFeeRate_mismatch sampleMarket noCaches "tok" 25 10 (by decide)).1 (by decide),
    by decide⟩

/-! ### The lookups cause lookup events only -/

theorem GetTickSize_trace (M : MarketService) (caches : MarketCaches) (tokenID : String) :
    (GetTickSize M caches tokenID).trace
      = if caches.tickSizes.lookup tokenID = none then [.tickSizeLookup tokenID] else [] := by
  unfold GetTickSize
  cases h : caches.tickSizes.lookup tokenID with
  | some v => simp
  | none => cases hf : M.fetchTickSize tokenID <;> simp

theorem GetNegRisk_trace (M : MarketService) (caches : MarketCaches) (tokenID : String) :
    (GetNegRisk M caches tokenID).trace
      = if caches.negRisk.lookup tokenID = none then [.negRiskLookup tokenID] else [] := by
  unfold GetNegRisk
  cases h : caches.negRisk.lookup tokenID with
  | some v => simp
  | none => cases hf : M.fetchNegRisk tokenID <;> simp

theorem GetFeeRateBps_trace (M : MarketService) (caches : MarketCaches) (tokenID : String) :
    (GetFeeRateBps M caches tokenID).trace
      = if caches.feeRates.lookup tokenID = none then [.feeRateLookup tokenID] else [] := by
  unfold GetFeeRateBps
  cases h : caches.feeRates.lookup tokenID with
  | some v => simp
  | none => cases hf : M.fetchFeeRate tokenID <;> simp

theorem resolveTickSize_trace {F : Type} (A : Arith F) (X : FloatOps F) (M : MarketService)
    (caches : MarketCaches) (tokenID : String) (tickSize : Option String) :
    (resolveTickSize A X M caches tokenID tickSize).trace
      = (GetTickSize M caches tokenID).trace := by
  unfold resolveTickSize
  cases h : (GetTickSize M caches tokenID).result with
  | error err => simp [h]
  | ok v =>
    cases tickSize with
    | none => simp [h]
    | some t => by_cases hs : IsTickSizeSmaller A X t v = true <;> simp [h, hs]

theorem resolveFeeRate_trace (M : MarketService) (caches : MarketCaches) (tokenID : String)
    (userFeeRate : Int) :
    (resolveFeeRate M caches tokenID userFeeRate).trace
      = (GetFeeRateBps M caches tokenID).trace := by
  unfold resolveFeeRate
  cases h : (GetFeeRateBps M caches tokenID).result with
  | error err => simp [h]
  | ok v =>
    by_cases hs : (decide (v > 0) && decide (userFeeRate > 0) && (userFeeRate != v)) = true
    · simp only [h, hs, if_true]
    · simp only [h, if_neg hs]

theorem CalculateMarketPrice_trace {F S : Type} (A : Arith F) (X : FloatOps F)
    (M : MarketService) (B : OrderEnv S) (caches : MarketCaches) (tokenID side : String)
    (amount : F) (orderType : String) :
    (CalculateMarketPrice A X M B caches tokenID side amount orderType).trace
      = [.orderBookLookup tokenID] := by
  unfold CalculateMarketPrice GetOrderBook
  cases h : M.fetchOrderBook tokenID with
  | error err => simp [h]
  | ok book =>
    by_cases hs : side = B.BUY
    · by_cases ha : book.Asks.length = 0 <;> simp [h, hs, ha]
    · by_cases hb : book.Bids.length = 0 <;> simp [h, hs, hb]

theorem lookups_of_ite (p : Prop) [Decidable p] (e : Event) (he : e.isLookup = true) :
    ∀ x ∈ (if p then [e] else []), x.isLookup = true := by
  intro x hx
  by_cases hp : p
  · rw [if_pos hp] at hx
    rw [List.mem_singleton.mp hx]
    exact he
  · rw [if_neg hp] at hx
    cases hx

theorem GetNegRisk_lookups (M : MarketService) (caches : MarketCaches) (tokenID : String) :
    ∀ e ∈ (GetNegRisk M caches tokenID).trace, e.isLookup = true := by
  rw [GetNegRisk_trace]
  exact lookups_of_ite _ _ rfl

theorem resolveTickSize_lookups {F : Type} (A : Arith F) (X : FloatOps F)
    (M : MarketService) (caches : MarketCaches) (tokenID : String)
    (tickSize : Option String) :
    ∀ e ∈ (resolveTickSize A X M caches tokenID tickSize).trace, e.isLookup = true := by
  rw [resolveTickSize_trace, GetTickSize_trace]
  exact lookups_of_ite _ _ rfl

theorem resolveFeeRate_lookups (M : MarketService) (caches : MarketCaches)
    (tokenID : String) (userFeeRate : Int) :
    ∀ e ∈ (resolveFeeRate M caches tokenID userFeeRate).trace, e.isLookup = true := by
  rw [resolveFeeRate_trace, GetFeeRateBps_trace]
  exact lookups_of_ite _ _ rfl

theorem resolveNegRisk_lookups (M : MarketService) (caches : MarketCaches)
    (tokenID : String) (options : Option PartialCreateOrderOptions) :
    ∀ e ∈ (resolveNegRisk M caches tokenID options).trace, e.isLookup = true := by
  unfold resolveNegRisk
  cases h : options.bind fun o => o.NegRisk with
  | none => exact GetNegRisk_lookups M caches tokenID
  | some v => intro e he; cases he

/-- The standard resolution leaves every field of the order arguments but
the fee rate as it was, starts with the events of the tick-size lookup and
causes lookup events only. -/
theorem standardResolution_frame {F : Type} (A : Arith F) (X : FloatOps F)
    (M : MarketService) (caches : MarketCaches) (orderArgs : OrderArgs F)
    (options : Option PartialCreateOrderOptions) :
    (standardResolution A X M caches orderArgs options).args
        = ⟨orderArgs.TokenID, orderArgs.Price, orderArgs.Size, orderArgs.Side,
            (standardResolution A X M caches orderArgs options).args.FeeRateBps,
            orderArgs.Nonce, orderArgs.Expiration, orderArgs.Taker⟩
      ∧ (∃ rest, (standardResolution A X M caches orderArgs options).trace
          = (GetTickSize M caches orderArgs.TokenID).trace ++ rest)
      ∧ (∀ e ∈ (standardResolution A X M caches orderArgs options).trace,
          e.isLookup = true) := by
  have ht := resolveTickSize_lookups A X M caches orderArgs.TokenID
    (options.bind fun o => o.TickSize)
  have htr := resolveTickSize_trace A X M caches orderArgs.TokenID
    (options.bind fun o => o.TickSize)
  unfold standardResolution
  simp only []
  cases h1 : (resolveTickSize A X M caches orderArgs.TokenID
      (options.bind fun o => o.TickSize)).result with
  | error err => exact ⟨rfl, ⟨[], by simp [htr]⟩, ht⟩
  | ok tickSize =>
    simp only []
    have hn := resolveNegRisk_lookups M
      (resolveTickSize A X M caches orderArgs.TokenID
        (options.bind fun o => o.TickSize)).caches orderArgs.TokenID options
    generalize resolveNegRisk M (resolveTickSize A X M caches orderArgs.TokenID
      (options.bind fun o => o.TickSize)).caches orderArgs.TokenID options = n at hn ⊢
    cases h2 : n.result with
    | error err =>
      refine ⟨rfl, ⟨n.trace, by simp [htr]⟩, ?_⟩
      intro e he
      rcases List.mem_append.mp he with h | h
      · exact ht e h
      · exact hn e h
    | ok negRisk =>
      simp only []
      have hf := resolveFeeRate_lookups M n.caches orderArgs.TokenID orderArgs.FeeRateBps
      have hall : ∀ e ∈ (resolveTickSize A X M caches orderArgs.TokenID
          (options.bind fun o => o.TickSize)).trace ++ n.trace
          ++ (resolveFeeRate M n.caches orderArgs.TokenID orderArgs.FeeRateBps).trace,
          e.isLookup = true := by
        intro e he
        rcases List.mem_append.mp he with h | h
        · rcases List.mem_append.mp h with h | h
          · exact ht e h
          · exact hn e h
        · exact hf e h
      cases h3 : (resolveFeeRate M n.caches orderArgs.TokenID orderArgs.FeeRateBps).result with
      | error err =>
        exact ⟨rfl, ⟨n.trace ++ (resolveFeeRate M n.caches orderArgs.TokenID
          orderArgs.FeeRateBps).trace, by simp [htr]⟩, hall⟩
      | ok fee =>
        exact ⟨rfl, ⟨n.trace ++ (resolveFeeRate M n.caches orderArgs.TokenID
          orderArgs.FeeRateBps).trace, by simp [htr]⟩, hall⟩

/-! ### After the resolution: price check, rounding, signing -/

theorem GetOrderAmounts_bad_side {F : Type} (A : Arith F) (side : String) (size price : F)
    (roundConfig : RoundConfig) (hb : side ≠ "BUY") (hs : side ≠ "SELL") :
    GetOrderAmounts A side size price roundConfig = .error sideError := by
  simp [GetOrderAmounts, hb, hs]

theorem GetOrderAmounts_error {F : Type} (A : Arith F) (side : String) (size price : F)
    (roundConfig : RoundConfig) (e : String)
    (h : GetOrderAmounts A side size price roundConfig = .error e) : e = sideError := by
  unfold GetOrderAmounts at h
  by_cases hb : side = "BUY"
  · simp [hb] at h
  · by_cases hs : side = "SELL"
    · simp [hb, hs] at h
    · simp only [if_neg hb, if_neg hs] at h
      injection h with h
      exact h.symm

theorem GetMarketOrderAmounts_error {F : Type} (A : Arith F) (side : String)
    (amount price : F) (roundConfig : RoundConfig) (e : String)
    (h : GetMarketOrderAmounts A side amount price roundConfig = .error e) :
    e = sideError := by
  unfold GetMarketOrderAmounts at h
  by_cases hb : side = "BUY"
  · simp [hb] at h
  · by_cases hs : side = "SELL"
    · simp [hb, hs] at h
    · simp only [if_neg hb, if_neg hs] at h
      injection h with h
      exact h.symm

/-- Signing leaves the arguments and caches alone and adds at most one
event, the signing of the order data; an error of it is the nil dereference
or the error of the signing library. -/
theorem signOrderData_frame {S β : Type} (B : OrderEnv S) (c : ClobClient)
    (caches : MarketCaches) (trace : List Event) (args : β) (negRisk : Bool)
    (orderData : OrderBuilder → Signer → OrderData) :
    (signOrderData B c caches trace args negRisk orderData).args = args
      ∧ (signOrderData B c caches trace args negRisk orderData).caches = caches
      ∧ ((signOrderData B c caches trace args negRisk orderData).trace = trace
          ∨ ∃ builder signer, (signOrderData B c caches trace args negRisk orderData).trace
              = trace ++ [.signing (orderData builder signer)])
      ∧ (∀ e, (signOrderData B c caches trace args negRisk orderData).result = .error e →
          e = nilDereference
            ∨ ∃ d exchange, B.BuildSignedOrder d exchange c.chainID negRisk = .error e)
      ∧ (∀ signed, (signOrderData B c caches trace args negRisk orderData).result
            = .ok signed →
          ∃ builder signer contractConfig,
            B.getContractConfig c.chainID negRisk = some contractConfig
              ∧ B.BuildSignedOrder (orderData builder signer) contractConfig.Exchange
                  c.chainID negRisk = .ok signed
              ∧ (signOrderData B c caches trace args negRisk orderData).trace
                  = trace ++ [.signing (orderData builder signer)]) := by
  cases hb : c.builder with
  | none =>
    have key : signOrderData B c caches trace args negRisk orderData
        = ⟨.error nilDereference, args, caches, trace⟩ := by
      simp [signOrderData, hb]
    rw [key]
    refine ⟨rfl, rfl, Or.inl rfl, ?_, ?_⟩
    · intro e he
      injection he with he
      exact Or.inl he.symm
    · intro signed he
      cases he
  | some builder =>
    cases hs : c.signer with
    | none =>
      have key : signOrderData B c caches trace args negRisk orderData
          = ⟨.error nilDereference, args, caches, trace⟩ := by
        simp [signOrderData, hb, hs]
      rw [key]
      refine ⟨rfl, rfl, Or.inl rfl, ?_, ?_⟩
      · intro e he
        injection he with he
        exact Or.inl he.symm
      · intro signed he
        cases he
    | some signer =>
      cases hc : B.getContractConfig c.chainID negRisk with
      | none =>
        have key : signOrderData B c caches trace args negRisk orderData
            = ⟨.error nilDereference, args, caches, trace⟩ := by
          simp [signOrderData, hb, hs, hc]
        rw [key]
        refine ⟨rfl, rfl, Or.inl rfl, ?_, ?_⟩
        · intro e he
          injection he with he
          exact Or.inl he.symm
        · intro signed he
          cases he
      | some contractConfig =>
        cases hr : B.BuildSignedOrder (orderData builder signer) contractConfig.Exchange
            c.chainID negRisk with
        | error err =>
          have key : signOrderData B c caches trace args negRisk orderData
              = ⟨.error err, args, caches, trace ++ [.signing (orderData builder signer)]⟩ := by
            simp [signOrderData, hb, hs, hc, hr]
          rw [key]
          refine ⟨rfl, rfl, Or.inr ⟨builder, signer, rfl⟩, ?_, ?_⟩
          · intro e he
            injection he with he
            subst he
            exact Or.inr ⟨_, _, hr⟩
          · intro signed he
            cases he
        | ok signed =>
          have key : signOrderData B c caches trace args negRisk orderData
              = ⟨.ok signed, args, caches, trace ++ [.signing (orderData builder signer)]⟩ := by
            simp [signOrderData, hb, hs, hc, hr]
          rw [key]
          refine ⟨rfl, rfl, Or.inr ⟨builder, signer, rfl⟩, ?_, ?_⟩
          · intro e he
            cases he
          · intro signed1 he
            injection he with he
            subst he
            exact ⟨builder, signer, contractConfig, rfl, hr, rfl⟩

/-- Rounding and signing leave the order arguments and the caches alone and
add at most the signing of an order whose fee rate is the one of the order
arguments; an error is the unsupported tick size, the side error, the nil
dereference or the error of the signing library; a signed order was signed
with the given neg-risk flag. -/
theorem roundAndSign_frame {F S : Type} (A : Arith F) (B : OrderEnv S) (c : ClobClient)
    (caches : MarketCaches) (trace : List Event) (orderArgs : OrderArgs F)
    (tickSize : String) (negRisk : Bool) :
    (roundAndSign A B c caches trace orderArgs tickSize negRisk).args = orderArgs
      ∧ (roundAndSign A B c caches trace orderArgs tickSize negRisk).caches = caches
      ∧ ((roundAndSign A B c caches trace orderArgs tickSize negRisk).trace = trace
          ∨ ∃ d, (roundAndSign A B c caches trace orderArgs tickSize negRisk).trace
                = trace ++ [.signing d]
              ∧ d.FeeRateBps = Itoa orderArgs.FeeRateBps)
      ∧ (∀ e, (roundAndSign A B c caches trace orderArgs tickSize negRisk).result = .error e →
          e = "unsupported tick size: " ++ tickSize ∨ e = sideError ∨ e = nilDereference
            ∨ ∃ d exchange, B.BuildSignedOrder d exchange c.chainID negRisk = .error e)
      ∧ (∀ signed, (roundAndSign A B c caches trace orderArgs tickSize negRisk).result
            = .ok signed →
          ∃ roundConfig d contractConfig,
            B.RoundingConfig tickSize = some roundConfig
              ∧ B.getContractConfig c.chainID negRisk = some contractConfig
              ∧ B.BuildSignedOrder d contractConfig.Exchange c.chainID negRisk = .ok signed
              ∧ d.FeeRateBps = Itoa orderArgs.FeeRateBps
              ∧ (roundAndSign A B c caches trace orderArgs tickSize negRisk).trace
                  = trace ++ [.signing d]) := by
  cases ht : B.RoundingConfig tickSize with
  | none =>
    have key : roundAndSign A B c caches trace orderArgs tickSize negRisk
        = ⟨.error ("unsupported tick size: " ++ tickSize), orderArgs, caches, trace⟩ := by
      simp [roundAndSign, ht]
    rw [key]
    refine ⟨rfl, rfl, Or.inl rfl, ?_, ?_⟩
    · intro e he
      injection he with he
      exact Or.inl he.symm
    · intro signed he
      cases he
  | some roundConfig =>
    cases ha : GetOrderAmounts A orderArgs.Side orderArgs.Size orderArgs.Price roundConfig with
    | error err =>
      have key : roundAndSign A B c caches trace orderArgs tickSize negRisk
          = ⟨.error err, orderArgs, caches, trace⟩ := by
        simp [roundAndSign, ht, ha]
      rw [key]
      refine ⟨rfl, rfl, Or.inl rfl, ?_, ?_⟩
      · intro e he
        injection he with he
        subst he
        exact Or.inr (Or.inl (GetOrderAmounts_error A _ _ _ _ _ ha))
      · intro signed he
        cases he
    | ok amounts =>
      have key : roundAndSign A B c caches trace orderArgs tickSize negRisk
          = signOrderData B c caches trace orderArgs negRisk fun builder signer =>
              ⟨builder.funder, if orderArgs.Taker = "" then B.ZeroAddress else orderArgs.Taker,
                orderArgs.TokenID, Itoa amounts.makerAmount,
                Itoa amounts.takerAmount, amounts.side, Itoa orderArgs.FeeRateBps,
                Itoa orderArgs.Nonce, signer.address, Itoa orderArgs.Expiration,
                builder.sigType⟩ := by
        simp [roundAndSign, ht, ha]
      rw [key]
      obtain ⟨h1, h2, h3, h4, h5⟩ := signOrderData_frame B c caches trace orderArgs negRisk
        fun builder signer =>
          ⟨builder.funder, if orderArgs.Taker = "" then B.ZeroAddress else orderArgs.Taker,
            orderArgs.TokenID, Itoa amounts.makerAmount,
            Itoa amounts.takerAmount, amounts.side, Itoa orderArgs.FeeRateBps,
            Itoa orderArgs.Nonce, signer.address, Itoa orderArgs.Expiration,
            builder.sigType⟩
      refine ⟨h1, h2, ?_, ?_, ?_⟩
      · rcases h3 with h3 | ⟨b, s, h3⟩
        · exact Or.inl h3
        · exact Or.inr ⟨_, h3, rfl⟩
      · intro e he
        rcases h4 e he with h | h
        · exact Or.inr (Or.inr (Or.inl h))
        · exact Or.inr (Or.inr (Or.inr h))
      · intro signed he
        obtain ⟨b, s, cfg, hc, hb, htr⟩ := h5 signed he
        exact ⟨roundConfig, _, cfg, rfl, hc, hb, rfl, htr⟩

theorem roundAndSign_bad_side {F S : Type} (A : Arith F) (B : OrderEnv S) (c : ClobClient)
    (caches : MarketCaches) (trace : List Event) (orderArgs : OrderArgs F)
    (tickSize : String) (negRisk : Bool) (roundConfig : RoundConfig)
    (ht : B.RoundingConfig tickSize = some roundConfig)
    (hb : orderArgs.Side ≠ "BUY") (hs : orderArgs.Side ≠ "SELL") :
    roundAndSign A B c caches trace orderArgs tickSize negRisk
      = ⟨.error sideError, orderArgs, caches, trace⟩ := by
  simp [roundAndSign, ht, GetOrderAmounts_bad_side A _ _ _ _ hb hs]

theorem finishOrder_invalid {F S : Type} (A : Arith F) (X : FloatOps F) (B : OrderEnv S)
    (c : ClobClient) (caches : MarketCaches) (trace : List Event) (orderArgs : OrderArgs F)
    (tickSize : String) (negRisk : Bool) (h : PriceValid A orderArgs.Price tickSize = false) :
    finishOrder A X B c caches trace orderArgs tickSize negRisk
      = ⟨.error (priceRangeError A X orderArgs.Price tickSize), orderArgs, caches, trace⟩ := by
  simp [finishOrder, h]

theorem finishOrder_valid {F S : Type} (A : Arith F) (X : FloatOps F) (B : OrderEnv S)
    (c : ClobClient) (caches : MarketCaches) (trace : List Event) (orderArgs : OrderArgs F)
    (tickSize : String) (negRisk : Bool) (h : PriceValid A orderArgs.Price tickSize = true) :
    finishOrder A X B c caches trace orderArgs tickSize negRisk
      = roundAndSign A B c caches trace orderArgs tickSize negRisk := by
  simp [finishOrder, h]

theorem finishMarketOrder_invalid {F S : Type} (A : Arith F) (X : FloatOps F)
    (M : MarketService) (B : OrderEnv S) (c : ClobClient) (caches : MarketCaches)
    (trace : List Event) (orderArgs : MarketOrderArgs F)
    (options : Option PartialCreateOrderOptions) (tickSize : String)
    (h : PriceValid A orderArgs.Price tickSize = false) :
    finishMarketOrder A X M B c caches trace orderArgs options tickSize
      = ⟨.error (priceRangeError A X orderArgs.Price tickSize), orderArgs, caches, trace⟩ := by
  simp [finishMarketOrder, h]

theorem finishMarketOrder_valid {F S : Type} (A : Arith F) (X : FloatOps F)
    (M : MarketService) (B : OrderEnv S) (c : ClobClient) (caches : MarketCaches)
    (trace : List Event) (orderArgs : MarketOrderArgs F)
    (options : Option PartialCreateOrderOptions) (tickSize : String)
    (h : PriceValid A orderArgs.Price tickSize = true) :
    finishMarketOrder A X M B c caches trace orderArgs options tickSize
      = feesRoundAndSign A M B c caches trace orderArgs options tickSize := by
  simp [finishMarketOrder, h]

theorem finishOrder_frame {F S : Type} (A : Arith F) (X : FloatOps F) (B : OrderEnv S)
    (c : ClobClient) (caches : MarketCaches) (trace : List Event) (orderArgs : OrderArgs F)
    (tickSize : String) (negRisk : Bool) :
    (finishOrder A X B c caches trace orderArgs tickSize negRisk).args = orderArgs
      ∧ (finishOrder A X B c caches trace orderArgs tickSize negRisk).caches = caches
      ∧ ((finishOrder A X B c caches trace orderArgs tickSize negRisk).trace = trace
          ∨ ∃ d, (finishOrder A X B c caches trace orderArgs tickSize negRisk).trace
                = trace ++ [.signing d]
              ∧ d.FeeRateBps = Itoa orderArgs.FeeRateBps)
      ∧ (∀ signed, (finishOrder A X B c caches trace orderArgs tickSize negRisk).result
            = .ok signed →
          PriceValid A orderArgs.Price tickSize = true
            ∧ ∃ roundConfig d contractConfig,
              B.RoundingConfig tickSize = some roundConfig
                ∧ B.getContractConfig c.chainID negRisk = some contractConfig
                ∧ B.BuildSignedOrder d contractConfig.Exchange c.chainID negRisk = .ok signed
                ∧ d.FeeRateBps = Itoa orderArgs.FeeRateBps
                ∧ (finishOrder A X B c caches trace orderArgs tickSize negRisk).trace
                    = trace ++ [.signing d]) := by
  cases hv : PriceValid A orderArgs.Price tickSize with
  | false =>
    rw [finishOrder_invalid A X B c caches trace orderArgs tickSize negRisk hv]
    refine ⟨rfl, rfl, Or.inl rfl, ?_⟩
    intro signed he
    cases he
  | true =>
    rw [finishOrder_valid A X B c caches trace orderArgs tickSize negRisk hv]
    obtain ⟨h1, h2, h3, _, h5⟩ := roundAndSign_frame A B c caches trace orderArgs tickSize negRisk
    exact ⟨h1, h2, h3, fun signed he => ⟨rfl, h5 signed he⟩⟩

/-- C14: on a client with at least L1 auth, `CreateOrder` in raw mode with
no tick size or no neg-risk flag in the options returns the configuration
error (the tick-size one when the tick size is missing, else the neg-risk
one) for every order, arithmetic, market service and signing environment;
the order arguments and caches are as before and nothing was looked up or
signed, so the error precedes price validation, amounts and signing. -/
theorem raw_mode_requires_options {F S : Type} (K : Consts) (A : Arith F) (X : FloatOps F)
    (M : MarketService) (B : OrderEnv S) (c : ClobClient) (caches : MarketCaches)
    (orderArgs : OrderArgs F) (o : PartialCreateOrderOptions)
    (hmode : ¬ c.mode < K.L1) (hraw : o.RawOrder = true)
    (hmiss : o.TickSize = none ∨ o.NegRisk = none) :
    CreateOrder K A X M B c caches orderArgs (some o)
      = ⟨.error (if o.TickSize = none then rawTickSizeError else rawNegRiskError),
          orderArgs, caches, []⟩ := by
  cases ht : o.TickSize with
  | none => simp [CreateOrder, assertLevel1Auth_ok K c hmode, hraw, ht]
  | some t =>
    rcases hmiss with h | h
    · rw [ht] at h
      cases h
    · simp [CreateOrder, assertLevel1Auth_ok K c hmode, hraw, ht, h]

theorem raw_mode_requires_options_witness :
    CreateOrder sampleConsts decimalArith decimalOps sampleMarket sampleOrderEnv
        sampleL1Client noCaches (sampleOrder "HOLD" (Dec.decimal 999 3))
        (some ⟨some "0.01", none, true, none⟩)
      = ⟨.error rawNegRiskError, sampleOrder "HOLD" (Dec.decimal 999 3), noCaches, []⟩ :=
  raw_mode_requires_options sampleConsts decimalArith decimalOps sampleMarket sampleOrderEnv
    sampleL1Client noCaches (sampleOrder "HOLD" (Dec.decimal 999 3))
    ⟨some "0.01", none, true, none⟩ (by decide) rfl (Or.inr rfl)

/-- C15: on a client with at least L1 auth, `CreateOrder` in raw mode with
tick size and neg-risk flag supplied is the price check, rounding and signing
at the supplied tick size and flag: the outcome is the same for every market
service, the order arguments (so the fee rate) and the caches are unchanged,
no event is a lookup, and a signed order passed the price check at the
supplied tick size, which is in the rounding table, and was signed once, with
the fee rate of the order arguments and the supplied neg-risk flag. -/
theorem raw_mode_skips_lookups {F S : Type} (K : Consts) (A : Arith F) (X : FloatOps F)
    (M : MarketService) (B : OrderEnv S) (c : ClobClient) (caches : MarketCaches)
    (orderArgs : OrderArgs F) (o : PartialCreateOrderOptions) (tickSize : String)
    (negRisk : Bool) (hmode : ¬ c.mode < K.L1) (hraw : o.RawOrder = true)
    (ht : o.TickSize = some tickSize) (hn : o.NegRisk = some negRisk) :
    CreateOrder K A X M B c caches orderArgs (some o)
        = finishOrder A X B c caches [] orderArgs tickSize negRisk
      ∧ (∀ M1 : MarketService, CreateOrder K A X M1 B c caches orderArgs (some o)
          = CreateOrder K A X M B c caches orderArgs (some o))
      ∧ (CreateOrder K A X M B c caches orderArgs (some o)).args = orderArgs
      ∧ (CreateOrder K A X M B c caches orderArgs (some o)).caches = caches
      ∧ (∀ e ∈ (CreateOrder K A X M B c caches orderArgs (some o)).trace,
          e.isLookup = false)
      ∧ (∀ signed, (CreateOrder K A X M B c caches orderArgs (some o)).result = .ok signed →
          PriceValid A orderArgs.Price tickSize = true
            ∧ ∃ roundConfig d contractConfig,
              B.RoundingConfig tickSize = some roundConfig
                ∧ B.getContractConfig c.chainID negRisk = some contractConfig
                ∧ B.BuildSignedOrder d contractConfig.Exchange c.chainID negRisk = .ok signed
                ∧ d.FeeRateBps = Itoa orderArgs.FeeRateBps
                ∧ (CreateOrder K A X M B c caches orderArgs (some o)).trace
                    = [.signing d]) := by
  have key := fun M1 : MarketService =>
    CreateOrder_raw_eq K A X M1 B c caches orderArgs o tickSize negRisk hmode hraw ht hn
  obtain ⟨h1, h2, h3, h4⟩ := finishOrder_frame A X B c caches [] orderArgs tickSize negRisk
  refine ⟨key M, fun M1 => by rw [key M1, key M], ?_, ?_, ?_, ?_⟩
  · rw [key M]
    exact h1
  · rw [key M]
    exact h2
  · rw [key M]
    intro e he
    rcases h3 with h3 | ⟨d, h3, _⟩
    · rw [h3] at he
      cases he
    · rw [h3, List.nil_append, List.mem_singleton] at he
      rw [he]
      rfl
  · rw [key M]
    intro signed he
    obtain ⟨hv, rc, d, cfg, hr, hc, hb, hf, htr⟩ := h4 signed he
    exact ⟨hv, rc, d, cfg, hr, hc, hb, hf, by rw [htr, List.nil_append]⟩

theorem raw_mode_skips_lookups_witness :
    CreateOrder sampleConsts decimalArith decimalOps coarseMarket sampleOrderEnv
        sampleL1Client noCaches (sampleOrder "BUY" (Dec.decimal 55 2))
        (some ⟨some "0.01", some false, true, none⟩)
      = finishOrder decimalArith decimalOps sampleOrderEnv sampleL1Client noCaches []
          (sampleOrder "BUY" (Dec.decimal 55 2)) "0.01" false
      ∧ (CreateOrder sampleConsts decimalArith decimalOps coarseMarket sampleOrderEnv
          sampleL1Client noCaches (sampleOrder "BUY" (Dec.decimal 55 2))
          (some ⟨some "0.01", some false, true, none⟩)).result = .ok "5500000/10000000"
      ∧ (CreateOrder sampleConsts decimalArith decimalOps coarseMarket sampleOrderEnv
          sampleL1Client noCaches (sampleOrder "BUY" (Dec.decimal 55 2))
          (some ⟨some "0.01", some false, false, none⟩)).result
        = .error "invalid tick size (0.01), minimum for the market is 0.1" :=
  ⟨(raw_mode_skips_lookups sampleConsts decimalArith decimalOps coarseMarket sampleOrderEnv
      sampleL1Client noCaches (sampleOrder "BUY" (Dec.decimal 55 2))
      ⟨some "0.01", some false, true, none⟩ "0.01" false (by decide) rfl rfl rfl).1,
    by decide, by decide⟩

/-- The resolution of a market order leaves every field of the order
arguments but the price as it was and causes lookup events only. -/
theorem marketResolution_frame {F S : Type} (A : Arith F) (X : FloatOps F)
    (M : MarketService) (B : OrderEnv S) (caches : MarketCaches)
    (orderArgs : MarketOrderArgs F) (options : Option PartialCreateOrderOptions) :
    (marketResolution A X M B caches orderArgs options).args
        = ⟨orderArgs.TokenID, orderArgs.Amount, orderArgs.Side,
            (marketResolution A X M B caches orderArgs options).args.Price,
            orderArgs.FeeRateBps, orderArgs.Nonce, orderArgs.Taker, orderArgs.OrderType⟩
      ∧ (∀ e ∈ (marketResolution A X M B caches orderArgs options).trace,
          e.isLookup = true) := by
  have ht := resolveTickSize_lookups A X M caches orderArgs.TokenID
    (options.bind fun o => o.TickSize)
  unfold marketResolution
  simp only []
  cases h1 : (resolveTickSize A X M caches orderArgs.TokenID
      (options.bind fun o => o.TickSize)).result with
  | error err => exact ⟨rfl, ht⟩
  | ok tickSize =>
    simp only []
    by_cases hp : A.le orderArgs.Price X.zero = true
    · rw [if_pos hp]
      have hall : ∀ e ∈ (resolveTickSize A X M caches orderArgs.TokenID
          (options.bind fun o => o.TickSize)).trace
          ++ (CalculateMarketPrice A X M B
            (resolveTickSize A X M caches orderArgs.TokenID
              (options.bind fun o => o.TickSize)).caches orderArgs.TokenID orderArgs.Side
            orderArgs.Amount orderArgs.OrderType).trace, e.isLookup = true := by
        intro e he
        rcases List.mem_append.mp he with h | h
        · exact ht e h
        · rw [CalculateMarketPrice_trace, List.mem_singleton] at h
          rw [h]
          rfl
      cases h2 : (CalculateMarketPrice A X M B
          (resolveTickSize A X M caches orderArgs.TokenID
            (options.bind fun o => o.TickSize)).caches orderArgs.TokenID orderArgs.Side
          orderArgs.Amount orderArgs.OrderType).result with
      | error err => exact ⟨rfl, hall⟩
      | ok price => exact ⟨rfl, hall⟩
    · rw [if_neg hp]
      exact ⟨rfl, ht⟩

/-- An error of the stages of a market order after the price check is an
error of the neg-risk or fee-rate resolution, the unsupported tick size, the
side error, the nil dereference or the error of the signing library. -/
theorem feesRoundAndSign_error {F S : Type} (A : Arith F) (M : MarketService)
    (B : OrderEnv S) (c : ClobClient) (caches : MarketCaches) (trace : List Event)
    (orderArgs : MarketOrderArgs F) (options : Option PartialCreateOrderOptions)
    (tickSize : String) (e : String)
    (h : (feesRoundAndSign A M B c caches trace orderArgs options tickSize).result
      = .error e) :
    (resolveNegRisk M caches orderArgs.TokenID options).result = .error e
      ∨ (∃ caches1, (resolveFeeRate M caches1 orderArgs.TokenID orderArgs.FeeRateBps).result
          = .error e)
      ∨ e = "unsupported tick size: " ++ tickSize ∨ e = sideError ∨ e = nilDereference
      ∨ ∃ d exchange negRisk, B.BuildSignedOrder d exchange c.chainID negRisk = .error e := by
  unfold feesRoundAndSign at h
  simp only [] at h
  cases h1 : (resolveNegRisk M caches orderArgs.TokenID options).result with
  | error err =>
    simp only [h1] at h
    injection h with h
    subst h
    exact Or.inl rfl
  | ok negRisk =>
    simp only [h1] at h
    cases h2 : (resolveFeeRate M (resolveNegRisk M caches orderArgs.TokenID options).caches
        orderArgs.TokenID orderArgs.FeeRateBps).result with
    | error err =>
      simp only [h2] at h
      injection h with h
      subst h
      exact Or.inr (Or.inl ⟨_, h2⟩)
    | ok fee =>
      simp only [h2] at h
      cases h3 : B.RoundingConfig tickSize with
      | none =>
        simp only [h3] at h
        injection h with h
        exact Or.inr (Or.inr (Or.inl h.symm))
      | some roundConfig =>
        simp only [h3] at h
        cases h4 : GetMarketOrderAmounts A orderArgs.Side orderArgs.Amount orderArgs.Price
            roundConfig with
        | error err =>
          simp only [h4] at h
          injection h with h
          subst h
          exact Or.inr (Or.inr (Or.inr (Or.inl (GetMarketOrderAmounts_error A _ _ _ _ _ h4))))
        | ok amounts =>
          simp only [h4] at h
          rcases (signOrderData_frame B c _ _ _ negRisk _).2.2.2.1 e h with h5 | ⟨d, x, h5⟩
          · exact Or.inr (Or.inr (Or.inr (Or.inr (Or.inl h5))))
          · exact Or.inr (Or.inr (Or.inr (Or.inr (Or.inr ⟨d, x, negRisk, h5⟩))))

theorem PriceValid_decimal_false (parse : String → Dec) (price : Dec) (tickSize : String) :
    PriceValid (decimalArithWith parse) price tickSize = false
      ↔ price.toRat < (parse tickSize).toRat ∨ 1 - (parse tickSize).toRat < price.toRat := by
  have key : PriceValid (decimalArithWith parse) price tickSize = true
      ↔ (parse tickSize).toRat ≤ price.toRat ∧ price.toRat ≤ 1 - (parse tickSize).toRat := by
    simp only [PriceValid, decimalArithWith, Dec.ge, Bool.and_eq_true, Dec.le_iff,
      Dec.toRat_sub, Dec.toRat_ofInt, Int.cast_one]
  rw [← Bool.not_eq_true, key, not_and_or, not_le, not_le]

theorem standardResolution_price {F : Type} (A : Arith F) (X : FloatOps F)
    (M : MarketService) (caches : MarketCaches) (orderArgs : OrderArgs F)
    (options : Option PartialCreateOrderOptions) :
    (standardResolution A X M caches orderArgs options).args.Price = orderArgs.Price
      ∧ (standardResolution A X M caches orderArgs options).args.Side = orderArgs.Side := by
  have h := (standardResolution_frame A X M caches orderArgs options).1
  constructor
  · rw [h]
  · rw [h]

theorem CreateOrder_standard_resolved {F S : Type} (K : Consts) (A : Arith F)
    (X : FloatOps F) (M : MarketService) (B : OrderEnv S) (c : ClobClient)
    (caches : MarketCaches) (orderArgs : OrderArgs F)
    (options : Option PartialCreateOrderOptions) (tickSize : String) (negRisk : Bool)
    (hmode : ¬ c.mode < K.L1) (hstd : StandardMode options)
    (hres : (standardResolution A X M caches orderArgs options).result
      = .ok (tickSize, negRisk)) :
    CreateOrder K A X M B c caches orderArgs options
      = finishOrder A X B c (standardResolution A X M caches orderArgs options).caches
          (standardResolution A X M caches orderArgs options).trace
          (standardResolution A X M caches orderArgs options).args tickSize negRisk := by
  rw [CreateOrder_standard_eq K A X M B c caches orderArgs options hmode hstd, hres]

theorem CreateOrder_standard_error {F S : Type} (K : Consts) (A : Arith F)
    (X : FloatOps F) (M : MarketService) (B : OrderEnv S) (c : ClobClient)
    (caches : MarketCaches) (orderArgs : OrderArgs F)
    (options : Option PartialCreateOrderOptions) (err : String)
    (hmode : ¬ c.mode < K.L1) (hstd : StandardMode options)
    (hres : (standardResolution A X M caches orderArgs options).result = .error err) :
    CreateOrder K A X M B c caches orderArgs options
      = ⟨.error err, (standardResolution A X M caches orderArgs options).args,
          (standardResolution A X M caches orderArgs options).caches,
          (standardResolution A X M caches orderArgs options).trace⟩ := by
  rw [CreateOrder_standard_eq K A X M B c caches orderArgs options hmode hstd, hres]

theorem CreateMarketOrder_resolved {F S : Type} (K : Consts) (A : Arith F)
    (X : FloatOps F) (M : MarketService) (B : OrderEnv S) (c : ClobClient)
    (caches : MarketCaches) (orderArgs : MarketOrderArgs F)
    (options : Option PartialCreateOrderOptions) (tickSize : String)
    (hmode : ¬ c.mode < K.L1)
    (hres : (marketResolution A X M B caches orderArgs options).result = .ok tickSize) :
    CreateMarketOrder K A X M B c caches orderArgs options
      = finishMarketOrder A X M B c (marketResolution A X M B caches orderArgs options).caches
          (marketResolution A X M B caches orderArgs options).trace
          (marketResolution A X M B caches orderArgs options).args options tickSize := by
  rw [CreateMarketOrder_eq K A X M B c caches orderArgs options hmode, hres]

/-- C16: on a client with at least L1 auth, once the tick size `t` is
resolved (supplied in raw mode, by the standard resolution, or by the
resolution of a market order, which also fixes the final price): when
`PriceValid` is false at `t`, `CreateOrder` and `CreateMarketOrder` return
the price range error with the arguments, caches and events of the
resolution, which are lookups only, so before the rounding table, the amounts
and signing; when it is true they continue with the later stages, whose
errors are the unsupported tick size, the side error, the nil dereference, a
lookup error (market orders) or the error of the signing library. In exact
decimals `PriceValid` is false exactly when the price is below `t` or above
`1 - t`. -/
theorem price_range_check {F S : Type} (K : Consts) (A : Arith F) (X : FloatOps F)
    (M : MarketService) (B : OrderEnv S) (c : ClobClient) (caches : MarketCaches)
    (orderArgs : OrderArgs F) (marketArgs : MarketOrderArgs F)
    (options : Option PartialCreateOrderOptions) (hmode : ¬ c.mode < K.L1) :
    (∀ o t negRisk, options = some o → o.RawOrder = true → o.TickSize = some t →
        o.NegRisk = some negRisk →
        (PriceValid A orderArgs.Price t = false →
          CreateOrder K A X M B c caches orderArgs options
            = ⟨.error (priceRangeError A X orderArgs.Price t), orderArgs, caches, []⟩)
        ∧ (PriceValid A orderArgs.Price t = true →
          CreateOrder K A X M B c caches orderArgs options
              = roundAndSign A B c caches [] orderArgs t negRisk
            ∧ ∀ e, (CreateOrder K A X M B c caches orderArgs options).result = .error e →
                e = "unsupported tick size: " ++ t ∨ e = sideError ∨ e = nilDereference
                  ∨ ∃ d exchange, B.BuildSignedOrder d exchange c.chainID negRisk = .error e))
      ∧ (StandardMode options → ∀ t negRisk,
        (standardResolution A X M caches orderArgs options).result = .ok (t, negRisk) →
        (PriceValid A orderArgs.Price t = false →
          CreateOrder K A X M B c caches orderArgs options
              = ⟨.error (priceRangeError A X orderArgs.Price t),
                  (standardResolution A X M caches orderArgs options).args,
                  (standardResolution A X M caches orderArgs options).caches,
                  (standardResolution A X M caches orderArgs options).trace⟩
            ∧ ∀ e ∈ (standardResolution A X M caches orderArgs options).trace,
                e.isLookup = true)
        ∧ (PriceValid A orderArgs.Price t = true →
          CreateOrder K A X M B c caches orderArgs options
              = roundAndSign A B c (standardResolution A X M caches orderArgs options).caches
                  (standardResolution A X M caches orderArgs options).trace
                  (standardResolution A X M caches orderArgs options).args t negRisk
            ∧ ∀ e, (CreateOrder K A X M B c caches orderArgs options).result = .error e →
                e = "unsupported tick size: " ++ t ∨ e = sideError ∨ e = nilDereference
                  ∨ ∃ d exchange, B.BuildSignedOrder d exchange c.chainID negRisk = .error e))
      ∧ (∀ t, (marketResolution A X M B caches marketArgs options).result = .ok t →
        (PriceValid A (marketResolution A X M B caches marketArgs options).args.Price t
            = false →
          CreateMarketOrder K A X M B c caches marketArgs options
              = ⟨.error (priceRangeError A X
                    (marketResolution A X M B caches marketArgs options).args.Price t),
                  (marketResolution A X M B caches marketArgs options).args,
                  (marketResolution A X M B caches marketArgs options).caches,
                  (marketResolution A X M B caches marketArgs options).trace⟩
            ∧ ∀ e ∈ (marketResolution A X M B caches marketArgs options).trace,
                e.isLookup = true)
        ∧ (PriceValid A (marketResolution A X M B caches marketArgs options).args.Price t
            = true →
          CreateMarketOrder K A X M B c caches marketArgs options
              = feesRoundAndSign A M B c
                  (marketResolution A X M B caches marketArgs options).caches
                  (marketResolution A X M B caches marketArgs options).trace
                  (marketResolution A X M B caches marketArgs options).args options t
            ∧ ∀ e, (CreateMarketOrder K A X M B c caches marketArgs options).result
                  = .error e →
                (∃ caches1, (resolveNegRisk M caches1 marketArgs.TokenID options).result
                    = .error e)
                  ∨ (∃ caches1, (resolveFeeRate M caches1 marketArgs.TokenID
                      marketArgs.FeeRateBps).result = .error e)
                  ∨ e = "unsupported tick size: " ++ t ∨ e = sideError ∨ e = nilDereference
                  ∨ ∃ d exchange negRisk,
                      B.BuildSignedOrder d exchange c.chainID negRisk = .error e))
      ∧ (∀ (parse : String → Dec) (price : Dec) (t : String),
          PriceValid (decimalArithWith parse) price t = false
            ↔ price.toRat < (parse t).toRat ∨ 1 - (parse t).toRat < price.toRat) := by
  refine ⟨?_, ?_, ?_, PriceValid_decimal_false⟩
  · intro o t negRisk ho hraw ht hn
    subst ho
    have key := CreateOrder_raw_eq K A X M B c caches orderArgs o t negRisk hmode hraw ht hn
    refine ⟨fun hv => ?_, fun hv => ?_⟩
    · rw [key, finishOrder_invalid A X B c caches [] orderArgs t negRisk hv]
    · rw [key, finishOrder_valid A X B c caches [] orderArgs t negRisk hv]
      exact ⟨rfl, (roundAndSign_frame A B c caches [] orderArgs t negRisk).2.2.2.1⟩
  · intro hstd t negRisk hres
    have key := CreateOrder_standard_resolved K A X M B c caches orderArgs options t negRisk
      hmode hstd hres
    have hp := (standardResolution_price A X M caches orderArgs options).1
    refine ⟨fun hv => ?_, fun hv => ?_⟩
    · rw [← hp] at hv ⊢
      rw [key, finishOrder_invalid A X B c _ _ _ t negRisk hv]
      exact ⟨rfl, (standardResolution_frame A X M caches orderArgs options).2.2⟩
    · rw [← hp] at hv
      rw [key, finishOrder_valid A X B c _ _ _ t negRisk hv]
      exact ⟨rfl, (roundAndSign_frame A B c _ _ _ t negRisk).2.2.2.1⟩
  · intro t hres
    have key := CreateMarketOrder_resolved K A X M B c caches marketArgs options t hmode hres
    have hf := (marketResolution_frame A X M B caches marketArgs options).1
    refine ⟨fun hv => ?_, fun hv => ?_⟩
    · rw [key, finishMarketOrder_invalid A X M B c _ _ _ options t hv]
      exact ⟨rfl, (marketResolution_frame A X M B caches marketArgs options).2⟩
    · rw [key, finishMarketOrder_valid A X M B c _ _ _ options t hv]
      refine ⟨rfl, fun e he => ?_⟩
      have h := feesRoundAndSign_error A M B c _ _ _ options t e he
      have htok : (marketResolution A X M B caches marketArgs options).args.TokenID
          = marketArgs.TokenID := by rw [hf]
      have hfee : (marketResolution A X M B caches marketArgs options).args.FeeRateBps
          = marketArgs.FeeRateBps := by rw [hf]
      rw [htok, hfee] at h
      rcases h with h | h | h
      · exact Or.inl ⟨_, h⟩
      · exact Or.inr (Or.inl h)
      · exact Or.inr (Or.inr h)

theorem price_range_check_witness :
    CreateOrder sampleConsts decimalArith decimalOps sampleMarket sampleOrderEnv
        sampleL1Client noCaches (sampleOrder "BUY" (Dec.decimal 999 3))
        (some ⟨some "0.01", some false, true, none⟩)
      = ⟨.error "price (0.999000), min: 0.01 - max: 0.990000",
          sampleOrder "BUY" (Dec.decimal 999 3), noCaches, []⟩ :=
  ((price_range_check sampleConsts decimalArith decimalOps sampleMarket sampleOrderEnv
      sampleL1Client noCaches (sampleOrder "BUY" (Dec.decimal 999 3))
      ⟨"tok", Dec.ofInt 10, "BUY", Dec.ofInt 0, 0, 0, "", "FOK"⟩
      (some ⟨some "0.01", some false, true, none⟩) (by decide)).1
    ⟨some "0.01", some false, true, none⟩ "0.01" false rfl rfl rfl rfl).1 (by decide)

/-- C12, counterexample: in standard mode with nothing cached, an order
whose side is "HOLD" gets the side error, and an order whose price 0.999 is
outside the bounds of tick size 0.01 gets the price range error, only after
the tick-size, neg-risk and fee-rate lookups were made. -/
theorem CreateOrder_validation_after_lookups :
    CreateOrder sampleConsts decimalArith decimalOps sampleMarket sampleOrderEnv
        sampleL1Client noCaches (sampleOrder "HOLD" (Dec.decimal 55 2)) none
      = ⟨.error sideError, sampleOrder "HOLD" (Dec.decimal 55 2),
          ⟨[("tok", "0.01")], [("tok", false)], [("tok", 10)]⟩,
          [.tickSizeLookup "tok", .negRiskLookup "tok", .feeRateLookup "tok"]⟩
      ∧ CreateOrder sampleConsts decimalArith decimalOps sampleMarket sampleOrderEnv
          sampleL1Client noCaches (sampleOrder "BUY" (Dec.decimal 999 3)) none
        = ⟨.error "price (0.999000), min: 0.01 - max: 0.990000",
            sampleOrder "BUY" (Dec.decimal 999 3),
            ⟨[("tok", "0.01")], [("tok", false)], [("tok", 10)]⟩,
            [.tickSizeLookup "tok", .negRiskLookup "tok", .feeRateLookup "tok"]⟩ := by
  constructor <;> decide

/-- C12, amended: in standard mode on a client with at least L1 auth,
`CreateOrder` first resolves tick size, neg-risk flag and fee rate; an error
of that resolution is returned as it is; otherwise a price outside the
bounds of the resolved tick size gets the price range error, and a side
that is neither "BUY" nor "SELL" (at a valid price and a tick size of the
rounding table) gets the side error, both with the caches and events of the
resolution: these events are lookups only (nothing was signed), and they
start with the tick-size lookup whenever the tick size of the token is not
cached. -/
theorem standard_mode_validates_after_lookups {F S : Type} (K : Consts) (A : Arith F)
    (X : FloatOps F) (M : MarketService) (B : OrderEnv S) (c : ClobClient)
    (caches : MarketCaches) (orderArgs : OrderArgs F)
    (options : Option PartialCreateOrderOptions)
    (r : Outcome (String × Bool) (OrderArgs F))
    (hmode : ¬ c.mode < K.L1) (hstd : StandardMode options)
    (hr : standardResolution A X M caches orderArgs options = r) :
    (∀ err, r.result = .error err →
        CreateOrder K A X M B c caches orderArgs options
          = ⟨.error err, r.args, r.caches, r.trace⟩)
      ∧ (∀ t negRisk, r.result = .ok (t, negRisk) →
        (PriceValid A orderArgs.Price t = false →
          CreateOrder K A X M B c caches orderArgs options
            = ⟨.error (priceRangeError A X orderArgs.Price t), r.args, r.caches, r.trace⟩)
        ∧ (∀ roundConfig, PriceValid A orderArgs.Price t = true →
          B.RoundingConfig t = some roundConfig →
          orderArgs.Side ≠ "BUY" → orderArgs.Side ≠ "SELL" →
          CreateOrder K A X M B c caches orderArgs options
            = ⟨.error sideError, r.args, r.caches, r.trace⟩))
      ∧ (∀ e ∈ r.trace, e.isLookup = true)
      ∧ (caches.tickSizes.lookup orderArgs.TokenID = none →
          ∃ rest, r.trace = .tickSizeLookup orderArgs.TokenID :: rest) := by
  subst hr
  obtain ⟨hp, hs⟩ := standardResolution_price A X M caches orderArgs options
  obtain ⟨_, ⟨rest, hrest⟩, hlook⟩ := standardResolution_frame A X M caches orderArgs options
  refine ⟨fun err hres => CreateOrder_standard_error K A X M B c caches orderArgs options err
    hmode hstd hres, ?_, hlook, ?_⟩
  · intro t negRisk hres
    have key := CreateOrder_standard_resolved K A X M B c caches orderArgs options t negRisk
      hmode hstd hres
    refine ⟨fun hv => ?_, fun roundConfig hv ht hb hsell => ?_⟩
    · rw [← hp] at hv ⊢
      rw [key, finishOrder_invalid A X B c _ _ _ t negRisk hv]
    · rw [← hp] at hv
      rw [← hs] at hb hsell
      rw [key, finishOrder_valid A X B c _ _ _ t negRisk hv,
        roundAndSign_bad_side A B c _ _ _ t negRisk roundConfig ht hb hsell]
  · intro hmiss
    rw [GetTickSize_trace, if_pos hmiss] at hrest
    exact ⟨rest, hrest⟩

theorem standard_mode_validates_after_lookups_witness :
    standardResolution decimalArith decimalOps sampleMarket noCaches
        (sampleOrder "HOLD" (Dec.decimal 55 2)) none
      = ⟨.ok ("0.01", false), sampleOrder "HOLD" (Dec.decimal 55 2),
          ⟨[("tok", "0.01")], [("tok", false)], [("tok", 10)]⟩,
          [.tickSizeLookup "tok", .negRiskLookup "tok", .feeRateLookup "tok"]⟩
      ∧ CreateOrder sampleConsts decimalArith decimalOps sampleMarket sampleOrderEnv
          sampleL1Client noCaches (sampleOrder "HOLD" (Dec.decimal 55 2)) none
        = ⟨.error sideError, sampleOrder "HOLD" (Dec.decimal 55 2),
            ⟨[("tok", "0.01")], [("tok", false)], [("tok", 10)]⟩,
            [.tickSizeLookup "tok", .negRiskLookup "tok", .feeRateLookup "tok"]⟩ :=
  ⟨by decide,
    ((standard_mode_validates_after_lookups sampleConsts decimalArith decimalOps sampleMarket
        sampleOrderEnv sampleL1Client noCaches (sampleOrder "HOLD" (Dec.decimal 55 2)) none
        ⟨.ok ("0.01", false), sampleOrder "HOLD" (Dec.decimal 55 2),
          ⟨[("tok", "0.01")], [("tok", false)], [("tok", 10)]⟩,
          [.tickSizeLookup "tok", .negRiskLookup "tok", .feeRateLookup "tok"]⟩
        (by decide) (fun o h => by cases h) (by decide)).2.1 "0.01" false rfl).2
      cfgCent (by decide) (by decide) (by decide) (by decide)⟩

/-! ## Recovery byte conventions -/

theorem copyInto_exact (pre mid post src : List UInt8) (h : src.length = mid.length) :
    copyInto (pre ++ mid ++ post) pre.length (pre.length + mid.length) src
      = pre ++ src ++ post := by
  unfold copyInto
  have h1 : min (pre.length + mid.length - pre.length) src.length = src.length := by
    rw [h]; simp
  rw [h1, List.take_length, List.append_assoc pre mid post, List.take_left' rfl]
  congr 1
  rw [← List.append_assoc, List.drop_append_eq_append_drop]
  simp [h]

theorem set_append_singleton (xs : List UInt8) (a b : UInt8) :
    (xs ++ [a]).set xs.length b = xs ++ [b] := by
  induction xs with
  | nil => rfl
  | cons x xs ih => simp [List.set, ih]

theorem GetPackedSignature_eq (r s : Bytes32) (v : UInt8) :
    GetPackedSignature r s v = r.bytes ++ s.bytes ++ [UInt8.ofNat (packedV v.toNat)] := by
  have hr := r.length_eq
  have hs := s.length_eq
  have e1 : List.replicate 65 (0 : UInt8)
      = [] ++ List.replicate 32 0 ++ List.replicate 33 0 := by decide
  have c1 := copyInto_exact [] (List.replicate 32 0) (List.replicate 33 0) r.bytes
    (by simp [hr])
  have e2 : ([] : List UInt8) ++ r.bytes ++ List.replicate 33 0
      = r.bytes ++ List.replicate 32 0 ++ [0] := by simp
  have c2 := copyInto_exact r.bytes (List.replicate 32 0) [0] s.bytes (by simp [hs])
  simp only [List.length_nil, List.length_replicate, Nat.zero_add, hr] at c1 c2
  unfold GetPackedSignature
  simp only []
  rw [e1, c1, e2, c2]
  have h64 : (r.bytes ++ s.bytes).length = 64 := by simp [hr, hs]
  have := set_append_singleton (r.bytes ++ s.bytes) 0 (UInt8.ofNat (packedV v.toNat))
  rw [h64] at this
  exact this

/-- A signature of 65 bytes has a byte 64, and the adjustment replaces it
and nothing else. -/
theorem adjustRecoveryByte_eq (f : Nat → Nat) (sig : List UInt8) (h : sig.length = 65) :
    ∃ v, sig = sig.take 64 ++ [v]
      ∧ adjustRecoveryByte f sig = .ok (sig.take 64 ++ [UInt8.ofNat (f v.toNat)]) := by
  have hsplit : sig = sig.take 64 ++ sig.drop 64 := (List.take_append_drop 64 sig).symm
  have hlen : (sig.drop 64).length = 1 := by simp [h]
  obtain ⟨v, hv⟩ := List.length_eq_one.mp hlen
  have h64 : (sig.take 64).length = 64 := by simp [h]
  refine ⟨v, by rw [← hv]; exact hsplit, ?_⟩
  unfold adjustRecoveryByte
  have hget : sig.get? 64 = some v := by
    rw [hsplit, hv, List.get?_append_right (by simp [h64])]
    simp [h64]
  rw [hget]
  simp only []
  have := set_append_singleton (sig.take 64) v (UInt8.ofNat (f v.toNat))
  rw [h64] at this
  rw [← this, ← hv, ← hsplit]

/-- C21: the three Safe adjustments of the recovery byte are the same
mapping: 0 and 27 go to 31, 1 and 28 go to 32, every other value stays; on a
signature of 65 bytes each replaces the last byte only; and
`GetPackedSignature` returns `r`, then `s`, then the adjusted byte, 65 bytes.
-/
theorem safe_recovery_byte (r s : Bytes32) (b : UInt8) (v : Nat) (sig : List UInt8) :
    packedV v = safeRelayV v ∧ safeTransactionV v = safeRelayV v
      ∧ (v = 0 ∨ v = 27 → safeRelayV v = 31)
      ∧ (v = 1 ∨ v = 28 → safeRelayV v = 32)
      ∧ (v ≠ 0 → v ≠ 1 → v ≠ 27 → v ≠ 28 → safeRelayV v = v)
      ∧ (sig.length = 65 → ∃ last, sig = sig.take 64 ++ [last]
          ∧ adjustRecoveryByte safeRelayV sig
            = .ok (sig.take 64 ++ [UInt8.ofNat (safeRelayV last.toNat)])
          ∧ adjustRecoveryByte safeTransactionV sig
            = .ok (sig.take 64 ++ [UInt8.ofNat (safeRelayV last.toNat)]))
      ∧ GetPackedSignature r s b = r.bytes ++ s.bytes ++ [UInt8.ofNat (safeRelayV b.toNat)]
      ∧ (GetPackedSignature r s b).length = 65 := by
  have hp : ∀ n : Nat, packedV n = safeRelayV n := by
    intro n
    unfold packedV safeRelayV
    by_cases h0 : n = 0
    · subst h0; rfl
    · by_cases h1 : n = 1
      · subst h1; rfl
      · by_cases h27 : n = 27
        · subst h27; rfl
        · by_cases h28 : n = 28
          · subst h28; rfl
          · simp [h0, h1, h27, h28]
  have ht : ∀ n : Nat, safeTransactionV n = safeRelayV n := fun n => hp n
  refine ⟨hp v, ht v, ?_, ?_, ?_, ?_, ?_, ?_⟩
  · rintro (h | h) <;> subst h <;> rfl
  · rintro (h | h) <;> subst h <;> rfl
  · intro h0 h1 h27 h28
    simp [safeRelayV, h0, h1, h27, h28]
  · intro hlen
    obtain ⟨last, hsig, hadj⟩ := adjustRecoveryByte_eq safeRelayV sig hlen
    obtain ⟨last1, hsig1, hadj1⟩ := adjustRecoveryByte_eq safeTransactionV sig hlen
    have hl : last1 = last := by
      have := hsig.symm.trans hsig1
      simpa using this.symm
    subst hl
    rw [ht] at hadj1
    exact ⟨last1, hsig, hadj, hadj1⟩
  · rw [GetPackedSignature_eq, hp]
  · rw [GetPackedSignature_eq]
    simp [r.length_eq, s.length_eq]

/-- C22, as stated, fails: the proxy adjustment turns a recovery byte 2
into 29 and leaves a recovery byte 200 as it is, and `SplitSignature`
accepts a signature of 65 bytes whose recovery byte is 29 and returns 29. -/
theorem recovery_byte_not_normalised :
    adjustRecoveryByte proxyRelayV (List.replicate 64 7 ++ [2])
        = .ok (List.replicate 64 7 ++ [29])
      ∧ adjustRecoveryByte proxyRelayV (List.replicate 64 7 ++ [200])
        = .ok (List.replicate 64 7 ++ [200])
      ∧ SplitSignature ("0x" ++ String.join (List.replicate 64 "ab") ++ "1d")
        = .ok (List.replicate 32 171, List.replicate 32 171, 29) := by
  refine ⟨by decide, by decide, by decide⟩

theorem proxyRelayV_eq (v : Nat) :
    proxyRelayV v = (if v < 27 then v + 27 else v)
      ∧ ((proxyRelayV v = 27 ∨ proxyRelayV v = 28) ↔ (v = 0 ∨ v = 1 ∨ v = 27 ∨ v = 28)) := by
  unfold proxyRelayV
  by_cases h : v < 27
  · rw [if_pos h, if_pos h, Nat.mod_eq_of_lt (by omega)]
    exact ⟨rfl, by omega⟩
  · rw [if_neg h, if_neg h]
    exact ⟨rfl, by omega⟩

theorem splitV_ok (b v : Nat) (h : splitV b = .ok v) :
    ((b = 0 ∨ b = 1) ∧ v = b + 27 ∨ 27 ≤ b ∧ v = b)
      ∧ ((v = 27 ∨ v = 28) ↔ (b = 0 ∨ b = 1 ∨ b = 27 ∨ b = 28)) := by
  unfold splitV at h
  by_cases h27 : b < 27
  · rw [if_pos h27] at h
    by_cases h01 : b = 0 ∨ b = 1
    · rw [if_pos h01, Nat.mod_eq_of_lt (by omega)] at h
      injection h with h
      subst h
      exact ⟨Or.inl ⟨h01, rfl⟩, by omega⟩
    · rw [if_neg h01] at h
      cases h
  · rw [if_neg h27] at h
    injection h with h
    subst h
    exact ⟨Or.inr ⟨by omega, rfl⟩, by omega⟩

theorem copyInto_word (src : List UInt8) (h : src.length = 32) :
    copyInto (List.replicate 32 0) 0 32 src = src := by
  have := copyInto_exact [] (List.replicate 32 0) [] src (by simp [h])
  simpa using this

/-- What `SplitSignature` accepts: hex text, after an optional "0x", of 65
bytes that are `r`, `s` and a recovery byte that `splitV` lets through. -/
theorem SplitSignature_ok (signatureHex : String) (r s : List UInt8) (v : Nat)
    (h : SplitSignature signatureHex = .ok (r, s, v)) :
    ∃ last, hex.Decode (trimHexPrefix (utf8 signatureHex)) = (r ++ s ++ [last], none)
      ∧ r.length = 32 ∧ s.length = 32 ∧ splitV last.toNat = .ok v := by
  unfold SplitSignature at h
  simp only [] at h
  cases hd : hex.Decode (trimHexPrefix (utf8 signatureHex)) with
  | mk sigBytes err =>
    rw [hd] at h
    cases err with
    | some e => simp at h
    | none =>
      simp only [] at h
      by_cases hlen : sigBytes.length = 65
      · rw [if_neg (by simpa using hlen)] at h
        have hr : (sigBytes.take 32).length = 32 := by simp [hlen]
        have hs : ((sigBytes.drop 32).take 32).length = 32 := by simp [hlen]
        rw [copyInto_word _ hr, copyInto_word _ hs] at h
        cases hv : splitV (sigBytes.getD 64 0).toNat with
        | error e => rw [hv] at h; cases h
        | ok w =>
          rw [hv] at h
          simp only [Except.ok.injEq, Prod.mk.injEq] at h
          obtain ⟨h1, h2, h3⟩ := h
          subst h1 h2 h3
          refine ⟨sigBytes.getD 64 0, ?_, hr, hs, hv⟩
          congr 1
          have hsplit : sigBytes = sigBytes.take 64 ++ sigBytes.drop 64 :=
            (List.take_append_drop 64 sigBytes).symm
          have hl : (sigBytes.drop 64).length = 1 := by simp [hlen]
          obtain ⟨x, hx⟩ := List.length_eq_one.mp hl
          have h64 : (sigBytes.take 64).length = 64 := by simp [hlen]
          have hget : sigBytes.getD 64 0 = x := by
            rw [List.getD_eq_getElem?_getD, hsplit, hx,
              List.getElem?_append_right (by simp [h64])]
            simp [h64]
          have htake : sigBytes.take 64 = sigBytes.take 32 ++ (sigBytes.drop 32).take 32 := by
            rw [← List.take_append_drop 32 (sigBytes.take 64), List.take_take,
              List.drop_take]
            rfl
          rw [hget, ← htake, ← hx]
          exact hsplit
      · rw [if_pos (by simpa using hlen)] at h
        cases h

/-- C22, amended: on a signature of 65 bytes the proxy adjustment adds 27
to a recovery byte below 27 and leaves every other byte, so the result is 27
or 28 exactly when the byte was 0, 1, 27 or 28 (0 and 1 are what the signing
library returns); `SplitSignature` accepts hex text of 65 bytes whose
recovery byte is 0, 1 or at least 27, returns `r`, `s`, and the byte plus 27
for 0 and 1 and the byte itself otherwise, so the returned byte is 27 or 28
exactly when the byte was 0, 1, 27 or 28. -/
theorem proxy_recovery_byte (sig : List UInt8) (signatureHex : String) (r s : List UInt8)
    (v : Nat) :
    (sig.length = 65 → ∃ last, sig = sig.take 64 ++ [last]
        ∧ adjustRecoveryByte proxyRelayV sig
          = .ok (sig.take 64 ++ [UInt8.ofNat (proxyRelayV last.toNat)])
        ∧ proxyRelayV last.toNat = (if last.toNat < 27 then last.toNat + 27 else last.toNat)
        ∧ ((proxyRelayV last.toNat = 27 ∨ proxyRelayV last.toNat = 28)
          ↔ (last.toNat = 0 ∨ last.toNat = 1 ∨ last.toNat = 27 ∨ last.toNat = 28)))
      ∧ (SplitSignature signatureHex = .ok (r, s, v) →
        ∃ last, hex.Decode (trimHexPrefix (utf8 signatureHex)) = (r ++ s ++ [last], none)
          ∧ r.length = 32 ∧ s.length = 32
          ∧ ((last.toNat = 0 ∨ last.toNat = 1) ∧ v = last.toNat + 27
            ∨ 27 ≤ last.toNat ∧ v = last.toNat)
          ∧ ((v = 27 ∨ v = 28)
            ↔ (last.toNat = 0 ∨ last.toNat = 1 ∨ last.toNat = 27 ∨ last.toNat = 28))) := by
  constructor
  · intro hlen
    obtain ⟨last, hsig, hadj⟩ := adjustRecoveryByte_eq proxyRelayV sig hlen
    exact ⟨last, hsig, hadj, (proxyRelayV_eq last.toNat).1, (proxyRelayV_eq last.toNat).2⟩
  · intro h
    obtain ⟨last, hd, hr, hs, hv⟩ := SplitSignature_ok signatureHex r s v h
    exact ⟨last, hd, hr, hs, (splitV_ok _ _ hv).1, (splitV_ok _ _ hv).2⟩

theorem proxy_recovery_byte_witness :
    (∃ last, List.replicate 64 (7 : UInt8) ++ [1]
        = (List.replicate 64 (7 : UInt8) ++ [1]).take 64 ++ [last]
        ∧ adjustRecoveryByte proxyRelayV (List.replicate 64 7 ++ [1])
          = .ok ((List.replicate 64 (7 : UInt8) ++ [1]).take 64
              ++ [UInt8.ofNat (proxyRelayV last.toNat)])
        ∧ proxyRelayV last.toNat = (if last.toNat < 27 then last.toNat + 27 else last.toNat)
        ∧ ((proxyRelayV last.toNat = 27 ∨ proxyRelayV last.toNat = 28)
          ↔ (last.toNat = 0 ∨ last.toNat = 1 ∨ last.toNat = 27 ∨ last.toNat = 28)))
      ∧ adjustRecoveryByte proxyRelayV (List.replicate 64 7 ++ [1])
        = .ok (List.replicate 64 7 ++ [28])
      ∧ SplitSignature ("0x" ++ String.join (List.replicate 64 "ab") ++ "00")
        = .ok (List.replicate 32 171, List.replicate 32 171, 27) :=
  ⟨(proxy_recovery_byte (List.replicate 64 7 ++ [1]) "" [] [] 0).1 (by decide),
    by decide, by decide⟩

/-! ## Index sets and position conversion -/

/-- C26, the code at the failing input: a question id ending in "40" has
market index 64, and its index set is 0, as `1 << 64` is 0 in a 64-bit
`int`; with the id ending in "00" added the index set is 1, that of the
second id alone; a question id ending in "3f" has market index 63 and its
index set is the negative number `-2^63`. -/
theorem GetIndexSet_overflow :
    GetMarketIndex ("0x" ++ String.join (List.replicate 31 "ab") ++ "40") = 64
      ∧ GetIndexSet ["0x" ++ String.join (List.replicate 31 "ab") ++ "40"] = 0
      ∧ GetIndexSet ["0x" ++ String.join (List.replicate 31 "ab") ++ "40",
          "0x" ++ String.join (List.replicate 31 "ab") ++ "00"] = 1
      ∧ GetIndexSet ["0x" ++ String.join (List.replicate 31 "ab") ++ "00"] = 1
      ∧ GetMarketIndex ("0x" ++ String.join (List.replicate 31 "ab") ++ "3f") = 63
      ∧ GetIndexSet ["0x" ++ String.join (List.replicate 31 "ab") ++ "3f"] = -(2 ^ 63) := by
  refine ⟨by decide, by decide, by decide, by decide, by decide, by decide⟩

theorem convertCall_nil {F : Type} (V : ConvertEnv F) (amount : F) :
    convertCall V [] amount = .error indexOutOfRange := rfl

theorem convertCall_short {F : Type} (V : ConvertEnv F) (first : String)
    (rest : List String) (amount : F) (h : (utf8 first).length < 2) :
    convertCall V (first :: rest) amount
      = .error (sliceBoundsOutOfRange (utf8 first).length) := by
  simp [convertCall, h]

theorem convertCall_long {F : Type} (V : ConvertEnv F) (first : String)
    (rest : List String) (amount : F) (h : 2 ≤ (utf8 first).length) :
    convertCall V (first :: rest) amount
      = match V.PackConvertPositions
            (V.HexToHash ((utf8 first).take ((utf8 first).length - 2) ++ utf8 "00"))
            (GetIndexSet (first :: rest)) (V.ToWei amount 6) with
        | .error err => .error err
        | .ok data => .ok (V.NegRiskAdapterAddress, data) := by
  have h2 : ¬ (utf8 first).length < 2 := by omega
  simp only [convertCall, if_neg h2]

/-- C29: `ConvertPositions` of both clients panics with the index fault
on an empty list of question ids and with the slice-bounds fault when the
first id has fewer than two bytes, in both cases without calling `Execute`;
when the first id has two bytes or more, the market id packed into the call
is the hash of the first id with its last two bytes replaced by "00", and
the call goes to the neg-risk adapter. -/
theorem ConvertPositions_not_total {F R : Type} (V : ConvertEnv F)
    (ExecuteGasless : Address → List UInt8 → String → String → Except String R)
    (Execute : Address → List UInt8 → String → Except String R)
    (first : String) (rest : List String) (amount : F) :
    PolymarketGaslessWeb3Client.ConvertPositions V ExecuteGasless [] amount
        = .error indexOutOfRange
      ∧ PolymarketWeb3Client.ConvertPositions V Execute [] amount = .error indexOutOfRange
      ∧ ((utf8 first).length < 2 →
        PolymarketGaslessWeb3Client.ConvertPositions V ExecuteGasless (first :: rest) amount
            = .error (sliceBoundsOutOfRange (utf8 first).length)
          ∧ PolymarketWeb3Client.ConvertPositions V Execute (first :: rest) amount
            = .error (sliceBoundsOutOfRange (utf8 first).length))
      ∧ (2 ≤ (utf8 first).length →
        PolymarketGaslessWeb3Client.ConvertPositions V ExecuteGasless (first :: rest) amount
            = (match V.PackConvertPositions
                  (V.HexToHash ((utf8 first).take ((utf8 first).length - 2) ++ utf8 "00"))
                  (GetIndexSet (first :: rest)) (V.ToWei amount 6) with
              | .error err => .error err
              | .ok data =>
                ExecuteGasless V.NegRiskAdapterAddress data "Convert Positions" "convert")
          ∧ PolymarketWeb3Client.ConvertPositions V Execute (first :: rest) amount
            = (match V.PackConvertPositions
                  (V.HexToHash ((utf8 first).take ((utf8 first).length - 2) ++ utf8 "00"))
                  (GetIndexSet (first :: rest)) (V.ToWei amount 6) with
              | .error err => .error err
              | .ok data => Execute V.NegRiskAdapterAddress data "Convert Positions")) := by
  refine ⟨rfl, rfl, fun h => ?_, fun h => ?_⟩
  · unfold PolymarketGaslessWeb3Client.ConvertPositions PolymarketWeb3Client.ConvertPositions
    rw [convertCall_short V first rest amount h]
    exact ⟨rfl, rfl⟩
  · unfold PolymarketGaslessWeb3Client.ConvertPositions PolymarketWeb3Client.ConvertPositions
    rw [convertCall_long V first rest amount h]
    cases V.PackConvertPositions
        (V.HexToHash ((utf8 first).take ((utf8 first).length - 2) ++ utf8 "00"))
        (GetIndexSet (first :: rest)) (V.ToWei amount 6) with
    | error err => exact ⟨rfl, rfl⟩
    | ok data => exact ⟨rfl, rfl⟩

/-- C29 on concrete runs: the one-byte id "x" is the slice-bounds panic,
and the id "0xab05" gives the market id text "0xab00". -/
theorem ConvertPositions_not_total_witness :
    PolymarketGaslessWeb3Client.ConvertPositions sampleConvertEnv
        (fun _ data _ _ => (.ok data : Except String (List UInt8))) ["x", "0xab01"] (3 : Int)
        = .error "panic: runtime error: slice bounds out of range [:-1]"
      ∧ (utf8 "0xab05").take ((utf8 "0xab05").length - 2) ++ utf8 "00" = utf8 "0xab00"
      ∧ PolymarketWeb3Client.ConvertPositions sampleConvertEnv
          (fun _ data _ => (.ok data : Except String (List UInt8))) ["0xab05", "0xab01"]
          (3 : Int)
        = .ok (utf8 "0xab00" ++ List.replicate 26 0 ++ [34]) :=
  ⟨((ConvertPositions_not_total sampleConvertEnv
      (fun _ data _ _ => (.ok data : Except String (List UInt8)))
      (fun _ data _ => (.ok data : Except String (List UInt8))) "x" ["0xab01"] (3 : Int)).2.2.1
      (by decide)).1,
    by decide, by decide⟩

/-! ## The signature of an order object -/

theorem hex.Encode_length (src : List UInt8) : (hex.Encode src).length = 2 * src.length := by
  induction src with
  | nil => rfl
  | cons b rest ih =>
    simp only [hex.Encode, List.flatMap_cons, List.length_append, List.length_cons,
      List.length_nil] at ih ⊢
    omega

theorem hex.hextable_mem : ∀ n, n < 16 → hex.hextable.getD n 0 ∈ hex.hextable := by
  decide

theorem hex.Encode_digits (src : List UInt8) : ∀ c ∈ hex.Encode src, c ∈ hex.hextable := by
  intro c hc
  simp only [hex.Encode, List.mem_flatMap, List.mem_cons, List.mem_singleton,
    List.not_mem_nil, or_false] at hc
  obtain ⟨b, _, h | h⟩ := hc
  · rw [h]
    exact hex.hextable_mem _ (Nat.div_lt_of_lt_mul (by
      have := b.toNat_lt
      omega))
  · rw [h]
    exact hex.hextable_mem _ (Nat.mod_lt _ (by decide))

/-- C24: the code departs from the claim.  For a signature of 65 bytes
whose first two bytes are the characters "0x" (0x30, 0x78) the signature
field of `OrderToJSONWithPostOnly` and of `OrderToJSON` is the 65 bytes
themselves, not "0x" and the 130 hex digits of the bytes, 132 characters,
which the claim, the comment on line 86 and the hex encoding of the same
bytes give. -/
theorem signature_field_not_hex :
    (sampleSignedOrder (some ([48, 120] ++ List.replicate 63 171))).Signature
        = some ([48, 120] ++ List.replicate 63 171)
      ∧ (OrderToJSONWithPostOnly sampleJSONEnv
          (sampleSignedOrder (some ([48, 120] ++ List.replicate 63 171))) "owner" "GTC"
          false).order.signature = [48, 120] ++ List.replicate 63 171
      ∧ (OrderToJSON sampleJSONEnv
          (sampleSignedOrder (some ([48, 120] ++ List.replicate 63 171))) "owner"
          "GTC").order.signature.length = 65
      ∧ (utf8 "0x" ++ hex.Encode ([48, 120] ++ List.replicate 63 171)).length = 132 := by
  refine ⟨rfl, by decide, by decide, by decide⟩

/-- What the code does with a non-nil signature: the signature field is
the signature bytes themselves when they start with the characters "0x";
else "0x" and the hex digits of what standard base64 decoding makes of the
bytes, when they are valid base64 text; else "0x" and the lowercase hex
digits of exactly the signature bytes, two per byte.  `OrderToJSON` is
`OrderToJSONWithPostOnly` without post-only. -/
theorem signature_field (J : JSONEnv) (order : SignedOrder) (owner orderType : String)
    (postOnly : Bool) (sig : List UInt8) (h : order.Signature = some sig) :
    ((utf8 "0x").isPrefixOf sig = true →
        (OrderToJSONWithPostOnly J order owner orderType postOnly).order.signature = sig)
      ∧ (∀ decoded, (utf8 "0x").isPrefixOf sig = false → J.base64Decode sig = .ok decoded →
        (OrderToJSONWithPostOnly J order owner orderType postOnly).order.signature
          = utf8 "0x" ++ hex.Encode decoded)
      ∧ (∀ err, (utf8 "0x").isPrefixOf sig = false → J.base64Decode sig = .error err →
        (OrderToJSONWithPostOnly J order owner orderType postOnly).order.signature
            = utf8 "0x" ++ hex.Encode sig
          ∧ (OrderToJSONWithPostOnly J order owner orderType postOnly).order.signature.length
            = 2 + 2 * sig.length
          ∧ ∀ c ∈ hex.Encode sig, c ∈ hex.hextable)
      ∧ OrderToJSON J order owner orderType
        = OrderToJSONWithPostOnly J order owner orderType false := by
  have key : (OrderToJSONWithPostOnly J order owner orderType postOnly).order.signature
      = signatureText J (some sig) := by
    rw [← h]
    rfl
  rw [key]
  refine ⟨fun hp => ?_, fun decoded hp hd => ?_, fun err hp hd => ?_, rfl⟩
  · simp [signatureText, hp]
  · simp [signatureText, hp, hd]
  · have he : signatureText J (some sig) = utf8 "0x" ++ hex.Encode sig := by
      simp [signatureText, hp, hd]
    rw [he]
    refine ⟨rfl, ?_, hex.Encode_digits sig⟩
    rw [List.length_append, hex.Encode_length]
    rfl

/-- The signature bytes 0x00, 0xff, 0x12, which are neither "0x"-prefixed
nor base64 text, give the field "0x00ff12". -/
theorem signature_field_witness :
    (OrderToJSONWithPostOnly sampleJSONEnv (sampleSignedOrder (some [0, 255, 18])) "owner"
        "GTC" true).order.signature = utf8 "0x00ff12" :=
  ((signature_field sampleJSONEnv (sampleSignedOrder (some [0, 255, 18])) "owner" "GTC"
      true [0, 255, 18] rfl).2.2.1 "illegal base64 data at input byte 0" (by decide) rfl).1.trans
    (by decide)

/-! ## The fee rate of a signed order is the market's -/

theorem GetFeeRateBps_result (M : MarketService) (caches : MarketCaches) (tokenID : String) :
    (GetFeeRateBps M caches tokenID).result
      = match caches.feeRates.lookup tokenID with
        | some feeRate => .ok feeRate
        | none => M.fetchFeeRate tokenID := by
  unfold GetFeeRateBps
  cases caches.feeRates.lookup tokenID with
  | some v => rfl
  | none => cases M.fetchFeeRate tokenID <;> rfl

theorem GetFeeRateBps_congr (M : MarketService) (caches caches1 : MarketCaches)
    (tokenID : String) (h : caches1.feeRates = caches.feeRates) :
    (GetFeeRateBps M caches1 tokenID).result = (GetFeeRateBps M caches tokenID).result := by
  rw [GetFeeRateBps_result, GetFeeRateBps_result, h]

theorem GetTickSize_feeRates (M : MarketService) (caches : MarketCaches) (tokenID : String) :
    (GetTickSize M caches tokenID).caches.feeRates = caches.feeRates := by
  unfold GetTickSize
  cases caches.tickSizes.lookup tokenID with
  | some v => rfl
  | none => cases M.fetchTickSize tokenID <;> rfl

theorem resolveTickSize_feeRates {F : Type} (A : Arith F) (X : FloatOps F)
    (M : MarketService) (caches : MarketCaches) (tokenID : String)
    (tickSize : Option String) :
    (resolveTickSize A X M caches tokenID tickSize).caches.feeRates = caches.feeRates := by
  have h := GetTickSize_feeRates M caches tokenID
  unfold resolveTickSize
  cases h1 : (GetTickSize M caches tokenID).result with
  | error err => simpa [h1] using h
  | ok v =>
    cases tickSize with
    | none => simpa [h1] using h
    | some t =>
      by_cases hs : IsTickSizeSmaller A X t v = true
      · simpa [h1, hs] using h
      · simpa [h1, hs] using h

theorem resolveNegRisk_feeRates (M : MarketService) (caches : MarketCaches)
    (tokenID : String) (options : Option PartialCreateOrderOptions) :
    (resolveNegRisk M caches tokenID options).caches.feeRates = caches.feeRates := by
  unfold resolveNegRisk
  cases options.bind fun o => o.NegRisk with
  | some v => rfl
  | none =>
    unfold GetNegRisk
    cases caches.negRisk.lookup tokenID with
    | some v => rfl
    | none => cases M.fetchNegRisk tokenID <;> rfl

theorem CalculateMarketPrice_caches {F S : Type} (A : Arith F) (X : FloatOps F)
    (M : MarketService) (B : OrderEnv S) (caches : MarketCaches) (tokenID side : String)
    (amount : F) (orderType : String) :
    (CalculateMarketPrice A X M B caches tokenID side amount orderType).caches = caches := by
  unfold CalculateMarketPrice GetOrderBook
  cases h : M.fetchOrderBook tokenID with
  | error err => simp [h]
  | ok book =>
    by_cases hs : side = B.BUY
    · by_cases ha : book.Asks.length = 0 <;> simp [h, hs, ha]
    · by_cases hb : book.Bids.length = 0 <;> simp [h, hs, hb]

theorem resolveFeeRate_ok (M : MarketService) (caches : MarketCaches) (tokenID : String)
    (u f : Int) (h : (resolveFeeRate M caches tokenID u).result = .ok f) :
    (GetFeeRateBps M caches tokenID).result = .ok f := by
  unfold resolveFeeRate at h
  cases h1 : (GetFeeRateBps M caches tokenID).result with
  | error err => simp [h1] at h
  | ok m =>
    simp only [h1] at h
    by_cases hc : (decide (m > 0) && decide (u > 0) && (u != m)) = true
    · rw [if_pos hc] at h
      cases h
    · rw [if_neg hc] at h
      exact h

theorem resolveFeeRate_zero (M : MarketService) (caches : MarketCaches) (tokenID : String)
    (u : Int) (h : (GetFeeRateBps M caches tokenID).result = .ok 0) :
    (resolveFeeRate M caches tokenID u).result = .ok 0 := by
  unfold resolveFeeRate
  simp [h]

theorem standardResolution_fee {F : Type} (A : Arith F) (X : FloatOps F)
    (M : MarketService) (caches : MarketCaches) (orderArgs : OrderArgs F)
    (options : Option PartialCreateOrderOptions) (tickSize : String) (negRisk : Bool)
    (h : (standardResolution A X M caches orderArgs options).result
      = .ok (tickSize, negRisk)) :
    (GetFeeRateBps M caches orderArgs.TokenID).result
      = .ok (standardResolution A X M caches orderArgs options).args.FeeRateBps := by
  have ht := resolveTickSize_feeRates A X M caches orderArgs.TokenID
    (options.bind fun o => o.TickSize)
  have hn := resolveNegRisk_feeRates M
    (resolveTickSize A X M caches orderArgs.TokenID (options.bind fun o => o.TickSize)).caches
    orderArgs.TokenID options
  unfold standardResolution at h ⊢
  simp only [] at h ⊢
  cases h1 : (resolveTickSize A X M caches orderArgs.TokenID
      (options.bind fun o => o.TickSize)).result with
  | error err => simp [h1] at h
  | ok t =>
    simp only [h1] at h ⊢
    generalize resolveNegRisk M (resolveTickSize A X M caches orderArgs.TokenID
      (options.bind fun o => o.TickSize)).caches orderArgs.TokenID options = n at hn h ⊢
    cases h2 : n.result with
    | error err => simp [h2] at h
    | ok nr =>
      simp only [h2] at h ⊢
      cases h3 : (resolveFeeRate M n.caches orderArgs.TokenID orderArgs.FeeRateBps).result with
      | error err => simp [h3] at h
      | ok fee =>
        simp only []
        rw [← GetFeeRateBps_congr M caches n.caches orderArgs.TokenID (hn.trans ht)]
        exact resolveFeeRate_ok M n.caches orderArgs.TokenID orderArgs.FeeRateBps fee h3

theorem marketResolution_feeRates {F S : Type} (A : Arith F) (X : FloatOps F)
    (M : MarketService) (B : OrderEnv S) (caches : MarketCaches)
    (orderArgs : MarketOrderArgs F) (options : Option PartialCreateOrderOptions) :
    (marketResolution A X M B caches orderArgs options).caches.feeRates = caches.feeRates := by
  have ht := resolveTickSize_feeRates A X M caches orderArgs.TokenID
    (options.bind fun o => o.TickSize)
  unfold marketResolution
  simp only []
  cases h1 : (resolveTickSize A X M caches orderArgs.TokenID
      (options.bind fun o => o.TickSize)).result with
  | error err => exact ht
  | ok tickSize =>
    simp only []
    by_cases hp : A.le orderArgs.Price X.zero = true
    · rw [if_pos hp]
      have hc := CalculateMarketPrice_caches A X M B
        (resolveTickSize A X M caches orderArgs.TokenID
          (options.bind fun o => o.TickSize)).caches orderArgs.TokenID orderArgs.Side
        orderArgs.Amount orderArgs.OrderType
      cases h2 : (CalculateMarketPrice A X M B
          (resolveTickSize A X M caches orderArgs.TokenID
            (options.bind fun o => o.TickSize)).caches orderArgs.TokenID orderArgs.Side
          orderArgs.Amount orderArgs.OrderType).result with
      | error err =>
        simp only []
        rw [hc]
        exact ht
      | ok price =>
        simp only []
        rw [hc]
        exact ht
    · rw [if_neg hp]
      exact ht

/-- A market order that gets signed carries the fee rate found for the
token from the caches it started the later stages with: the order arguments
hold it and the order data signed last holds its text. -/
theorem feesRoundAndSign_ok {F S : Type} (A : Arith F) (M : MarketService)
    (B : OrderEnv S) (c : ClobClient) (caches : MarketCaches) (trace : List Event)
    (orderArgs : MarketOrderArgs F) (options : Option PartialCreateOrderOptions)
    (tickSize : String) (signed : S)
    (h : (feesRoundAndSign A M B c caches trace orderArgs options tickSize).result
      = .ok signed) :
    (GetFeeRateBps M caches orderArgs.TokenID).result
        = .ok (feesRoundAndSign A M B c caches trace orderArgs options tickSize).args.FeeRateBps
      ∧ ∃ d pre, (feesRoundAndSign A M B c caches trace orderArgs options tickSize).trace
            = pre ++ [.signing d]
          ∧ d.FeeRateBps = Itoa
            (feesRoundAndSign A M B c caches trace orderArgs options tickSize).args.FeeRateBps := by
  have hn := resolveNegRisk_feeRates M caches orderArgs.TokenID options
  unfold feesRoundAndSign at h ⊢
  simp only [] at h ⊢
  generalize resolveNegRisk M caches orderArgs.TokenID options = n at hn h ⊢
  cases h1 : n.result with
  | error err => simp [h1] at h
  | ok negRisk =>
    simp only [h1] at h ⊢
    cases h2 : (resolveFeeRate M n.caches orderArgs.TokenID orderArgs.FeeRateBps).result with
    | error err => simp [h2] at h
    | ok fee =>
      simp only [h2] at h ⊢
      have hfee : (GetFeeRateBps M caches orderArgs.TokenID).result = .ok fee := by
        rw [← GetFeeRateBps_congr M caches n.caches orderArgs.TokenID hn]
        exact resolveFeeRate_ok M n.caches orderArgs.TokenID orderArgs.FeeRateBps fee h2
      cases h3 : B.RoundingConfig tickSize with
      | none => simp [h3] at h
      | some roundConfig =>
        simp only [h3] at h ⊢
        cases h4 : GetMarketOrderAmounts A orderArgs.Side orderArgs.Amount orderArgs.Price
            roundConfig with
        | error err => simp [h4] at h
        | ok amounts =>
          simp only [h4] at h ⊢
          obtain ⟨ha, _, _, _, h5⟩ := signOrderData_frame B c
            (resolveFeeRate M n.caches orderArgs.TokenID orderArgs.FeeRateBps).caches
            (trace ++ n.trace
              ++ (resolveFeeRate M n.caches orderArgs.TokenID orderArgs.FeeRateBps).trace)
            (⟨orderArgs.TokenID, orderArgs.Amount, orderArgs.Side, orderArgs.Price, fee,
              orderArgs.Nonce, orderArgs.Taker, orderArgs.OrderType⟩ : MarketOrderArgs F)
            negRisk
            (fun builder signer =>
              ⟨builder.funder, if orderArgs.Taker = "" then B.ZeroAddress else orderArgs.Taker,
                orderArgs.TokenID, Itoa amounts.makerAmount,
                Itoa amounts.takerAmount, amounts.side, Itoa fee,
                Itoa orderArgs.Nonce, signer.address, "0", builder.sigType⟩)
          obtain ⟨b, s, cfg, _, _, htr⟩ := h5 signed h
          rw [ha]
          exact ⟨hfee, _, _, htr, rfl⟩

theorem GetTickSize_negRisk (M : MarketService) (caches : MarketCaches) (tokenID : String) :
    (GetTickSize M caches tokenID).caches.negRisk = caches.negRisk := by
  unfold GetTickSize
  cases caches.tickSizes.lookup tokenID with
  | some v => rfl
  | none => cases M.fetchTickSize tokenID <;> rfl

theorem resolveTickSize_negRisk {F : Type} (A : Arith F) (X : FloatOps F)
    (M : MarketService) (caches : MarketCaches) (tokenID : String)
    (tickSize : Option String) :
    (resolveTickSize A X M caches tokenID tickSize).caches.negRisk = caches.negRisk := by
  have h := GetTickSize_negRisk M caches tokenID
  unfold resolveTickSize
  cases h1 : (GetTickSize M caches tokenID).result with
  | error err => simpa [h1] using h
  | ok v =>
    cases tickSize with
    | none => simpa [h1] using h
    | some t =>
      by_cases hs : IsTickSizeSmaller A X t v = true
      · simpa [h1, hs] using h
      · simpa [h1, hs] using h

theorem resolveNegRisk_congr (M : MarketService) (caches caches1 : MarketCaches)
    (tokenID : String) (options : Option PartialCreateOrderOptions)
    (h : caches1.negRisk = caches.negRisk) :
    (resolveNegRisk M caches1 tokenID options).result
      = (resolveNegRisk M caches tokenID options).result := by
  unfold resolveNegRisk
  cases options.bind fun o => o.NegRisk with
  | some v => rfl
  | none =>
    unfold GetNegRisk
    rw [h]
    cases caches.negRisk.lookup tokenID with
    | some v => rfl
    | none => cases M.fetchNegRisk tokenID <;> rfl

theorem marketResolution_negRisk {F S : Type} (A : Arith F) (X : FloatOps F)
    (M : MarketService) (B : OrderEnv S) (caches : MarketCaches)
    (orderArgs : MarketOrderArgs F) (options : Option PartialCreateOrderOptions) :
    (marketResolution A X M B caches orderArgs options).caches.negRisk = caches.negRisk := by
  have ht := resolveTickSize_negRisk A X M caches orderArgs.TokenID
    (options.bind fun o => o.TickSize)
  unfold marketResolution
  simp only []
  cases h1 : (resolveTickSize A X M caches orderArgs.TokenID
      (options.bind fun o => o.TickSize)).result with
  | error err => exact ht
  | ok tickSize =>
    simp only []
    by_cases hp : A.le orderArgs.Price X.zero = true
    · rw [if_pos hp]
      have hc := CalculateMarketPrice_caches A X M B
        (resolveTickSize A X M caches orderArgs.TokenID
          (options.bind fun o => o.TickSize)).caches orderArgs.TokenID orderArgs.Side
        orderArgs.Amount orderArgs.OrderType
      cases h2 : (CalculateMarketPrice A X M B
          (resolveTickSize A X M caches orderArgs.TokenID
            (options.bind fun o => o.TickSize)).caches orderArgs.TokenID orderArgs.Side
          orderArgs.Amount orderArgs.OrderType).result with
      | error err =>
        simp only []
        rw [hc]
        exact ht
      | ok price =>
        simp only []
        rw [hc]
        exact ht
    · rw [if_neg hp]
      exact ht

/-- The fee-rate resolution succeeds with the market's rate unless both
rates are positive and differ. -/
theorem resolveFeeRate_of_market (M : MarketService) (caches : MarketCaches)
    (tokenID : String) (u m : Int) (h : (GetFeeRateBps M caches tokenID).result = .ok m)
    (hno : ¬ (m > 0 ∧ u > 0 ∧ u ≠ m)) :
    (resolveFeeRate M caches tokenID u).result = .ok m := by
  unfold resolveFeeRate
  simp only [h]
  have hc : ¬ ((decide (m > 0) && decide (u > 0) && (u != m)) = true) := by
    simp only [Bool.and_eq_true, decide_eq_true_eq, bne_iff_ne, ne_eq]
    tauto
  rw [if_neg hc]

/-- The standard resolution succeeds and writes the market's rate into the
order arguments when its three lookups succeed. -/
theorem standardResolution_ok {F : Type} (A : Arith F) (X : FloatOps F)
    (M : MarketService) (caches : MarketCaches) (orderArgs : OrderArgs F)
    (options : Option PartialCreateOrderOptions) (t : String) (n : Bool) (m : Int)
    (ht : (resolveTickSize A X M caches orderArgs.TokenID
      (options.bind fun o => o.TickSize)).result = .ok t)
    (hn : (resolveNegRisk M caches orderArgs.TokenID options).result = .ok n)
    (hm : (GetFeeRateBps M caches orderArgs.TokenID).result = .ok m)
    (hno : ¬ (m > 0 ∧ orderArgs.FeeRateBps > 0 ∧ orderArgs.FeeRateBps ≠ m)) :
    (standardResolution A X M caches orderArgs options).result = .ok (t, n)
      ∧ (standardResolution A X M caches orderArgs options).args
        = ⟨orderArgs.TokenID, orderArgs.Price, orderArgs.Size, orderArgs.Side, m,
            orderArgs.Nonce, orderArgs.Expiration, orderArgs.Taker⟩ := by
  have htn := resolveTickSize_negRisk A X M caches orderArgs.TokenID
    (options.bind fun o => o.TickSize)
  have htf := resolveTickSize_feeRates A X M caches orderArgs.TokenID
    (options.bind fun o => o.TickSize)
  have hn1 : (resolveNegRisk M (resolveTickSize A X M caches orderArgs.TokenID
      (options.bind fun o => o.TickSize)).caches orderArgs.TokenID options).result = .ok n :=
    (resolveNegRisk_congr M caches _ orderArgs.TokenID options htn).trans hn
  have hnf := resolveNegRisk_feeRates M (resolveTickSize A X M caches orderArgs.TokenID
      (options.bind fun o => o.TickSize)).caches orderArgs.TokenID options
  have hf1 : (resolveFeeRate M (resolveNegRisk M (resolveTickSize A X M caches
      orderArgs.TokenID (options.bind fun o => o.TickSize)).caches orderArgs.TokenID
      options).caches orderArgs.TokenID orderArgs.FeeRateBps).result = .ok m := by
    apply resolveFeeRate_of_market _ _ _ _ _ _ hno
    rw [GetFeeRateBps_congr M caches _ orderArgs.TokenID (hnf.trans htf)]
    exact hm
  unfold standardResolution
  simp only [ht, hn1, hf1, and_self]

/-- The later stages of a market order write the market's rate into the
order arguments when the neg-risk flag and the fee rate resolve. -/
theorem feesRoundAndSign_args {F S : Type} (A : Arith F) (M : MarketService)
    (B : OrderEnv S) (c : ClobClient) (caches : MarketCaches) (trace : List Event)
    (orderArgs : MarketOrderArgs F) (options : Option PartialCreateOrderOptions)
    (tickSize : String) (n : Bool) (m : Int)
    (hn : (resolveNegRisk M caches orderArgs.TokenID options).result = .ok n)
    (hm : (GetFeeRateBps M caches orderArgs.TokenID).result = .ok m)
    (hno : ¬ (m > 0 ∧ orderArgs.FeeRateBps > 0 ∧ orderArgs.FeeRateBps ≠ m)) :
    (feesRoundAndSign A M B c caches trace orderArgs options tickSize).args
        = ⟨orderArgs.TokenID, orderArgs.Amount, orderArgs.Side, orderArgs.Price, m,
            orderArgs.Nonce, orderArgs.Taker, orderArgs.OrderType⟩
      ∧ (∀ d, Event.signing d
            ∈ (feesRoundAndSign A M B c caches trace orderArgs options tickSize).trace →
          Event.signing d ∈ trace ∨ d.FeeRateBps = Itoa m)
      ∧ (∀ cfg amounts builder signer cc, B.RoundingConfig tickSize = some cfg →
          GetMarketOrderAmounts A orderArgs.Side orderArgs.Amount orderArgs.Price cfg
            = .ok amounts →
          c.builder = some builder → c.signer = some signer →
          B.getContractConfig c.chainID n = some cc →
          (feesRoundAndSign A M B c caches trace orderArgs options tickSize).result
            = B.BuildSignedOrder
                ⟨builder.funder,
                  if orderArgs.Taker = "" then B.ZeroAddress else orderArgs.Taker,
                  orderArgs.TokenID, Itoa amounts.makerAmount, Itoa amounts.takerAmount,
                  amounts.side, Itoa m, Itoa orderArgs.Nonce, signer.address, "0",
                  builder.sigType⟩
                cc.Exchange c.chainID n) := by
  have hnf := resolveNegRisk_feeRates M caches orderArgs.TokenID options
  have hnl := resolveNegRisk_lookups M caches orderArgs.TokenID options
  have hf1 : (resolveFeeRate M (resolveNegRisk M caches orderArgs.TokenID options).caches
      orderArgs.TokenID orderArgs.FeeRateBps).result = .ok m := by
    apply resolveFeeRate_of_market _ _ _ _ _ _ hno
    rw [GetFeeRateBps_congr M caches _ orderArgs.TokenID hnf]
    exact hm
  have hfl := resolveFeeRate_lookups M (resolveNegRisk M caches orderArgs.TokenID options).caches
    orderArgs.TokenID orderArgs.FeeRateBps
  have hpre : ∀ d, Event.signing d ∈ trace
        ++ (resolveNegRisk M caches orderArgs.TokenID options).trace
        ++ (resolveFeeRate M (resolveNegRisk M caches orderArgs.TokenID options).caches
          orderArgs.TokenID orderArgs.FeeRateBps).trace → Event.signing d ∈ trace := by
    intro d hd
    rcases List.mem_append.mp hd with h | h
    · rcases List.mem_append.mp h with h | h
      · exact h
      · exact absurd (hnl _ h) (by simp [Event.isLookup])
    · exact absurd (hfl _ h) (by simp [Event.isLookup])
  unfold feesRoundAndSign
  simp only [hn, hf1]
  cases hcfg : B.RoundingConfig tickSize with
  | none =>
    refine ⟨rfl, fun d hd => Or.inl (hpre d hd), ?_⟩
    intro cfg amounts builder signer cc h
    cases h
  | some cfg =>
    simp only []
    cases ham : GetMarketOrderAmounts A orderArgs.Side orderArgs.Amount orderArgs.Price cfg with
    | error err =>
      refine ⟨rfl, fun d hd => Or.inl (hpre d hd), ?_⟩
      intro cfg1 amounts builder signer cc h1 h2
      injection h1 with h1
      subst h1
      rw [ham] at h2
      cases h2
    | ok amounts =>
      simp only []
      obtain ⟨h1, _, h3, _, _⟩ := signOrderData_frame B c
        (resolveFeeRate M (resolveNegRisk M caches orderArgs.TokenID options).caches
          orderArgs.TokenID orderArgs.FeeRateBps).caches
        (trace ++ (resolveNegRisk M caches orderArgs.TokenID options).trace
          ++ (resolveFeeRate M (resolveNegRisk M caches orderArgs.TokenID options).caches
            orderArgs.TokenID orderArgs.FeeRateBps).trace)
        (⟨orderArgs.TokenID, orderArgs.Amount, orderArgs.Side, orderArgs.Price, m,
          orderArgs.Nonce, orderArgs.Taker, orderArgs.OrderType⟩ : MarketOrderArgs F)
        n
        (fun builder signer =>
          ⟨builder.funder, if orderArgs.Taker = "" then B.ZeroAddress else orderArgs.Taker,
            orderArgs.TokenID, Itoa amounts.makerAmount,
            Itoa amounts.takerAmount, amounts.side, Itoa m,
            Itoa orderArgs.Nonce, signer.address, "0", builder.sigType⟩)
      refine ⟨h1, ?_, ?_⟩
      · intro d hd
        rcases h3 with h3 | ⟨b, s, h3⟩
        · rw [h3] at hd
          exact Or.inl (hpre d hd)
        · rw [h3] at hd
          rcases List.mem_append.mp hd with h | h
          · exact Or.inl (hpre d h)
          · rw [List.mem_singleton] at h
            injection h with h
            rw [h]
            exact Or.inr rfl
      · intro cfg1 amounts1 builder signer cc h1 h2 hb hs hc
        injection h1 with h1
        subst h1
        rw [ham] at h2
        injection h2 with h2
        subst h2
        simp only [signOrderData, hb, hs, hc]
        cases B.BuildSignedOrder _ cc.Exchange c.chainID n <;> rfl

/-- Rounding and signing a limit order hands the signing library an order
whose fee rate is the one of the order arguments, and returns what the
library returns. -/
theorem roundAndSign_result {F S : Type} (A : Arith F) (B : OrderEnv S) (c : ClobClient)
    (caches : MarketCaches) (trace : List Event) (orderArgs : OrderArgs F)
    (tickSize : String) (negRisk : Bool) (cfg : RoundConfig) (amounts : Amounts)
    (builder : OrderBuilder) (signer : Signer) (cc : ContractConfig)
    (hcfg : B.RoundingConfig tickSize = some cfg)
    (ham : GetOrderAmounts A orderArgs.Side orderArgs.Size orderArgs.Price cfg = .ok amounts)
    (hb : c.builder = some builder) (hs : c.signer = some signer)
    (hc : B.getContractConfig c.chainID negRisk = some cc) :
    (roundAndSign A B c caches trace orderArgs tickSize negRisk).result
      = B.BuildSignedOrder
          ⟨builder.funder, if orderArgs.Taker = "" then B.ZeroAddress else orderArgs.Taker,
            orderArgs.TokenID, Itoa amounts.makerAmount, Itoa amounts.takerAmount,
            amounts.side, Itoa orderArgs.FeeRateBps, Itoa orderArgs.Nonce, signer.address,
            Itoa orderArgs.Expiration, builder.sigType⟩
          cc.Exchange c.chainID negRisk := by
  simp only [roundAndSign, hcfg, ham, signOrderData, hb, hs, hc]
  cases B.BuildSignedOrder _ cc.Exchange c.chainID negRisk <;> rfl

/-- The fee rate of a signing event, if the event is one. -/
theorem signing_mem_lookups (trace : List Event) (d : OrderData)
    (h : ∀ e ∈ trace, e.isLookup = true) : Event.signing d ∉ trace := by
  intro hd
  exact absurd (h _ hd) (by simp [Event.isLookup])

/-- C28: when `resolveFeeRate` succeeds its result is the market's fee
rate, the one `GetFeeRateBps` finds, and it succeeds with that rate unless
both rates are positive and differ, so with a market rate of 0 whatever the
caller's rate.  On a client with at least L1 auth, once the lookups before it
have succeeded (tick size and neg-risk flag for a standard-mode
`CreateOrder`; tick size, price, price check and neg-risk flag for
`CreateMarketOrder`) and the rates do not clash, the call leaves the
market's rate in `orderArgs.FeeRateBps`, whatever the caller wrote there and
whatever happens afterwards; every order handed to the signing library
carries the text of the market's rate; and when the rounding table, the
amounts, the builder, the signer and the contract config are there, the
result of the call is what the signing library returns for the order with
that rate. -/
theorem fee_rate_is_market_rate {F S : Type} (K : Consts) (A : Arith F) (X : FloatOps F)
    (M : MarketService) (B : OrderEnv S) (c : ClobClient) (caches : MarketCaches)
    (orderArgs : OrderArgs F) (marketArgs : MarketOrderArgs F)
    (options : Option PartialCreateOrderOptions) (hmode : ¬ c.mode < K.L1) :
    (∀ caches1 tokenID u f, (resolveFeeRate M caches1 tokenID u).result = .ok f →
        (GetFeeRateBps M caches1 tokenID).result = .ok f)
      ∧ (∀ caches1 tokenID u m, (GetFeeRateBps M caches1 tokenID).result = .ok m →
        ¬ (m > 0 ∧ u > 0 ∧ u ≠ m) → (resolveFeeRate M caches1 tokenID u).result = .ok m)
      ∧ (StandardMode options → ∀ t n m,
        (resolveTickSize A X M caches orderArgs.TokenID
          (options.bind fun o => o.TickSize)).result = .ok t →
        (resolveNegRisk M caches orderArgs.TokenID options).result = .ok n →
        (GetFeeRateBps M caches orderArgs.TokenID).result = .ok m →
        ¬ (m > 0 ∧ orderArgs.FeeRateBps > 0 ∧ orderArgs.FeeRateBps ≠ m) →
        (CreateOrder K A X M B c caches orderArgs options).args
            = ⟨orderArgs.TokenID, orderArgs.Price, orderArgs.Size, orderArgs.Side, m,
                orderArgs.Nonce, orderArgs.Expiration, orderArgs.Taker⟩
          ∧ (∀ d, Event.signing d ∈ (CreateOrder K A X M B c caches orderArgs options).trace →
              d.FeeRateBps = Itoa m)
          ∧ (∀ cfg amounts builder signer cc,
              PriceValid A orderArgs.Price t = true →
              B.RoundingConfig t = some cfg →
              GetOrderAmounts A orderArgs.Side orderArgs.Size orderArgs.Price cfg
                = .ok amounts →
              c.builder = some builder → c.signer = some signer →
              B.getContractConfig c.chainID n = some cc →
              (CreateOrder K A X M B c caches orderArgs options).result
                = B.BuildSignedOrder
                    ⟨builder.funder,
                      if orderArgs.Taker = "" then B.ZeroAddress else orderArgs.Taker,
                      orderArgs.TokenID, Itoa amounts.makerAmount, Itoa amounts.takerAmount,
                      amounts.side, Itoa m, Itoa orderArgs.Nonce, signer.address,
                      Itoa orderArgs.Expiration, builder.sigType⟩
                    cc.Exchange c.chainID n))
      ∧ (∀ t n m,
        (marketResolution A X M B caches marketArgs options).result = .ok t →
        PriceValid A (marketResolution A X M B caches marketArgs options).args.Price t = true →
        (resolveNegRisk M caches marketArgs.TokenID options).result = .ok n →
        (GetFeeRateBps M caches marketArgs.TokenID).result = .ok m →
        ¬ (m > 0 ∧ marketArgs.FeeRateBps > 0 ∧ marketArgs.FeeRateBps ≠ m) →
        (CreateMarketOrder K A X M B c caches marketArgs options).args
            = ⟨marketArgs.TokenID, marketArgs.Amount, marketArgs.Side,
                (marketResolution A X M B caches marketArgs options).args.Price, m,
                marketArgs.Nonce, marketArgs.Taker, marketArgs.OrderType⟩
          ∧ (∀ d, Event.signing d
                ∈ (CreateMarketOrder K A X M B c caches marketArgs options).trace →
              d.FeeRateBps = Itoa m)
          ∧ (∀ cfg amounts builder signer cc,
              B.RoundingConfig t = some cfg →
              GetMarketOrderAmounts A marketArgs.Side marketArgs.Amount
                  (marketResolution A X M B caches marketArgs options).args.Price cfg
                = .ok amounts →
              c.builder = some builder → c.signer = some signer →
              B.getContractConfig c.chainID n = some cc →
              (CreateMarketOrder K A X M B c caches marketArgs options).result
                = B.BuildSignedOrder
                    ⟨builder.funder,
                      if marketArgs.Taker = "" then B.ZeroAddress else marketArgs.Taker,
                      marketArgs.TokenID, Itoa amounts.makerAmount,
                      Itoa amounts.takerAmount, amounts.side, Itoa m,
                      Itoa marketArgs.Nonce, signer.address, "0", builder.sigType⟩
                    cc.Exchange c.chainID n)) := by
  refine ⟨fun caches1 tokenID u f h => resolveFeeRate_ok M caches1 tokenID u f h,
    fun caches1 tokenID u m h hno => resolveFeeRate_of_market M caches1 tokenID u m h hno,
    ?_, ?_⟩
  · intro hstd t n m ht hn hm hno
    obtain ⟨hres, hargs⟩ := standardResolution_ok A X M caches orderArgs options t n m ht hn
      hm hno
    obtain ⟨_, _, hlook⟩ := standardResolution_frame A X M caches orderArgs options
    rw [CreateOrder_standard_resolved K A X M B c caches orderArgs options t n hmode hstd hres]
    obtain ⟨h1, _, h3, _⟩ := finishOrder_frame A X B c
      (standardResolution A X M caches orderArgs options).caches
      (standardResolution A X M caches orderArgs options).trace
      (standardResolution A X M caches orderArgs options).args t n
    refine ⟨h1.trans hargs, ?_, ?_⟩
    · intro d hd
      rcases h3 with h3 | ⟨d1, h3, hfee⟩
      · rw [h3] at hd
        exact absurd hd (signing_mem_lookups _ d hlook)
      · rw [h3] at hd
        rcases List.mem_append.mp hd with h | h
        · exact absurd h (signing_mem_lookups _ d hlook)
        · rw [List.mem_singleton] at h
          injection h with h
          rw [h, hfee, hargs]
    · intro cfg amounts builder signer cc hv hcfg ham hb hs hc
      have hv1 : PriceValid A (standardResolution A X M caches orderArgs options).args.Price t
          = true := by
        rw [hargs]
        exact hv
      rw [finishOrder_valid A X B c _ _ _ t n hv1]
      have ham1 : GetOrderAmounts A
          (standardResolution A X M caches orderArgs options).args.Side
          (standardResolution A X M caches orderArgs options).args.Size
          (standardResolution A X M caches orderArgs options).args.Price cfg = .ok amounts := by
        rw [hargs]
        exact ham
      rw [roundAndSign_result A B c _ _ _ t n cfg amounts builder signer cc hcfg ham1 hb hs hc,
        hargs]
  · intro t n m hres hv hn hm hno
    obtain ⟨hargs, hlook⟩ := marketResolution_frame A X M B caches marketArgs options
    rw [CreateMarketOrder_resolved K A X M B c caches marketArgs options t hmode hres,
      finishMarketOrder_valid A X M B c _ _ _ options t hv]
    have htok : (marketResolution A X M B caches marketArgs options).args.TokenID
        = marketArgs.TokenID := by rw [hargs]
    have hfee0 : (marketResolution A X M B caches marketArgs options).args.FeeRateBps
        = marketArgs.FeeRateBps := by rw [hargs]
    have hn1 : (resolveNegRisk M (marketResolution A X M B caches marketArgs options).caches
        (marketResolution A X M B caches marketArgs options).args.TokenID options).result
        = .ok n := by
      rw [htok, resolveNegRisk_congr M caches _ marketArgs.TokenID options
        (marketResolution_negRisk A X M B caches marketArgs options)]
      exact hn
    have hm1 : (GetFeeRateBps M (marketResolution A X M B caches marketArgs options).caches
        (marketResolution A X M B caches marketArgs options).args.TokenID).result = .ok m := by
      rw [htok, GetFeeRateBps_congr M caches _ marketArgs.TokenID
        (marketResolution_feeRates A X M B caches marketArgs options)]
      exact hm
    have hno1 : ¬ (m > 0
        ∧ (marketResolution A X M B caches marketArgs options).args.FeeRateBps > 0
        ∧ (marketResolution A X M B caches marketArgs options).args.FeeRateBps ≠ m) := by
      rw [hfee0]
      exact hno
    obtain ⟨h1, h2, h3⟩ := feesRoundAndSign_args A M B c
      (marketResolution A X M B caches marketArgs options).caches
      (marketResolution A X M B caches marketArgs options).trace
      (marketResolution A X M B caches marketArgs options).args options t n m hn1 hm1 hno1
    refine ⟨?_, ?_, ?_⟩
    · rw [h1, hargs]
    · intro d hd
      rcases h2 d hd with h | h
      · exact absurd h (signing_mem_lookups _ d hlook)
      · exact h
    · intro cfg amounts builder signer cc hcfg ham hb hs hc
      have ham1 : GetMarketOrderAmounts A
          (marketResolution A X M B caches marketArgs options).args.Side
          (marketResolution A X M B caches marketArgs options).args.Amount
          (marketResolution A X M B caches marketArgs options).args.Price cfg = .ok amounts := by
        rw [hargs]
        exact ham
      rw [h3 cfg amounts builder signer cc hcfg ham1 hb hs hc, hargs]

/-- C28 on concrete runs: on a market whose fee rate is 0, a limit order
and a market order with the caller's rate 25 leave 0 in the order arguments,
hand the signing library an order with the rate "0", and return its result.
-/
theorem fee_rate_is_market_rate_witness :
    (CreateOrder sampleConsts decimalArith decimalOps zeroFeeMarket sampleOrderEnv
          sampleL1Client noCaches
          (⟨"tok", Dec.decimal 55 2, Dec.ofInt 10, "BUY", 25, 0, 0, ""⟩ : OrderArgs Dec)
          none).args
        = ⟨"tok", Dec.decimal 55 2, Dec.ofInt 10, "BUY", 0, 0, 0, ""⟩
      ∧ (CreateOrder sampleConsts decimalArith decimalOps zeroFeeMarket sampleOrderEnv
          sampleL1Client noCaches
          (⟨"tok", Dec.decimal 55 2, Dec.ofInt 10, "BUY", 25, 0, 0, ""⟩ : OrderArgs Dec)
          none).trace.filterMap Event.signedFeeRate = ["0"]
      ∧ (CreateOrder sampleConsts decimalArith decimalOps zeroFeeMarket sampleOrderEnv
          sampleL1Client noCaches
          (⟨"tok", Dec.decimal 55 2, Dec.ofInt 10, "BUY", 25, 0, 0, ""⟩ : OrderArgs Dec)
          none).result = .ok "5500000/10000000"
      ∧ (CreateMarketOrder sampleConsts decimalArith decimalOps zeroFeeMarket sampleOrderEnv
          sampleL1Client noCaches
          (⟨"tok", Dec.ofInt 100, "BUY", Dec.decimal 5 1, 25, 0, "", "FOK"⟩ :
            MarketOrderArgs Dec)
          none).args
        = ⟨"tok", Dec.ofInt 100, "BUY", Dec.decimal 5 1, 0, 0, "", "FOK"⟩
      ∧ (CreateMarketOrder sampleConsts decimalArith decimalOps zeroFeeMarket sampleOrderEnv
          sampleL1Client noCaches
          (⟨"tok", Dec.ofInt 100, "BUY", Dec.decimal 5 1, 25, 0, "", "FOK"⟩ :
            MarketOrderArgs Dec)
          none).trace.filterMap Event.signedFeeRate = ["0"]
      ∧ (CreateMarketOrder sampleConsts decimalArith decimalOps zeroFeeMarket sampleOrderEnv
          sampleL1Client noCaches
          (⟨"tok", Dec.ofInt 100, "BUY", Dec.decimal 5 1, 25, 0, "", "FOK"⟩ :
            MarketOrderArgs Dec)
          none).result = .ok "100000000/200000000" :=
  ⟨((fee_rate_is_market_rate sampleConsts decimalArith decimalOps zeroFeeMarket
      sampleOrderEnv sampleL1Client noCaches
      (⟨"tok", Dec.decimal 55 2, Dec.ofInt 10, "BUY", 25, 0, 0, ""⟩ : OrderArgs Dec)
      (⟨"tok", Dec.ofInt 100, "BUY", Dec.decimal 5 1, 25, 0, "", "FOK"⟩ : MarketOrderArgs Dec)
      none (by decide)).2.2.1 (fun o h => by cases h) "0.01" false 0 (by decide) (by decide)
      (by decide) (by decide)).1,
    by decide, by decide,
    ((fee_rate_is_market_rate sampleConsts decimalArith decimalOps zeroFeeMarket
      sampleOrderEnv sampleL1Client noCaches
      (⟨"tok", Dec.decimal 55 2, Dec.ofInt 10, "BUY", 25, 0, 0, ""⟩ : OrderArgs Dec)
      (⟨"tok", Dec.ofInt 100, "BUY", Dec.decimal 5 1, 25, 0, "", "FOK"⟩ : MarketOrderArgs Dec)
      none (by decide)).2.2.2 "0.01" false 0 (by decide) (by decide) (by decide) (by decide)
      (by decide)).1.trans (by decide),
    by decide, by decide⟩

/-! ## The L1 auth message -/

theorem wrapInt_of_range (x : Int) (h0 : 0 ≤ x) (h1 : x < 2 ^ 63) : wrapInt x = x := by
  unfold wrapInt
  omega

theorem natAbs_wrapInt_neg (n : Int) : (wrapInt (-n)).natAbs = (wrapInt n).natAbs := by
  unfold wrapInt
  omega

theorem bigIntBytes_wrapInt_neg (n : Int) :
    bigIntBytes (wrapInt (-n)) = bigIntBytes (wrapInt n) := by
  unfold bigIntBytes
  rw [natAbs_wrapInt_neg]

theorem LeftPadBytes_address (a : Address) :
    LeftPadBytes a.bytes 32 = List.replicate 12 0 ++ a.bytes := by
  unfold LeftPadBytes
  rw [a.length_eq]
  rfl

theorem copyInto_three (a b c : List UInt8) (ha : a.length = 32) (hb : b.length = 32)
    (hc : c.length = 32) :
    copyInto (copyInto (copyInto (List.replicate 96 0) 0 32 a) 32 64 b) 64 96 c
      = a ++ b ++ c := by
  have e1 : List.replicate 96 (0 : UInt8)
      = [] ++ List.replicate 32 0 ++ List.replicate 64 0 := by decide
  have c1 := copyInto_exact [] (List.replicate 32 0) (List.replicate 64 0) a (by simp [ha])
  have e2 : ([] : List UInt8) ++ a ++ List.replicate 64 0
      = a ++ List.replicate 32 0 ++ List.replicate 32 0 := by simp
  have c2 := copyInto_exact a (List.replicate 32 0) (List.replicate 32 0) b (by simp [hb])
  have e3 : a ++ b ++ List.replicate 32 0 = (a ++ b) ++ List.replicate 32 0 ++ [] := by simp
  have c3 := copyInto_exact (a ++ b) (List.replicate 32 0) [] c (by simp [hc])
  simp only [List.length_nil, List.length_replicate, List.length_append, Nat.zero_add, ha, hb]
    at c1 c2 c3
  rw [e1, c1, e2, c2, e3, c3, List.append_nil]

theorem copyInto_four (a b c d : List UInt8) (ha : a.length = 32) (hb : b.length = 32)
    (hc : c.length = 32) (hd : d.length = 32) :
    copyInto (copyInto (copyInto (copyInto (List.replicate 128 0) 0 32 a) 32 64 b) 64 96 c)
        96 128 d
      = a ++ b ++ c ++ d := by
  have e1 : List.replicate 128 (0 : UInt8)
      = [] ++ List.replicate 32 0 ++ List.replicate 96 0 := by decide
  have c1 := copyInto_exact [] (List.replicate 32 0) (List.replicate 96 0) a (by simp [ha])
  have e2 : ([] : List UInt8) ++ a ++ List.replicate 96 0
      = a ++ List.replicate 32 0 ++ List.replicate 64 0 := by simp
  have c2 := copyInto_exact a (List.replicate 32 0) (List.replicate 64 0) b (by simp [hb])
  have e3 : a ++ b ++ List.replicate 64 0
      = (a ++ b) ++ List.replicate 32 0 ++ List.replicate 32 0 := by simp
  have c3 := copyInto_exact (a ++ b) (List.replicate 32 0) (List.replicate 32 0) c
    (by simp [hc])
  have e4 : a ++ b ++ c ++ List.replicate 32 0
      = (a ++ b ++ c) ++ List.replicate 32 0 ++ [] := by simp
  have c4 := copyInto_exact (a ++ b ++ c) (List.replicate 32 0) [] d (by simp [hd])
  simp only [List.length_nil, List.length_replicate, List.length_append, Nat.zero_add, ha, hb,
    hc] at c1 c2 c3 c4
  rw [e1, c1, e2, c2, e3, c3, e4, c4, List.append_nil]

theorem authStructHash_eq (E : AuthEnv) (signer : Signer) (timestamp nonce : Int) :
    authStructHash E signer timestamp nonce
      = E.Keccak256Hash ([0x19, 0x01]
          ++ (E.Keccak256Hash
              ((E.Keccak256Hash
                  (utf8 "EIP712Domain(string name,string version,uint256 chainId)")).bytes
                ++ ((E.Keccak256Hash (utf8 E.CLOBDomainName)).bytes
                  ++ (E.Keccak256Hash (utf8 E.CLOBVersion)).bytes
                  ++ beWord 32 (wrapInt (E.GetChainID signer)).natAbs))).bytes
          ++ (E.Keccak256Hash
              ((E.Keccak256Hash
                  (utf8 "ClobAuth(address address,string timestamp,uint256 nonce,string message)")).bytes
                ++ ((List.replicate 12 0 ++ (E.HexToAddress signer.address).bytes)
                  ++ (E.Keccak256Hash (utf8 (Itoa timestamp))).bytes
                  ++ beWord 32 (wrapInt nonce).natAbs
                  ++ (E.Keccak256Hash (utf8 E.MsgToSign)).bytes))).bytes) := by
  have hpad : ∀ x : Int, LeftPadBytes (bigIntBytes (wrapInt x)) 32
      = beWord 32 (wrapInt x).natAbs := by
    intro x
    have h := LeftPadBytes_bigIntBytes ((wrapInt x).natAbs : Int) (by omega) (by
      have : (wrapInt x).natAbs ≤ 2 ^ 63 := by unfold wrapInt; omega
      have h2 : (2 : Int) ^ 63 < 2 ^ 256 := by norm_num
      omega)
    have hb : bigIntBytes ((wrapInt x).natAbs : Int) = bigIntBytes (wrapInt x) := by
      unfold bigIntBytes
      rw [Int.natAbs_ofNat]
    rw [hb, Int.toNat_ofNat] at h
    exact h
  unfold authStructHash
  simp only []
  rw [hpad, hpad, LeftPadBytes_address,
    copyInto_three _ _ _ (E.Keccak256Hash (utf8 E.CLOBDomainName)).length_eq
      (E.Keccak256Hash (utf8 E.CLOBVersion)).length_eq (beWord_length 32 _),
    copyInto_four _ _ _ _ (by simp [(E.HexToAddress signer.address).length_eq])
      (E.Keccak256Hash (utf8 (Itoa timestamp))).length_eq (beWord_length 32 _)
      (E.Keccak256Hash (utf8 E.MsgToSign)).length_eq]

theorem HasPrefix_append (pre s : String) : HasPrefix (pre ++ s) pre = true := by
  unfold HasPrefix
  rw [String.data_append]
  exact List.isPrefixOf_iff_prefix.mpr (List.prefix_append _ _)

theorem SignClobAuthMessage_eq (E : AuthEnv) (signer : Signer) (timestamp nonce : Int) :
    SignClobAuthMessage E (some signer) timestamp nonce
      = match E.Sign signer (authStructHash E signer timestamp nonce).bytes with
        | .error err => .error err
        | .ok signature =>
          .ok (if HasPrefix signature "0x" = true then signature else "0x" ++ signature) := by
  unfold SignClobAuthMessage
  cases hs : E.Sign signer (authStructHash E signer timestamp nonce).bytes with
  | error err => simp only [hs]
  | ok signature =>
    by_cases h : HasPrefix signature "0x" = true
    · simp [hs, h]
    · simp [hs, h]

/-- C25: for a signer whose chain id is a non-negative `int`, every
timestamp and every nonce that is a non-negative `int`, the bytes
`SignClobAuthMessage` hands to the signer are the 32 bytes of the digest of
the specification (the hash of 0x19 0x01, the domain separator and the struct
hash, built as stated); they are handed over as they are, and the signature
text comes back with "0x" put in front only when it does not start with it,
so the result starts with "0x". -/
theorem SignClobAuthMessage_digest (E : AuthEnv) (signer : Signer) (timestamp nonce : Int)
    (hchain0 : 0 ≤ E.GetChainID signer) (hchain1 : E.GetChainID signer < 2 ^ 63)
    (hnonce0 : 0 ≤ nonce) (hnonce1 : nonce < 2 ^ 63) :
    authStructHash E signer timestamp nonce = clobAuthDigest E signer timestamp nonce
      ∧ (clobAuthDigest E signer timestamp nonce).bytes.length = 32
      ∧ SignClobAuthMessage E (some signer) timestamp nonce
        = (match E.Sign signer (clobAuthDigest E signer timestamp nonce).bytes with
          | .error err => .error err
          | .ok signature =>
            .ok (if HasPrefix signature "0x" = true then signature else "0x" ++ signature))
      ∧ (∀ result, SignClobAuthMessage E (some signer) timestamp nonce = .ok result →
          HasPrefix result "0x" = true
            ∧ ∃ signature,
              E.Sign signer (clobAuthDigest E signer timestamp nonce).bytes = .ok signature
                ∧ (HasPrefix signature "0x" = true → result = signature)
                ∧ (HasPrefix signature "0x" = false → result = "0x" ++ signature)) := by
  have hd : authStructHash E signer timestamp nonce
      = clobAuthDigest E signer timestamp nonce := by
    rw [authStructHash_eq, wrapInt_of_range _ hchain0 hchain1,
      wrapInt_of_range _ hnonce0 hnonce1]
    have h1 : (E.GetChainID signer).natAbs = (E.GetChainID signer).toNat := by omega
    have h2 : nonce.natAbs = nonce.toNat := by omega
    rw [h1, h2]
    unfold clobAuthDigest
    simp only [List.append_assoc]
  have hs := SignClobAuthMessage_eq E signer timestamp nonce
  rw [hd] at hs
  refine ⟨hd, (clobAuthDigest E signer timestamp nonce).length_eq, hs, ?_⟩
  intro result hres
  rw [hs] at hres
  cases hsig : E.Sign signer (clobAuthDigest E signer timestamp nonce).bytes with
  | error err => rw [hsig] at hres; cases hres
  | ok signature =>
    rw [hsig] at hres
    simp only [Except.ok.injEq] at hres
    by_cases hp : HasPrefix signature "0x" = true
    · rw [if_pos hp] at hres
      subst hres
      exact ⟨hp, _, rfl, fun _ => rfl, fun h => by rw [hp] at h; cases h⟩
    · rw [if_neg hp] at hres
      subst hres
      exact ⟨HasPrefix_append _ _, _, rfl, fun h => absurd h hp, fun _ => rfl⟩

theorem SignClobAuthMessage_digest_witness :
    authStructHash sampleAuthEnv ⟨"0xabc"⟩ 1700000000 5
        = clobAuthDigest sampleAuthEnv ⟨"0xabc"⟩ 1700000000 5
      ∧ SignClobAuthMessage sampleAuthEnv (some ⟨"0xabc"⟩) 1700000000 5
        = .ok ("0x" ++ hex.EncodeToString
            (clobAuthDigest sampleAuthEnv ⟨"0xabc"⟩ 1700000000 5).bytes) :=
  ⟨(SignClobAuthMessage_digest sampleAuthEnv ⟨"0xabc"⟩ 1700000000 5 (by decide) (by decide)
      (by decide) (by decide)).1,
    by decide⟩

theorem Itoa_neg_ne (n : Int) (h : n ≠ 0) : Itoa (-n) ≠ Itoa n := by
  have key : ∀ m : Nat, Itoa (Int.negSucc m) ≠ Itoa (Int.ofNat (m + 1)) := by
    intro m heq
    have hl : (Itoa (Int.negSucc m)).length = (Itoa (Int.ofNat (m + 1))).length := by
      rw [heq]
    change ("-" ++ toString (m + 1)).length = (toString (m + 1)).length at hl
    rw [String.length_append] at hl
    have : ("-" : String).length = 1 := rfl
    omega
  cases n with
  | ofNat k =>
    cases k with
    | zero => exact absurd rfl h
    | succ m => exact key m
  | negSucc m => exact (key m).symm

/-- C30: the nonce enters the signed hash through the bytes of its
absolute value, so for every signer, timestamp and integer `n` the hash
handed to the signer for `-n` is the one for `n` and `SignClobAuthMessage`
returns the same for both; `CreateLevel1Headers` sends that signature with
the decimal text of the nonce as given, and for `n` other than 0 the texts of
`n` and `-n` differ: two different nonce headers carry one signature. -/
theorem nonce_sign_ignored (K : Consts) (E : AuthEnv) (signer : Signer) (now n : Int) :
    authStructHash E signer now (-n) = authStructHash E signer now n
      ∧ SignClobAuthMessage E (some signer) now (-n)
        = SignClobAuthMessage E (some signer) now n
      ∧ (∀ signature, SignClobAuthMessage E (some signer) now n = .ok signature →
          CreateLevel1Headers K E now (some signer) (some n)
              = .ok [(K.PolyAddress, E.Hex (E.HexToAddress signer.address)),
                  (K.PolySignature, signature), (K.PolyTimestamp, Itoa now),
                  (K.PolyNonce, Itoa n)]
            ∧ CreateLevel1Headers K E now (some signer) (some (-n))
              = .ok [(K.PolyAddress, E.Hex (E.HexToAddress signer.address)),
                  (K.PolySignature, signature), (K.PolyTimestamp, Itoa now),
                  (K.PolyNonce, Itoa (-n))])
      ∧ (n ≠ 0 → Itoa (-n) ≠ Itoa n)
      ∧ CreateLevel1Headers sampleConsts sampleAuthEnv 1700000000 (some ⟨"0xabc"⟩) (some 5)
        = .ok [("POLY_ADDRESS", "0x3078616263000000000000000000000000000000"),
            ("POLY_SIGNATURE",
              "0x71bdb96e2eea1213538262dc1eeb9891ccd2f8b6eb0a61da2799d2550bda7201"),
            ("POLY_TIMESTAMP", "1700000000"), ("POLY_NONCE", "5")]
      ∧ CreateLevel1Headers sampleConsts sampleAuthEnv 1700000000 (some ⟨"0xabc"⟩) (some (-5))
        = .ok [("POLY_ADDRESS", "0x3078616263000000000000000000000000000000"),
            ("POLY_SIGNATURE",
              "0x71bdb96e2eea1213538262dc1eeb9891ccd2f8b6eb0a61da2799d2550bda7201"),
            ("POLY_TIMESTAMP", "1700000000"), ("POLY_NONCE", "-5")] := by
  have hh : authStructHash E signer now (-n) = authStructHash E signer now n := by
    rw [authStructHash_eq, authStructHash_eq, natAbs_wrapInt_neg]
  have hs : SignClobAuthMessage E (some signer) now (-n)
      = SignClobAuthMessage E (some signer) now n := by
    rw [SignClobAuthMessage_eq, SignClobAuthMessage_eq, hh]
  refine ⟨hh, hs, ?_, Itoa_neg_ne n, by decide, by decide⟩
  intro signature hsig
  constructor
  · simp only [CreateLevel1Headers, hsig]
  · simp only [CreateLevel1Headers, hs, hsig]

/-! ## The gasless relay -/

theorem Run.bind_ok {α β : Type} (m : Run α) (f : α → Run β) (a : α)
    (h : m.result = .ok a) :
    m.bind f = ⟨(f a).result, m.trace ++ (f a).trace⟩ := by
  unfold Run.bind
  rw [h]

theorem Run.bind_error {α β : Type} (m : Run α) (f : α → Run β) (err : String)
    (h : m.result = .error err) :
    m.bind f = ⟨.error err, m.trace⟩ := by
  unfold Run.bind
  rw [h]

theorem getRelayPayload_trace {F Rc R : Type} (W : RelayWorld F Rc R) (c : GaslessClient)
    (walletType : String) :
    (getRelayPayload W c walletType).trace = [.httpGet (relayPayloadURL W c walletType)] := by
  unfold getRelayPayload relayPayloadURL
  simp only []
  cases W.Get (c.relayConfig.RelayURL ++ "/relay-payload?address=" ++ W.Hex c.account
      ++ "&type=" ++ walletType) with
  | error err => rfl
  | ok resp =>
    simp only []
    by_cases hs : resp.StatusCode ≠ 200
    · rw [if_pos hs]
    · rw [if_neg hs]
      cases W.decodeRelayPayload resp.Body with
      | error err => rfl
      | ok p =>
        obtain ⟨address, nonce⟩ := p
        simp only []
        cases W.Atoi nonce <;> rfl

/-- A trace without a `Get` and without a submission. -/
theorem quiet_counts (t : List RelayEvent)
    (h : ∀ e ∈ t, e.isGet = false ∧ e.isSubmit = false) :
    t.countP RelayEvent.isGet = 0 ∧ t.countP RelayEvent.isSubmit = 0 := by
  constructor
  · rw [List.countP_eq_zero]
    intro e he
    rw [(h e he).1]
    exact Bool.false_ne_true
  · rw [List.countP_eq_zero]
    intro e he
    rw [(h e he).2]
    exact Bool.false_ne_true

theorem GetPolyProxyAddress_quiet {F Rc R : Type} (W : RelayWorld F Rc R)
    (c : GaslessClient) (address : Address) :
    ∀ e ∈ (GetPolyProxyAddress W c address).trace, e.isGet = false ∧ e.isSubmit = false := by
  unfold GetPolyProxyAddress
  cases W.PackGetPolyProxyWalletAddress address with
  | error err => intro e he; cases he
  | ok data =>
    simp only []
    cases W.CallContract c.ExchangeAddress data with
    | error err =>
      intro e he
      rw [List.mem_singleton.mp he]
      exact ⟨rfl, rfl⟩
    | ok result =>
      simp only []
      cases W.UnpackAddress result with
      | error err =>
        intro e he
        rw [List.mem_singleton.mp he]
        exact ⟨rfl, rfl⟩
      | ok a =>
        intro e he
        rw [List.mem_singleton.mp he]
        exact ⟨rfl, rfl⟩

theorem waitForReceipt_quiet {F Rc R : Type} (W : RelayWorld F Rc R) (c : GaslessClient)
    (txHash : Bytes32) :
    ∀ (fuel k : Nat), ∀ e ∈ (waitForReceipt W c txHash fuel k).trace,
      e.isGet = false ∧ e.isSubmit = false := by
  intro fuel
  induction fuel with
  | zero => intro k e he; cases he
  | succ fuel ih =>
    intro k e he
    unfold waitForReceipt at he
    cases h : W.TransactionReceipt txHash k with
    | ok receipt =>
      rw [h] at he
      rw [List.mem_singleton.mp he]
      exact ⟨rfl, rfl⟩
    | error err =>
      rw [h] at he
      rcases List.mem_cons.mp he with h1 | h1
      · rw [h1]
        exact ⟨rfl, rfl⟩
      · exact ih (k + 1) e h1

/-- The loop ends with the receipt once a poll finds it: when the polls
before the `n`-th fail and the `n`-th finds a receipt, any fuel above `n`
returns that receipt after `n + 1` polls. -/
theorem waitForReceipt_returns {F Rc R : Type} (W : RelayWorld F Rc R) (c : GaslessClient)
    (txHash : Bytes32) (receipt : Rc) :
    ∀ (n k fuel : Nat), n < fuel →
      (∀ i, i < n → ∃ err, W.TransactionReceipt txHash (k + i) = .error err) →
      W.TransactionReceipt txHash (k + n) = .ok receipt →
      (waitForReceipt W c txHash fuel k).result
          = .ok (some (W.FromEthReceipt receipt c.account))
        ∧ (waitForReceipt W c txHash fuel k).trace
          = List.replicate (n + 1) (.transactionReceipt txHash) := by
  intro n
  induction n with
  | zero =>
    intro k fuel hf _ hok
    obtain ⟨fuel1, rfl⟩ : ∃ fuel1, fuel = fuel1 + 1 := ⟨fuel - 1, by omega⟩
    unfold waitForReceipt
    rw [Nat.add_zero] at hok
    rw [hok]
    exact ⟨rfl, rfl⟩
  | succ n ih =>
    intro k fuel hf hfail hok
    obtain ⟨fuel1, rfl⟩ : ∃ fuel1, fuel = fuel1 + 1 := ⟨fuel - 1, by omega⟩
    obtain ⟨err, herr⟩ := hfail 0 (by omega)
    rw [Nat.add_zero] at herr
    have hrec := ih (k + 1) fuel1 (by omega)
      (fun i hi => by
        have := hfail (i + 1) (by omega)
        rwa [show k + (i + 1) = k + 1 + i by omega] at this)
      (by rwa [show k + (n + 1) = k + 1 + n by omega] at hok)
    unfold waitForReceipt
    rw [herr]
    simp only []
    rw [hrec.1, hrec.2]
    exact ⟨rfl, rfl⟩

/-- What a built proxy transaction is made of: the payload of the relay,
the packed calls, the gas limit, the signature over them and the proxy wallet
address. -/
theorem proxyRelayTransaction_ok {F Rc R : Type} (W : RelayWorld F Rc R) (c : GaslessClient)
    (calls : List ProxyCall) (metadata encodeError fallbackGas : String) (gasOf : Nat → Nat)
    (req : RelaySubmitRequest)
    (h : (proxyRelayTransaction W c calls metadata encodeError fallbackGas gasOf).result
      = .ok req) :
    ∃ relayAddress proxyNonce proxyData gasLimit signature proxyWalletAddr,
      (getRelayPayload W c "PROXY").result = .ok (relayAddress, proxyNonce)
        ∧ W.PackProxy calls = .ok proxyData
        ∧ gasLimit = (match W.EstimateGas c.account c.ProxyFactoryAddress proxyData with
            | .error _ => fallbackGas
            | .ok gas => FormatUint (gasOf gas))
        ∧ signProxyStruct W c ("0x" ++ hex.EncodeToString proxyData) "0" "0" gasLimit
            (Itoa proxyNonce) relayAddress = .ok signature
        ∧ (GetPolyProxyAddress W c c.account).result = .ok proxyWalletAddr
        ∧ req = { Data := "0x" ++ hex.EncodeToString proxyData
                  From := W.Hex c.account
                  Metadata := metadata
                  Nonce := Itoa proxyNonce
                  ProxyWallet := W.Hex proxyWalletAddr
                  Signature := signature
                  SignatureParams :=
                    [("gasPrice", "0"), ("gasLimit", gasLimit), ("relayerFee", "0"),
                      ("relayHub", c.relayConfig.RelayHub), ("relay", relayAddress)]
                  To := W.Hex c.ProxyFactoryAddress
                  Type_ := "PROXY" } := by
  unfold proxyRelayTransaction at h
  cases hp : (getRelayPayload W c "PROXY").result with
  | error err =>
    rw [Run.bind_error _ _ err hp] at h
    cases h
  | ok payload =>
    obtain ⟨relayAddress, proxyNonce⟩ := payload
    rw [Run.bind_ok _ _ _ hp] at h
    simp only [] at h
    cases hk : W.PackProxy calls with
    | error err =>
      rw [hk] at h
      cases h
    | ok proxyData =>
      rw [hk] at h
      simp only [Run.bind] at h
      cases hs : signProxyStruct W c ("0x" ++ hex.EncodeToString proxyData) "0" "0"
          (match W.EstimateGas c.account c.ProxyFactoryAddress proxyData with
            | .error _ => fallbackGas
            | .ok gas => FormatUint (gasOf gas))
          (Itoa proxyNonce) relayAddress with
      | error err =>
        rw [hs] at h
        cases h
      | ok signature =>
        rw [hs] at h
        simp only [] at h
        cases hg : (GetPolyProxyAddress W c c.account).result with
        | error err =>
          rw [hg] at h
          cases h
        | ok proxyWalletAddr =>
          rw [hg] at h
          simp only [Run.pure, Except.ok.injEq] at h
          exact ⟨relayAddress, proxyNonce, proxyData, _, signature, proxyWalletAddr, rfl, rfl,
            rfl, hs, rfl, h.symm⟩

theorem proxyRelayTransaction_trace {F Rc R : Type} (W : RelayWorld F Rc R)
    (c : GaslessClient) (calls : List ProxyCall) (metadata encodeError fallbackGas : String)
    (gasOf : Nat → Nat) :
    ∃ rest, (proxyRelayTransaction W c calls metadata encodeError fallbackGas gasOf).trace
        = .httpGet (relayPayloadURL W c "PROXY") :: rest
      ∧ ∀ e ∈ rest, e.isGet = false ∧ e.isSubmit = false := by
  have ht := getRelayPayload_trace W c "PROXY"
  have hq := GetPolyProxyAddress_quiet W c c.account
  unfold proxyRelayTransaction
  cases hp : (getRelayPayload W c "PROXY").result with
  | error err =>
    rw [Run.bind_error _ _ err hp, ht]
    exact ⟨[], rfl, fun e he => by cases he⟩
  | ok payload =>
    obtain ⟨relayAddress, proxyNonce⟩ := payload
    rw [Run.bind_ok _ _ _ hp, ht]
    simp only []
    cases hk : W.PackProxy calls with
    | error err => exact ⟨[], rfl, fun e he => by cases he⟩
    | ok proxyData =>
      simp only [Run.bind]
      cases hs : signProxyStruct W c ("0x" ++ hex.EncodeToString proxyData) "0" "0"
          (match W.EstimateGas c.account c.ProxyFactoryAddress proxyData with
            | .error _ => fallbackGas
            | .ok gas => FormatUint (gasOf gas))
          (Itoa proxyNonce) relayAddress with
      | error err =>
        refine ⟨_, rfl, ?_⟩
        intro e he
        have he1 : e = .estimateGas c.account c.ProxyFactoryAddress proxyData := by
          simpa [Run.pure] using he
        rw [he1]
        exact ⟨rfl, rfl⟩
      | ok signature =>
        simp only []
        refine ⟨_, rfl, ?_⟩
        intro e he
        have hmem : e = .estimateGas c.account c.ProxyFactoryAddress proxyData
            ∨ e ∈ (GetPolyProxyAddress W c c.account).trace := by
          cases hg : (GetPolyProxyAddress W c c.account).result with
          | error err =>
            rw [hg] at he
            simpa using he
          | ok a =>
            rw [hg] at he
            simpa [Run.pure] using he
        rcases hmem with h1 | h1
        · rw [h1]
          exact ⟨rfl, rfl⟩
        · exact hq e h1

theorem signProxyStruct_ok {F Rc R : Type} (W : RelayWorld F Rc R) (c : GaslessClient)
    (encodedTxnHex relayerFee gasPrice gasLimit nonce relayAddress signature : String)
    (h : signProxyStruct W c encodedTxnHex relayerFee gasPrice gasLimit nonce relayAddress
      = .ok signature) :
    ∃ structBytes sig adjusted,
      CreateProxyStruct W.common (W.Hex c.account) (W.Hex c.ProxyFactoryAddress)
          encodedTxnHex relayerFee gasPrice gasLimit nonce c.relayConfig.RelayHub
          relayAddress = .ok structBytes
        ∧ W.Sign (W.Keccak256 (utf8 "\x19Ethereum Signed Message:\n32"
            ++ W.common.FromHex (Keccak256Hash W structBytes))).bytes = .ok sig
        ∧ adjustRecoveryByte proxyRelayV sig = .ok adjusted
        ∧ signature = "0x" ++ hex.EncodeToString adjusted := by
  unfold signProxyStruct at h
  cases h1 : CreateProxyStruct W.common (W.Hex c.account) (W.Hex c.ProxyFactoryAddress)
      encodedTxnHex relayerFee gasPrice gasLimit nonce c.relayConfig.RelayHub
      relayAddress with
  | error err => rw [h1] at h; cases h
  | ok structBytes =>
    rw [h1] at h
    simp only [] at h
    cases h2 : W.Sign (W.Keccak256 (utf8 "\x19Ethereum Signed Message:\n32"
        ++ W.common.FromHex (Keccak256Hash W structBytes))).bytes with
    | error err => rw [h2] at h; cases h
    | ok sig =>
      rw [h2] at h
      simp only [] at h
      cases h3 : adjustRecoveryByte proxyRelayV sig with
      | error err => rw [h3] at h; cases h
      | ok adjusted =>
        rw [h3] at h
        simp only [Except.ok.injEq] at h
        exact ⟨structBytes, sig, adjusted, rfl, h2, h3, h.symm⟩

theorem proxyRelayTransaction_covered {F Rc R : Type} (W : RelayWorld F Rc R)
    (c : GaslessClient) (calls : List ProxyCall) (metadata encodeError fallbackGas : String)
    (gasOf : Nat → Nat) (req : RelaySubmitRequest)
    (h : (proxyRelayTransaction W c calls metadata encodeError fallbackGas gasOf).result
      = .ok req) :
    CoveredBySignature W c calls fallbackGas gasOf req := by
  obtain ⟨relayAddress, proxyNonce, proxyData, gasLimit, signature, proxyWalletAddr, _, hk,
    hgas, hs, _, hreq⟩ := proxyRelayTransaction_ok W c calls metadata encodeError fallbackGas
      gasOf req h
  obtain ⟨structBytes, sig, adjusted, h1, h2, h3, h4⟩ := signProxyStruct_ok W c _ _ _ _ _ _ _ hs
  subst hreq
  refine ⟨"0", gasLimit, "0", c.relayConfig.RelayHub, relayAddress, proxyData, structBytes,
    sig, adjusted, rfl, h1, h2, h3, h4, hk, rfl, ?_⟩
  cases he : W.EstimateGas c.account c.ProxyFactoryAddress proxyData with
  | error err =>
    rw [he] at hgas
    exact Or.inl ⟨⟨err, rfl⟩, hgas⟩
  | ok gas =>
    rw [he] at hgas
    exact Or.inr ⟨gas, rfl, hgas⟩

/-- C27: a relay request that `buildProxyRelayTransaction` or
`buildBatchProxyRelayTransaction` returns carries the values its signature
covers: `From`, `To`, `Data`, `Nonce` and the signature parameters gas price,
gas limit, relayer fee, relay hub and relay are the arguments of the
`CreateProxyStruct` whose prefixed hash was signed, with the gas limit of the
fallback constant (10000000, 15000000 for a batch) when the estimate failed
and of the estimate otherwise. -/
theorem relay_request_is_signed_struct {F Rc R : Type} (W : RelayWorld F Rc R)
    (c : GaslessClient) (to_ : Address) (data : List UInt8) (calls : List ProxyCall)
    (metadata : String) (req : RelaySubmitRequest) :
    ((buildProxyRelayTransaction W c to_ data metadata).result = .ok req →
        CoveredBySignature W c [⟨1, to_, 0, data⟩] "10000000"
          (fun gas => addUint64 (W.gasTimes13 gas) 100000) req)
      ∧ ((buildBatchProxyRelayTransaction W c calls metadata).result = .ok req →
        CoveredBySignature W c calls "15000000"
          (fun gas => addUint64 (W.gasTimes15 gas) 200000) req) :=
  ⟨fun h => proxyRelayTransaction_covered W c _ metadata _ _ _ req h,
    fun h => proxyRelayTransaction_covered W c calls metadata _ _ _ req h⟩

theorem sampleProxyRequest_built :
    (buildProxyRelayTransaction (sampleRelayWorld false) sampleGaslessClient
      ⟨List.replicate 20 7, by simp⟩ [1, 2, 3] "redeem").result = .ok sampleProxyRequest := by
  decide

/-- C27 on a concrete run: the transaction built without a gas estimate
carries the gas limit "10000000" and is covered by its signature. -/
theorem relay_request_is_signed_struct_witness :
    (buildProxyRelayTransaction (sampleRelayWorld false) sampleGaslessClient
        ⟨List.replicate 20 7, by simp⟩ [1, 2, 3] "redeem").result = .ok sampleProxyRequest
      ∧ CoveredBySignature (sampleRelayWorld false) sampleGaslessClient
          [⟨1, ⟨List.replicate 20 7, by simp⟩, 0, [1, 2, 3]⟩] "10000000"
          (fun gas => addUint64 ((sampleRelayWorld false).gasTimes13 gas) 100000)
          sampleProxyRequest :=
  ⟨sampleProxyRequest_built,
    (relay_request_is_signed_struct (sampleRelayWorld false) sampleGaslessClient
      ⟨List.replicate 20 7, by simp⟩ [1, 2, 3] [] "redeem" sampleProxyRequest).1
      sampleProxyRequest_built⟩

theorem getRelayHeaders_quiet {F Rc R : Type} (W : RelayWorld F Rc R) (c : GaslessClient)
    (body : RelaySubmitRequest) :
    ∀ e ∈ (getRelayHeaders W c body).trace, e.isGet = false ∧ e.isSubmit = false := by
  unfold getRelayHeaders
  cases W.primitives.Marshal body with
  | error err => intro e he; cases he
  | ok bodyJSON =>
    simp only []
    cases c.builderCreds with
    | some creds => intro e he; cases he
    | none =>
      simp only []
      cases W.MarshalSignPayload "POST" "/submit" bodyJSON with
      | error err => intro e he; cases he
      | ok payloadJSON =>
        simp only []
        cases W.Post c.relayConfig.SignURL "application/json" payloadJSON with
        | error err =>
          intro e he
          rw [List.mem_singleton.mp he]
          exact ⟨rfl, rfl⟩
        | ok resp =>
          simp only []
          by_cases hs : resp.StatusCode ≠ 200
          · rw [if_pos hs]
            intro e he
            rw [List.mem_singleton.mp he]
            exact ⟨rfl, rfl⟩
          · rw [if_neg hs]
            cases W.decodeHeaders resp.Body with
            | error err =>
              intro e he
              rw [List.mem_singleton.mp he]
              exact ⟨rfl, rfl⟩
            | ok headers =>
              intro e he
              rw [List.mem_singleton.mp he]
              exact ⟨rfl, rfl⟩

/-- A submission makes at most one request, the `Do` of a POST of the
marshalled body to the submit URL of the relay, and exactly that one when it
returns a response. -/
theorem submitToRelay_trace {F Rc R : Type} (W : RelayWorld F Rc R) (c : GaslessClient)
    (body : RelaySubmitRequest) (headers : List (String × String)) :
    ((submitToRelay W c body headers).trace = []
        ∧ ∃ err, (submitToRelay W c body headers).result = .error err)
      ∨ ∃ bodyJSON, W.primitives.Marshal body = .ok bodyJSON
        ∧ (submitToRelay W c body headers).trace
          = [.httpDo "POST" (c.relayConfig.RelayURL ++ "/submit")
              (("Content-Type", "application/json") :: headers) bodyJSON] := by
  unfold submitToRelay
  cases W.primitives.Marshal body with
  | error err => exact Or.inl ⟨rfl, err, rfl⟩
  | ok bodyJSON =>
    simp only []
    cases W.NewRequest "POST" (c.relayConfig.RelayURL ++ "/submit") with
    | error err => exact Or.inl ⟨rfl, err, rfl⟩
    | ok u =>
      simp only []
      refine Or.inr ⟨bodyJSON, rfl, ?_⟩
      cases W.Do "POST" (c.relayConfig.RelayURL ++ "/submit")
          (("Content-Type", "application/json") :: headers) bodyJSON with
      | error err => rfl
      | ok resp =>
        simp only []
        by_cases hs : resp.StatusCode ≠ 200
        · rw [if_pos hs]
        · rw [if_neg hs]
          cases W.decodeRelayResponse resp.Body <;> rfl

theorem redeemCall_ok {F Rc R : Type} (W : RelayWorld F Rc R) (c : GaslessClient)
    (req : RedeemRequest F) (call : ProxyCall) (h : redeemCall W c req = .ok call) :
    call.TypeCode = 1 ∧ call.Value = 0
      ∧ call.To = (if req.NegRisk then NegRiskAdapterAddress W.common
          else c.ConditionalTokensAddress)
      ∧ (if req.NegRisk then
            W.PackRedeemNegRisk req.ConditionID (req.Amounts.map fun amt => W.ToWei amt 6)
          else W.PackRedeem c.USDCAddress HashZero req.ConditionID [1, 2]) = .ok call.Data := by
  unfold redeemCall at h
  cases hn : req.NegRisk with
  | true =>
    rw [hn] at h
    simp only [if_true] at h ⊢
    cases hp : W.PackRedeemNegRisk req.ConditionID
        (req.Amounts.map fun amt => W.ToWei amt 6) with
    | error err => rw [hp] at h; cases h
    | ok data =>
      rw [hp] at h
      simp only [Except.ok.injEq] at h
      subst h
      exact ⟨rfl, rfl, rfl, rfl⟩
  | false =>
    rw [hn] at h
    simp only [Bool.false_eq_true, if_false] at h ⊢
    cases hp : W.PackRedeem c.USDCAddress HashZero req.ConditionID [1, 2] with
    | error err => rw [hp] at h; cases h
    | ok data =>
      rw [hp] at h
      simp only [Except.ok.injEq] at h
      subst h
      exact ⟨rfl, rfl, rfl, rfl⟩

theorem redeemCalls_ok {F Rc R : Type} (W : RelayWorld F Rc R) (c : GaslessClient) :
    ∀ (requests : List (RedeemRequest F)) (acc calls : List ProxyCall),
      redeemCalls W c requests acc = .ok calls →
      ∃ new, calls = acc ++ new
        ∧ List.Forall₂ (fun req call => redeemCall W c req = .ok call) requests new := by
  intro requests
  induction requests with
  | nil =>
    intro acc calls h
    unfold redeemCalls at h
    simp only [Except.ok.injEq] at h
    exact ⟨[], by simp [h], List.Forall₂.nil⟩
  | cons req rest ih =>
    intro acc calls h
    unfold redeemCalls at h
    cases hc : redeemCall W c req with
    | error err => rw [hc] at h; cases h
    | ok call =>
      rw [hc] at h
      obtain ⟨new, hnew, hall⟩ := ih (acc ++ [call]) calls h
      exact ⟨call :: new, by simp [hnew], List.Forall₂.cons hc hall⟩

theorem redeemCalls_error {F Rc R : Type} (W : RelayWorld F Rc R) (c : GaslessClient) :
    ∀ (requests : List (RedeemRequest F)) (acc : List ProxyCall) (err : String),
      redeemCalls W c requests acc = .error err →
      ∃ req ∈ requests, redeemCall W c req = .error err := by
  intro requests
  induction requests with
  | nil => intro acc err h; cases h
  | cons req rest ih =>
    intro acc err h
    unfold redeemCalls at h
    cases hc : redeemCall W c req with
    | error e =>
      rw [hc] at h
      simp only [Except.error.injEq] at h
      subst h
      exact ⟨req, List.mem_cons_self _ _, hc⟩
    | ok call =>
      rw [hc] at h
      obtain ⟨r, hr, he⟩ := ih (acc ++ [call]) err h
      exact ⟨r, List.mem_cons_of_mem _ hr, he⟩

/-- A batch on a proxy-wallet client starts with the one request for the
relay payload, makes no other `Get`, submits at most once, and has submitted
exactly once, the marshalled request built from the packed calls, when it
gets as far as waiting for the receipt. -/
theorem ExecuteBatch_trace {F Rc R : Type} (W : RelayWorld F Rc R) (c : GaslessClient)
    (calls : List ProxyCall) (operationName metadata : String) (fuel : Nat)
    (hproxy : c.signatureType = SignatureTypePolyProxy) :
    ∃ rest, (ExecuteBatch W c calls operationName metadata fuel).trace
        = .httpGet (relayPayloadURL W c "PROXY") :: rest
      ∧ rest.countP RelayEvent.isGet = 0
      ∧ rest.countP RelayEvent.isSubmit ≤ 1
      ∧ (∀ r, (ExecuteBatch W c calls operationName metadata fuel).result = .ok r →
          rest.countP RelayEvent.isSubmit = 1
            ∧ ∃ body proxyData headers bodyJSON,
              (buildBatchProxyRelayTransaction W c calls metadata).result = .ok body
                ∧ W.PackProxy calls = .ok proxyData
                ∧ body.Data = "0x" ++ hex.EncodeToString proxyData
                ∧ W.primitives.Marshal body = .ok bodyJSON
                ∧ RelayEvent.httpDo "POST" (c.relayConfig.RelayURL ++ "/submit")
                    (("Content-Type", "application/json") :: headers) bodyJSON ∈ rest) := by
  obtain ⟨r0, hB, hq0⟩ := proxyRelayTransaction_trace W c calls metadata
    "failed to encode batch proxy transaction: " "15000000"
    (fun gas => addUint64 (W.gasTimes15 gas) 200000)
  have hc0 := quiet_counts r0 hq0
  unfold ExecuteBatch
  rw [if_pos hproxy]
  change (proxyRelayTransaction W c calls metadata
    "failed to encode batch proxy transaction: " "15000000"
    (fun gas => addUint64 (W.gasTimes15 gas) 200000)).trace = _ at hB
  unfold buildBatchProxyRelayTransaction
  cases hb : (proxyRelayTransaction W c calls metadata
      "failed to encode batch proxy transaction: " "15000000"
      (fun gas => addUint64 (W.gasTimes15 gas) 200000)).result with
  | error err =>
    rw [Run.bind_error _ _ err hb, hB]
    exact ⟨r0, rfl, hc0.1, by rw [hc0.2]; exact Nat.zero_le _, fun r h => by cases h⟩
  | ok body =>
    rw [Run.bind_ok _ _ body hb, hB]
    simp only []
    have hqH := getRelayHeaders_quiet W c body
    have hcH := quiet_counts _ hqH
    obtain ⟨proxyData, hpack, hdata⟩ : ∃ proxyData, W.PackProxy calls = .ok proxyData
        ∧ body.Data = "0x" ++ hex.EncodeToString proxyData := by
      obtain ⟨_, _, proxyData, _, _, _, _, hk, _, _, _, hreq⟩ :=
        proxyRelayTransaction_ok W c calls metadata _ _ _ body hb
      exact ⟨proxyData, hk, by rw [hreq]⟩
    cases hh : (getRelayHeaders W c body).result with
    | error err =>
      rw [Run.bind_error _ _ err hh]
      refine ⟨r0 ++ (getRelayHeaders W c body).trace, rfl, ?_, ?_, fun r h => by cases h⟩
      · rw [List.countP_append, hc0.1, hcH.1]
      · rw [List.countP_append, hc0.2, hcH.2]
        exact Nat.zero_le _
    | ok headers =>
      rw [Run.bind_ok _ _ headers hh]
      simp only []
      cases hs : (submitToRelay W c body headers).result with
      | error err =>
        rw [Run.bind_error _ _ err hs]
        refine ⟨r0 ++ ((getRelayHeaders W c body).trace
          ++ (submitToRelay W c body headers).trace), rfl, ?_, ?_, fun r h => by cases h⟩
        · rcases submitToRelay_trace W c body headers with ⟨ht, _⟩ | ⟨bodyJSON, _, ht⟩
          · rw [ht, List.countP_append, List.countP_append, hc0.1, hcH.1]
            rfl
          · rw [ht, List.countP_append, List.countP_append, hc0.1, hcH.1]
            rfl
        · rcases submitToRelay_trace W c body headers with ⟨ht, _⟩ | ⟨bodyJSON, _, ht⟩
          · rw [ht, List.countP_append, List.countP_append, hc0.2, hcH.2]
            exact Nat.zero_le _
          · rw [ht, List.countP_append, List.countP_append, hc0.2, hcH.2]
            exact Nat.le_refl _
      | ok resp =>
        rw [Run.bind_ok _ _ resp hs]
        simp only []
        obtain ⟨bodyJSON, hm, ht⟩ : ∃ bodyJSON, W.primitives.Marshal body = .ok bodyJSON
            ∧ (submitToRelay W c body headers).trace
              = [.httpDo "POST" (c.relayConfig.RelayURL ++ "/submit")
                  (("Content-Type", "application/json") :: headers) bodyJSON] := by
          rcases submitToRelay_trace W c body headers with ⟨_, err, he⟩ | h
          · rw [hs] at he
            cases he
          · exact h
        have htail : ∀ e ∈ (if resp.TransactionHash ≠ "" then
              waitForReceipt W c (W.HexToHash resp.TransactionHash) fuel 0
            else Run.pure (.error ("no transaction hash in response: "
              ++ showRelayResponse resp))).trace,
            e.isGet = false ∧ e.isSubmit = false := by
          by_cases hx : resp.TransactionHash ≠ ""
          · rw [if_pos hx]
            exact waitForReceipt_quiet W c _ fuel 0
          · rw [if_neg hx]
            intro e he
            cases he
        rw [ht]
        generalize (if resp.TransactionHash ≠ "" then
              waitForReceipt W c (W.HexToHash resp.TransactionHash) fuel 0
            else Run.pure (.error ("no transaction hash in response: "
              ++ showRelayResponse resp))).trace = tail at htail ⊢
        have hct := quiet_counts tail htail
        refine ⟨r0 ++ ((getRelayHeaders W c body).trace
          ++ ([RelayEvent.httpDo "POST" (c.relayConfig.RelayURL ++ "/submit")
                (("Content-Type", "application/json") :: headers) bodyJSON] ++ tail)), rfl,
          ?_, ?_, ?_⟩
        · rw [List.countP_append, List.countP_append, List.countP_append, hc0.1, hcH.1,
            hct.1]
          rfl
        · rw [List.countP_append, List.countP_append, List.countP_append, hc0.2, hcH.2,
            hct.2]
          exact Nat.le_refl _
        · intro r _
          refine ⟨?_, body, proxyData, headers, bodyJSON, rfl, hpack, hdata, hm, ?_⟩
          · rw [List.countP_append, List.countP_append, List.countP_append, hc0.2, hcH.2,
              hct.2]
            rfl
          · simp

theorem ExecuteBatch_not_proxy {F Rc R : Type} (W : RelayWorld F Rc R) (c : GaslessClient)
    (calls : List ProxyCall) (operationName metadata : String) (fuel : Nat)
    (h : c.signatureType ≠ SignatureTypePolyProxy) :
    ExecuteBatch W c calls operationName metadata fuel
      = ⟨.error "batch execution only supports PolyProxy signature type", []⟩ := by
  unfold ExecuteBatch
  rw [if_neg h]
  rfl

theorem RedeemPositions_eq {F Rc R : Type} (W : RelayWorld F Rc R) (c : GaslessClient)
    (first : RedeemRequest F) (rest : List (RedeemRequest F)) (fuel : Nat) :
    RedeemPositions W c (first :: rest) fuel
      = match redeemCalls W c (first :: rest) [] with
        | .error err => Run.pure (.error err)
        | .ok calls => ExecuteBatch W c calls "Batch Redeem Positions" "batch_redeem" fuel := by
  unfold RedeemPositions
  rw [if_neg (by simp)]

/-- C23: `RedeemPositions` rejects an empty list of requests and, on a
client that is not a proxy wallet, every list, with an error and without any
event; when a request fails to encode the error is returned without any
event; otherwise it builds one proxy call per request, in the order of the
requests, each with type code 1, value 0, the neg-risk adapter or the
conditional-tokens contract as target and the packed redeem call as data, and
hands them to one `ExecuteBatch`, which on a proxy-wallet client starts with
the one request for the relay payload (the nonce), makes no other `Get`,
submits at most once, and has submitted exactly once, a request whose data
is the packed list of calls, when it returns without an error. -/
theorem RedeemPositions_batches {F Rc R : Type} (W : RelayWorld F Rc R) (c : GaslessClient)
    (first : RedeemRequest F) (rest : List (RedeemRequest F)) (fuel : Nat) :
    RedeemPositions W c ([] : List (RedeemRequest F)) fuel
        = ⟨.error "no redeem requests provided", []⟩
      ∧ (c.signatureType ≠ SignatureTypePolyProxy →
        ∃ err, RedeemPositions W c (first :: rest) fuel = ⟨.error err, []⟩)
      ∧ (∀ err, redeemCalls W c (first :: rest) [] = .error err →
        RedeemPositions W c (first :: rest) fuel = ⟨.error err, []⟩
          ∧ ∃ req ∈ first :: rest, redeemCall W c req = .error err)
      ∧ (∀ calls, redeemCalls W c (first :: rest) [] = .ok calls →
        calls.length = (first :: rest).length
          ∧ List.Forall₂ (fun req call =>
              call.TypeCode = 1 ∧ call.Value = 0
                ∧ call.To = (if req.NegRisk then NegRiskAdapterAddress W.common
                    else c.ConditionalTokensAddress)
                ∧ (if req.NegRisk then
                      W.PackRedeemNegRisk req.ConditionID
                        (req.Amounts.map fun amt => W.ToWei amt 6)
                    else W.PackRedeem c.USDCAddress HashZero req.ConditionID [1, 2])
                  = .ok call.Data)
              (first :: rest) calls
          ∧ RedeemPositions W c (first :: rest) fuel
            = ExecuteBatch W c calls "Batch Redeem Positions" "batch_redeem" fuel
          ∧ (c.signatureType = SignatureTypePolyProxy →
            ∃ events, (RedeemPositions W c (first :: rest) fuel).trace
                = .httpGet (relayPayloadURL W c "PROXY") :: events
              ∧ events.countP RelayEvent.isGet = 0
              ∧ events.countP RelayEvent.isSubmit ≤ 1
              ∧ (∀ r, (RedeemPositions W c (first :: rest) fuel).result = .ok r →
                  events.countP RelayEvent.isSubmit = 1
                    ∧ ∃ body proxyData headers bodyJSON,
                      W.PackProxy calls = .ok proxyData
                        ∧ body.Data = "0x" ++ hex.EncodeToString proxyData
                        ∧ W.primitives.Marshal body = .ok bodyJSON
                        ∧ RelayEvent.httpDo "POST" (c.relayConfig.RelayURL ++ "/submit")
                            (("Content-Type", "application/json") :: headers) bodyJSON
                          ∈ events))) := by
  refine ⟨rfl, ?_, ?_, ?_⟩
  · intro hnp
    rw [RedeemPositions_eq]
    cases hc : redeemCalls W c (first :: rest) [] with
    | error err => exact ⟨err, rfl⟩
    | ok calls =>
      exact ⟨_, ExecuteBatch_not_proxy W c calls _ _ fuel hnp⟩
  · intro err herr
    rw [RedeemPositions_eq, herr]
    exact ⟨rfl, redeemCalls_error W c _ _ err herr⟩
  · intro calls hcalls
    obtain ⟨new, hnew, hall⟩ := redeemCalls_ok W c _ _ _ hcalls
    rw [List.nil_append] at hnew
    subst hnew
    have heq : RedeemPositions W c (first :: rest) fuel
        = ExecuteBatch W c calls "Batch Redeem Positions" "batch_redeem" fuel := by
      rw [RedeemPositions_eq, hcalls]
    refine ⟨hall.length_eq.symm, ?_, heq, ?_⟩
    · exact hall.imp fun {req call} h => redeemCall_ok W c req call h
    · intro hproxy
      rw [heq]
      obtain ⟨events, htr, hget, hle, hok⟩ := ExecuteBatch_trace W c calls
        "Batch Redeem Positions" "batch_redeem" fuel hproxy
      refine ⟨events, htr, hget, hle, fun r hr => ?_⟩
      obtain ⟨h1, body, proxyData, headers, bodyJSON, _, hp, hd, hm, hmem⟩ := hok r hr
      exact ⟨h1, body, proxyData, headers, bodyJSON, hp, hd, hm, hmem⟩

/-- C23 on a concrete run: two requests on a proxy-wallet client give two
calls and a run that returns the receipt after one request for the relay
payload and one submission. -/
theorem RedeemPositions_batches_witness :
    RedeemPositions (sampleRelayWorld true) sampleGaslessClient
        ([] : List (RedeemRequest Int)) 5 = ⟨.error "no redeem requests provided", []⟩
      ∧ (redeemCalls (sampleRelayWorld true) sampleGaslessClient sampleRedeemRequests []).map
          (fun calls => calls.map fun call => (call.TypeCode, call.Value, call.Data))
        = .ok [(1, 0, [2, 9, 9, 64, 128]), (1, 0, [1, 8, 8])]
      ∧ (RedeemPositions (sampleRelayWorld true) sampleGaslessClient sampleRedeemRequests
          5).result = .ok (some "receipt")
      ∧ (RedeemPositions (sampleRelayWorld true) sampleGaslessClient sampleRedeemRequests
          5).trace.countP RelayEvent.isGet = 1
      ∧ (RedeemPositions (sampleRelayWorld true) sampleGaslessClient sampleRedeemRequests
          5).trace.countP RelayEvent.isSubmit = 1 :=
  ⟨(RedeemPositions_batches (sampleRelayWorld true) sampleGaslessClient
      ⟨⟨List.replicate 32 9, by simp⟩, [1, 2], true⟩ [] 5).1,
    by decide, by decide, by decide, by decide⟩

end Polymarket
